import Mathlib

/-!
# RPC storage handler (gateway/rpc_storage_handler.go)

A shallow embedding of the RPC-backed storage handler of the gateway and of its
keyspace reconciler, with the properties of its specification stated over it.

Go strings are Lean strings; the few functions of the Go standard library that
the source uses (strings.Contains, strings.Split, strings.Join, strings.Replace)
are defined on the characters of a string.
-/

namespace RPCStorage

/-! ## Strings -/

/-- Whether the characters `sub` occur as a contiguous block in `s`. -/
def containsChars (sub : List Char) : List Char → Bool
  | [] => sub.isEmpty
  | c :: cs => sub.isPrefixOf (c :: cs) || containsChars sub cs

/-- Go `strings.Contains(s, substr)`. -/
def stringsContains (s substr : String) : Bool :=
  containsChars substr.toList s.toList

/-- Split a list of characters at every occurrence of the separator character;
the result always has at least one segment. -/
def splitChars (sep : Char) : List Char → List (List Char)
  | [] => [[]]
  | c :: cs =>
    if c = sep then [] :: splitChars sep cs
    else
      match splitChars sep cs with
      | [] => [[c]]
      | seg :: rest => (c :: seg) :: rest

/-- Go `strings.Split(s, sep)` for the one-character separators the source uses
(":", "." and "#"). -/
def stringsSplit (s : String) (sep : Char) : List String :=
  (splitChars sep s.toList).map String.mk

/-- Go `strings.Join(elems, ",")`. -/
def stringsJoin (elems : List String) (sep : String) : String :=
  sep.intercalate elems

/-! ## Errors -/

/-- Go error values the handler deals with: the two sentinels of the storage
package and any other error, known by its message. -/
inductive GoError where
  | ErrKeyNotFound
  | ErrMDCBConnectionLost
  | other (msg : String)
  deriving DecidableEq, Repr

/-- The method `Error()` of an error value. -/
def GoError.Error : GoError → String
  | .ErrKeyNotFound => "key not found"
  | .ErrMDCBConnectionLost => "mdcb connection is lost"
  | .other msg => msg

/-- `RPCStorageHandler.IsRetriableError`; `none` is the nil error. -/
def IsRetriableError (err : Option GoError) : Bool :=
  match err with
  | some e =>
    let errMsg := e.Error
    if errMsg = "Access Denied" then true
    else if stringsContains errMsg "Cannot obtain response during timeout" then true
    else false
  | none => false

/-! ## Data -/

/-- The fields of `model.InboundData` that the handler fills. -/
structure InboundData where
  KeyName : String := ""
  SessionState : String := ""
  Timeout : Int := 0
  Per : Int := 0
  Expire : Int := 0
  Value : String := ""
  deriving DecidableEq, Repr

/-- The request `model.DefRequest` of GetApiDefinitions. -/
structure DefRequest where
  OrgId : String
  Tags : List String
  LoadOAS : Bool
  deriving DecidableEq, Repr

/-- The reply `model.KeysValuesPair` of the two list methods. -/
structure KeysValuesPair where
  Keys : List String
  Values : List String
  deriving DecidableEq, Repr

/-- The request `model.GroupKeySpaceRequest`. -/
structure GroupKeySpaceRequest where
  OrgID : String
  GroupID : String
  deriving DecidableEq, Repr

/-- What is passed to `rpc.FuncClientSingleton` as the request. -/
inductive Payload where
  | str (s : String)
  | strs (l : List String)
  | ibd (d : InboundData)
  | defReq (d : DefRequest)
  | group (g : GroupKeySpaceRequest)
  deriving DecidableEq, Repr

/-- A cluster notification: command and payload. -/
structure Notification where
  Command : String
  Payload : String
  deriving DecidableEq, Repr

/-- What a cache holds under a key: a string, an error, or a value of another
type (sessions, in the session cache). -/
inductive CacheVal where
  | str (s : String)
  | err (e : GoError)
  | other
  deriving DecidableEq, Repr

/-- The three caches of the gateway the handler touches. -/
inductive Partition where
  | RPCGlobalCache
  | RPCCertCache
  | SessionCache
  deriving DecidableEq, Repr

/-- One entry of a cache; `expiration` is a time in nanoseconds, 0 for an entry
that never expires. -/
structure CacheItem where
  key : String
  value : CacheVal
  expiration : Nat
  deriving DecidableEq, Repr

/-- Modelled from the spec: the cache repository (package internal/cache, not
among the sources) is a TTL-based key/value cache whose entries are
(key, value or negative sentinel, expiry). `expiration` is its default time to
live in seconds. -/
structure Cache where
  expiration : Int
  items : List CacheItem
  deriving DecidableEq, Repr

/-- The helper value `cache.DefaultExpiration`: use the default of the cache. -/
def Cache.DefaultExpiration : Int := 0

/-- One second, in nanoseconds. -/
def second : Nat := 1000000000

/-- Modelled from the spec: `Get` finds the entry of the key and reports it
unless it has expired. -/
def Cache.Get (c : Cache) (now : Nat) (key : String) : Option CacheVal :=
  match c.items.find? (fun it => it.key = key) with
  | some it => if 0 < it.expiration ∧ it.expiration < now then none else some it.value
  | none => none

/-- Modelled from the spec: `Set` stores the value under the key, replacing an
older entry, to expire `timeout` seconds from now (the default of the cache for
`DefaultExpiration`; never, when the time to live is not positive). -/
def Cache.Set (c : Cache) (now : Nat) (key : String) (v : CacheVal) (timeout : Int) : Cache :=
  let ttl := if timeout = Cache.DefaultExpiration then c.expiration else timeout
  let exp := if 0 < ttl then now + ttl.toNat * second else 0
  { c with items := ⟨key, v, exp⟩ :: c.items.filter (fun it => it.key ≠ key) }

/-- Modelled from the spec: `Delete` removes the entry of the key. -/
def Cache.Delete (c : Cache) (key : String) : Cache :=
  { c with items := c.items.filter (fun it => it.key ≠ key) }

/-- What the handler does to the world outside, in the order it does it. `Sleep`
is a call of `time.Sleep`, with the duration in nanoseconds;
`goProcessKeySpaceChanges` is the start of a reconciliation as a task of its
own. -/
inductive Event where
  | rpc (funcName : String) (request : Payload)
  | emitError (funcName : String) (err : GoError) (kv : List (String × String))
  | Login
  | Connect (apiKey : String)
  | cacheSet (part : Partition) (key : String) (v : CacheVal) (timeout : Int)
  | cacheDelete (part : Partition) (key : String)
  | Notify (n : Notification)
  | updateKeyInStore (path newKey : String)
  | GetStorageForApi (apiId : String)
  | GetClient (apiId clientId : String)
  | SetClient (apiId clientId orgID : String)
  | DeleteClient (apiId clientId orgID : String)
  | RevokeAllTokens (apiId clientId clientSecret : String)
  | RevokeToken (apiId token tokenTypeHint : String)
  | handleDeleteHashedKey (key orgId apiId : String) (resetQuota : Bool)
  | handleDeleteKey (key orgId apiId : String) (resetQuota : Bool)
  | handleAddKey (key sessionString orgId : String)
  | CertDelete (certId orgId : String)
  | CertGetRaw (certId : String)
  | invalidateAPICache (apiID : String)
  | Sleep (d : Int)
  | goProcessKeySpaceChanges (keys : List String) (orgId : String)
  deriving DecidableEq, Repr

/-- The part of `config.SlaveOptions` the handler reads. -/
structure SlaveOptions where
  APIKey : String
  GroupID : String
  EnableRPCCache : Bool
  SynchroniserEnabled : Bool
  DisableKeySpaceSync : Bool
  KeySpaceSyncInterval : Int
  deriving DecidableEq, Repr

/-- The part of the gateway configuration the handler reads. `CheckDuration` is
`LivenessCheck.CheckDuration`, a duration in nanoseconds; `EdgeOriginalAPIKeyPath`
is the field of that name of `Private`. -/
structure Config where
  SlaveOptions : SlaveOptions
  HashKeys : Bool
  CheckDuration : Int
  EdgeOriginalAPIKeyPath : String
  deriving DecidableEq, Repr

/-- The state of the gateway the handler reads and writes: the configuration
and the three caches. -/
structure State where
  config : Config
  SessionCache : Cache
  RPCGlobalCache : Cache
  RPCCertCache : Cache
  deriving DecidableEq, Repr

/-- The cache of a partition. -/
def State.cache (s : State) : Partition → Cache
  | .RPCGlobalCache => s.RPCGlobalCache
  | .RPCCertCache => s.RPCCertCache
  | .SessionCache => s.SessionCache

/-- Replace the cache of a partition. -/
def State.withCache (s : State) (p : Partition) (c : Cache) : State :=
  match p with
  | .RPCGlobalCache => { s with RPCGlobalCache := c }
  | .RPCCertCache => { s with RPCCertCache := c }
  | .SessionCache => { s with SessionCache := c }

/-- The fields of `RPCStorageHandler`. -/
structure RPCStorageHandler where
  KeyPrefix : String
  HashKeys : Bool
  SuppressRegister : Bool
  deriving DecidableEq, Repr

/-- The remote control plane behind `rpc.FuncClientSingleton`, one reply per
method, typed as the table `dispatcherFuncs` declares the method. A reply may
depend on everything that happened before (the events so far). A failed call
carries no result; the replies that the source compares with nil may be nil. -/
structure Remote where
  GetKey : List Event → String → Except GoError String
  SetKey : List Event → InboundData → Except GoError Unit
  GetExp : List Event → String → Except GoError Int
  DeleteKey : List Event → String → Except GoError Bool
  DeleteRawKey : List Event → String → Except GoError Bool
  GetKeysAndValues : List Event → String → Except GoError KeysValuesPair
  GetKeysAndValuesWithFilter : List Event → String → Except GoError KeysValuesPair
  DeleteKeys : List Event → List String → Except GoError Bool
  DeleteRawKeys : List Event → List String → Except GoError Bool
  Decrement : List Event → String → Except GoError Unit
  IncrememntWithExpire : List Event → InboundData → Except GoError (Option Int)
  AppendToSet : List Event → InboundData → Except GoError Unit
  SetRollingWindow : List Event → InboundData → Except GoError (Option Int)
  GetApiDefinitions : List Event → DefRequest → Except GoError (Option String)
  GetPolicies : List Event → String → Except GoError (Option String)
  GetKeySpaceUpdate : List Event → String → Except GoError (Option (List String))
  GetGroupKeySpaceUpdate :
    List Event → GroupKeySpaceRequest → Except GoError (Option (List String))

/-- Everything outside the handler: the remote, the rpc package, the shutdown
signal of the context of the gateway (`ctxDone`), the clock, the collaborators
of the gateway, and the functions and constants of other packages of the
repository. Each answer may depend on the events so far. The collaborators act
on stores of their own, which are not followed here. -/
structure Env where
  remote : Remote
  Login : List Event → Bool
  IsEmergencyMode : List Event → Bool
  ctxDone : List Event → Bool
  now : List Event → Nat
  Connect : List Event → Bool
  Notify : List Event → Notification → Bool
  GetStorageForApi : List Event → String → Option GoError
  GetClient : List Event → String → String → Option GoError
  SetClient : List Event → String → String → String → Option GoError
  DeleteClient : List Event → String → String → String → Option GoError
  RevokeAllTokens : List Event → String → String → String → List String
  handleDeleteHashedKey : List Event → String → String → String → Bool → Int
  handleDeleteKey : List Event → String → String → String → Bool → Int
  CertGetRaw : List Event → String → String × Option GoError
  invalidateAPICache : List Event → String → Bool
  HashStr : String → String
  HashKey : String → Bool → String
  TokenOrg : String → String
  TokenID : String → Except GoError String
  generateToken : String → String → String
  NoticeDeleteAPICache : String
  NoticeUserKeyReset : String
  KeySpaceUpdateNotification : String
  rangeOrder : List (String × String) → List (String × String)
  rangeOrder_perm : ∀ l, List.Perm (rangeOrder l) l

/-! ## Runs -/

/-- How a call ends: it returns a value, it panics (an index out of range), or
the replays outlast the fuel. -/
inductive Outcome (α : Type) where
  | done (a : α)
  | panic
  | outOfFuel
  deriving DecidableEq, Repr

/-- The result of running a call: how it ended, the state it left, and the
events it caused, oldest first. -/
structure Run (α : Type) where
  out : Outcome α
  state : State
  events : List Event

/-- A call of the handler: given the events so far and the state, a run. -/
def M (α : Type) : Type := List Event → State → Run α

/-- Return a value, doing nothing. -/
def M.pure {α : Type} (a : α) : M α := fun _ s => ⟨.done a, s, []⟩

/-- Run `m`, then `f` on its value, with the events of `m` added to the past. -/
def M.bind {α β : Type} (m : M α) (f : α → M β) : M β := fun h s =>
  match m h s with
  | ⟨.done a, s1, e1⟩ =>
    match f a (h ++ e1) s1 with
    | ⟨out, s2, e2⟩ => ⟨out, s2, e1 ++ e2⟩
  | ⟨.panic, s1, e1⟩ => ⟨.panic, s1, e1⟩
  | ⟨.outOfFuel, s1, e1⟩ => ⟨.outOfFuel, s1, e1⟩

instance : Monad M where
  pure := M.pure
  bind := M.bind

/-- The state. -/
def getState : M State := fun _ s => ⟨.done s, s, []⟩

/-- Change the state. -/
def modifyState (f : State → State) : M Unit := fun _ s => ⟨.done (), f s, []⟩

/-- Record an event. -/
def emit (e : Event) : M Unit := fun _ s => ⟨.done (), s, [e]⟩

/-- Ask the outside, which sees the events so far. -/
def ask {β : Type} (f : List Event → β) : M β := fun h s => ⟨.done (f h), s, []⟩

/-- A runtime panic. -/
def goPanic {α : Type} : M α := fun _ s => ⟨.panic, s, []⟩

/-- The fuel is spent. -/
def outOfFuel {α : Type} : M α := fun _ s => ⟨.outOfFuel, s, []⟩

/-- A loop `for _, x := range xs`. -/
def forEach {α : Type} (body : α → M Unit) : List α → M Unit
  | [] => pure ()
  | x :: xs => do
    body x
    forEach body xs

/-! ## The rpc package and the caches -/

/-- The call `rpc.FuncClientSingleton(funcName, request)`. -/
def FuncClientSingleton {α : Type} (funcName : String) (request : Payload)
    (reply : List Event → Except GoError α) : M (Except GoError α) := do
  let res ← ask reply
  emit (.rpc funcName request)
  pure res

/-- The call `rpc.EmitErrorEventKv(rpc.FuncClientSingletonCall, funcName, err, kv)`. -/
def EmitErrorEventKv (funcName : String) (err : GoError) (kv : List (String × String)) :
    M Unit :=
  emit (.emitError funcName err kv)

/-- The call `rpc.Login()`. -/
def Login (env : Env) : M Bool := do
  let ok ← ask env.Login
  emit .Login
  pure ok

/-- The method `Get` of a cache of the gateway. -/
def cacheGet (env : Env) (part : Partition) (key : String) : M (Option CacheVal) := do
  let now ← ask env.now
  let s ← getState
  pure ((s.cache part).Get now key)

/-- The method `Set` of a cache of the gateway. -/
def cacheSet (env : Env) (part : Partition) (key : String) (v : CacheVal) (timeout : Int) :
    M Unit := do
  let now ← ask env.now
  modifyState (fun s => s.withCache part ((s.cache part).Set now key v timeout))
  emit (.cacheSet part key v timeout)

/-- The method `Delete` of a cache of the gateway. -/
def cacheDelete (part : Partition) (key : String) : M Unit := do
  modifyState (fun s => s.withCache part ((s.cache part).Delete key))
  emit (.cacheDelete part key)

/-- The error of a reply, nil when the call succeeded. -/
def errOf {α : Type} : Except GoError α → Option GoError
  | .error e => some e
  | .ok _ => none

/-- The test `IsRetriableError(err)` followed, when it holds, by `rpc.Login()`:
whether the call is to be replayed. -/
def retryAfterLogin (env : Env) (err : Option GoError) : M Bool := do
  if IsRetriableError err then Login env else pure false

/-! ## Node registration -/

/-- The value `model.GWStats`. -/
structure GWStats where
  APIsCount : Int
  PoliciesCount : Int
  deriving DecidableEq, Repr

/-- The value `model.HostDetails`. -/
structure HostDetails where
  Hostname : String
  PID : Int
  Address : String
  deriving DecidableEq, Repr

/-- The value `model.NodeData`, with the fields that buildNodeInfo fills; the
health snapshot is kept as its text. -/
structure NodeData where
  NodeID : String
  GroupID : String
  APIKey : String
  NodeVersion : String
  TTL : Int
  NodeIsSegmented : Bool
  Tags : List String
  Health : String
  Stats : GWStats
  HostDetails : HostDetails
  deriving DecidableEq, Repr

/-- What buildNodeInfo reads of the gateway besides the configuration of the
state, as it is at the time of the call: the node id, the constant `VERSION`,
the two fields of `DBAppConfOptions`, the health snapshot, the counts of APIs
and policies, the host details, and `json.Marshal` on a node. -/
structure Gateway where
  NodeID : String
  VERSION : String
  NodeIsSegmented : Bool
  Tags : List String
  Health : String
  apisByIDLen : Int
  PolicyCount : Int
  hostDetails : HostDetails
  jsonMarshal : NodeData → Except GoError String

/-- The value `node` that buildNodeInfo builds and marshals. The quotient of two
`int64` is the quotient rounded towards zero. -/
def nodeInfo (gw : Gateway) (config : Config) : NodeData :=
  let checkDuration := config.CheckDuration
  let intCheckDuration : Int := if checkDuration ≠ 0 then checkDuration.tdiv second else 10
  { NodeID := gw.NodeID,
    GroupID := config.SlaveOptions.GroupID,
    APIKey := config.SlaveOptions.APIKey,
    NodeVersion := gw.VERSION,
    TTL := intCheckDuration,
    NodeIsSegmented := gw.NodeIsSegmented,
    Tags := gw.Tags,
    Health := gw.Health,
    Stats := { APIsCount := gw.apisByIDLen, PoliciesCount := gw.PolicyCount },
    HostDetails :=
      { Hostname := gw.hostDetails.Hostname, PID := gw.hostDetails.PID,
        Address := gw.hostDetails.Address } }

/-- `RPCStorageHandler.buildNodeInfo`; the result `none` is nil. -/
def buildNodeInfo (gw : Gateway) : M (Option String) := do
  let config := (← getState).config
  match gw.jsonMarshal (nodeInfo gw config) with
  | .ok data => pure (some data)
  | .error _ => pure none

/-! ## The storage operations -/

/-- `RPCStorageHandler.hashKey`. -/
def hashKey (env : Env) (r : RPCStorageHandler) (s : String) : String :=
  if !r.HashKeys then s else env.HashStr s

/-- `RPCStorageHandler.fixKey`. -/
def fixKey (env : Env) (r : RPCStorageHandler) (keyName : String) : String :=
  r.KeyPrefix ++ hashKey env r keyName

/-- Replace the first occurrence of `old` in the characters by `new`. -/
def replaceFirstChars (old new : List Char) : List Char → List Char
  | [] => if old.isEmpty then new else []
  | c :: cs =>
    if old.isPrefixOf (c :: cs) then new ++ (c :: cs).drop old.length
    else c :: replaceFirstChars old new cs

/-- Go `strings.Replace(s, old, new, 1)`. -/
def stringsReplaceFirst (s old new : String) : String :=
  String.mk (replaceFirstChars old.toList new.toList s.toList)

/-- `RPCStorageHandler.cleanKey`. -/
def cleanKey (r : RPCStorageHandler) (keyName : String) : String :=
  stringsReplaceFirst keyName r.KeyPrefix ""

/-- The cache that GetRawKey selects for a key: the certificate cache for a key
that contains "cert-", the global cache for any other. -/
def selectedCache (keyName : String) : Partition :=
  if stringsContains keyName "cert-" then .RPCCertCache else .RPCGlobalCache

/-- `RPCStorageHandler.GetRawKey`. The replay is a call of the method by itself;
`fuel` bounds the depth of these calls. -/
def GetRawKey (env : Env) (r : RPCStorageHandler) :
    Nat → String → M (String × Option GoError)
  | 0, _ => outOfFuel
  | fuel + 1, keyName => do
    let cacheEnabled := (← getState).config.SlaveOptions.EnableRPCCache
    let cacheStore := selectedCache keyName
    let cachedVal ← if cacheEnabled then cacheGet env cacheStore keyName else pure none
    match cachedVal with
    | some (.str typedVal) => pure (typedVal, none)
    | some (.err typedVal) => pure ("", some typedVal)
    | _ =>
      if (← ask env.IsEmergencyMode) then pure ("", some .ErrMDCBConnectionLost)
      else do
        let res ← FuncClientSingleton "GetKey" (.str keyName)
          (fun h => env.remote.GetKey h keyName)
        match res with
        | .error err =>
          EmitErrorEventKv "GetKey" err [("keyName", keyName)]
          if (← retryAfterLogin env (some err)) then GetRawKey env r fuel keyName
          else do
            if cacheEnabled then cacheSet env cacheStore keyName (.err .ErrKeyNotFound) 1
            pure ("", some .ErrKeyNotFound)
        | .ok value =>
          if cacheEnabled then
            cacheSet env cacheStore keyName (.str value) Cache.DefaultExpiration
          pure (value, none)

/-- `RPCStorageHandler.GetKey`. -/
def GetKey (env : Env) (r : RPCStorageHandler) (fuel : Nat) (keyName : String) :
    M (String × Option GoError) :=
  GetRawKey env r fuel (fixKey env r keyName)

/-- `RPCStorageHandler.GetExp`. -/
def GetExp (env : Env) (r : RPCStorageHandler) : Nat → String → M (Int × Option GoError)
  | 0, _ => outOfFuel
  | fuel + 1, keyName => do
    let res ← FuncClientSingleton "GetExp" (.str (fixKey env r keyName))
      (fun h => env.remote.GetExp h (fixKey env r keyName))
    match res with
    | .error err =>
      EmitErrorEventKv "GetExp" err
        [("keyName", keyName), ("fixedKeyName", fixKey env r keyName)]
      if (← retryAfterLogin env (some err)) then GetExp env r fuel keyName
      else pure (0, some .ErrKeyNotFound)
    | .ok value => pure (value, none)

/-- `RPCStorageHandler.SetKey`. -/
def SetKey (env : Env) (r : RPCStorageHandler) :
    Nat → String → String → Int → M (Option GoError)
  | 0, _, _, _ => outOfFuel
  | fuel + 1, keyName, session, timeout => do
    let ibd : InboundData :=
      { KeyName := fixKey env r keyName, SessionState := session, Timeout := timeout }
    let res ← FuncClientSingleton "SetKey" (.ibd ibd) (fun h => env.remote.SetKey h ibd)
    match res with
    | .error err =>
      EmitErrorEventKv "SetKey" err [("keyName", keyName), ("fixedKeyName", ibd.KeyName)]
      if (← retryAfterLogin env (some err)) then SetKey env r fuel keyName session timeout
      else pure (some err)
    | .ok _ => pure none

/-- `RPCStorageHandler.Decrement`. -/
def Decrement (env : Env) (r : RPCStorageHandler) : Nat → String → M Unit
  | 0, _ => outOfFuel
  | fuel + 1, keyName => do
    let res ← FuncClientSingleton "Decrement" (.str keyName)
      (fun h => env.remote.Decrement h keyName)
    match res with
    | .error err => EmitErrorEventKv "Decrement" err [("keyName", keyName)]
    | .ok _ => pure ()
    if (← retryAfterLogin env (errOf res)) then Decrement env r fuel keyName
    else pure ()

/-- `RPCStorageHandler.IncrememntWithExpire`. -/
def IncrememntWithExpire (env : Env) (r : RPCStorageHandler) : Nat → String → Int → M Int
  | 0, _, _ => outOfFuel
  | fuel + 1, keyName, expire => do
    let ibd : InboundData := { KeyName := keyName, Expire := expire }
    let res ← FuncClientSingleton "IncrememntWithExpire" (.ibd ibd)
      (fun h => env.remote.IncrememntWithExpire h ibd)
    match res with
    | .error err => EmitErrorEventKv "IncrememntWithExpire" err [("keyName", keyName)]
    | .ok _ => pure ()
    if (← retryAfterLogin env (errOf res)) then IncrememntWithExpire env r fuel keyName expire
    else
      match res with
      | .ok (some val) => pure val
      | _ => pure 0

/-- The loop of the two list methods: `returnValues[r.cleanKey(v)] = Values[i]`
for every key; `none` when the values run out (index out of range). -/
def collectPairs (r : RPCStorageHandler) :
    List String → List String → List (String × String) → Option (List (String × String))
  | [], _, acc => some acc
  | _ :: _, [], _ => none
  | k :: ks, v :: vs, acc =>
    collectPairs r ks vs ((cleanKey r k, v) :: acc.filter (fun p => p.1 ≠ cleanKey r k))

/-- The loop over the reply of the two list methods, indexing `Values` from the
start for each key. -/
def returnValuesOf (r : RPCStorageHandler) (kv : KeysValuesPair) :
    M (Option (List (String × String))) :=
  match collectPairs r kv.Keys kv.Values [] with
  | some m => pure (some m)
  | none => goPanic

/-- `RPCStorageHandler.GetKeysAndValuesWithFilter`; the result `none` is the nil
map, and a map is the list of its entries. -/
def GetKeysAndValuesWithFilter (env : Env) (r : RPCStorageHandler) :
    Nat → String → M (Option (List (String × String)))
  | 0, _ => outOfFuel
  | fuel + 1, filter => do
    let searchStr := r.KeyPrefix ++ hashKey env r filter ++ "*"
    let res ← FuncClientSingleton "GetKeysAndValuesWithFilter" (.str searchStr)
      (fun h => env.remote.GetKeysAndValuesWithFilter h searchStr)
    match res with
    | .error err =>
      EmitErrorEventKv "GetKeysAndValuesWithFilter" err [("searchStr", searchStr)]
      if (← retryAfterLogin env (some err)) then GetKeysAndValuesWithFilter env r fuel filter
      else pure none
    | .ok kvPair => returnValuesOf r kvPair

/-- `RPCStorageHandler.GetKeysAndValues`. -/
def GetKeysAndValues (env : Env) (r : RPCStorageHandler) :
    Nat → M (Option (List (String × String)))
  | 0 => outOfFuel
  | fuel + 1 => do
    let searchStr := r.KeyPrefix ++ "*"
    let res ← FuncClientSingleton "GetKeysAndValues" (.str searchStr)
      (fun h => env.remote.GetKeysAndValues h searchStr)
    match res with
    | .error err =>
      EmitErrorEventKv "GetKeysAndValues" err []
      if (← retryAfterLogin env (some err)) then GetKeysAndValues env r fuel
      else pure none
    | .ok kvPair => returnValuesOf r kvPair

/-- The comparison `ok == true` of a reply whose result is nil when it failed. -/
def okIsTrue : Except GoError Bool → Bool
  | .ok b => b
  | .error _ => false

/-- `RPCStorageHandler.DeleteKey`. -/
def DeleteKey (env : Env) (r : RPCStorageHandler) : Nat → String → M Bool
  | 0, _ => outOfFuel
  | fuel + 1, keyName => do
    let res ← FuncClientSingleton "DeleteKey" (.str (fixKey env r keyName))
      (fun h => env.remote.DeleteKey h (fixKey env r keyName))
    match res with
    | .error err =>
      EmitErrorEventKv "DeleteKey" err
        [("keyName", keyName), ("fixedKeyName", fixKey env r keyName)]
      if (← retryAfterLogin env (some err)) then DeleteKey env r fuel keyName
      else pure (okIsTrue res)
    | .ok _ => pure (okIsTrue res)

/-- `RPCStorageHandler.DeleteRawKeys`. -/
def DeleteRawKeys (env : Env) (r : RPCStorageHandler) : Nat → List String → M Bool
  | 0, _ => outOfFuel
  | fuel + 1, keys => do
    let res ← FuncClientSingleton "DeleteRawKeys" (.strs keys)
      (fun h => env.remote.DeleteRawKeys h keys)
    match res with
    | .error err =>
      EmitErrorEventKv "DeleteKey" err []
      if (← retryAfterLogin env (some err)) then DeleteRawKeys env r fuel keys
      else pure (okIsTrue res)
    | .ok _ => pure (okIsTrue res)

/-- `RPCStorageHandler.DeleteRawKey`. -/
def DeleteRawKey (env : Env) (r : RPCStorageHandler) : Nat → String → M Bool
  | 0, _ => outOfFuel
  | fuel + 1, keyName => do
    let res ← FuncClientSingleton "DeleteRawKey" (.str keyName)
      (fun h => env.remote.DeleteRawKey h keyName)
    match res with
    | .error err =>
      EmitErrorEventKv "DeleteRawKey" err [("keyName", keyName)]
      if (← retryAfterLogin env (some err)) then DeleteRawKey env r fuel keyName
      else pure (okIsTrue res)
    | .ok _ => pure (okIsTrue res)

/-- `RPCStorageHandler.DeleteKeys`. -/
def DeleteKeys (env : Env) (r : RPCStorageHandler) : Nat → List String → M Bool
  | 0, _ => outOfFuel
  | fuel + 1, keys =>
    if 0 < keys.length then do
      let asInterface := keys.map (fixKey env r)
      let res ← FuncClientSingleton "DeleteKeys" (.strs asInterface)
        (fun h => env.remote.DeleteKeys h asInterface)
      match res with
      | .error err =>
        EmitErrorEventKv "DeleteKeys" err
          [("keys", stringsJoin keys ","), ("asInterface", stringsJoin asInterface ",")]
        if (← retryAfterLogin env (some err)) then DeleteKeys env r fuel keys
        else pure (okIsTrue res)
      | .ok _ => pure (okIsTrue res)
    else pure true

/-- `RPCStorageHandler.AppendToSet`. -/
def AppendToSet (env : Env) (r : RPCStorageHandler) : Nat → String → String → M Unit
  | 0, _, _ => outOfFuel
  | fuel + 1, keyName, value => do
    let ibd : InboundData := { KeyName := keyName, Value := value }
    let res ← FuncClientSingleton "AppendToSet" (.ibd ibd)
      (fun h => env.remote.AppendToSet h ibd)
    match res with
    | .error err => EmitErrorEventKv "AppendToSet" err [("keyName", keyName)]
    | .ok _ => pure ()
    if (← retryAfterLogin env (errOf res)) then AppendToSet env r fuel keyName value
    else pure ()

/-- Go `strconv.Itoa`. -/
def Itoa (n : Int) : String := toString n

/-- `RPCStorageHandler.SetRollingWindow`; the second result is always nil and is
left out. -/
def SetRollingWindow (env : Env) (r : RPCStorageHandler) :
    Nat → String → Int → String → Bool → M Int
  | 0, _, _, _, _ => outOfFuel
  | fuel + 1, keyName, per, val, _ => do
    let ibd : InboundData := { KeyName := keyName, Per := per, Expire := -1 }
    let res ← FuncClientSingleton "SetRollingWindow" (.ibd ibd)
      (fun h => env.remote.SetRollingWindow h ibd)
    let retry ←
      match res with
      | .error err => do
        EmitErrorEventKv "SetRollingWindow" err [("keyName", keyName), ("per", Itoa per)]
        retryAfterLogin env (some err)
      | .ok _ => pure false
    if retry then SetRollingWindow env r fuel keyName per val false
    else
      match res with
      | .ok (some intVal) => pure intVal
      | _ => pure 0

/-- `RPCStorageHandler.GetApiDefinitions`. -/
def GetApiDefinitions (env : Env) (r : RPCStorageHandler) :
    Nat → String → List String → M String
  | 0, _, _ => outOfFuel
  | fuel + 1, orgId, tags => do
    let dr : DefRequest := { OrgId := orgId, Tags := tags, LoadOAS := true }
    let res ← FuncClientSingleton "GetApiDefinitions" (.defReq dr)
      (fun h => env.remote.GetApiDefinitions h dr)
    match res with
    | .error err =>
      EmitErrorEventKv "GetApiDefinitions" err
        [("orgId", orgId), ("tags", stringsJoin tags ",")]
      if (← retryAfterLogin env (some err)) then GetApiDefinitions env r fuel orgId tags
      else pure ""
    | .ok none => pure ""
    | .ok (some defString) => pure defString

/-- `RPCStorageHandler.GetPolicies`. -/
def GetPolicies (env : Env) (r : RPCStorageHandler) : Nat → String → M String
  | 0, _ => outOfFuel
  | fuel + 1, orgId => do
    let res ← FuncClientSingleton "GetPolicies" (.str orgId)
      (fun h => env.remote.GetPolicies h orgId)
    match res with
    | .error err =>
      EmitErrorEventKv "GetPolicies" err [("orgId", orgId)]
      if (← retryAfterLogin env (some err)) then GetPolicies env r fuel orgId
      else pure ""
    | .ok (some defString) => pure defString
    | .ok none => pure ""

/-! ## The keyspace reconciler -/

/-- The action tags of the change-keys. -/
def ResetQuota : String := "resetQuota"

/-- The tag of a removed certificate. -/
def CertificateRemoved : String := "CertificateRemoved"

/-- The tag of an added certificate. -/
def CertificateAdded : String := "CertificateAdded"

/-- The tag of a token revocation. -/
def OAuthRevokeToken : String := "oAuthRevokeToken"

/-- The tag of an access-token revocation. -/
def OAuthRevokeAccessToken : String := "oAuthRevokeAccessToken"

/-- The tag of a refresh-token revocation. -/
def OAuthRevokeRefreshToken : String := "oAuthRevokeRefreshToken"

/-- The tag of the revocation of all tokens of a client. -/
def OAuthRevokeAllTokens : String := "revoke_all_tokens"

/-- The tag of an added OAuth client. -/
def OauthClientAdded : String := "OauthClientAdded"

/-- The tag of a removed OAuth client. -/
def OauthClientRemoved : String := "OauthClientRemoved"

/-- The tag of an updated OAuth client. -/
def OauthClientUpdated : String := "OauthClientUpdated"

/-- The status `http.StatusNotFound`. -/
def StatusNotFound : Int := 404

/-- A Go `map[string]string`, as the list of its entries; the order of the list
has no meaning. -/
abbrev GoMap : Type := List (String × String)

/-- The assignment `m[k] = v`. -/
def GoMap.set (m : GoMap) (k v : String) : GoMap :=
  (k, v) :: m.filter (fun p => p.1 ≠ k)

/-- The test `_, ok := m[k]`. -/
def GoMap.has (m : GoMap) (k : String) : Bool :=
  m.any (fun p => p.1 = k)

/-- The element `l[i]` of a slice, where the source has made sure it exists. -/
def at0 (l : List String) (i : Nat) : String := l.getD i ""

/-- The element `l[i]` of a slice; a panic when the index is out of range. -/
def index (l : List String) (i : Nat) : M String :=
  match l.get? i with
  | some x => pure x
  | none => goPanic

/-- The buckets that the first loop of ProcessKeySpaceChanges fills. The two
maps to `bool` only ever hold `true` and are kept as the list of their keys. -/
structure Buckets where
  keysToReset : List String
  TokensToBeRevoked : GoMap
  ClientsToBeRevoked : GoMap
  notRegularKeys : List String
  CertificatesToRemove : GoMap
  CertificatesToAdd : GoMap
  OauthClients : GoMap
  apiIDsToDeleteCache : List String
  userKeyResets : GoMap
  deriving DecidableEq, Repr

/-- The buckets before the first loop. -/
def Buckets.empty : Buckets := ⟨[], [], [], [], [], [], [], [], []⟩

/-- The body of the first loop of ProcessKeySpaceChanges: one change-key is put
in its bucket by its last segment. -/
def classifyKey (env : Env) (b : Buckets) (key : String) : Buckets :=
  let splitKeys := stringsSplit key ':'
  if 1 < splitKeys.length then
    let action := at0 splitKeys (splitKeys.length - 1)
    if action = ResetQuota then
      { b with keysToReset := at0 splitKeys 0 :: b.keysToReset }
    else if action = CertificateRemoved then
      { b with CertificatesToRemove := b.CertificatesToRemove.set key (at0 splitKeys 0),
               notRegularKeys := key :: b.notRegularKeys }
    else if action = CertificateAdded then
      { b with CertificatesToAdd := b.CertificatesToAdd.set key (at0 splitKeys 0),
               notRegularKeys := key :: b.notRegularKeys }
    else if action = OAuthRevokeToken ∨ action = OAuthRevokeAccessToken
        ∨ action = OAuthRevokeRefreshToken then
      { b with TokensToBeRevoked := b.TokensToBeRevoked.set (at0 splitKeys 0) key,
               notRegularKeys := key :: b.notRegularKeys }
    else if action = OAuthRevokeAllTokens then
      { b with ClientsToBeRevoked := b.ClientsToBeRevoked.set (at0 splitKeys 1) key,
               notRegularKeys := key :: b.notRegularKeys }
    else if action = OauthClientAdded ∨ action = OauthClientUpdated
        ∨ action = OauthClientRemoved then
      { b with OauthClients := b.OauthClients.set (at0 splitKeys 0) action,
               notRegularKeys := key :: b.notRegularKeys }
    else if action = env.NoticeDeleteAPICache then
      { b with apiIDsToDeleteCache := b.apiIDsToDeleteCache ++ [at0 splitKeys 0],
               notRegularKeys := key :: b.notRegularKeys }
    else if action = env.NoticeUserKeyReset then
      let keyParts := stringsSplit (at0 splitKeys 0) '.'
      if keyParts.length ≠ 2 then b
      else { b with userKeyResets := b.userKeyResets.set (at0 keyParts 0) (at0 keyParts 1) }
    else b
  else b

/-- The first loop of ProcessKeySpaceChanges. -/
def classify (env : Env) (keys : List String) : Buckets :=
  keys.foldl (classifyKey env) Buckets.empty

/-- `RPCStorageHandler.Connect`: the connection is made with the credential of
the current configuration. -/
def Connect (env : Env) : M Bool := do
  let slaveOptions := (← getState).config.SlaveOptions
  let ok ← ask env.Connect
  emit (.Connect slaveOptions.APIKey)
  pure ok

/-- The call `r.Gw.MainNotifier.Notify(n)`. -/
def Notify (env : Env) (n : Notification) : M Bool := do
  let ok ← ask (fun h => env.Notify h n)
  emit (.Notify n)
  pure ok

/-- The call `gw.GetStorageForApi(apiId)`; the result is the error. -/
def GetStorageForApi (env : Env) (apiId : String) : M (Option GoError) := do
  let err ← ask (fun h => env.GetStorageForApi h apiId)
  emit (.GetStorageForApi apiId)
  pure err

/-- The call `store.GetClient(id)` on the storage of an API. -/
def GetClient (env : Env) (apiId clientId : String) : M (Option GoError) := do
  let err ← ask (fun h => env.GetClient h apiId clientId)
  emit (.GetClient apiId clientId)
  pure err

/-- The call `store.SetClient(id, orgID, client, false)`. -/
def SetClient (env : Env) (apiId clientId orgID : String) : M (Option GoError) := do
  let err ← ask (fun h => env.SetClient h apiId clientId orgID)
  emit (.SetClient apiId clientId orgID)
  pure err

/-- The call `store.DeleteClient(id, orgID, false)`. -/
def DeleteClient (env : Env) (apiId clientId orgID : String) : M (Option GoError) := do
  let err ← ask (fun h => env.DeleteClient h apiId clientId orgID)
  emit (.DeleteClient apiId clientId orgID)
  pure err

/-- The call `gw.handleDeleteHashedKey(key, orgId, apiId, resetQuota)`; the
result is the status. -/
def handleDeleteHashedKey (env : Env) (key orgId apiId : String) (resetQuota : Bool) :
    M Int := do
  let status ← ask (fun h => env.handleDeleteHashedKey h key orgId apiId resetQuota)
  emit (.handleDeleteHashedKey key orgId apiId resetQuota)
  pure status

/-- The call `gw.handleDeleteKey(key, orgId, apiId, resetQuota)`; the result is
the status. -/
def handleDeleteKey (env : Env) (key orgId apiId : String) (resetQuota : Bool) : M Int := do
  let status ← ask (fun h => env.handleDeleteKey h key orgId apiId resetQuota)
  emit (.handleDeleteKey key orgId apiId resetQuota)
  pure status

/-- `Gateway.ProcessSingleOauthClientEvent`. -/
def ProcessSingleOauthClientEvent (env : Env) (apiId oauthClientId orgID event : String) :
    M Unit := do
  if (← GetStorageForApi env apiId).isSome then pure ()
  else if event = OauthClientAdded then do
    if (← GetClient env apiId oauthClientId).isSome then pure ()
    else do
      let _ ← SetClient env apiId oauthClientId orgID
      pure ()
  else if event = OauthClientRemoved then do
    let _ ← DeleteClient env apiId oauthClientId orgID
    pure ()
  else if event = OauthClientUpdated then do
    if (← GetClient env apiId oauthClientId).isSome then pure ()
    else if (← DeleteClient env apiId oauthClientId orgID).isSome then pure ()
    else if (← GetClient env apiId oauthClientId).isSome then pure ()
    else do
      let _ ← SetClient env apiId oauthClientId orgID
      pure ()
  else pure ()

/-- The body of the loop of `Gateway.ProcessOauthClientsOps`. -/
def oauthClientStep (env : Env) (p : String × String) : M Unit := do
  let eventValues := stringsSplit p.1 '.'
  let apiId ← index eventValues 0
  let oauthClientId ← index eventValues 1
  let orgID ← index eventValues 2
  ProcessSingleOauthClientEvent env apiId oauthClientId orgID p.2

/-- `Gateway.ProcessOauthClientsOps`. -/
def ProcessOauthClientsOps (env : Env) (clients : GoMap) : M Unit :=
  forEach (oauthClientStep env) (env.rangeOrder clients)

/-- The body of the loop over `userKeyResets`. -/
def userKeyResetStep (env : Env) (p : String × String) : M Unit := do
  let oldKey := p.1
  let newKey := p.2
  let config := (← getState).config
  let proceed ←
    if config.SlaveOptions.APIKey = oldKey then do
      emit (.updateKeyInStore config.EdgeOriginalAPIKeyPath newKey)
      modifyState (fun s =>
        { s with config := { config with SlaveOptions :=
            { config.SlaveOptions with APIKey := newKey } } })
      Connect env
    else pure true
  if proceed then do
    let _ ← Notify env
      ⟨env.NoticeUserKeyReset, oldKey ++ "." ++ newKey ++ ":" ++ env.NoticeUserKeyReset⟩
    pure ()
  else pure ()

/-- The loop over `ClientsToBeRevoked`; the result is the slice `keys` with the
revoked tokens appended. -/
def revokeClients (env : Env) : List (String × String) → List String → M (List String)
  | [], keys => pure keys
  | (clientId, key) :: rest, keys => do
    let splitKeys := stringsSplit key ':'
    let apiId ← index splitKeys 0
    let clientSecret ← index splitKeys 2
    if (← GetStorageForApi env apiId).isSome then revokeClients env rest keys
    else do
      let tokens ← ask (fun h => env.RevokeAllTokens h apiId clientId clientSecret)
      emit (.RevokeAllTokens apiId clientId clientSecret)
      revokeClients env rest (keys ++ tokens)

/-- The body of the loop over `TokensToBeRevoked`. -/
def revokeTokenStep (env : Env) (r : RPCStorageHandler) (orgId : String)
    (p : String × String) : M Unit := do
  let token := p.1
  let splitKeys := stringsSplit p.2 ':'
  let apiId ← index splitKeys 1
  let tokenActionTypeHint ← index splitKeys 2
  let hashedKey := stringsContains token "#hashed"
  let revoked ←
    if !hashedKey then do
      if (← GetStorageForApi env apiId).isSome then pure none
      else do
        let tokenTypeHint :=
          if tokenActionTypeHint = OAuthRevokeAccessToken then "access_token"
          else if tokenActionTypeHint = OAuthRevokeRefreshToken then "refresh_token"
          else ""
        emit (.RevokeToken apiId token tokenTypeHint)
        pure (some token)
    else do
      let token ← index (stringsSplit token '#') 0
      let _ ← handleDeleteHashedKey env token orgId apiId false
      pure (some token)
  match revoked with
  | none => pure ()
  | some token => do
    cacheDelete .SessionCache token
    cacheDelete .RPCGlobalCache (r.KeyPrefix ++ token)

/-- The body of the loop that removes certificates. -/
def removeCertStep (orgId : String) (p : String × String) : M Unit := do
  let certId := p.2
  emit (.CertDelete certId orgId)
  cacheDelete .RPCCertCache ("cert-raw-" ++ certId)

/-- The body of the loop that adds certificates. -/
def addCertStep (env : Env) (p : String × String) : M Unit := do
  let certId := p.2
  let _ ← ask (fun h => env.CertGetRaw h certId)
  emit (.CertGetRaw certId)

/-- `RPCStorageHandler.deleteUsingTokenID`; the error it returns is always nil. -/
def deleteUsingTokenID (env : Env) (key orgId : String) (resetQuota : Bool) (status : Int) :
    M Int :=
  if status = StatusNotFound then
    match env.TokenID key with
    | .ok id => handleDeleteKey env id orgId "-1" resetQuota
    | .error _ => pure status
  else pure status

/-- `Gateway.getSessionAndCreate`. -/
def getSessionAndCreate (env : Env) (r : RPCStorageHandler) (fuel : Nat)
    (keyName : String) (isHashed : Bool) (orgId : String) : M Unit := do
  let config := (← getState).config
  let key := if !isHashed then env.HashKey keyName config.HashKeys else keyName
  let (sessionString, err) ← GetRawKey env r fuel ("apikey-" ++ key)
  if err.isSome then pure ()
  else emit (.handleAddKey key sessionString orgId)

/-- Whether the last loop skips the key as a user key that is reset. -/
def isUserKeyReset (b : Buckets) (key : String) : Bool :=
  let splitKeys := stringsSplit key ':'
  if 1 < splitKeys.length then
    let userKeys := stringsSplit (at0 splitKeys 0) '.'
    if userKeys.length = 2 then b.userKeyResets.has (at0 userKeys 0) else false
  else false

/-- The body of the last loop over the keys. -/
def regularKeyStep (env : Env) (r : RPCStorageHandler) (fuel : Nat) (b : Buckets)
    (orgId : String) (synchronizerEnabled : Bool) (key : String) : M Unit := do
  if isUserKeyReset b key then pure ()
  else if key ∈ b.notRegularKeys then pure ()
  else do
    let splitKeys := stringsSplit key ':'
    let resetQuota : Bool := at0 splitKeys 0 ∈ b.keysToReset
    let isHashed : Bool := 1 < splitKeys.length ∧ at0 splitKeys 1 = "hashed"
    let (key, status) ←
      if isHashed then do
        let key := at0 splitKeys 0
        let status ← handleDeleteHashedKey env key orgId "" resetQuota
        pure (key, status)
      else do
        let key := if env.TokenOrg key = "" then env.generateToken orgId key else key
        let status ← handleDeleteKey env key orgId "-1" resetQuota
        let status ← deleteUsingTokenID env key orgId resetQuota status
        pure (key, status)
    if status = StatusNotFound ∧ !synchronizerEnabled then pure ()
    else do
      getSessionAndCreate env r fuel key isHashed orgId
      cacheDelete .SessionCache key
      cacheDelete .RPCGlobalCache (r.KeyPrefix ++ key)

/-- The body of the loop over `apiIDsToDeleteCache`. -/
def invalidateStep (env : Env) (apiID : String) : M Unit := do
  let _ ← ask (fun h => env.invalidateAPICache h apiID)
  emit (.invalidateAPICache apiID)

/-- `RPCStorageHandler.ProcessKeySpaceChanges`. `fuel` is the fuel of each call
of GetRawKey. -/
def ProcessKeySpaceChanges (env : Env) (r : RPCStorageHandler) (fuel : Nat)
    (keys : List String) (orgId : String) : M Unit := do
  let b := classify env keys
  forEach (userKeyResetStep env) (env.rangeOrder b.userKeyResets)
  ProcessOauthClientsOps env b.OauthClients
  let keys ← revokeClients env (env.rangeOrder b.ClientsToBeRevoked) keys
  forEach (revokeTokenStep env r orgId) (env.rangeOrder b.TokensToBeRevoked)
  forEach (removeCertStep orgId) (env.rangeOrder b.CertificatesToRemove)
  forEach (addCertStep env) (env.rangeOrder b.CertificatesToAdd)
  let synchronizerEnabled := (← getState).config.SlaveOptions.SynchroniserEnabled
  forEach (regularKeyStep env r fuel b orgId synchronizerEnabled) keys
  forEach (invalidateStep env) b.apiIDsToDeleteCache
  let _ ← Notify env ⟨env.KeySpaceUpdateNotification, stringsJoin keys ","⟩
  pure ()

/-! ## The background loops -/

/-- The conversion of an integer to `int64`. -/
def int64 (x : Int) : Int := (x + 2 ^ 63) % 2 ^ 64 - 2 ^ 63

/-- `RPCStorageHandler.CheckForKeyspaceChanges`. The reconciliation of the batch
is started as a task of its own (`go r.ProcessKeySpaceChanges(keys, orgId)`),
which is recorded and not followed. -/
def CheckForKeyspaceChanges (env : Env) (r : RPCStorageHandler) : Nat → String → M Unit
  | 0, _ => outOfFuel
  | fuel + 1, orgId => do
    let groupID := (← getState).config.SlaveOptions.GroupID
    let funcName := if groupID = "" then "GetKeySpaceUpdate" else "GetGroupKeySpaceUpdate"
    let req : Payload := if groupID = "" then .str orgId else .group ⟨orgId, groupID⟩
    let reqData :=
      if groupID = "" then [("orgId", orgId)] else [("orgId", orgId), ("GroupID", groupID)]
    let res ← FuncClientSingleton funcName req (fun h =>
      if groupID = "" then env.remote.GetKeySpaceUpdate h orgId
      else env.remote.GetGroupKeySpaceUpdate h ⟨orgId, groupID⟩)
    match res with
    | .error err =>
      EmitErrorEventKv funcName err reqData
      if (← retryAfterLogin env (some err)) then CheckForKeyspaceChanges env r fuel orgId
      else pure ()
    | .ok none => pure ()
    | .ok (some keys) =>
      if 0 < keys.length then emit (.goProcessKeySpaceChanges keys orgId) else pure ()

/-- The loop `for { ... }` of StartRPCLoopCheck; `n` bounds the number of its
iterations, `fuel` the replays of each call of CheckForKeyspaceChanges. -/
def keyspacePoller (env : Env) (r : RPCStorageHandler) (fuel : Nat) (orgId : String) :
    Nat → M Unit
  | 0 => outOfFuel
  | n + 1 => do
    let seconds := (← getState).config.SlaveOptions.KeySpaceSyncInterval
    CheckForKeyspaceChanges env r fuel orgId
    emit (.Sleep (int64 (seconds * second)))
    keyspacePoller env r fuel orgId n

/-- `RPCStorageHandler.StartRPCLoopCheck`. -/
def StartRPCLoopCheck (env : Env) (r : RPCStorageHandler) (fuel n : Nat) (orgId : String) :
    M Unit := do
  if (← getState).config.SlaveOptions.DisableKeySpaceSync then pure ()
  else keyspacePoller env r fuel orgId n

/-- `RPCStorageHandler.StartRPCKeepaliveWatcher`; `n` bounds the number of
iterations of its loop, `fuel` the replays of each call of SetKey. The signal
`r.Gw.ctx.Done()` is read at the top of each iteration. -/
def StartRPCKeepaliveWatcher (env : Env) (r : RPCStorageHandler) (fuel : Nat) : Nat → M Unit
  | 0 => outOfFuel
  | n + 1 => do
    if (← ask env.ctxDone) then pure ()
    else do
      let err ← SetKey env r fuel "0000" "0000" 10
      let again ←
        match err with
        | some e => do
          if (← retryAfterLogin env (some e)) then pure true
          else pure (stringsContains e.Error "Cannot obtain response during timeout")
        | none => pure false
      if again then StartRPCKeepaliveWatcher env r fuel n
      else do
        emit (.Sleep (10 * second))
        StartRPCKeepaliveWatcher env r fuel n

/-! ## What the properties speak about -/

/-- Whether an event is a remote call. -/
def isRpc : Event → Bool
  | .rpc _ _ => true
  | _ => false

/-- The number of remote calls among the events. -/
def remoteCalls (evs : List Event) : Nat := evs.countP isRpc

/-- The number of calls of `rpc.Login` among the events. -/
def logins (evs : List Event) : Nat := evs.count .Login

/-- The run returned a value. -/
def Run.returned {α : Type} (run : Run α) : Prop := ∃ a, run.out = .done a

/-- The run ended: it returned or panicked, and did not go on for ever. -/
def Run.ended {α : Type} (run : Run α) : Prop := run.out ≠ .outOfFuel

/-- The run made at most `l` calls of `rpc.Login` and at most `c` remote calls. -/
def Run.atMost {α : Type} (run : Run α) (l c : Nat) : Prop :=
  logins run.events ≤ l ∧ remoteCalls run.events ≤ c

/-- The run with the events `evs` placed before its own. -/
def Run.after {α : Type} (evs : List Event) (run : Run α) : Run α :=
  ⟨run.out, run.state, evs ++ run.events⟩

/-- What GetRawKey finds in the cache; nothing when the cache is disabled. -/
def cachedValue (env : Env) (keyName : String) (h : List Event) (s : State) :
    Option CacheVal :=
  if s.config.SlaveOptions.EnableRPCCache then
    (s.cache (selectedCache keyName)).Get (env.now h) keyName
  else none

/-- The cache lookup of GetRawKey does not end the call: the cache is disabled,
has no live entry for the key, or the entry is neither a string nor an error. -/
def cacheMiss (env : Env) (keyName : String) (h : List Event) (s : State) : Prop :=
  cachedValue env keyName h s = none ∨ cachedValue env keyName h s = some .other

/-- The tag of a user key reset is a tag of its own: it has no ':' and is none
of the other action tags. -/
def Env.userKeyResetIsOwnTag (env : Env) : Prop :=
  ':' ∉ env.NoticeUserKeyReset.toList ∧
    env.NoticeUserKeyReset ∉
      [ResetQuota, CertificateRemoved, CertificateAdded, OAuthRevokeToken,
        OAuthRevokeAccessToken, OAuthRevokeRefreshToken, OAuthRevokeAllTokens,
        OauthClientAdded, OauthClientUpdated, OauthClientRemoved, env.NoticeDeleteAPICache]

instance (env : Env) : Decidable env.userKeyResetIsOwnTag := by
  unfold Env.userKeyResetIsOwnTag
  infer_instance

/-- Every event of every run of the call satisfies `P`. -/
structure EventsAll {α : Type} (P : Event → Prop) (m : M α) : Prop where
  all : ∀ h s, ∀ e ∈ (m h s).events, P e

/-- Whether an event is a removal of a certificate from the certificate manager. -/
def isCertDelete : Event → Bool
  | .CertDelete _ _ => true
  | _ => false

/-- Whether an event is a fetch of a certificate from the certificate manager. -/
def isCertGetRaw : Event → Bool
  | .CertGetRaw _ => true
  | _ => false

/-- The events of the removal of one certificate: the removal from the
certificate manager, then the eviction from the certificate cache. -/
def removalEvents (orgId certId : String) : List Event :=
  [.CertDelete certId orgId, .cacheDelete .RPCCertCache ("cert-raw-" ++ certId)]

/-- Whether an event is a local delete of a key, with whatever arguments. -/
def isLocalDelete : Event → Bool
  | .handleDeleteKey _ _ _ _ => true
  | .handleDeleteHashedKey _ _ _ _ => true
  | _ => false

/-- The quota-reset flag of a local delete; `none` for any other event. -/
def resetQuotaOf : Event → Option Bool
  | .handleDeleteKey _ _ _ q => some q
  | .handleDeleteHashedKey _ _ _ q => some q
  | _ => none

/-- No event is an operation on the certificate manager. -/
def NoCert {α : Type} (m : M α) : Prop :=
  EventsAll (fun e => isCertDelete e = false ∧ isCertGetRaw e = false) m

/-- The events are: events that are no operation on the certificate manager,
then the removal events of some certificates, one certificate after the other,
then events among which there is no removal of a certificate. -/
def CertShape (orgId : String) (evs : List Event) : Prop :=
  ∃ (before : List Event) (removed : List String) (after : List Event),
    evs = before ++ removed.flatMap (removalEvents orgId) ++ after ∧
    (∀ e ∈ before, isCertDelete e = false ∧ isCertGetRaw e = false) ∧
    (∀ e ∈ after, isCertDelete e = false)

/-- Every run of the call keeps `I`: when `I` holds of the state before, it holds
of the state after. -/
structure StatePres {α : Type} (I : State → Prop) (m : M α) : Prop where
  pres : ∀ h s, I s → I (m h s).state

/-- The cache holds no entry under the key, live or expired. -/
def Cache.noEntry (c : Cache) (key : String) : Prop :=
  ∀ it ∈ c.items, it.key ≠ key

/-- The name under which the last loop of ProcessKeySpaceChanges treats a
regular key: its first colon segment when its second segment is "hashed";
otherwise the key itself, or the token generated for it when it carries no
organisation. -/
def processedKey (env : Env) (orgId key : String) : String :=
  if 1 < (stringsSplit key ':').length ∧ at0 (stringsSplit key ':') 1 = "hashed" then
    at0 (stringsSplit key ':') 0
  else if env.TokenOrg key = "" then env.generateToken orgId key
  else key

/-- No local delete ever reports the status "not found". -/
def Env.neverNotFound (env : Env) : Prop :=
  (∀ h k o a q, env.handleDeleteKey h k o a q ≠ StatusNotFound) ∧
    (∀ h k o a q, env.handleDeleteHashedKey h k o a q ≠ StatusNotFound)

/-- A local delete that reports the status "not found" reports it again whenever
it is called later with the same arguments. -/
def Env.notFoundStays (env : Env) : Prop :=
  (∀ h h2 k o a q, env.handleDeleteKey h k o a q = StatusNotFound →
      env.handleDeleteKey (h ++ h2) k o a q = StatusNotFound) ∧
    (∀ h h2 k o a q, env.handleDeleteHashedKey h k o a q = StatusNotFound →
      env.handleDeleteHashedKey (h ++ h2) k o a q = StatusNotFound)

/-- A property of the state that the writes of the reconciler keep: the deletion
of a cache entry, the change of the credential, and a call of GetRawKey. -/
structure Kept (env : Env) (r : RPCStorageHandler) (I : State → Prop) : Prop where
  delete : ∀ s part k, I s → I (s.withCache part ((s.cache part).Delete k))
  credential : ∀ (s : State) (c : Config) (k : String), I s → c = s.config →
    I { s with config := { c with SlaveOptions := { c.SlaveOptions with APIKey := k } } }
  getRawKey : ∀ fuel key h s, I s → I (GetRawKey env r fuel key h s).state

/-- A Hoare triple: when `Pre` holds of the state before and the call returns a
value, `Post` holds of the value and of the state after. -/
def Ensures {α : Type} (Pre : State → Prop) (m : M α) (Post : α → State → Prop) : Prop :=
  ∀ h s a, Pre s → (m h s).out = .done a → Post a (m h s).state

/-- The two switches of the configuration that the reconciler reads have the
given values. -/
def switchesAre (sync cache : Bool) (s : State) : Prop :=
  s.config.SlaveOptions.SynchroniserEnabled = sync ∧
    s.config.SlaveOptions.EnableRPCCache = cache

/-- Whether an event is a call of RevokeAllTokens. -/
def isRevokeAllTokens : Event → Bool
  | .RevokeAllTokens _ _ _ => true
  | _ => false

/-- The tokens that the event returned, when it is a call of RevokeAllTokens made
after the events `h`; none for any other event. -/
def tokensOf (env : Env) (h : List Event) : Event → List String
  | .RevokeAllTokens apiId clientId clientSecret =>
    env.RevokeAllTokens h apiId clientId clientSecret
  | _ => []

/-- The tokens that the calls of RevokeAllTokens among the events `evs` returned,
in the order of the calls; `h` is the events before `evs`. -/
def tokensReturned (env : Env) : List Event → List Event → List String
  | _, [] => []
  | h, e :: rest => tokensOf env h e ++ tokensReturned env (h ++ [e]) rest

/-- Whether an event is a cluster notification of a keyspace update. -/
def Env.isKeySpaceUpdate (env : Env) : Event → Bool
  | .Notify n => n.Command = env.KeySpaceUpdateNotification
  | _ => false

/-- The run, when it returns, ends with the cluster notification of the keys
`keys2`, and no event before it is a call of RevokeAllTokens or a notification
of a keyspace update. -/
def EndsWithUpdate (env : Env) (keys2 : List String) (run : Run Unit) : Prop :=
  run.out = .done () →
    ∃ init, run.events =
        init ++ [.Notify ⟨env.KeySpaceUpdateNotification, stringsJoin keys2 ","⟩] ∧
      ∀ e ∈ init, isRevokeAllTokens e = false ∧ env.isKeySpaceUpdate e = false

/-- The action tag of a change-key: its last colon segment, when it has at least
two segments. -/
def actionOf (key : String) : Option String :=
  if 1 < (stringsSplit key ':').length then
    some (at0 (stringsSplit key ':') ((stringsSplit key ':').length - 1))
  else none

/-- The token under which a change-key is put into the bucket of the tokens to
revoke: the first segment of a key whose tag is one of the three token tags. -/
def tokenOf (key : String) : Option String :=
  if actionOf key = some OAuthRevokeToken ∨ actionOf key = some OAuthRevokeAccessToken
      ∨ actionOf key = some OAuthRevokeRefreshToken then
    some (at0 (stringsSplit key ':') 0)
  else none

/-- The client id under which a change-key is put into the bucket of the clients
to revoke: the second segment of a key whose tag is the revoke-all tag. -/
def clientOf (key : String) : Option String :=
  if actionOf key = some OAuthRevokeAllTokens then some (at0 (stringsSplit key ':') 1)
  else none

/-- The name under which a change-key is put into the bucket of the OAuth client
operations: the first segment of a key whose tag is one of the three client
tags. -/
def oauthClientOf (key : String) : Option String :=
  if actionOf key = some OauthClientAdded ∨ actionOf key = some OauthClientUpdated
      ∨ actionOf key = some OauthClientRemoved then
    some (at0 (stringsSplit key ':') 0)
  else none

/-- The map that results from the assignments `m[x] = val k`, made in the order
of the keys `k` for which `name k` is some `x`. -/
def assignAll (name : String → Option String) (val : String → String) (m : GoMap)
    (keys : List String) : GoMap :=
  keys.foldl (fun m k =>
    match name k with
    | some x => m.set x (val k)
    | none => m) m

/-- The last of the keys that is put under the name `x`, if there is one. -/
def lastUnder (name : String → Option String) (x : String) (keys : List String) :
    Option String :=
  (keys.filter (fun k => name k = some x)).getLast?

/-- No run of the call panics. -/
structure NoPanic {α : Type} (m : M α) : Prop where
  never : ∀ h s, (m h s).out ≠ .panic

/-- The state with the credential of the node replaced. -/
def State.setAPIKey (s : State) (k : String) : State :=
  { s with config := { s.config with
      SlaveOptions := { s.config.SlaveOptions with APIKey := k } } }

/-- What an event says of the state of the gateway: the eviction of a cache
entry removes the entry, the storing of a new credential (which the reconciler
does together with the change of the credential of the node) makes it the
credential of the node; no other event speaks of the state. -/
def applyEvent (s : State) : Event → State
  | .cacheDelete part key => s.withCache part ((s.cache part).Delete key)
  | .updateKeyInStore _ newKey => s.setAPIKey newKey
  | _ => s

/-- The state after the events, one after the other. -/
def replay (evs : List Event) (s : State) : State := evs.foldl applyEvent s

/-- Every run of the call that starts with the switch of the RPC cache at `cache`
and the switch of the hashing at `hashKeys` changes the state by what its events
say, and by nothing else. -/
structure Tracks {α : Type} (cache hashKeys : Bool) (m : M α) : Prop where
  tracks : ∀ h s, s.config.SlaveOptions.EnableRPCCache = cache →
    s.config.HashKeys = hashKeys → (m h s).state = replay (m h s).events s

/-- Whether an event is the storing of a new credential. -/
def isCredentialUpdate : Event → Bool
  | .updateKeyInStore _ _ => true
  | _ => false

/-- The buckets hold no chain of user key resets: no reset gives as new
credential the old credential of a reset of the batch. -/
def Buckets.noResetChain (b : Buckets) : Prop :=
  ∀ p ∈ b.userKeyResets, ∀ q ∈ b.userKeyResets, p.2 ≠ q.1

instance (b : Buckets) : Decidable b.noResetChain := by
  unfold Buckets.noResetChain
  infer_instance

/-- The change-keys of the buckets have the segments that the loops read: three
dot segments in the name of an OAuth client operation, three colon segments in
the key of a client or of a token to revoke. -/
def Buckets.wellFormed (b : Buckets) : Prop :=
  (∀ p ∈ b.OauthClients, 3 ≤ (stringsSplit p.1 '.').length) ∧
    (∀ p ∈ b.ClientsToBeRevoked, 3 ≤ (stringsSplit p.2 ':').length) ∧
    (∀ p ∈ b.TokensToBeRevoked, 3 ≤ (stringsSplit p.2 ':').length)

/-- Whether an event is the eviction of a cache entry. -/
def isCacheDelete : Event → Bool
  | .cacheDelete _ _ => true
  | _ => false

/-- The run of ProcessKeySpaceChanges on the same batch right after a first run:
it starts in the state that the first run left, with the events of the first
run in the past. -/
def secondRun (env : Env) (r : RPCStorageHandler) (fuel : Nat) (keys : List String)
    (orgId : String) (h : List Event) (s : State) : Run Unit :=
  ProcessKeySpaceChanges env r fuel keys orgId
    (h ++ (ProcessKeySpaceChanges env r fuel keys orgId h s).events)
    (ProcessKeySpaceChanges env r fuel keys orgId h s).state

/-- Whether an event is a call of RevokeToken. -/
def isRevokeToken : Event → Bool
  | .RevokeToken _ _ _ => true
  | _ => false

/-- The hint of the token type that the loop over the tokens to revoke derives
from the third segment of the change-key. -/
def tokenTypeHintOf (tokenActionTypeHint : String) : String :=
  if tokenActionTypeHint = OAuthRevokeAccessToken then "access_token"
  else if tokenActionTypeHint = OAuthRevokeRefreshToken then "refresh_token"
  else ""

/-- The call of RevokeToken for an entry (token, change-key) of the bucket of the
tokens to revoke: on the API of the second segment of the change-key, with the
hint of its third segment. -/
def revocationOf (p : String × String) : Event :=
  .RevokeToken (at0 (stringsSplit p.2 ':') 1) p.1
    (tokenTypeHintOf (at0 (stringsSplit p.2 ':') 2))

/-- The call of RevokeAllTokens for an entry (client id, change-key) of the
bucket of the clients to revoke: on the API of the first segment of the
change-key, with the secret of its third segment. -/
def revocationOfAll (p : String × String) : Event :=
  .RevokeAllTokens (at0 (stringsSplit p.2 ':') 0) p.1 (at0 (stringsSplit p.2 ':') 2)

/-- The local deletes that the last loop of ProcessKeySpaceChanges may call for
the key `key`, with the quota-reset flag `q`: for a hashed key, the delete of
its first segment; for any other key, the delete of the name under which it is
treated and, behind it, the delete of the token id of that name, which is made
when the first delete reports "not found" and the name yields a token id. -/
def localDeletesOf (env : Env) (orgId key : String) (q : Bool) : List Event :=
  if 1 < (stringsSplit key ':').length ∧ at0 (stringsSplit key ':') 1 = "hashed" then
    [.handleDeleteHashedKey (at0 (stringsSplit key ':') 0) orgId "" q]
  else
    .handleDeleteKey (processedKey env orgId key) orgId "-1" q ::
      (match env.TokenID (processedKey env orgId key) with
        | .ok id => [.handleDeleteKey id orgId "-1" q]
        | .error _ => [])

/-- The event is an event of a run of the body of one of the loops of
ProcessKeySpaceChanges, over the buckets `b` and the working keys `keys2`, or
the cluster notification of a keyspace update. The run of the body starts after
the events `h0` of the past and some events `pre` that follow them; a step of
the last loop is given the switch `sync` of the synchroniser. -/
def loopEvent (env : Env) (r : RPCStorageHandler) (fuel : Nat) (b : Buckets)
    (orgId : String) (keys2 : List String) (h0 : List Event) (sync : Bool) (e : Event) : Prop :=
  (∃ p ∈ b.userKeyResets, ∃ pre s2, e ∈ (userKeyResetStep env p (h0 ++ pre) s2).events) ∨
  (∃ p ∈ b.OauthClients, ∃ pre s2, e ∈ (oauthClientStep env p (h0 ++ pre) s2).events) ∨
  (∃ l ks pre s2, e ∈ (revokeClients env l ks (h0 ++ pre) s2).events) ∨
  (∃ p ∈ b.TokensToBeRevoked, ∃ pre s2,
    e ∈ (revokeTokenStep env r orgId p (h0 ++ pre) s2).events) ∨
  (∃ p ∈ b.CertificatesToRemove, ∃ pre s2,
    e ∈ (removeCertStep orgId p (h0 ++ pre) s2).events) ∨
  (∃ p ∈ b.CertificatesToAdd, ∃ pre s2, e ∈ (addCertStep env p (h0 ++ pre) s2).events) ∨
  (∃ key ∈ keys2, ∃ pre s2,
    e ∈ (regularKeyStep env r fuel b orgId sync key (h0 ++ pre) s2).events) ∨
  (∃ a ∈ b.apiIDsToDeleteCache, ∃ pre s2,
    e ∈ (invalidateStep env a (h0 ++ pre) s2).events) ∨
  (∃ payload, e = .Notify ⟨env.KeySpaceUpdateNotification, payload⟩)

/-- The status that the local deletes of a key that is not hashed end with, when
they start after the events `hist` and the key is treated under the name `k`:
the status of the delete of `k` or, when that is "not found" and `k` yields a
token id, the status of the delete of the token id, which is called after the
first delete. -/
def plainStatus (env : Env) (orgId k : String) (q : Bool) (hist : List Event) : Int :=
  if env.handleDeleteKey hist k orgId "-1" q = StatusNotFound then
    match env.TokenID k with
    | .ok id => env.handleDeleteKey (hist ++ [.handleDeleteKey k orgId "-1" q]) id orgId "-1" q
    | .error _ => StatusNotFound
  else env.handleDeleteKey hist k orgId "-1" q

/-- The status on which the last loop of ProcessKeySpaceChanges decides whether
to leave the key `key` alone, when its step starts after the events `hist` and
deletes with the quota-reset flag `q`: for a hashed key, the status of the
delete of its first segment; for any other key, the status that the deletes of
the name under which it is treated end with. -/
def lastStatus (env : Env) (orgId key : String) (q : Bool) (hist : List Event) : Int :=
  if 1 < (stringsSplit key ':').length ∧ at0 (stringsSplit key ':') 1 = "hashed" then
    env.handleDeleteHashedKey hist (at0 (stringsSplit key ':') 0) orgId "" q
  else plainStatus env orgId (processedKey env orgId key) q hist

/-- The name under which the last loop of ProcessKeySpaceChanges fetches the
session of a regular key from the remote: "apikey-" followed by the name under
which the key is treated, hashed by the gateway (`hashKeys` is the switch of its
configuration) unless the key is a hashed key. -/
def fetchedName (env : Env) (hashKeys : Bool) (orgId key : String) : String :=
  "apikey-" ++
    (if 1 < (stringsSplit key ':').length ∧ at0 (stringsSplit key ':') 1 = "hashed" then
      processedKey env orgId key
    else env.HashKey (processedKey env orgId key) hashKeys)

/-- The step of the last loop for the key `key` leaves an entry under `name` in
the global RPC cache when the RPC cache is enabled: the key is treated as a
regular key, its session is fetched under `name`, GetRawKey keeps what it
fetches under `name` in the global RPC cache, and the step evicts another
name. -/
def leavesEntry (env : Env) (r : RPCStorageHandler) (hashKeys : Bool) (b : Buckets)
    (orgId name key : String) : Prop :=
  isUserKeyReset b key = false ∧ key ∉ b.notRegularKeys ∧
    fetchedName env hashKeys orgId key = name ∧ selectedCache name = .RPCGlobalCache ∧
    r.KeyPrefix ++ processedKey env orgId key ≠ name

instance (env : Env) (r : RPCStorageHandler) (hashKeys : Bool) (b : Buckets)
    (orgId name key : String) : Decidable (leavesEntry env r hashKeys b orgId name key) := by
  unfold leavesEntry
  infer_instance

/-- The step of the last loop for the key `key` evicts what it fetches: when the
key is treated as a regular key, the name under which its session is fetched is
the name that the step evicts from the global RPC cache, and GetRawKey keeps
what it fetches under that name in the global RPC cache. -/
def evictsItsFetch (env : Env) (r : RPCStorageHandler) (hashKeys : Bool) (b : Buckets)
    (orgId key : String) : Prop :=
  isUserKeyReset b key = false → key ∉ b.notRegularKeys →
    fetchedName env hashKeys orgId key = r.KeyPrefix ++ processedKey env orgId key ∧
      selectedCache (fetchedName env hashKeys orgId key) = .RPCGlobalCache

instance (env : Env) (r : RPCStorageHandler) (hashKeys : Bool) (b : Buckets)
    (orgId key : String) : Decidable (evictsItsFetch env r hashKeys b orgId key) := by
  unfold evictsItsFetch
  infer_instance

/-! ## Concrete worlds, for the examples -/

/-- An empty cache with a default time to live of 30 seconds. -/
def Example.cache : Cache := ⟨30, []⟩

/-- A gateway with credential "user1", the RPC cache disabled, the synchroniser
disabled, no hashing, and empty caches. -/
def Example.state : State :=
  { config :=
      { SlaveOptions :=
          { APIKey := "user1", GroupID := "", EnableRPCCache := false,
            SynchroniserEnabled := false, DisableKeySpaceSync := false,
            KeySpaceSyncInterval := 10 },
        HashKeys := false, CheckDuration := 0, EdgeOriginalAPIKeyPath := "" },
    SessionCache := Example.cache,
    RPCGlobalCache := Example.cache,
    RPCCertCache := Example.cache }

/-- The handler with key prefix "apikey-" and no hashing. -/
def Example.handler : RPCStorageHandler :=
  { KeyPrefix := "apikey-", HashKeys := false, SuppressRegister := false }

/-- A remote that answers "Access Denied" to every method as long as fewer than
`n` calls of `rpc.Login` have been made, and succeeds from then on. -/
def Example.remote (n : Nat) : Remote :=
  { GetKey := fun h _ => if logins h < n then .error (.other "Access Denied") else .ok "v",
    SetKey := fun h _ => if logins h < n then .error (.other "Access Denied") else .ok (),
    GetExp := fun h _ => if logins h < n then .error (.other "Access Denied") else .ok 60,
    DeleteKey := fun h _ =>
      if logins h < n then .error (.other "Access Denied") else .ok true,
    DeleteRawKey := fun h _ =>
      if logins h < n then .error (.other "Access Denied") else .ok true,
    GetKeysAndValues := fun h _ =>
      if logins h < n then .error (.other "Access Denied")
      else .ok ⟨["apikey-foo1"], ["v1"]⟩,
    GetKeysAndValuesWithFilter := fun h _ =>
      if logins h < n then .error (.other "Access Denied")
      else .ok ⟨["apikey-foo1"], ["v1"]⟩,
    DeleteKeys := fun h _ =>
      if logins h < n then .error (.other "Access Denied") else .ok true,
    DeleteRawKeys := fun h _ =>
      if logins h < n then .error (.other "Access Denied") else .ok true,
    Decrement := fun h _ => if logins h < n then .error (.other "Access Denied") else .ok (),
    IncrememntWithExpire := fun h _ =>
      if logins h < n then .error (.other "Access Denied") else .ok (some 1),
    AppendToSet := fun h _ =>
      if logins h < n then .error (.other "Access Denied") else .ok (),
    SetRollingWindow := fun h _ =>
      if logins h < n then .error (.other "Access Denied") else .ok (some 1),
    GetApiDefinitions := fun h _ =>
      if logins h < n then .error (.other "Access Denied") else .ok (some "[]"),
    GetPolicies := fun h _ =>
      if logins h < n then .error (.other "Access Denied") else .ok (some "[]"),
    GetKeySpaceUpdate := fun h _ =>
      if logins h < n then .error (.other "Access Denied") else .ok none,
    GetGroupKeySpaceUpdate := fun h _ =>
      if logins h < n then .error (.other "Access Denied") else .ok none }

/-- A world in which every collaborator succeeds, every local delete reports
the status 200, hashing and token generation leave a key as it is, maps are
ranged over in the order of their entries, and the remote is `Example.remote n`. -/
def Example.env (n : Nat) : Env :=
  { remote := Example.remote n,
    Login := fun _ => true,
    IsEmergencyMode := fun _ => false,
    ctxDone := fun _ => false,
    now := fun _ => 0,
    Connect := fun _ => true,
    Notify := fun _ _ => true,
    GetStorageForApi := fun _ _ => none,
    GetClient := fun _ _ _ => none,
    SetClient := fun _ _ _ _ => none,
    DeleteClient := fun _ _ _ _ => none,
    RevokeAllTokens := fun _ _ _ _ => [],
    handleDeleteHashedKey := fun _ _ _ _ _ => 200,
    handleDeleteKey := fun _ _ _ _ _ => 200,
    CertGetRaw := fun _ _ => ("", none),
    invalidateAPICache := fun _ _ => true,
    HashStr := fun s => s,
    HashKey := fun s _ => s,
    TokenOrg := fun _ => "org1",
    TokenID := fun s => .ok s,
    generateToken := fun _ k => k,
    NoticeDeleteAPICache := "DeleteAPICache",
    NoticeUserKeyReset := "UserKeyReset",
    KeySpaceUpdateNotification := "KeySpaceUpdateNotification",
    rangeOrder := fun l => l,
    rangeOrder_perm := fun l => List.Perm.refl l }

/-- The handler with key prefix "prefix-" and no hashing. -/
def Example.handlerPrefix : RPCStorageHandler :=
  { KeyPrefix := "prefix-", HashKeys := false, SuppressRegister := false }

/-- The world of `Example.env 0` whose remote answers every filtered listing with
the one key "prefix-foo1" and the one value "v1". -/
def Example.envPrefix : Env :=
  { Example.env 0 with
    remote := { Example.remote 0 with
      GetKeysAndValuesWithFilter := fun _ _ => .ok ⟨["prefix-foo1"], ["v1"]⟩ } }

/-- The world of `Example.env 0` whose remote fails every call of GetKey, GetExp,
SetKey, DeleteRawKey and DeleteRawKeys with the error "connection refused", which
is not retriable. -/
def Example.envRefused : Env :=
  { Example.env 0 with
    remote := { Example.remote 0 with
      GetKey := fun _ _ => .error (.other "connection refused"),
      GetExp := fun _ _ => .error (.other "connection refused"),
      SetKey := fun _ _ => .error (.other "connection refused"),
      DeleteRawKey := fun _ _ => .error (.other "connection refused"),
      DeleteRawKeys := fun _ _ => .error (.other "connection refused") } }

/-- The world of `Example.env 0` in which every call of RevokeAllTokens returns
the tokens "t1" and "t2". -/
def Example.envTokens : Env :=
  { Example.env 0 with RevokeAllTokens := fun _ _ _ _ => ["t1", "t2"] }

/-- The world of `Example.env 0` in which the storage of no API is found. -/
def Example.envNoStorage : Env :=
  { Example.env 0 with GetStorageForApi := fun _ _ => some (.other "api not found") }

/-- The world of `Example.env 0` after the shutdown signal has fired: the
context of the gateway is done, whatever happens. -/
def Example.envShutdown : Env :=
  { Example.env 0 with ctxDone := fun _ => true }

/-- The gateway of `Example.state` with the RPC cache enabled. -/
def Example.stateCaching : State :=
  { Example.state with
    config := { Example.state.config with
      SlaveOptions := { Example.state.config.SlaveOptions with EnableRPCCache := true } } }

/-- The gateway of `Example.stateCaching` whose global RPC cache holds the string
"v" under the key "k", never to expire. -/
def Example.stateWithEntry : State :=
  { Example.stateCaching with RPCGlobalCache := ⟨30, [⟨"k", .str "v", 0⟩]⟩ }

/-- The world of `Example.env 0` in emergency mode. -/
def Example.envEmergency : Env :=
  { Example.env 0 with IsEmergencyMode := fun _ => true }

/-- The world of `Example.env 0` with a remote that fails every GetKey call with
an error that is not retriable. -/
def Example.envFailing : Env :=
  { Example.env 0 with
    remote := { Example.remote 0 with GetKey := fun _ _ => .error (.other "no such key") } }

/-- The world of `Example.env 0` in which the reconnection fails. -/
def Example.envNoConnect : Env :=
  { Example.env 0 with Connect := fun _ => false }

/-- The world of `Example.env 0` in which the local delete of a key reports
"not found" and the key yields no token id. -/
def Example.envNotFound : Env :=
  { Example.env 0 with
    handleDeleteKey := fun _ _ _ _ _ => 404,
    TokenID := fun _ => .error (.other "no token id") }

/-- The gateway of `Example.state` whose session cache holds an entry under "k1"
and whose global RPC cache holds the string "v" under "apikey-k1". -/
def Example.stateWithSession : State :=
  { Example.state with
    SessionCache := ⟨30, [⟨"k1", .other, 0⟩]⟩,
    RPCGlobalCache := ⟨30, [⟨"apikey-k1", .str "v", 0⟩]⟩ }

/-- The world of `Example.env 0` in which the gateway hashes a key `k` to
"h-" ++ `k` when hashing is enabled. -/
def Example.envHashing : Env :=
  { Example.env 0 with
    HashStr := fun s => "h-" ++ s,
    HashKey := fun s hashKeys => if hashKeys then "h-" ++ s else s }

/-- The handler of `Example.handler` with hashing enabled. -/
def Example.handlerHashing : RPCStorageHandler :=
  { Example.handler with HashKeys := true }

/-- The gateway of `Example.stateCaching` with hashing enabled. -/
def Example.stateHashing : State :=
  { Example.stateCaching with config := { Example.stateCaching.config with HashKeys := true } }

/-- The world of `Example.envNotFound` in which the local delete of a key
reports "not found" only as long as nothing has happened, and the status 200
from then on. -/
def Example.envFoundLater : Env :=
  { Example.envNotFound with
    handleDeleteKey := fun h _ _ _ _ => if h.isEmpty then 404 else 200 }

/-- The world of `Example.envNotFound` in which the local delete of a key
reports the status 200 as long as nothing has happened, and "not found" from
then on. -/
def Example.envGoneLater : Env :=
  { Example.envNotFound with
    handleDeleteKey := fun h _ _ _ _ => if h.isEmpty then 200 else 404 }

/-- The world of `Example.env 0` in which the storage of no API is found as long
as nothing has happened, and the storage of every API from then on. -/
def Example.envStorageLater : Env :=
  { Example.env 0 with
    GetStorageForApi := fun h _ => if h.isEmpty then some (.other "api not found") else none }

/-- The world of `Example.env 0` in which a call of RevokeAllTokens returns no
token as long as fewer than two events have happened, and the token "k1" from
then on. -/
def Example.envTokensLater : Env :=
  { Example.env 0 with
    RevokeAllTokens := fun h _ _ _ => if h.length < 2 then [] else ["k1"] }

/-- The world of `Example.env 0` whose clock advances by 100 seconds with every
event. -/
def Example.envClock : Env :=
  { Example.env 0 with now := fun h => h.length * 100 * second }

/-- The handler with key prefix "rpc.listener." and no hashing. -/
def Example.handlerListener : RPCStorageHandler :=
  { KeyPrefix := "rpc.listener.", HashKeys := false, SuppressRegister := false }

/-- The gateway of `Example.stateWithSession` with the RPC cache enabled. -/
def Example.stateCachingWithSession : State :=
  { Example.stateCaching with
    SessionCache := ⟨30, [⟨"k1", .other, 0⟩]⟩,
    RPCGlobalCache := ⟨30, [⟨"apikey-k1", .str "v", 0⟩]⟩ }

/-! # Properties -/

/-! ## Lemmas on strings -/

theorem isPrefixOf_iff_append (p l : List Char) :
    p.isPrefixOf l = true ↔ ∃ t, l = p ++ t := by
  rw [List.isPrefixOf_iff_prefix]
  constructor
  · rintro ⟨t, ht⟩
    exact ⟨t, ht.symm⟩
  · rintro ⟨t, ht⟩
    exact ⟨t, ht.symm⟩

theorem containsChars_iff (sub s : List Char) :
    containsChars sub s = true ↔ ∃ pre post, s = pre ++ sub ++ post := by
  induction s with
  | nil =>
    simp only [containsChars, List.isEmpty_iff]
    constructor
    · intro h
      exact ⟨[], [], by simp [h]⟩
    · rintro ⟨pre, post, h⟩
      have h2 := congrArg List.length h
      simp only [List.length_nil, List.length_append] at h2
      exact List.length_eq_zero.mp (by omega)
  | cons c cs ih =>
    simp only [containsChars, Bool.or_eq_true, ih, isPrefixOf_iff_append]
    constructor
    · rintro (⟨t, ht⟩ | ⟨pre, post, h⟩)
      · exact ⟨[], t, by simpa using ht⟩
      · exact ⟨c :: pre, post, by simp [h]⟩
    · rintro ⟨pre, post, h⟩
      cases pre with
      | nil => exact Or.inl ⟨post, by simpa using h⟩
      | cons d pre =>
        simp only [List.cons_append, List.cons.injEq] at h
        exact Or.inr ⟨pre, post, h.2⟩

theorem stringsContains_iff (s sub : String) :
    stringsContains s sub = true ↔ ∃ pre post : String, s = pre ++ sub ++ post := by
  unfold stringsContains
  rw [containsChars_iff]
  constructor
  · rintro ⟨pre, post, h⟩
    refine ⟨String.mk pre, String.mk post, ?_⟩
    apply String.ext
    simpa using h
  · rintro ⟨pre, post, h⟩
    refine ⟨pre.toList, post.toList, ?_⟩
    rw [h]
    simp

/-! ## Error classification -/

/-- C3: IsRetriableError is true exactly for a non-nil error whose message is
"Access Denied" or contains "Cannot obtain response during timeout"; it is false
for the nil error and for every other message. -/
theorem IsRetriableError_iff (err : Option GoError) :
    IsRetriableError err = true ↔
      ∃ e, err = some e ∧
        (e.Error = "Access Denied" ∨
          ∃ pre post : String,
            e.Error = pre ++ "Cannot obtain response during timeout" ++ post) := by
  cases err with
  | none => simp [IsRetriableError]
  | some e =>
    simp only [IsRetriableError, Option.some.injEq, exists_eq_left']
    rw [← stringsContains_iff]
    by_cases h1 : e.Error = "Access Denied"
    · simp [h1]
    · by_cases h2 : stringsContains e.Error "Cannot obtain response during timeout" = true
      · simp [h1, h2]
      · simp [h1, h2]

/-! ## Running a call -/

@[simp] theorem run_pure {α : Type} (a : α) (h : List Event) (s : State) :
    (pure a : M α) h s = ⟨.done a, s, []⟩ := rfl

@[simp] theorem run_emit (e : Event) (h : List Event) (s : State) :
    emit e h s = ⟨.done (), s, [e]⟩ := rfl

@[simp] theorem run_ask {β : Type} (g : List Event → β) (h : List Event) (s : State) :
    ask g h s = ⟨.done (g h), s, []⟩ := rfl

@[simp] theorem run_getState (h : List Event) (s : State) :
    getState h s = ⟨.done s, s, []⟩ := rfl

@[simp] theorem run_modifyState (g : State → State) (h : List Event) (s : State) :
    modifyState g h s = ⟨.done (), g s, []⟩ := rfl

@[simp] theorem run_goPanic {α : Type} (h : List Event) (s : State) :
    (goPanic : M α) h s = ⟨.panic, s, []⟩ := rfl

@[simp] theorem run_outOfFuel {α : Type} (h : List Event) (s : State) :
    (outOfFuel : M α) h s = ⟨.outOfFuel, s, []⟩ := rfl

@[simp] theorem Run.after_mk {α : Type} (o : Outcome α) (s : State) (e evs : List Event) :
    (Run.mk o s e).after evs = ⟨o, s, evs ++ e⟩ := rfl

@[simp] theorem Run.after_nil {α : Type} (run : Run α) : run.after [] = run := by
  cases run
  simp

@[simp] theorem Run.after_after {α : Type} (run : Run α) (e1 e2 : List Event) :
    (run.after e1).after e2 = run.after (e2 ++ e1) := by
  cases run
  simp

@[simp] theorem Run.after_out {α : Type} (run : Run α) (evs : List Event) :
    (run.after evs).out = run.out := rfl

@[simp] theorem Run.after_state {α : Type} (run : Run α) (evs : List Event) :
    (run.after evs).state = run.state := rfl

@[simp] theorem Run.after_events {α : Type} (run : Run α) (evs : List Event) :
    (run.after evs).events = evs ++ run.events := rfl

theorem bind_of_done {α β : Type} (m : M α) (f : α → M β) (h : List Event) (s s1 : State)
    (a : α) (e1 : List Event) (hm : m h s = ⟨.done a, s1, e1⟩) :
    (m >>= f) h s = (f a (h ++ e1) s1).after e1 := by
  show M.bind m f h s = _
  unfold M.bind
  rw [hm]
  dsimp only
  rcases f a (h ++ e1) s1 with ⟨o2, s2, e2⟩
  rfl

theorem bind_of_panic {α β : Type} (m : M α) (f : α → M β) (h : List Event) (s s1 : State)
    (e1 : List Event) (hm : m h s = ⟨.panic, s1, e1⟩) :
    (m >>= f) h s = ⟨.panic, s1, e1⟩ := by
  show M.bind m f h s = _
  unfold M.bind
  rw [hm]

theorem bind_of_outOfFuel {α β : Type} (m : M α) (f : α → M β) (h : List Event)
    (s s1 : State) (e1 : List Event) (hm : m h s = ⟨.outOfFuel, s1, e1⟩) :
    (m >>= f) h s = ⟨.outOfFuel, s1, e1⟩ := by
  show M.bind m f h s = _
  unfold M.bind
  rw [hm]

@[simp] theorem pure_bind_run {α β : Type} (a : α) (f : α → M β) (h : List Event)
    (s : State) : ((pure a : M α) >>= f) h s = f a h s := by
  rw [bind_of_done _ f h s s a [] rfl]
  simp

@[simp] theorem emit_bind_run {β : Type} (e : Event) (f : Unit → M β) (h : List Event)
    (s : State) : (emit e >>= f) h s = (f () (h ++ [e]) s).after [e] :=
  bind_of_done _ f h s s () [e] rfl

@[simp] theorem ask_bind_run {α β : Type} (g : List Event → α) (f : α → M β)
    (h : List Event) (s : State) : (ask g >>= f) h s = f (g h) h s := by
  rw [bind_of_done _ f h s s (g h) [] rfl]
  simp

@[simp] theorem getState_bind_run {β : Type} (f : State → M β) (h : List Event)
    (s : State) : (getState >>= f) h s = f s h s := by
  rw [bind_of_done _ f h s s s [] rfl]
  simp

@[simp] theorem modifyState_bind_run {β : Type} (g : State → State) (f : Unit → M β)
    (h : List Event) (s : State) : (modifyState g >>= f) h s = f () h (g s) := by
  rw [bind_of_done _ f h s (g s) () [] rfl]
  simp

@[simp] theorem goPanic_bind_run {α β : Type} (f : α → M β) (h : List Event) (s : State) :
    ((goPanic : M α) >>= f) h s = ⟨.panic, s, []⟩ :=
  bind_of_panic _ f h s s [] rfl

@[simp] theorem outOfFuel_bind_run {α β : Type} (f : α → M β) (h : List Event)
    (s : State) : ((outOfFuel : M α) >>= f) h s = ⟨.outOfFuel, s, []⟩ :=
  bind_of_outOfFuel _ f h s s [] rfl

@[simp] theorem bind_assoc_run {α β γ : Type} (m : M α) (g : α → M β) (f : β → M γ)
    (h : List Event) (s : State) :
    ((m >>= g) >>= f) h s = (m >>= fun a => g a >>= f) h s := by
  rcases hm : m h s with ⟨o, s1, e1⟩
  cases o with
  | done a =>
    rw [bind_of_done m _ h s s1 a e1 hm]
    rcases hg : g a (h ++ e1) s1 with ⟨o2, s2, e2⟩
    have h1 : (m >>= g) h s = ⟨o2, s2, e1 ++ e2⟩ := by
      rw [bind_of_done m g h s s1 a e1 hm, hg]
      rfl
    cases o2 with
    | done b =>
      rw [bind_of_done _ f h s s2 b (e1 ++ e2) h1, bind_of_done _ f (h ++ e1) s1 s2 b e2 hg]
      simp [List.append_assoc]
    | panic =>
      rw [bind_of_panic _ f h s s2 (e1 ++ e2) h1, bind_of_panic _ f (h ++ e1) s1 s2 e2 hg]
      rfl
    | outOfFuel =>
      rw [bind_of_outOfFuel _ f h s s2 (e1 ++ e2) h1,
        bind_of_outOfFuel _ f (h ++ e1) s1 s2 e2 hg]
      rfl
  | panic =>
    rw [bind_of_panic m _ h s s1 e1 hm,
      bind_of_panic _ f h s s1 e1 (bind_of_panic m g h s s1 e1 hm)]
  | outOfFuel =>
    rw [bind_of_outOfFuel m _ h s s1 e1 hm,
      bind_of_outOfFuel _ f h s s1 e1 (bind_of_outOfFuel m g h s s1 e1 hm)]

@[simp] theorem bind_pure_run {α : Type} (m : M α) (h : List Event) (s : State) :
    (m >>= fun a => (pure a : M α)) h s = m h s := by
  rcases hm : m h s with ⟨o, s1, e1⟩
  cases o with
  | done a => rw [bind_of_done m _ h s s1 a e1 hm]; simp
  | panic => rw [bind_of_panic m _ h s s1 e1 hm]
  | outOfFuel => rw [bind_of_outOfFuel m _ h s s1 e1 hm]

theorem Run.after_returned {α : Type} (run : Run α) (evs : List Event) :
    (run.after evs).returned ↔ run.returned := Iff.rfl

theorem Run.after_ended {α : Type} (run : Run α) (evs : List Event) :
    (run.after evs).ended ↔ run.ended := Iff.rfl

theorem Run.after_atMost {α : Type} (run : Run α) (evs : List Event) (l c : Nat)
    (hb : run.atMost l c) :
    (run.after evs).atMost (logins evs + l) (remoteCalls evs + c) := by
  simp only [Run.atMost, Run.after, logins, remoteCalls, List.count_append,
    List.countP_append] at *
  omega

/-! ## The rpc package and the caches -/

@[simp] theorem retry_false (env : Env) (err : Option GoError) (h : List Event) (s : State)
    (hr : IsRetriableError err = false) :
    retryAfterLogin env err h s = ⟨.done false, s, []⟩ := by
  simp [retryAfterLogin, hr]

@[simp] theorem retry_true (env : Env) (err : Option GoError) (h : List Event) (s : State)
    (hr : IsRetriableError err = true) :
    retryAfterLogin env err h s = ⟨.done (env.Login h), s, [.Login]⟩ := by
  simp [retryAfterLogin, hr, Login]

@[simp] theorem retry_false_bind {β : Type} (env : Env) (err : Option GoError)
    (f : Bool → M β) (h : List Event) (s : State) (hr : IsRetriableError err = false) :
    (retryAfterLogin env err >>= f) h s = f false h s := by
  rw [bind_of_done _ f h s s false [] (retry_false env err h s hr)]
  simp

@[simp] theorem retry_true_bind {β : Type} (env : Env) (err : Option GoError)
    (f : Bool → M β) (h : List Event) (s : State) (hr : IsRetriableError err = true) :
    (retryAfterLogin env err >>= f) h s =
      (f (env.Login h) (h ++ [.Login]) s).after [.Login] :=
  bind_of_done _ f h s s _ _ (retry_true env err h s hr)

@[simp] theorem IsRetriableError_none : IsRetriableError none = false := rfl

@[simp] theorem cacheGet_run (env : Env) (part : Partition) (key : String) (h : List Event)
    (s : State) :
    cacheGet env part key h s = ⟨.done ((s.cache part).Get (env.now h) key), s, []⟩ := by
  simp [cacheGet]

@[simp] theorem cacheSet_run (env : Env) (part : Partition) (key : String) (v : CacheVal)
    (t : Int) (h : List Event) (s : State) :
    cacheSet env part key v t h s =
      ⟨.done (), s.withCache part ((s.cache part).Set (env.now h) key v t),
        [.cacheSet part key v t]⟩ := by
  simp [cacheSet]

@[simp] theorem cacheDelete_run (part : Partition) (key : String) (h : List Event)
    (s : State) :
    cacheDelete part key h s =
      ⟨.done (), s.withCache part ((s.cache part).Delete key), [.cacheDelete part key]⟩ := by
  simp [cacheDelete]

/-! ## GetRawKey, case by case -/

theorem cachedValue_cases (env : Env) (key : String) (h : List Event) (s : State) :
    (∃ v, cachedValue env key h s = some (.str v)) ∨
      (∃ e, cachedValue env key h s = some (.err e)) ∨ cacheMiss env key h s := by
  unfold cacheMiss
  cases hv : cachedValue env key h s with
  | none => simp
  | some v => cases v <;> simp

theorem GetRawKey_hit_str (env : Env) (r : RPCStorageHandler) (fuel : Nat) (key : String)
    (h : List Event) (s : State) (v : String)
    (hv : cachedValue env key h s = some (.str v)) :
    GetRawKey env r (fuel + 1) key h s = ⟨.done (v, none), s, []⟩ := by
  unfold cachedValue at hv
  rw [GetRawKey.eq_2]
  cases hc : s.config.SlaveOptions.EnableRPCCache with
  | false => simp [hc] at hv
  | true =>
    simp only [hc, if_true] at hv
    simp [hc, cacheGet, hv]

theorem GetRawKey_hit_err (env : Env) (r : RPCStorageHandler) (fuel : Nat) (key : String)
    (h : List Event) (s : State) (e : GoError)
    (hv : cachedValue env key h s = some (.err e)) :
    GetRawKey env r (fuel + 1) key h s = ⟨.done ("", some e), s, []⟩ := by
  unfold cachedValue at hv
  rw [GetRawKey.eq_2]
  cases hc : s.config.SlaveOptions.EnableRPCCache with
  | false => simp [hc] at hv
  | true =>
    simp only [hc, if_true] at hv
    simp [hc, cacheGet, hv]

theorem GetRawKey_emergency (env : Env) (r : RPCStorageHandler) (fuel : Nat) (key : String)
    (h : List Event) (s : State) (hm : cacheMiss env key h s)
    (he : env.IsEmergencyMode h = true) :
    GetRawKey env r (fuel + 1) key h s = ⟨.done ("", some .ErrMDCBConnectionLost), s, []⟩ := by
  unfold cacheMiss cachedValue at hm
  rw [GetRawKey.eq_2]
  cases hc : s.config.SlaveOptions.EnableRPCCache with
  | false => simp [hc, he]
  | true =>
    simp only [hc, if_true] at hm
    rcases hm with hm | hm <;> simp [hc, cacheGet, hm, he]

theorem GetRawKey_ok (env : Env) (r : RPCStorageHandler) (fuel : Nat) (key : String)
    (h : List Event) (s : State) (value : String) (hm : cacheMiss env key h s)
    (he : env.IsEmergencyMode h = false) (hres : env.remote.GetKey h key = .ok value) :
    GetRawKey env r (fuel + 1) key h s =
      if s.config.SlaveOptions.EnableRPCCache then
        ⟨.done (value, none),
          s.withCache (selectedCache key)
            ((s.cache (selectedCache key)).Set (env.now (h ++ [.rpc "GetKey" (.str key)]))
              key (.str value) Cache.DefaultExpiration),
          [.rpc "GetKey" (.str key),
            .cacheSet (selectedCache key) key (.str value) Cache.DefaultExpiration]⟩
      else ⟨.done (value, none), s, [.rpc "GetKey" (.str key)]⟩ := by
  unfold cacheMiss cachedValue at hm
  rw [GetRawKey.eq_2]
  cases hc : s.config.SlaveOptions.EnableRPCCache with
  | false => simp [hc, he, FuncClientSingleton, hres]
  | true =>
    simp only [hc, if_true] at hm
    rcases hm with hm | hm <;>
      simp [hc, cacheGet, hm, he, FuncClientSingleton, hres, cacheSet]

theorem GetRawKey_fail (env : Env) (r : RPCStorageHandler) (fuel : Nat) (key : String)
    (h : List Event) (s : State) (err : GoError) (hm : cacheMiss env key h s)
    (he : env.IsEmergencyMode h = false) (hres : env.remote.GetKey h key = .error err)
    (hterm : IsRetriableError (some err) = false ∨
      env.Login (h ++ [.rpc "GetKey" (.str key),
        .emitError "GetKey" err [("keyName", key)]]) = false) :
    GetRawKey env r (fuel + 1) key h s =
      if s.config.SlaveOptions.EnableRPCCache then
        ⟨.done ("", some .ErrKeyNotFound),
          s.withCache (selectedCache key)
            ((s.cache (selectedCache key)).Set
              (env.now (h ++ ([Event.rpc "GetKey" (.str key),
                  .emitError "GetKey" err [("keyName", key)]]
                ++ (if IsRetriableError (some err) then [Event.Login] else []))))
              key (.err .ErrKeyNotFound) 1),
          [Event.rpc "GetKey" (.str key), .emitError "GetKey" err [("keyName", key)]]
            ++ (if IsRetriableError (some err) then [Event.Login] else [])
            ++ [.cacheSet (selectedCache key) key (.err .ErrKeyNotFound) 1]⟩
      else
        ⟨.done ("", some .ErrKeyNotFound), s,
          [Event.rpc "GetKey" (.str key), .emitError "GetKey" err [("keyName", key)]]
            ++ (if IsRetriableError (some err) then [Event.Login] else [])⟩ := by
  unfold cacheMiss cachedValue at hm
  rw [GetRawKey.eq_2]
  cases hr : IsRetriableError (some err) with
  | false =>
    cases hc : s.config.SlaveOptions.EnableRPCCache with
    | false => simp [hc, he, FuncClientSingleton, hres, EmitErrorEventKv, hr]
    | true =>
      simp only [hc, if_true] at hm
      rcases hm with hm | hm <;>
        simp [hc, cacheGet, hm, he, FuncClientSingleton, hres, cacheSet, EmitErrorEventKv, hr]
  | true =>
    have hl : env.Login (h ++ [.rpc "GetKey" (.str key),
        .emitError "GetKey" err [("keyName", key)]]) = false := by
      rcases hterm with h1 | h1
      · rw [hr] at h1; cases h1
      · exact h1
    cases hc : s.config.SlaveOptions.EnableRPCCache with
    | false => simp [hc, he, FuncClientSingleton, hres, EmitErrorEventKv, hr, hl]
    | true =>
      simp only [hc, if_true] at hm
      rcases hm with hm | hm <;>
        simp [hc, cacheGet, hm, he, FuncClientSingleton, hres, cacheSet, EmitErrorEventKv,
          hr, hl]

theorem GetRawKey_retry (env : Env) (r : RPCStorageHandler) (fuel : Nat) (key : String)
    (h : List Event) (s : State) (err : GoError) (hm : cacheMiss env key h s)
    (he : env.IsEmergencyMode h = false) (hres : env.remote.GetKey h key = .error err)
    (hr : IsRetriableError (some err) = true)
    (hl : env.Login (h ++ [.rpc "GetKey" (.str key),
        .emitError "GetKey" err [("keyName", key)]]) = true) :
    GetRawKey env r (fuel + 1) key h s =
      (GetRawKey env r fuel key
        (h ++ [.rpc "GetKey" (.str key), .emitError "GetKey" err [("keyName", key)], .Login])
        s).after
        [.rpc "GetKey" (.str key), .emitError "GetKey" err [("keyName", key)], .Login] := by
  unfold cacheMiss cachedValue at hm
  rw [GetRawKey.eq_2]
  cases hc : s.config.SlaveOptions.EnableRPCCache with
  | false => simp [hc, he, FuncClientSingleton, hres, EmitErrorEventKv, hr, hl]
  | true =>
    simp only [hc, if_true] at hm
    rcases hm with hm | hm <;>
      simp [hc, cacheGet, hm, he, FuncClientSingleton, hres, cacheSet, EmitErrorEventKv,
        hr, hl]

theorem GetRawKey_terminal (env : Env) (r : RPCStorageHandler) (fuel : Nat)
    (keyName : String) (h : List Event) (s : State)
    (hr : IsRetriableError (errOf (env.remote.GetKey h keyName)) = false) :
    (GetRawKey env r (fuel + 1) keyName h s).returned ∧
      (GetRawKey env r (fuel + 1) keyName h s).atMost 0 1 := by
  rcases cachedValue_cases env keyName h s with ⟨v, hv⟩ | ⟨e, hv⟩ | hm
  · rw [GetRawKey_hit_str env r fuel keyName h s v hv]
    simp [Run.returned, Run.atMost, logins, remoteCalls]
  · rw [GetRawKey_hit_err env r fuel keyName h s e hv]
    simp [Run.returned, Run.atMost, logins, remoteCalls]
  · cases he : env.IsEmergencyMode h with
    | true =>
      rw [GetRawKey_emergency env r fuel keyName h s hm he]
      simp [Run.returned, Run.atMost, logins, remoteCalls]
    | false =>
      cases hres : env.remote.GetKey h keyName with
      | ok value =>
        rw [GetRawKey_ok env r fuel keyName h s value hm he hres]
        split <;> simp [Run.returned, Run.atMost, logins, remoteCalls, isRpc]
      | error err =>
        rw [hres] at hr
        simp only [errOf] at hr
        rw [GetRawKey_fail env r fuel keyName h s err hm he hres (Or.inl hr)]
        simp only [hr]
        split <;> simp [Run.returned, Run.atMost, logins, remoteCalls, isRpc]

theorem GetRawKey_replay (env : Env) (r : RPCStorageHandler) (fuel : Nat)
    (keyName : String) (h : List Event) (s : State)
    (hr : ∀ h2, Event.Login ∈ h2 →
      IsRetriableError (errOf (env.remote.GetKey (h ++ h2) keyName)) = false) :
    (GetRawKey env r (fuel + 1 + 1) keyName h s).returned ∧
      (GetRawKey env r (fuel + 1 + 1) keyName h s).atMost 1 2 := by
  by_cases h1 : IsRetriableError (errOf (env.remote.GetKey h keyName)) = false
  · have ht := GetRawKey_terminal env r (fuel + 1) keyName h s h1
    exact ⟨ht.1, by have := ht.2; simp only [Run.atMost] at *; omega⟩
  · rcases cachedValue_cases env keyName h s with ⟨v, hv⟩ | ⟨e, hv⟩ | hm
    · rw [GetRawKey_hit_str env r (fuel + 1) keyName h s v hv]
      simp [Run.returned, Run.atMost, logins, remoteCalls]
    · rw [GetRawKey_hit_err env r (fuel + 1) keyName h s e hv]
      simp [Run.returned, Run.atMost, logins, remoteCalls]
    · cases he : env.IsEmergencyMode h with
      | true =>
        rw [GetRawKey_emergency env r (fuel + 1) keyName h s hm he]
        simp [Run.returned, Run.atMost, logins, remoteCalls]
      | false =>
        cases hres : env.remote.GetKey h keyName with
        | ok value => simp [hres, errOf, IsRetriableError] at h1
        | error err =>
          rw [hres] at h1
          simp only [errOf, Bool.not_eq_false] at h1
          cases hl : env.Login (h ++ [.rpc "GetKey" (.str keyName),
              .emitError "GetKey" err [("keyName", keyName)]]) with
          | false =>
            rw [GetRawKey_fail env r (fuel + 1) keyName h s err hm he hres (Or.inr hl)]
            simp only [h1]
            split <;> simp [Run.returned, Run.atMost, logins, remoteCalls, isRpc]
          | true =>
            rw [GetRawKey_retry env r (fuel + 1) keyName h s err hm he hres h1 hl]
            have ht := GetRawKey_terminal env r fuel keyName
              (h ++ [.rpc "GetKey" (.str keyName),
                .emitError "GetKey" err [("keyName", keyName)], .Login]) s
              (hr _ (by simp))
            refine ⟨(Run.after_returned _ _).mpr ht.1, ?_⟩
            have hb := Run.after_atMost _ [Event.rpc "GetKey" (.str keyName),
                .emitError "GetKey" err [("keyName", keyName)], .Login] 0 1 ht.2
            simpa [logins, remoteCalls, isRpc] using hb

/-- Against a remote that answers every GetKey call for the key with "Access
Denied", with every re-login succeeding, emergency mode off and the RPC cache
disabled, the call of GetRawKey does not return, whatever its fuel. -/
theorem GetRawKey_never_returns (env : Env) (r : RPCStorageHandler) (keyName : String)
    (s : State)
    (hdenied : ∀ h, env.remote.GetKey h keyName = .error (.other "Access Denied"))
    (hlogin : ∀ h, env.Login h = true) (hem : ∀ h, env.IsEmergencyMode h = false)
    (hc : s.config.SlaveOptions.EnableRPCCache = false) (fuel : Nat) (h : List Event) :
    (GetRawKey env r fuel keyName h s).out = .outOfFuel := by
  induction fuel generalizing h with
  | zero => rfl
  | succ n ih =>
    have hm : cacheMiss env keyName h s := by
      left
      simp [cachedValue, hc]
    rw [GetRawKey_retry env r n keyName h s (.other "Access Denied") hm (hem h) (hdenied h)
      (by decide) (hlogin _)]
    exact ih _

theorem GetExp_terminal (env : Env) (r : RPCStorageHandler) (fuel : Nat) (keyName : String)
    (h : List Event) (s : State)
    (hr : IsRetriableError (errOf (env.remote.GetExp h (fixKey env r keyName))) = false) :
    (GetExp env r (fuel + 1) keyName h s).returned ∧
      (GetExp env r (fuel + 1) keyName h s).atMost 0 1 := by
  cases hres : env.remote.GetExp h (fixKey env r keyName) with
  | ok v =>
    simp [GetExp, FuncClientSingleton, hres, logins, remoteCalls, isRpc, EmitErrorEventKv, Run.returned, Run.ended, Run.atMost, errOf, returnValuesOf]
  | error e =>
    rw [hres] at hr
    simp only [errOf] at hr
    simp [GetExp, FuncClientSingleton, hres, logins, remoteCalls, isRpc, EmitErrorEventKv, Run.returned, Run.ended, Run.atMost, errOf, returnValuesOf, hr]

theorem GetExp_replay (env : Env) (r : RPCStorageHandler) (fuel : Nat) (keyName : String)
    (h : List Event) (s : State)
    (hr : ∀ h2, Event.Login ∈ h2 → IsRetriableError (errOf (env.remote.GetExp (h ++ h2) (fixKey env r keyName))) = false) :
    (GetExp env r (fuel + 1 + 1) keyName h s).returned ∧
      (GetExp env r (fuel + 1 + 1) keyName h s).atMost 1 2 := by
  by_cases h1 : IsRetriableError (errOf (env.remote.GetExp h (fixKey env r keyName))) = false
  · have ht := GetExp_terminal env r (fuel + 1) keyName h s h1
    exact ⟨ht.1, by have := ht.2; simp only [Run.atMost] at *; omega⟩
  · cases hres : env.remote.GetExp h (fixKey env r keyName) with
    | ok v => simp [hres, errOf, IsRetriableError] at h1
    | error e =>
      rw [hres] at h1
      simp only [errOf, Bool.not_eq_false] at h1
      cases hl : env.Login (h ++ [.rpc "GetExp" (.str (fixKey env r keyName)), .emitError "GetExp" e [("keyName", keyName), ("fixedKeyName", fixKey env r keyName)]]) with
      | false =>
        rw [GetExp.eq_2]
        simp [FuncClientSingleton, hres, logins, remoteCalls, isRpc,
          EmitErrorEventKv, h1, hl, Run.returned, Run.ended, Run.atMost]
      | true =>
        have heq : GetExp env r (fuel + 1 + 1) keyName h s =
            (GetExp env r (fuel + 1) keyName (h ++ [.rpc "GetExp" (.str (fixKey env r keyName)), .emitError "GetExp" e [("keyName", keyName), ("fixedKeyName", fixKey env r keyName)], .Login]) s).after [.rpc "GetExp" (.str (fixKey env r keyName)), .emitError "GetExp" e [("keyName", keyName), ("fixedKeyName", fixKey env r keyName)], .Login] := by
          rw [GetExp.eq_2]
          simp [FuncClientSingleton, hres, EmitErrorEventKv, h1, hl]
        have ht := GetExp_terminal env r fuel keyName (h ++ [.rpc "GetExp" (.str (fixKey env r keyName)), .emitError "GetExp" e [("keyName", keyName), ("fixedKeyName", fixKey env r keyName)], .Login]) s
          (by simpa using hr [.rpc "GetExp" (.str (fixKey env r keyName)), .emitError "GetExp" e [("keyName", keyName), ("fixedKeyName", fixKey env r keyName)], .Login] (by simp))
        rw [heq]
        refine ⟨(Run.after_returned _ _).mpr ht.1, ?_⟩
        have hb := Run.after_atMost _ [.rpc "GetExp" (.str (fixKey env r keyName)), .emitError "GetExp" e [("keyName", keyName), ("fixedKeyName", fixKey env r keyName)], .Login] 0 1 ht.2
        simpa [logins, remoteCalls, isRpc] using hb

theorem SetKey_terminal (env : Env) (r : RPCStorageHandler) (fuel : Nat) (keyName session : String) (timeout : Int)
    (h : List Event) (s : State)
    (hr : IsRetriableError (errOf (env.remote.SetKey h { KeyName := fixKey env r keyName, SessionState := session, Timeout := timeout })) = false) :
    (SetKey env r (fuel + 1) keyName session timeout h s).returned ∧
      (SetKey env r (fuel + 1) keyName session timeout h s).atMost 0 1 := by
  cases hres : env.remote.SetKey h { KeyName := fixKey env r keyName, SessionState := session, Timeout := timeout } with
  | ok v =>
    simp [SetKey, FuncClientSingleton, hres, logins, remoteCalls, isRpc, EmitErrorEventKv, Run.returned, Run.ended, Run.atMost, errOf, returnValuesOf]
  | error e =>
    rw [hres] at hr
    simp only [errOf] at hr
    simp [SetKey, FuncClientSingleton, hres, logins, remoteCalls, isRpc, EmitErrorEventKv, Run.returned, Run.ended, Run.atMost, errOf, returnValuesOf, hr]

theorem SetKey_replay (env : Env) (r : RPCStorageHandler) (fuel : Nat) (keyName session : String) (timeout : Int)
    (h : List Event) (s : State)
    (hr : ∀ h2, Event.Login ∈ h2 → IsRetriableError (errOf (env.remote.SetKey (h ++ h2) { KeyName := fixKey env r keyName, SessionState := session, Timeout := timeout })) = false) :
    (SetKey env r (fuel + 1 + 1) keyName session timeout h s).returned ∧
      (SetKey env r (fuel + 1 + 1) keyName session timeout h s).atMost 1 2 := by
  by_cases h1 : IsRetriableError (errOf (env.remote.SetKey h { KeyName := fixKey env r keyName, SessionState := session, Timeout := timeout })) = false
  · have ht := SetKey_terminal env r (fuel + 1) keyName session timeout h s h1
    exact ⟨ht.1, by have := ht.2; simp only [Run.atMost] at *; omega⟩
  · cases hres : env.remote.SetKey h { KeyName := fixKey env r keyName, SessionState := session, Timeout := timeout } with
    | ok v => simp [hres, errOf, IsRetriableError] at h1
    | error e =>
      rw [hres] at h1
      simp only [errOf, Bool.not_eq_false] at h1
      cases hl : env.Login (h ++ [.rpc "SetKey" (.ibd { KeyName := fixKey env r keyName, SessionState := session, Timeout := timeout }), .emitError "SetKey" e [("keyName", keyName), ("fixedKeyName", fixKey env r keyName)]]) with
      | false =>
        rw [SetKey.eq_2]
        simp [FuncClientSingleton, hres, logins, remoteCalls, isRpc,
          EmitErrorEventKv, h1, hl, Run.returned, Run.ended, Run.atMost]
      | true =>
        have heq : SetKey env r (fuel + 1 + 1) keyName session timeout h s =
            (SetKey env r (fuel + 1) keyName session timeout (h ++ [.rpc "SetKey" (.ibd { KeyName := fixKey env r keyName, SessionState := session, Timeout := timeout }), .emitError "SetKey" e [("keyName", keyName), ("fixedKeyName", fixKey env r keyName)], .Login]) s).after [.rpc "SetKey" (.ibd { KeyName := fixKey env r keyName, SessionState := session, Timeout := timeout }), .emitError "SetKey" e [("keyName", keyName), ("fixedKeyName", fixKey env r keyName)], .Login] := by
          rw [SetKey.eq_2]
          simp [FuncClientSingleton, hres, EmitErrorEventKv, h1, hl]
        have ht := SetKey_terminal env r fuel keyName session timeout (h ++ [.rpc "SetKey" (.ibd { KeyName := fixKey env r keyName, SessionState := session, Timeout := timeout }), .emitError "SetKey" e [("keyName", keyName), ("fixedKeyName", fixKey env r keyName)], .Login]) s
          (by simpa using hr [.rpc "SetKey" (.ibd { KeyName := fixKey env r keyName, SessionState := session, Timeout := timeout }), .emitError "SetKey" e [("keyName", keyName), ("fixedKeyName", fixKey env r keyName)], .Login] (by simp))
        rw [heq]
        refine ⟨(Run.after_returned _ _).mpr ht.1, ?_⟩
        have hb := Run.after_atMost _ [.rpc "SetKey" (.ibd { KeyName := fixKey env r keyName, SessionState := session, Timeout := timeout }), .emitError "SetKey" e [("keyName", keyName), ("fixedKeyName", fixKey env r keyName)], .Login] 0 1 ht.2
        simpa [logins, remoteCalls, isRpc] using hb

theorem Decrement_terminal (env : Env) (r : RPCStorageHandler) (fuel : Nat) (keyName : String)
    (h : List Event) (s : State)
    (hr : IsRetriableError (errOf (env.remote.Decrement h keyName)) = false) :
    (Decrement env r (fuel + 1) keyName h s).returned ∧
      (Decrement env r (fuel + 1) keyName h s).atMost 0 1 := by
  cases hres : env.remote.Decrement h keyName with
  | ok v =>
    simp [Decrement, FuncClientSingleton, hres, logins, remoteCalls, isRpc, EmitErrorEventKv, Run.returned, Run.ended, Run.atMost, errOf, returnValuesOf]
  | error e =>
    rw [hres] at hr
    simp only [errOf] at hr
    simp [Decrement, FuncClientSingleton, hres, logins, remoteCalls, isRpc, EmitErrorEventKv, Run.returned, Run.ended, Run.atMost, errOf, returnValuesOf, hr]

theorem IncrememntWithExpire_terminal (env : Env) (r : RPCStorageHandler) (fuel : Nat) (keyName : String) (expire : Int)
    (h : List Event) (s : State)
    (hr : IsRetriableError (errOf (env.remote.IncrememntWithExpire h { KeyName := keyName, Expire := expire })) = false) :
    (IncrememntWithExpire env r (fuel + 1) keyName expire h s).returned ∧
      (IncrememntWithExpire env r (fuel + 1) keyName expire h s).atMost 0 1 := by
  cases hres : env.remote.IncrememntWithExpire h { KeyName := keyName, Expire := expire } with
  | ok v =>
    cases v <;> simp [IncrememntWithExpire, FuncClientSingleton, hres, logins, remoteCalls, isRpc, EmitErrorEventKv, Run.returned, Run.ended, Run.atMost, errOf, returnValuesOf]
  | error e =>
    rw [hres] at hr
    simp only [errOf] at hr
    simp [IncrememntWithExpire, FuncClientSingleton, hres, logins, remoteCalls, isRpc, EmitErrorEventKv, Run.returned, Run.ended, Run.atMost, errOf, returnValuesOf, hr]

theorem GetKeysAndValuesWithFilter_terminal (env : Env) (r : RPCStorageHandler) (fuel : Nat) (filter : String)
    (h : List Event) (s : State)
    (hr : IsRetriableError (errOf (env.remote.GetKeysAndValuesWithFilter h (r.KeyPrefix ++ hashKey env r filter ++ "*"))) = false) :
    (GetKeysAndValuesWithFilter env r (fuel + 1) filter h s).ended ∧
      (GetKeysAndValuesWithFilter env r (fuel + 1) filter h s).atMost 0 1 := by
  cases hres : env.remote.GetKeysAndValuesWithFilter h (r.KeyPrefix ++ hashKey env r filter ++ "*") with
  | ok v =>
    cases hcp : collectPairs r v.Keys v.Values [] <;> simp [GetKeysAndValuesWithFilter, FuncClientSingleton, hres, logins, remoteCalls, isRpc, EmitErrorEventKv, Run.returned, Run.ended, Run.atMost, errOf, returnValuesOf, hcp]
  | error e =>
    rw [hres] at hr
    simp only [errOf] at hr
    simp [GetKeysAndValuesWithFilter, FuncClientSingleton, hres, logins, remoteCalls, isRpc, EmitErrorEventKv, Run.returned, Run.ended, Run.atMost, errOf, returnValuesOf, hr]

theorem GetKeysAndValuesWithFilter_replay (env : Env) (r : RPCStorageHandler) (fuel : Nat) (filter : String)
    (h : List Event) (s : State)
    (hr : ∀ h2, Event.Login ∈ h2 → IsRetriableError (errOf (env.remote.GetKeysAndValuesWithFilter (h ++ h2) (r.KeyPrefix ++ hashKey env r filter ++ "*"))) = false) :
    (GetKeysAndValuesWithFilter env r (fuel + 1 + 1) filter h s).ended ∧
      (GetKeysAndValuesWithFilter env r (fuel + 1 + 1) filter h s).atMost 1 2 := by
  by_cases h1 : IsRetriableError (errOf (env.remote.GetKeysAndValuesWithFilter h (r.KeyPrefix ++ hashKey env r filter ++ "*"))) = false
  · have ht := GetKeysAndValuesWithFilter_terminal env r (fuel + 1) filter h s h1
    exact ⟨ht.1, by have := ht.2; simp only [Run.atMost] at *; omega⟩
  · cases hres : env.remote.GetKeysAndValuesWithFilter h (r.KeyPrefix ++ hashKey env r filter ++ "*") with
    | ok v => simp [hres, errOf, IsRetriableError] at h1
    | error e =>
      rw [hres] at h1
      simp only [errOf, Bool.not_eq_false] at h1
      cases hl : env.Login (h ++ [.rpc "GetKeysAndValuesWithFilter" (.str (r.KeyPrefix ++ hashKey env r filter ++ "*")), .emitError "GetKeysAndValuesWithFilter" e [("searchStr", r.KeyPrefix ++ hashKey env r filter ++ "*")]]) with
      | false =>
        rw [GetKeysAndValuesWithFilter.eq_2]
        simp [FuncClientSingleton, hres, logins, remoteCalls, isRpc,
          EmitErrorEventKv, h1, hl, Run.returned, Run.ended, Run.atMost]
      | true =>
        have heq : GetKeysAndValuesWithFilter env r (fuel + 1 + 1) filter h s =
            (GetKeysAndValuesWithFilter env r (fuel + 1) filter (h ++ [.rpc "GetKeysAndValuesWithFilter" (.str (r.KeyPrefix ++ hashKey env r filter ++ "*")), .emitError "GetKeysAndValuesWithFilter" e [("searchStr", r.KeyPrefix ++ hashKey env r filter ++ "*")], .Login]) s).after [.rpc "GetKeysAndValuesWithFilter" (.str (r.KeyPrefix ++ hashKey env r filter ++ "*")), .emitError "GetKeysAndValuesWithFilter" e [("searchStr", r.KeyPrefix ++ hashKey env r filter ++ "*")], .Login] := by
          rw [GetKeysAndValuesWithFilter.eq_2]
          simp [FuncClientSingleton, hres, EmitErrorEventKv, h1, hl]
        have ht := GetKeysAndValuesWithFilter_terminal env r fuel filter (h ++ [.rpc "GetKeysAndValuesWithFilter" (.str (r.KeyPrefix ++ hashKey env r filter ++ "*")), .emitError "GetKeysAndValuesWithFilter" e [("searchStr", r.KeyPrefix ++ hashKey env r filter ++ "*")], .Login]) s
          (by simpa using hr [.rpc "GetKeysAndValuesWithFilter" (.str (r.KeyPrefix ++ hashKey env r filter ++ "*")), .emitError "GetKeysAndValuesWithFilter" e [("searchStr", r.KeyPrefix ++ hashKey env r filter ++ "*")], .Login] (by simp))
        rw [heq]
        refine ⟨(Run.after_ended _ _).mpr ht.1, ?_⟩
        have hb := Run.after_atMost _ [.rpc "GetKeysAndValuesWithFilter" (.str (r.KeyPrefix ++ hashKey env r filter ++ "*")), .emitError "GetKeysAndValuesWithFilter" e [("searchStr", r.KeyPrefix ++ hashKey env r filter ++ "*")], .Login] 0 1 ht.2
        simpa [logins, remoteCalls, isRpc] using hb

theorem GetKeysAndValues_terminal (env : Env) (r : RPCStorageHandler) (fuel : Nat)
    (h : List Event) (s : State)
    (hr : IsRetriableError (errOf (env.remote.GetKeysAndValues h (r.KeyPrefix ++ "*"))) = false) :
    (GetKeysAndValues env r (fuel + 1) h s).ended ∧
      (GetKeysAndValues env r (fuel + 1) h s).atMost 0 1 := by
  cases hres : env.remote.GetKeysAndValues h (r.KeyPrefix ++ "*") with
  | ok v =>
    cases hcp : collectPairs r v.Keys v.Values [] <;> simp [GetKeysAndValues, FuncClientSingleton, hres, logins, remoteCalls, isRpc, EmitErrorEventKv, Run.returned, Run.ended, Run.atMost, errOf, returnValuesOf, hcp]
  | error e =>
    rw [hres] at hr
    simp only [errOf] at hr
    simp [GetKeysAndValues, FuncClientSingleton, hres, logins, remoteCalls, isRpc, EmitErrorEventKv, Run.returned, Run.ended, Run.atMost, errOf, returnValuesOf, hr]

theorem DeleteKey_terminal (env : Env) (r : RPCStorageHandler) (fuel : Nat) (keyName : String)
    (h : List Event) (s : State)
    (hr : IsRetriableError (errOf (env.remote.DeleteKey h (fixKey env r keyName))) = false) :
    (DeleteKey env r (fuel + 1) keyName h s).returned ∧
      (DeleteKey env r (fuel + 1) keyName h s).atMost 0 1 := by
  cases hres : env.remote.DeleteKey h (fixKey env r keyName) with
  | ok v =>
    simp [DeleteKey, FuncClientSingleton, hres, logins, remoteCalls, isRpc, EmitErrorEventKv, Run.returned, Run.ended, Run.atMost, errOf, returnValuesOf]
  | error e =>
    rw [hres] at hr
    simp only [errOf] at hr
    simp [DeleteKey, FuncClientSingleton, hres, logins, remoteCalls, isRpc, EmitErrorEventKv, Run.returned, Run.ended, Run.atMost, errOf, returnValuesOf, hr]

theorem DeleteKey_replay (env : Env) (r : RPCStorageHandler) (fuel : Nat) (keyName : String)
    (h : List Event) (s : State)
    (hr : ∀ h2, Event.Login ∈ h2 → IsRetriableError (errOf (env.remote.DeleteKey (h ++ h2) (fixKey env r keyName))) = false) :
    (DeleteKey env r (fuel + 1 + 1) keyName h s).returned ∧
      (DeleteKey env r (fuel + 1 + 1) keyName h s).atMost 1 2 := by
  by_cases h1 : IsRetriableError (errOf (env.remote.DeleteKey h (fixKey env r keyName))) = false
  · have ht := DeleteKey_terminal env r (fuel + 1) keyName h s h1
    exact ⟨ht.1, by have := ht.2; simp only [Run.atMost] at *; omega⟩
  · cases hres : env.remote.DeleteKey h (fixKey env r keyName) with
    | ok v => simp [hres, errOf, IsRetriableError] at h1
    | error e =>
      rw [hres] at h1
      simp only [errOf, Bool.not_eq_false] at h1
      cases hl : env.Login (h ++ [.rpc "DeleteKey" (.str (fixKey env r keyName)), .emitError "DeleteKey" e [("keyName", keyName), ("fixedKeyName", fixKey env r keyName)]]) with
      | false =>
        rw [DeleteKey.eq_2]
        simp [FuncClientSingleton, hres, logins, remoteCalls, isRpc,
          EmitErrorEventKv, h1, hl, Run.returned, Run.ended, Run.atMost]
      | true =>
        have heq : DeleteKey env r (fuel + 1 + 1) keyName h s =
            (DeleteKey env r (fuel + 1) keyName (h ++ [.rpc "DeleteKey" (.str (fixKey env r keyName)), .emitError "DeleteKey" e [("keyName", keyName), ("fixedKeyName", fixKey env r keyName)], .Login]) s).after [.rpc "DeleteKey" (.str (fixKey env r keyName)), .emitError "DeleteKey" e [("keyName", keyName), ("fixedKeyName", fixKey env r keyName)], .Login] := by
          rw [DeleteKey.eq_2]
          simp [FuncClientSingleton, hres, EmitErrorEventKv, h1, hl]
        have ht := DeleteKey_terminal env r fuel keyName (h ++ [.rpc "DeleteKey" (.str (fixKey env r keyName)), .emitError "DeleteKey" e [("keyName", keyName), ("fixedKeyName", fixKey env r keyName)], .Login]) s
          (by simpa using hr [.rpc "DeleteKey" (.str (fixKey env r keyName)), .emitError "DeleteKey" e [("keyName", keyName), ("fixedKeyName", fixKey env r keyName)], .Login] (by simp))
        rw [heq]
        refine ⟨(Run.after_returned _ _).mpr ht.1, ?_⟩
        have hb := Run.after_atMost _ [.rpc "DeleteKey" (.str (fixKey env r keyName)), .emitError "DeleteKey" e [("keyName", keyName), ("fixedKeyName", fixKey env r keyName)], .Login] 0 1 ht.2
        simpa [logins, remoteCalls, isRpc] using hb

theorem DeleteRawKeys_terminal (env : Env) (r : RPCStorageHandler) (fuel : Nat) (keys : List String)
    (h : List Event) (s : State)
    (hr : IsRetriableError (errOf (env.remote.DeleteRawKeys h keys)) = false) :
    (DeleteRawKeys env r (fuel + 1) keys h s).returned ∧
      (DeleteRawKeys env r (fuel + 1) keys h s).atMost 0 1 := by
  cases hres : env.remote.DeleteRawKeys h keys with
  | ok v =>
    simp [DeleteRawKeys, FuncClientSingleton, hres, logins, remoteCalls, isRpc, EmitErrorEventKv, Run.returned, Run.ended, Run.atMost, errOf, returnValuesOf]
  | error e =>
    rw [hres] at hr
    simp only [errOf] at hr
    simp [DeleteRawKeys, FuncClientSingleton, hres, logins, remoteCalls, isRpc, EmitErrorEventKv, Run.returned, Run.ended, Run.atMost, errOf, returnValuesOf, hr]

theorem DeleteRawKey_terminal (env : Env) (r : RPCStorageHandler) (fuel : Nat) (keyName : String)
    (h : List Event) (s : State)
    (hr : IsRetriableError (errOf (env.remote.DeleteRawKey h keyName)) = false) :
    (DeleteRawKey env r (fuel + 1) keyName h s).returned ∧
      (DeleteRawKey env r (fuel + 1) keyName h s).atMost 0 1 := by
  cases hres : env.remote.DeleteRawKey h keyName with
  | ok v =>
    simp [DeleteRawKey, FuncClientSingleton, hres, logins, remoteCalls, isRpc, EmitErrorEventKv, Run.returned, Run.ended, Run.atMost, errOf, returnValuesOf]
  | error e =>
    rw [hres] at hr
    simp only [errOf] at hr
    simp [DeleteRawKey, FuncClientSingleton, hres, logins, remoteCalls, isRpc, EmitErrorEventKv, Run.returned, Run.ended, Run.atMost, errOf, returnValuesOf, hr]

theorem DeleteKeys_terminal (env : Env) (r : RPCStorageHandler) (fuel : Nat) (keys : List String)
    (h : List Event) (s : State)
    (hr : IsRetriableError (errOf (env.remote.DeleteKeys h (keys.map (fixKey env r)))) = false) :
    (DeleteKeys env r (fuel + 1) keys h s).returned ∧
      (DeleteKeys env r (fuel + 1) keys h s).atMost 0 1 := by
  by_cases hk : 0 < keys.length
  swap
  · rw [DeleteKeys.eq_2]
    simp [hk, logins, remoteCalls, Run.returned, Run.atMost]
  cases hres : env.remote.DeleteKeys h (keys.map (fixKey env r)) with
  | ok v =>
    simp [DeleteKeys, FuncClientSingleton, hres, logins, remoteCalls, isRpc, EmitErrorEventKv, Run.returned, Run.ended, Run.atMost, errOf, returnValuesOf, hk]
  | error e =>
    rw [hres] at hr
    simp only [errOf] at hr
    simp [DeleteKeys, FuncClientSingleton, hres, logins, remoteCalls, isRpc, EmitErrorEventKv, Run.returned, Run.ended, Run.atMost, errOf, returnValuesOf, hk, hr]

theorem DeleteKeys_replay (env : Env) (r : RPCStorageHandler) (fuel : Nat) (keys : List String)
    (h : List Event) (s : State)
    (hr : ∀ h2, Event.Login ∈ h2 → IsRetriableError (errOf (env.remote.DeleteKeys (h ++ h2) (keys.map (fixKey env r)))) = false) :
    (DeleteKeys env r (fuel + 1 + 1) keys h s).returned ∧
      (DeleteKeys env r (fuel + 1 + 1) keys h s).atMost 1 2 := by
  by_cases hk : 0 < keys.length
  swap
  · rw [DeleteKeys.eq_2]
    simp [hk, logins, remoteCalls, Run.returned, Run.atMost]
  by_cases h1 : IsRetriableError (errOf (env.remote.DeleteKeys h (keys.map (fixKey env r)))) = false
  · have ht := DeleteKeys_terminal env r (fuel + 1) keys h s h1
    exact ⟨ht.1, by have := ht.2; simp only [Run.atMost] at *; omega⟩
  · cases hres : env.remote.DeleteKeys h (keys.map (fixKey env r)) with
    | ok v => simp [hres, errOf, IsRetriableError] at h1
    | error e =>
      rw [hres] at h1
      simp only [errOf, Bool.not_eq_false] at h1
      cases hl : env.Login (h ++ [.rpc "DeleteKeys" (.strs (keys.map (fixKey env r))), .emitError "DeleteKeys" e [("keys", stringsJoin keys ","), ("asInterface", stringsJoin (keys.map (fixKey env r)) ",")]]) with
      | false =>
        rw [DeleteKeys.eq_2]
        simp [FuncClientSingleton, hres, logins, remoteCalls, isRpc,
          EmitErrorEventKv, h1, hl, Run.returned, Run.ended, Run.atMost, hk]
      | true =>
        have heq : DeleteKeys env r (fuel + 1 + 1) keys h s =
            (DeleteKeys env r (fuel + 1) keys (h ++ [.rpc "DeleteKeys" (.strs (keys.map (fixKey env r))), .emitError "DeleteKeys" e [("keys", stringsJoin keys ","), ("asInterface", stringsJoin (keys.map (fixKey env r)) ",")], .Login]) s).after [.rpc "DeleteKeys" (.strs (keys.map (fixKey env r))), .emitError "DeleteKeys" e [("keys", stringsJoin keys ","), ("asInterface", stringsJoin (keys.map (fixKey env r)) ",")], .Login] := by
          rw [DeleteKeys.eq_2]
          simp [FuncClientSingleton, hres, EmitErrorEventKv, h1, hl, hk]
        have ht := DeleteKeys_terminal env r fuel keys (h ++ [.rpc "DeleteKeys" (.strs (keys.map (fixKey env r))), .emitError "DeleteKeys" e [("keys", stringsJoin keys ","), ("asInterface", stringsJoin (keys.map (fixKey env r)) ",")], .Login]) s
          (by simpa using hr [.rpc "DeleteKeys" (.strs (keys.map (fixKey env r))), .emitError "DeleteKeys" e [("keys", stringsJoin keys ","), ("asInterface", stringsJoin (keys.map (fixKey env r)) ",")], .Login] (by simp))
        rw [heq]
        refine ⟨(Run.after_returned _ _).mpr ht.1, ?_⟩
        have hb := Run.after_atMost _ [.rpc "DeleteKeys" (.strs (keys.map (fixKey env r))), .emitError "DeleteKeys" e [("keys", stringsJoin keys ","), ("asInterface", stringsJoin (keys.map (fixKey env r)) ",")], .Login] 0 1 ht.2
        simpa [logins, remoteCalls, isRpc] using hb

theorem AppendToSet_terminal (env : Env) (r : RPCStorageHandler) (fuel : Nat) (keyName value : String)
    (h : List Event) (s : State)
    (hr : IsRetriableError (errOf (env.remote.AppendToSet h { KeyName := keyName, Value := value })) = false) :
    (AppendToSet env r (fuel + 1) keyName value h s).returned ∧
      (AppendToSet env r (fuel + 1) keyName value h s).atMost 0 1 := by
  cases hres : env.remote.AppendToSet h { KeyName := keyName, Value := value } with
  | ok v =>
    simp [AppendToSet, FuncClientSingleton, hres, logins, remoteCalls, isRpc, EmitErrorEventKv, Run.returned, Run.ended, Run.atMost, errOf, returnValuesOf]
  | error e =>
    rw [hres] at hr
    simp only [errOf] at hr
    simp [AppendToSet, FuncClientSingleton, hres, logins, remoteCalls, isRpc, EmitErrorEventKv, Run.returned, Run.ended, Run.atMost, errOf, returnValuesOf, hr]

theorem SetRollingWindow_terminal (env : Env) (r : RPCStorageHandler) (fuel : Nat) (keyName : String) (per : Int) (val : String) (pipeline : Bool)
    (h : List Event) (s : State)
    (hr : IsRetriableError (errOf (env.remote.SetRollingWindow h { KeyName := keyName, Per := per, Expire := -1 })) = false) :
    (SetRollingWindow env r (fuel + 1) keyName per val pipeline h s).returned ∧
      (SetRollingWindow env r (fuel + 1) keyName per val pipeline h s).atMost 0 1 := by
  cases hres : env.remote.SetRollingWindow h { KeyName := keyName, Per := per, Expire := -1 } with
  | ok v =>
    cases v <;> simp [SetRollingWindow, FuncClientSingleton, hres, logins, remoteCalls, isRpc, EmitErrorEventKv, Run.returned, Run.ended, Run.atMost, errOf, returnValuesOf]
  | error e =>
    rw [hres] at hr
    simp only [errOf] at hr
    simp [SetRollingWindow, FuncClientSingleton, hres, logins, remoteCalls, isRpc, EmitErrorEventKv, Run.returned, Run.ended, Run.atMost, errOf, returnValuesOf, hr]

theorem GetApiDefinitions_terminal (env : Env) (r : RPCStorageHandler) (fuel : Nat) (orgId : String) (tags : List String)
    (h : List Event) (s : State)
    (hr : IsRetriableError (errOf (env.remote.GetApiDefinitions h { OrgId := orgId, Tags := tags, LoadOAS := true })) = false) :
    (GetApiDefinitions env r (fuel + 1) orgId tags h s).returned ∧
      (GetApiDefinitions env r (fuel + 1) orgId tags h s).atMost 0 1 := by
  cases hres : env.remote.GetApiDefinitions h { OrgId := orgId, Tags := tags, LoadOAS := true } with
  | ok v =>
    cases v <;> simp [GetApiDefinitions, FuncClientSingleton, hres, logins, remoteCalls, isRpc, EmitErrorEventKv, Run.returned, Run.ended, Run.atMost, errOf, returnValuesOf]
  | error e =>
    rw [hres] at hr
    simp only [errOf] at hr
    simp [GetApiDefinitions, FuncClientSingleton, hres, logins, remoteCalls, isRpc, EmitErrorEventKv, Run.returned, Run.ended, Run.atMost, errOf, returnValuesOf, hr]

theorem GetPolicies_terminal (env : Env) (r : RPCStorageHandler) (fuel : Nat) (orgId : String)
    (h : List Event) (s : State)
    (hr : IsRetriableError (errOf (env.remote.GetPolicies h orgId)) = false) :
    (GetPolicies env r (fuel + 1) orgId h s).returned ∧
      (GetPolicies env r (fuel + 1) orgId h s).atMost 0 1 := by
  cases hres : env.remote.GetPolicies h orgId with
  | ok v =>
    cases v <;> simp [GetPolicies, FuncClientSingleton, hres, logins, remoteCalls, isRpc, EmitErrorEventKv, Run.returned, Run.ended, Run.atMost, errOf, returnValuesOf]
  | error e =>
    rw [hres] at hr
    simp only [errOf] at hr
    simp [GetPolicies, FuncClientSingleton, hres, logins, remoteCalls, isRpc, EmitErrorEventKv, Run.returned, Run.ended, Run.atMost, errOf, returnValuesOf, hr]

theorem Run.ended_of_returned {α : Type} (run : Run α) (hret : run.returned) : run.ended := by
  obtain ⟨a, ha⟩ := hret
  simp [Run.ended, ha]

/-! ## No re-login without a retriable error -/

/-- C2: for each of the fifteen operations of the facade, started with any
fuel, in any state and after any events: when the reply of the remote to the
call is a success or an error that IsRetriableError does not accept, the
operation ends, performs no `rpc.Login` and performs at most one remote call. -/
theorem no_login_without_retriable_error (env : Env) (r : RPCStorageHandler) (fuel : Nat)
    (h : List Event) (s : State) :
    (∀ (keyName : String),
        IsRetriableError (errOf (env.remote.GetKey h keyName)) = false →
        (GetRawKey env r (fuel + 1) keyName h s).ended ∧
          (GetRawKey env r (fuel + 1) keyName h s).atMost 0 1) ∧
    (∀ (keyName : String),
        IsRetriableError (errOf (env.remote.GetExp h (fixKey env r keyName))) = false →
        (GetExp env r (fuel + 1) keyName h s).ended ∧
          (GetExp env r (fuel + 1) keyName h s).atMost 0 1) ∧
    (∀ (keyName session : String) (timeout : Int),
        IsRetriableError (errOf (env.remote.SetKey h { KeyName := fixKey env r keyName, SessionState := session, Timeout := timeout })) = false →
        (SetKey env r (fuel + 1) keyName session timeout h s).ended ∧
          (SetKey env r (fuel + 1) keyName session timeout h s).atMost 0 1) ∧
    (∀ (keyName : String),
        IsRetriableError (errOf (env.remote.Decrement h keyName)) = false →
        (Decrement env r (fuel + 1) keyName h s).ended ∧
          (Decrement env r (fuel + 1) keyName h s).atMost 0 1) ∧
    (∀ (keyName : String) (expire : Int),
        IsRetriableError (errOf (env.remote.IncrememntWithExpire h { KeyName := keyName, Expire := expire })) = false →
        (IncrememntWithExpire env r (fuel + 1) keyName expire h s).ended ∧
          (IncrememntWithExpire env r (fuel + 1) keyName expire h s).atMost 0 1) ∧
    (∀ (filter : String),
        IsRetriableError (errOf (env.remote.GetKeysAndValuesWithFilter h (r.KeyPrefix ++ hashKey env r filter ++ "*"))) = false →
        (GetKeysAndValuesWithFilter env r (fuel + 1) filter h s).ended ∧
          (GetKeysAndValuesWithFilter env r (fuel + 1) filter h s).atMost 0 1) ∧
    (IsRetriableError (errOf (env.remote.GetKeysAndValues h (r.KeyPrefix ++ "*"))) = false →
        (GetKeysAndValues env r (fuel + 1) h s).ended ∧
          (GetKeysAndValues env r (fuel + 1) h s).atMost 0 1) ∧
    (∀ (keyName : String),
        IsRetriableError (errOf (env.remote.DeleteKey h (fixKey env r keyName))) = false →
        (DeleteKey env r (fuel + 1) keyName h s).ended ∧
          (DeleteKey env r (fuel + 1) keyName h s).atMost 0 1) ∧
    (∀ (keys : List String),
        IsRetriableError (errOf (env.remote.DeleteRawKeys h keys)) = false →
        (DeleteRawKeys env r (fuel + 1) keys h s).ended ∧
          (DeleteRawKeys env r (fuel + 1) keys h s).atMost 0 1) ∧
    (∀ (keyName : String),
        IsRetriableError (errOf (env.remote.DeleteRawKey h keyName)) = false →
        (DeleteRawKey env r (fuel + 1) keyName h s).ended ∧
          (DeleteRawKey env r (fuel + 1) keyName h s).atMost 0 1) ∧
    (∀ (keys : List String),
        IsRetriableError (errOf (env.remote.DeleteKeys h (keys.map (fixKey env r)))) = false →
        (DeleteKeys env r (fuel + 1) keys h s).ended ∧
          (DeleteKeys env r (fuel + 1) keys h s).atMost 0 1) ∧
    (∀ (keyName value : String),
        IsRetriableError (errOf (env.remote.AppendToSet h { KeyName := keyName, Value := value })) = false →
        (AppendToSet env r (fuel + 1) keyName value h s).ended ∧
          (AppendToSet env r (fuel + 1) keyName value h s).atMost 0 1) ∧
    (∀ (keyName : String) (per : Int) (val : String) (pipeline : Bool),
        IsRetriableError (errOf (env.remote.SetRollingWindow h { KeyName := keyName, Per := per, Expire := -1 })) = false →
        (SetRollingWindow env r (fuel + 1) keyName per val pipeline h s).ended ∧
          (SetRollingWindow env r (fuel + 1) keyName per val pipeline h s).atMost 0 1) ∧
    (∀ (orgId : String) (tags : List String),
        IsRetriableError (errOf (env.remote.GetApiDefinitions h { OrgId := orgId, Tags := tags, LoadOAS := true })) = false →
        (GetApiDefinitions env r (fuel + 1) orgId tags h s).ended ∧
          (GetApiDefinitions env r (fuel + 1) orgId tags h s).atMost 0 1) ∧
    (∀ (orgId : String),
        IsRetriableError (errOf (env.remote.GetPolicies h orgId)) = false →
        (GetPolicies env r (fuel + 1) orgId h s).ended ∧
          (GetPolicies env r (fuel + 1) orgId h s).atMost 0 1) := by
  refine ⟨?_, ?_, ?_, ?_, ?_, ?_, ?_, ?_, ?_, ?_, ?_, ?_, ?_, ?_, ?_⟩
  · intro keyName hr
    exact ⟨Run.ended_of_returned _ (GetRawKey_terminal env r fuel keyName h s hr).1,
      (GetRawKey_terminal env r fuel keyName h s hr).2⟩
  · intro keyName hr
    exact ⟨Run.ended_of_returned _ (GetExp_terminal env r fuel keyName h s hr).1,
      (GetExp_terminal env r fuel keyName h s hr).2⟩
  · intro keyName session timeout hr
    exact ⟨Run.ended_of_returned _ (SetKey_terminal env r fuel keyName session timeout h s hr).1,
      (SetKey_terminal env r fuel keyName session timeout h s hr).2⟩
  · intro keyName hr
    exact ⟨Run.ended_of_returned _ (Decrement_terminal env r fuel keyName h s hr).1,
      (Decrement_terminal env r fuel keyName h s hr).2⟩
  · intro keyName expire hr
    exact ⟨Run.ended_of_returned _ (IncrememntWithExpire_terminal env r fuel keyName expire h s hr).1,
      (IncrememntWithExpire_terminal env r fuel keyName expire h s hr).2⟩
  · intro filter hr
    exact GetKeysAndValuesWithFilter_terminal env r fuel filter h s hr
  · intro hr
    exact GetKeysAndValues_terminal env r fuel h s hr
  · intro keyName hr
    exact ⟨Run.ended_of_returned _ (DeleteKey_terminal env r fuel keyName h s hr).1,
      (DeleteKey_terminal env r fuel keyName h s hr).2⟩
  · intro keys hr
    exact ⟨Run.ended_of_returned _ (DeleteRawKeys_terminal env r fuel keys h s hr).1,
      (DeleteRawKeys_terminal env r fuel keys h s hr).2⟩
  · intro keyName hr
    exact ⟨Run.ended_of_returned _ (DeleteRawKey_terminal env r fuel keyName h s hr).1,
      (DeleteRawKey_terminal env r fuel keyName h s hr).2⟩
  · intro keys hr
    exact ⟨Run.ended_of_returned _ (DeleteKeys_terminal env r fuel keys h s hr).1,
      (DeleteKeys_terminal env r fuel keys h s hr).2⟩
  · intro keyName value hr
    exact ⟨Run.ended_of_returned _ (AppendToSet_terminal env r fuel keyName value h s hr).1,
      (AppendToSet_terminal env r fuel keyName value h s hr).2⟩
  · intro keyName per val pipeline hr
    exact ⟨Run.ended_of_returned _ (SetRollingWindow_terminal env r fuel keyName per val pipeline h s hr).1,
      (SetRollingWindow_terminal env r fuel keyName per val pipeline h s hr).2⟩
  · intro orgId tags hr
    exact ⟨Run.ended_of_returned _ (GetApiDefinitions_terminal env r fuel orgId tags h s hr).1,
      (GetApiDefinitions_terminal env r fuel orgId tags h s hr).2⟩
  · intro orgId hr
    exact ⟨Run.ended_of_returned _ (GetPolicies_terminal env r fuel orgId h s hr).1,
      (GetPolicies_terminal env r fuel orgId h s hr).2⟩

/-- C2, at a remote that answers every call with a success: each operation
ends with no `rpc.Login` and at most one remote call. -/
theorem no_login_without_retriable_error_witness :
    ((GetRawKey (Example.env 0) Example.handler 1 "k" [] Example.state).ended ∧ (GetRawKey (Example.env 0) Example.handler 1 "k" [] Example.state).atMost 0 1) ∧
    ((GetExp (Example.env 0) Example.handler 1 "k" [] Example.state).ended ∧ (GetExp (Example.env 0) Example.handler 1 "k" [] Example.state).atMost 0 1) ∧
    ((SetKey (Example.env 0) Example.handler 1 "0000" "0000" 10 [] Example.state).ended ∧ (SetKey (Example.env 0) Example.handler 1 "0000" "0000" 10 [] Example.state).atMost 0 1) ∧
    ((Decrement (Example.env 0) Example.handler 1 "k" [] Example.state).ended ∧ (Decrement (Example.env 0) Example.handler 1 "k" [] Example.state).atMost 0 1) ∧
    ((IncrememntWithExpire (Example.env 0) Example.handler 1 "k" 60 [] Example.state).ended ∧ (IncrememntWithExpire (Example.env 0) Example.handler 1 "k" 60 [] Example.state).atMost 0 1) ∧
    ((GetKeysAndValuesWithFilter (Example.env 0) Example.handler 1 "foo" [] Example.state).ended ∧ (GetKeysAndValuesWithFilter (Example.env 0) Example.handler 1 "foo" [] Example.state).atMost 0 1) ∧
    ((GetKeysAndValues (Example.env 0) Example.handler 1 [] Example.state).ended ∧ (GetKeysAndValues (Example.env 0) Example.handler 1 [] Example.state).atMost 0 1) ∧
    ((DeleteKey (Example.env 0) Example.handler 1 "k" [] Example.state).ended ∧ (DeleteKey (Example.env 0) Example.handler 1 "k" [] Example.state).atMost 0 1) ∧
    ((DeleteRawKeys (Example.env 0) Example.handler 1 ["k"] [] Example.state).ended ∧ (DeleteRawKeys (Example.env 0) Example.handler 1 ["k"] [] Example.state).atMost 0 1) ∧
    ((DeleteRawKey (Example.env 0) Example.handler 1 "k" [] Example.state).ended ∧ (DeleteRawKey (Example.env 0) Example.handler 1 "k" [] Example.state).atMost 0 1) ∧
    ((DeleteKeys (Example.env 0) Example.handler 1 ["k"] [] Example.state).ended ∧ (DeleteKeys (Example.env 0) Example.handler 1 ["k"] [] Example.state).atMost 0 1) ∧
    ((AppendToSet (Example.env 0) Example.handler 1 "k" "v" [] Example.state).ended ∧ (AppendToSet (Example.env 0) Example.handler 1 "k" "v" [] Example.state).atMost 0 1) ∧
    ((SetRollingWindow (Example.env 0) Example.handler 1 "k" 60 "v" false [] Example.state).ended ∧ (SetRollingWindow (Example.env 0) Example.handler 1 "k" 60 "v" false [] Example.state).atMost 0 1) ∧
    ((GetApiDefinitions (Example.env 0) Example.handler 1 "org1" [] [] Example.state).ended ∧ (GetApiDefinitions (Example.env 0) Example.handler 1 "org1" [] [] Example.state).atMost 0 1) ∧
    ((GetPolicies (Example.env 0) Example.handler 1 "org1" [] Example.state).ended ∧ (GetPolicies (Example.env 0) Example.handler 1 "org1" [] Example.state).atMost 0 1) :=
  ⟨(no_login_without_retriable_error (Example.env 0) Example.handler 0 [] Example.state).1 "k" rfl,
    (no_login_without_retriable_error (Example.env 0) Example.handler 0 [] Example.state).2.1 "k" rfl,
    (no_login_without_retriable_error (Example.env 0) Example.handler 0 [] Example.state).2.2.1 "0000" "0000" 10 rfl,
    (no_login_without_retriable_error (Example.env 0) Example.handler 0 [] Example.state).2.2.2.1 "k" rfl,
    (no_login_without_retriable_error (Example.env 0) Example.handler 0 [] Example.state).2.2.2.2.1 "k" 60 rfl,
    (no_login_without_retriable_error (Example.env 0) Example.handler 0 [] Example.state).2.2.2.2.2.1 "foo" rfl,
    (no_login_without_retriable_error (Example.env 0) Example.handler 0 [] Example.state).2.2.2.2.2.2.1 rfl,
    (no_login_without_retriable_error (Example.env 0) Example.handler 0 [] Example.state).2.2.2.2.2.2.2.1 "k" rfl,
    (no_login_without_retriable_error (Example.env 0) Example.handler 0 [] Example.state).2.2.2.2.2.2.2.2.1 ["k"] rfl,
    (no_login_without_retriable_error (Example.env 0) Example.handler 0 [] Example.state).2.2.2.2.2.2.2.2.2.1 "k" rfl,
    (no_login_without_retriable_error (Example.env 0) Example.handler 0 [] Example.state).2.2.2.2.2.2.2.2.2.2.1 ["k"] rfl,
    (no_login_without_retriable_error (Example.env 0) Example.handler 0 [] Example.state).2.2.2.2.2.2.2.2.2.2.2.1 "k" "v" rfl,
    (no_login_without_retriable_error (Example.env 0) Example.handler 0 [] Example.state).2.2.2.2.2.2.2.2.2.2.2.2.1 "k" 60 "v" false rfl,
    (no_login_without_retriable_error (Example.env 0) Example.handler 0 [] Example.state).2.2.2.2.2.2.2.2.2.2.2.2.2.1 "org1" [] rfl,
    (no_login_without_retriable_error (Example.env 0) Example.handler 0 [] Example.state).2.2.2.2.2.2.2.2.2.2.2.2.2.2 "org1" rfl⟩

/-! ## The retry bound -/

/-- C1, as stated, fails: a remote that answers "Access Denied" to the first two
GetKey calls, with every re-login succeeding, makes one call of GetRawKey log in
twice and call the remote three times before it returns; and against a remote
that goes on answering "Access Denied" the call has not returned after six
calls and six re-logins, when its fuel is spent. -/
theorem GetRawKey_replays_more_than_once :
    (GetRawKey (Example.env 2) Example.handler 5 "k" [] Example.state).out
        = .done ("v", none) ∧
      logins (GetRawKey (Example.env 2) Example.handler 5 "k" [] Example.state).events = 2 ∧
      remoteCalls (GetRawKey (Example.env 2) Example.handler 5 "k" [] Example.state).events
        = 3 ∧
      (GetRawKey (Example.env 100) Example.handler 6 "k" [] Example.state).out
        = .outOfFuel ∧
      logins (GetRawKey (Example.env 100) Example.handler 6 "k" [] Example.state).events
        = 6 := by
  decide

/-- C1 (amended): when the remote answers no retriable error once the operation
has logged in again (so that the replay, if there is one, ends the call), one
call of GetRawKey, SetKey, GetExp, DeleteKey or DeleteKeys returns, and one call
of GetKeysAndValuesWithFilter ends, after at most one `rpc.Login` and at most
two remote calls. This holds for every fuel of at least two, every state and
every earlier events. -/
theorem retry_bound_when_replay_ends (env : Env) (r : RPCStorageHandler) (fuel : Nat)
    (h : List Event) (s : State) :
    (∀ (keyName : String),
        (∀ h2, Event.Login ∈ h2 →
          IsRetriableError (errOf (env.remote.GetKey (h ++ h2) keyName)) = false) →
        (GetRawKey env r (fuel + 1 + 1) keyName h s).returned ∧
          (GetRawKey env r (fuel + 1 + 1) keyName h s).atMost 1 2) ∧
    (∀ (keyName session : String) (timeout : Int),
        (∀ h2, Event.Login ∈ h2 →
          IsRetriableError (errOf (env.remote.SetKey (h ++ h2) { KeyName := fixKey env r keyName, SessionState := session, Timeout := timeout })) = false) →
        (SetKey env r (fuel + 1 + 1) keyName session timeout h s).returned ∧
          (SetKey env r (fuel + 1 + 1) keyName session timeout h s).atMost 1 2) ∧
    (∀ (keyName : String),
        (∀ h2, Event.Login ∈ h2 →
          IsRetriableError (errOf (env.remote.GetExp (h ++ h2) (fixKey env r keyName))) = false) →
        (GetExp env r (fuel + 1 + 1) keyName h s).returned ∧
          (GetExp env r (fuel + 1 + 1) keyName h s).atMost 1 2) ∧
    (∀ (keyName : String),
        (∀ h2, Event.Login ∈ h2 →
          IsRetriableError (errOf (env.remote.DeleteKey (h ++ h2) (fixKey env r keyName))) = false) →
        (DeleteKey env r (fuel + 1 + 1) keyName h s).returned ∧
          (DeleteKey env r (fuel + 1 + 1) keyName h s).atMost 1 2) ∧
    (∀ (keys : List String),
        (∀ h2, Event.Login ∈ h2 →
          IsRetriableError (errOf (env.remote.DeleteKeys (h ++ h2) (keys.map (fixKey env r)))) = false) →
        (DeleteKeys env r (fuel + 1 + 1) keys h s).returned ∧
          (DeleteKeys env r (fuel + 1 + 1) keys h s).atMost 1 2) ∧
    (∀ (filter : String),
        (∀ h2, Event.Login ∈ h2 →
          IsRetriableError (errOf (env.remote.GetKeysAndValuesWithFilter (h ++ h2) (r.KeyPrefix ++ hashKey env r filter ++ "*"))) = false) →
        (GetKeysAndValuesWithFilter env r (fuel + 1 + 1) filter h s).ended ∧
          (GetKeysAndValuesWithFilter env r (fuel + 1 + 1) filter h s).atMost 1 2) := by
  refine ⟨?_, ?_, ?_, ?_, ?_, ?_⟩
  · intro keyName hr
    exact GetRawKey_replay env r fuel keyName h s hr
  · intro keyName session timeout hr
    exact SetKey_replay env r fuel keyName session timeout h s hr
  · intro keyName hr
    exact GetExp_replay env r fuel keyName h s hr
  · intro keyName hr
    exact DeleteKey_replay env r fuel keyName h s hr
  · intro keys hr
    exact DeleteKeys_replay env r fuel keys h s hr
  · intro filter hr
    exact GetKeysAndValuesWithFilter_replay env r fuel filter h s hr

theorem Example.logins_pos (h2 : List Event) (hl : Event.Login ∈ h2) :
    logins h2 ≠ 0 := by
  have := List.count_pos_iff.mpr hl
  simp only [logins]
  omega

/-- C1 (amended), at a remote that answers "Access Denied" until the first
re-login and succeeds after it: each of the six operations makes at most one
`rpc.Login` and at most two remote calls. -/
theorem retry_bound_when_replay_ends_witness :
    ((GetRawKey (Example.env 1) Example.handler 2 "k" [] Example.state).returned ∧
      (GetRawKey (Example.env 1) Example.handler 2 "k" [] Example.state).atMost 1 2) ∧
    ((SetKey (Example.env 1) Example.handler 2 "0000" "0000" 10 [] Example.state).returned ∧
      (SetKey (Example.env 1) Example.handler 2 "0000" "0000" 10 [] Example.state).atMost 1 2) ∧
    ((GetExp (Example.env 1) Example.handler 2 "k" [] Example.state).returned ∧
      (GetExp (Example.env 1) Example.handler 2 "k" [] Example.state).atMost 1 2) ∧
    ((DeleteKey (Example.env 1) Example.handler 2 "k" [] Example.state).returned ∧
      (DeleteKey (Example.env 1) Example.handler 2 "k" [] Example.state).atMost 1 2) ∧
    ((DeleteKeys (Example.env 1) Example.handler 2 ["k"] [] Example.state).returned ∧
      (DeleteKeys (Example.env 1) Example.handler 2 ["k"] [] Example.state).atMost 1 2) ∧
    ((GetKeysAndValuesWithFilter (Example.env 1) Example.handler 2 "foo" [] Example.state).ended ∧
      (GetKeysAndValuesWithFilter (Example.env 1) Example.handler 2 "foo" [] Example.state).atMost 1 2) :=
  ⟨(retry_bound_when_replay_ends (Example.env 1) Example.handler 0 [] Example.state).1 "k"
      (by intro h2 hl; have := Example.logins_pos h2 hl; simp [Example.env, Example.remote, this, errOf]),
    (retry_bound_when_replay_ends (Example.env 1) Example.handler 0 [] Example.state).2.1 "0000" "0000" 10
      (by intro h2 hl; have := Example.logins_pos h2 hl; simp [Example.env, Example.remote, this, errOf]),
    (retry_bound_when_replay_ends (Example.env 1) Example.handler 0 [] Example.state).2.2.1 "k"
      (by intro h2 hl; have := Example.logins_pos h2 hl; simp [Example.env, Example.remote, this, errOf]),
    (retry_bound_when_replay_ends (Example.env 1) Example.handler 0 [] Example.state).2.2.2.1 "k"
      (by intro h2 hl; have := Example.logins_pos h2 hl; simp [Example.env, Example.remote, this, errOf]),
    (retry_bound_when_replay_ends (Example.env 1) Example.handler 0 [] Example.state).2.2.2.2.1 ["k"]
      (by intro h2 hl; have := Example.logins_pos h2 hl; simp [Example.env, Example.remote, this, errOf]),
    (retry_bound_when_replay_ends (Example.env 1) Example.handler 0 [] Example.state).2.2.2.2.2 "foo"
      (by intro h2 hl; have := Example.logins_pos h2 hl; simp [Example.env, Example.remote, this, errOf])⟩

/-! ## The cache in front of GetKey -/

theorem State.cache_withCache (s : State) (p : Partition) (c : Cache) :
    (s.withCache p c).cache p = c := by
  cases p <;> rfl

theorem State.config_withCache (s : State) (p : Partition) (c : Cache) :
    (s.withCache p c).config = s.config := by
  cases p <;> rfl

theorem Cache.Get_Set (c : Cache) (t now : Nat) (key : String) (v : CacheVal) (timeout : Int) :
    (c.Set t key v timeout).Get now key =
      if 0 < (if timeout = Cache.DefaultExpiration then c.expiration else timeout) ∧
          t + (if timeout = Cache.DefaultExpiration then c.expiration else timeout).toNat
            * second < now
      then none else some v := by
  simp only [Cache.Get, Cache.Set, List.find?_cons, decide_True]
  generalize (if timeout = Cache.DefaultExpiration then c.expiration else timeout) = x
  by_cases hpos : 0 < x
  · by_cases hlt : t + x.toNat * second < now
    · have h0 : 0 < t + x.toNat * second := by
        simp only [second] at *
        omega
      simp [hpos, hlt, h0]
    · simp [hpos, hlt]
  · simp [hpos]

theorem Cache.Get_Set_one (c : Cache) (t now : Nat) (key : String) (v : CacheVal)
    (hlive : now ≤ t + 1 * second) : (c.Set t key v 1).Get now key = some v := by
  rw [Cache.Get_Set]
  have h1 : ¬ ((1 : Int) = Cache.DefaultExpiration) := by decide
  rw [if_neg h1, if_neg]
  rintro ⟨_, hlt⟩
  have h2 : (1 : Int).toNat = 1 := rfl
  rw [h2] at hlt
  omega

/-- C4: with the RPC cache enabled, emergency mode off and no live entry for the
key in the selected cache: when the remote GetKey fails and the failure is
terminal (the error is not retriable, or the re-login fails), GetRawKey returns
("", ErrKeyNotFound) and leaves the selected cache with ErrKeyNotFound stored
under the key with a time to live of 1 second, set at some time t; any later
call of GetRawKey for the key, in any world, at a time up to t + 1 second,
returns the same ("", ErrKeyNotFound) with no event at all, hence with no remote
call. When the remote GetKey succeeds, GetRawKey returns the value and leaves it
stored under the key with `cache.DefaultExpiration`, the default of the cache. -/
theorem negative_caching (env : Env) (r : RPCStorageHandler) (fuel : Nat)
    (keyName : String) (h : List Event) (s : State)
    (hc : s.config.SlaveOptions.EnableRPCCache = true)
    (he : env.IsEmergencyMode h = false)
    (hmiss : (s.cache (selectedCache keyName)).Get (env.now h) keyName = none) :
    (∀ err, env.remote.GetKey h keyName = .error err →
      (IsRetriableError (some err) = false ∨
        env.Login (h ++ [.rpc "GetKey" (.str keyName),
          .emitError "GetKey" err [("keyName", keyName)]]) = false) →
      ∃ t,
        (GetRawKey env r (fuel + 1) keyName h s).out = .done ("", some .ErrKeyNotFound) ∧
        (GetRawKey env r (fuel + 1) keyName h s).state =
          s.withCache (selectedCache keyName)
            ((s.cache (selectedCache keyName)).Set t keyName (.err .ErrKeyNotFound) 1) ∧
        Event.cacheSet (selectedCache keyName) keyName (.err .ErrKeyNotFound) 1 ∈
          (GetRawKey env r (fuel + 1) keyName h s).events ∧
        ∀ (env2 : Env) (fuel2 : Nat) (h2 : List Event), env2.now h2 ≤ t + 1 * second →
          GetRawKey env2 r (fuel2 + 1) keyName h2 (GetRawKey env r (fuel + 1) keyName h s).state
            = ⟨.done ("", some .ErrKeyNotFound),
                (GetRawKey env r (fuel + 1) keyName h s).state, []⟩) ∧
    (∀ value, env.remote.GetKey h keyName = .ok value →
      ∃ t,
        (GetRawKey env r (fuel + 1) keyName h s).out = .done (value, none) ∧
        (GetRawKey env r (fuel + 1) keyName h s).state =
          s.withCache (selectedCache keyName)
            ((s.cache (selectedCache keyName)).Set t keyName (.str value)
              Cache.DefaultExpiration) ∧
        Event.cacheSet (selectedCache keyName) keyName (.str value) Cache.DefaultExpiration ∈
          (GetRawKey env r (fuel + 1) keyName h s).events) := by
  have hm : cacheMiss env keyName h s := by
    left
    simp [cachedValue, hc, hmiss]
  constructor
  · intro err hres hterm
    rw [GetRawKey_fail env r fuel keyName h s err hm he hres hterm, if_pos hc]
    refine ⟨_, rfl, rfl, by simp, ?_⟩
    intro env2 fuel2 h2 hlive
    apply GetRawKey_hit_err
    simp only [cachedValue, State.config_withCache, hc, if_true, State.cache_withCache]
    exact Cache.Get_Set_one _ _ _ _ _ hlive
  · intro value hres
    rw [GetRawKey_ok env r fuel keyName h s value hm he hres, if_pos hc]
    exact ⟨_, rfl, rfl, by simp⟩

/-- C4, at a gateway with the cache enabled and empty: against a remote whose
GetKey fails with an error that is not retriable the failure is cached for one
second, and against a remote whose GetKey succeeds the value is cached. -/
theorem negative_caching_witness :
    (∃ t,
      (GetRawKey Example.envFailing Example.handler 1 "k" [] Example.stateCaching).out
        = .done ("", some .ErrKeyNotFound) ∧
      (GetRawKey Example.envFailing Example.handler 1 "k" [] Example.stateCaching).state =
        Example.stateCaching.withCache (selectedCache "k")
          ((Example.stateCaching.cache (selectedCache "k")).Set t "k"
            (.err .ErrKeyNotFound) 1) ∧
      Event.cacheSet (selectedCache "k") "k" (.err .ErrKeyNotFound) 1 ∈
        (GetRawKey Example.envFailing Example.handler 1 "k" [] Example.stateCaching).events ∧
      ∀ (env2 : Env) (fuel2 : Nat) (h2 : List Event), env2.now h2 ≤ t + 1 * second →
        GetRawKey env2 Example.handler (fuel2 + 1) "k" h2
            (GetRawKey Example.envFailing Example.handler 1 "k" [] Example.stateCaching).state
          = ⟨.done ("", some .ErrKeyNotFound),
              (GetRawKey Example.envFailing Example.handler 1 "k" []
                Example.stateCaching).state, []⟩) ∧
    (∃ t,
      (GetRawKey (Example.env 0) Example.handler 1 "k" [] Example.stateCaching).out
        = .done ("v", none) ∧
      (GetRawKey (Example.env 0) Example.handler 1 "k" [] Example.stateCaching).state =
        Example.stateCaching.withCache (selectedCache "k")
          ((Example.stateCaching.cache (selectedCache "k")).Set t "k" (.str "v")
            Cache.DefaultExpiration) ∧
      Event.cacheSet (selectedCache "k") "k" (.str "v") Cache.DefaultExpiration ∈
        (GetRawKey (Example.env 0) Example.handler 1 "k" [] Example.stateCaching).events) :=
  ⟨(negative_caching Example.envFailing Example.handler 0 "k" [] Example.stateCaching
      rfl rfl (by decide)).1 (.other "no such key") rfl (Or.inl (by decide)),
   (negative_caching (Example.env 0) Example.handler 0 "k" [] Example.stateCaching
      rfl rfl (by decide)).2 "v" rfl⟩

/-! ## Emergency mode -/

/-- C5, as stated, fails: with the RPC cache enabled and the string "v" cached
under the key, GetRawKey in emergency mode returns ("v", nil), not the error
ErrMDCBConnectionLost. -/
theorem GetRawKey_emergency_serves_cache :
    (GetRawKey Example.envEmergency Example.handler 1 "k" [] Example.stateWithEntry).out
      = .done ("v", none) := by
  decide

/-- C5 (amended): in emergency mode GetRawKey, and GetKey through it, cause no
event at all, hence no remote call, and leave the state as it is, for every key
and every cache state; they return ErrMDCBConnectionLost when the cache lookup
does not end the call (the RPC cache is disabled or holds no live string or
error under the key), and return the cached string or cached error otherwise. -/
theorem emergency_mode_short_circuit (env : Env) (r : RPCStorageHandler) (fuel : Nat)
    (keyName : String) (h : List Event) (s : State)
    (he : env.IsEmergencyMode h = true) :
    ((GetRawKey env r (fuel + 1) keyName h s).events = [] ∧
      (GetRawKey env r (fuel + 1) keyName h s).state = s ∧
      (cacheMiss env keyName h s →
        (GetRawKey env r (fuel + 1) keyName h s).out
          = .done ("", some .ErrMDCBConnectionLost)) ∧
      (∀ v, cachedValue env keyName h s = some (.str v) →
        (GetRawKey env r (fuel + 1) keyName h s).out = .done (v, none)) ∧
      (∀ e, cachedValue env keyName h s = some (.err e) →
        (GetRawKey env r (fuel + 1) keyName h s).out = .done ("", some e))) ∧
    ((GetKey env r (fuel + 1) keyName h s).events = [] ∧
      (GetKey env r (fuel + 1) keyName h s).state = s ∧
      (cacheMiss env (fixKey env r keyName) h s →
        (GetKey env r (fuel + 1) keyName h s).out
          = .done ("", some .ErrMDCBConnectionLost))) := by
  have key : ∀ k : String,
      (GetRawKey env r (fuel + 1) k h s).events = [] ∧
      (GetRawKey env r (fuel + 1) k h s).state = s ∧
      (cacheMiss env k h s →
        (GetRawKey env r (fuel + 1) k h s).out = .done ("", some .ErrMDCBConnectionLost)) ∧
      (∀ v, cachedValue env k h s = some (.str v) →
        (GetRawKey env r (fuel + 1) k h s).out = .done (v, none)) ∧
      (∀ e, cachedValue env k h s = some (.err e) →
        (GetRawKey env r (fuel + 1) k h s).out = .done ("", some e)) := by
    intro k
    rcases cachedValue_cases env k h s with ⟨v, hv⟩ | ⟨e, hv⟩ | hm
    · rw [GetRawKey_hit_str env r fuel k h s v hv]
      refine ⟨rfl, rfl, ?_, ?_, ?_⟩
      · intro hm
        rcases hm with hm | hm <;> rw [hv] at hm <;> cases hm
      · intro v2 hv2
        rw [hv] at hv2
        cases hv2
        rfl
      · intro e hv2
        rw [hv] at hv2
        cases hv2
    · rw [GetRawKey_hit_err env r fuel k h s e hv]
      refine ⟨rfl, rfl, ?_, ?_, ?_⟩
      · intro hm
        rcases hm with hm | hm <;> rw [hv] at hm <;> cases hm
      · intro v2 hv2
        rw [hv] at hv2
        cases hv2
      · intro e2 hv2
        rw [hv] at hv2
        cases hv2
        rfl
    · rw [GetRawKey_emergency env r fuel k h s hm he]
      refine ⟨rfl, rfl, fun _ => rfl, ?_, ?_⟩
      · intro v hv
        rcases hm with hm | hm <;> rw [hv] at hm <;> cases hm
      · intro e hv
        rcases hm with hm | hm <;> rw [hv] at hm <;> cases hm
  refine ⟨key keyName, ?_⟩
  have hk := key (fixKey env r keyName)
  exact ⟨hk.1, hk.2.1, hk.2.2.1⟩

/-- C5 (amended), in emergency mode with the RPC cache disabled: GetRawKey and
GetKey return ErrMDCBConnectionLost and cause no event. -/
theorem emergency_mode_short_circuit_witness :
    (GetRawKey Example.envEmergency Example.handler 1 "k" [] Example.state).events = [] ∧
      (GetRawKey Example.envEmergency Example.handler 1 "k" [] Example.state).out
        = .done ("", some .ErrMDCBConnectionLost) ∧
      (GetKey Example.envEmergency Example.handler 1 "k" [] Example.state).events = [] ∧
      (GetKey Example.envEmergency Example.handler 1 "k" [] Example.state).out
        = .done ("", some .ErrMDCBConnectionLost) :=
  ⟨(emergency_mode_short_circuit Example.envEmergency Example.handler 0 "k" []
      Example.state rfl).1.1,
   (emergency_mode_short_circuit Example.envEmergency Example.handler 0 "k" []
      Example.state rfl).1.2.2.1 (Or.inl rfl),
   (emergency_mode_short_circuit Example.envEmergency Example.handler 0 "k" []
      Example.state rfl).2.1,
   (emergency_mode_short_circuit Example.envEmergency Example.handler 0 "k" []
      Example.state rfl).2.2.2 (Or.inl rfl)⟩

/-! ## Splitting a string -/

theorem splitChars_ne_nil (sep : Char) (l : List Char) : splitChars sep l ≠ [] := by
  induction l with
  | nil => simp [splitChars]
  | cons c cs ih =>
    unfold splitChars
    split
    · simp
    · split <;> simp

theorem splitChars_of_not_mem (sep : Char) (l : List Char) (hl : sep ∉ l) :
    splitChars sep l = [l] := by
  induction l with
  | nil => rfl
  | cons c cs ih =>
    have hc : c ≠ sep := fun hEq => hl (by simp [hEq])
    have hcs : sep ∉ cs := fun hmem => hl (by simp [hmem])
    unfold splitChars
    rw [if_neg hc, ih hcs]

theorem splitChars_append (sep : Char) (a b : List Char) :
    splitChars sep (a ++ sep :: b) = splitChars sep a ++ splitChars sep b := by
  induction a with
  | nil => simp [splitChars]
  | cons c cs ih =>
    by_cases hc : c = sep
    · simp only [List.cons_append, splitChars, hc, if_true, ih]
      simp only [← hc] at ih ⊢
      simp [ih]
    · rw [List.cons_append, splitChars, if_neg hc, ih, splitChars, if_neg hc]
      cases hcs : splitChars sep cs with
      | nil => exact absurd hcs (splitChars_ne_nil sep cs)
      | cons seg rest => simp

theorem splitChars_append_of_not_mem (sep : Char) (a b : List Char) (ha : sep ∉ a) :
    splitChars sep (a ++ sep :: b) = a :: splitChars sep b := by
  rw [splitChars_append, splitChars_of_not_mem sep a ha]
  rfl

theorem stringsSplit_ne_nil (s : String) (sep : Char) : stringsSplit s sep ≠ [] := by
  simp [stringsSplit, splitChars_ne_nil]

theorem stringsSplit_of_not_mem (s : String) (sep : Char) (hs : sep ∉ s.toList) :
    stringsSplit s sep = [s] := by
  unfold stringsSplit
  rw [splitChars_of_not_mem sep s.toList hs]
  rfl

theorem stringsSplit_append (a b : String) (sep : Char) :
    stringsSplit (a ++ String.singleton sep ++ b) sep = stringsSplit a sep ++ stringsSplit b sep := by
  simp only [stringsSplit, String.toList, String.data_append, String.singleton,
    List.append_assoc, List.singleton_append]
  rw [show String.data (String.push "" sep) = [sep] from rfl]
  simp [splitChars_append]

theorem stringsSplit_append_of_not_mem (a b : String) (sep : Char) (ha : sep ∉ a.toList) :
    stringsSplit (a ++ String.singleton sep ++ b) sep = a :: stringsSplit b sep := by
  rw [stringsSplit_append, stringsSplit_of_not_mem a sep ha]
  rfl

theorem stringsContains_append_left (t sub : String) :
    stringsContains (t ++ sub) sub = true := by
  rw [stringsContains_iff]
  exact ⟨t, "", by simp⟩

theorem stringsJoin_singleton (k sep : String) : stringsJoin [k] sep = k := rfl

theorem Env.rangeOrder_nil (env : Env) : env.rangeOrder [] = [] :=
  List.Perm.eq_nil (env.rangeOrder_perm [])

theorem Env.rangeOrder_singleton (env : Env) (p : String × String) :
    env.rangeOrder [p] = [p] :=
  List.perm_singleton.mp (env.rangeOrder_perm [p])

/-! ## The reconciler on a hashed token -/

theorem at0_last (l : List String) (x : String) : at0 (l ++ [x]) ((l ++ [x]).length - 1) = x := by
  simp [at0, List.getD_eq_getElem?_getD]

theorem hashedKey_split (t a : String) (ht : ':' ∉ t.toList) :
    stringsSplit (t ++ "#hashed:" ++ a ++ ":oAuthRevokeAccessToken") ':' =
      (t ++ "#hashed") :: (stringsSplit a ':' ++ ["oAuthRevokeAccessToken"]) := by
  have hkey : t ++ "#hashed:" ++ a ++ ":oAuthRevokeAccessToken" =
      (t ++ "#hashed") ++ String.singleton ':' ++
        (a ++ String.singleton ':' ++ "oAuthRevokeAccessToken") := by
    apply String.ext
    simp [String.singleton]
  have h1 : ':' ∉ (t ++ "#hashed").toList := by
    simp only [String.toList, String.data_append, List.mem_append, not_or]
    exact ⟨ht, by decide⟩
  rw [hkey, stringsSplit_append_of_not_mem _ _ _ h1, stringsSplit_append]
  rfl

theorem hashedToken_split (t : String) (ht : '#' ∉ t.toList) :
    stringsSplit (t ++ "#hashed") '#' = [t, "hashed"] := by
  have hkey : t ++ "#hashed" = t ++ String.singleton '#' ++ "hashed" := by
    apply String.ext
    simp [String.singleton]
  rw [hkey, stringsSplit_append_of_not_mem _ _ _ ht]
  rfl

theorem classify_hashedKey (env : Env) (t a : String) (ht : ':' ∉ t.toList) :
    classify env [t ++ "#hashed:" ++ a ++ ":oAuthRevokeAccessToken"] =
      { Buckets.empty with
        TokensToBeRevoked :=
          [(t ++ "#hashed", t ++ "#hashed:" ++ a ++ ":oAuthRevokeAccessToken")],
        notRegularKeys := [t ++ "#hashed:" ++ a ++ ":oAuthRevokeAccessToken"] } := by
  simp only [classify, List.foldl_cons, List.foldl_nil, classifyKey, hashedKey_split t a ht]
  rw [show (t ++ "#hashed") :: (stringsSplit a ':' ++ ["oAuthRevokeAccessToken"]) =
    ((t ++ "#hashed") :: stringsSplit a ':') ++ ["oAuthRevokeAccessToken"] from rfl, at0_last]
  simp [ResetQuota, CertificateRemoved, CertificateAdded, OAuthRevokeToken,
    OAuthRevokeAccessToken, Buckets.empty, GoMap.set, at0]

/-- C7, as stated, fails for a token that contains the character #: for the
token "a#b" the hashed-key delete is called with the key "a", not with "a#b". -/
theorem hashed_token_cut_at_first_hash :
    (ProcessKeySpaceChanges (Example.env 0) Example.handler 1
        ["a#b#hashed:api1:oAuthRevokeAccessToken"] "org1" [] Example.state).events =
      [.handleDeleteHashedKey "a" "org1" "api1" false,
        .cacheDelete .SessionCache "a",
        .cacheDelete .RPCGlobalCache "apikey-a",
        .Notify ⟨"KeySpaceUpdateNotification", "a#b#hashed:api1:oAuthRevokeAccessToken"⟩] := by
  decide

theorem hashed_token_run (env : Env) (r : RPCStorageHandler) (fuel : Nat)
    (t a orgId : String) (h : List Event) (s : State)
    (ht : ':' ∉ t.toList) (ht2 : '#' ∉ t.toList) :
    ProcessKeySpaceChanges env r fuel
        [t ++ "#hashed:" ++ a ++ ":oAuthRevokeAccessToken"] orgId h s =
      ⟨.done (), ((s.withCache .SessionCache (s.SessionCache.Delete t)).withCache
          .RPCGlobalCache (s.RPCGlobalCache.Delete (r.KeyPrefix ++ t))),
        [.handleDeleteHashedKey t orgId (at0 (stringsSplit a ':') 0) false,
          .cacheDelete .SessionCache t,
          .cacheDelete .RPCGlobalCache (r.KeyPrefix ++ t),
          .Notify ⟨env.KeySpaceUpdateNotification,
            t ++ "#hashed:" ++ a ++ ":oAuthRevokeAccessToken"⟩]⟩ := by
  unfold ProcessKeySpaceChanges
  rw [classify_hashedKey env t a ht]
  obtain ⟨a0, rest, hA⟩ : ∃ a0 rest, stringsSplit a ':' = a0 :: rest := by
    cases hs : stringsSplit a ':' with
    | nil => exact absurd hs (stringsSplit_ne_nil a ':')
    | cons a0 rest => exact ⟨a0, rest, rfl⟩
  cases rest <;>
    simp [Buckets.empty, Env.rangeOrder_nil, Env.rangeOrder_singleton, forEach,
      ProcessOauthClientsOps, revokeClients, revokeTokenStep, hashedKey_split t a ht, hA,
      index, stringsContains_append_left, hashedToken_split t ht2, handleDeleteHashedKey,
      regularKeyStep, isUserKeyReset, GoMap.has, Notify, stringsJoin_singleton, at0,
      State.withCache, State.cache, cacheDelete]

/-- C7 (amended): for every token t without ':' and without '#' and every API id
a, processing the batch [t ++ "#hashed:" ++ a ++ ":oAuthRevokeAccessToken"]
returns after exactly these events: the hashed-key delete with key t (for the
API id that is the first segment of a, without quota reset), the eviction of t
from the session cache and of KeyPrefix ++ t from the global RPC cache, and the
final notification. RevokeToken is not called. -/
theorem hashed_token_revocation (env : Env) (r : RPCStorageHandler) (fuel : Nat)
    (t a orgId : String) (h : List Event) (s : State)
    (ht : ':' ∉ t.toList) (ht2 : '#' ∉ t.toList) :
    (ProcessKeySpaceChanges env r fuel [t ++ "#hashed:" ++ a ++ ":oAuthRevokeAccessToken"]
        orgId h s).events =
      [.handleDeleteHashedKey t orgId (at0 (stringsSplit a ':') 0) false,
        .cacheDelete .SessionCache t,
        .cacheDelete .RPCGlobalCache (r.KeyPrefix ++ t),
        .Notify ⟨env.KeySpaceUpdateNotification,
          t ++ "#hashed:" ++ a ++ ":oAuthRevokeAccessToken"⟩] ∧
    (ProcessKeySpaceChanges env r fuel [t ++ "#hashed:" ++ a ++ ":oAuthRevokeAccessToken"]
        orgId h s).out = .done () ∧
    ∀ apiId token hint, Event.RevokeToken apiId token hint ∉
      (ProcessKeySpaceChanges env r fuel [t ++ "#hashed:" ++ a ++ ":oAuthRevokeAccessToken"]
        orgId h s).events := by
  rw [hashed_token_run env r fuel t a orgId h s ht ht2]
  simp

/-- C7 (amended), for the token "tok" and the API id "api1". -/
theorem hashed_token_revocation_witness :
    (ProcessKeySpaceChanges (Example.env 0) Example.handler 1
        ["tok" ++ "#hashed:" ++ "api1" ++ ":oAuthRevokeAccessToken"] "org1" []
        Example.state).events =
      [.handleDeleteHashedKey "tok" "org1" (at0 (stringsSplit "api1" ':') 0) false,
        .cacheDelete .SessionCache "tok",
        .cacheDelete .RPCGlobalCache (Example.handler.KeyPrefix ++ "tok"),
        .Notify ⟨(Example.env 0).KeySpaceUpdateNotification,
          "tok" ++ "#hashed:" ++ "api1" ++ ":oAuthRevokeAccessToken"⟩] :=
  (hashed_token_revocation (Example.env 0) Example.handler 1 "tok" "api1" "org1" []
    Example.state (by decide) (by decide)).1

/-! ## The reconciler on a user key reset -/

theorem userKeyReset_split (old new tag : String) (hold : ':' ∉ old.toList)
    (hnew : ':' ∉ new.toList) (htag : ':' ∉ tag.toList) :
    stringsSplit (old ++ "." ++ new ++ ":" ++ tag) ':' = [old ++ "." ++ new, tag] := by
  have h1 : ':' ∉ (old ++ "." ++ new).toList := by
    simp only [String.toList, String.data_append, List.mem_append, not_or]
    exact ⟨⟨hold, by decide⟩, hnew⟩
  have hkey : old ++ "." ++ new ++ ":" ++ tag =
      (old ++ "." ++ new) ++ String.singleton ':' ++ tag := rfl
  rw [hkey, stringsSplit_append_of_not_mem _ _ _ h1, stringsSplit_of_not_mem _ _ htag]

theorem userKeys_split (old new : String) (hold : '.' ∉ old.toList)
    (hnew : '.' ∉ new.toList) :
    stringsSplit (old ++ "." ++ new) '.' = [old, new] := by
  have hkey : old ++ "." ++ new = old ++ String.singleton '.' ++ new := rfl
  rw [hkey, stringsSplit_append_of_not_mem _ _ _ hold, stringsSplit_of_not_mem _ _ hnew]

theorem classify_userKeyReset (env : Env) (old new : String)
    (hold : ':' ∉ old.toList ∧ '.' ∉ old.toList) (hnew : ':' ∉ new.toList ∧ '.' ∉ new.toList)
    (htag : env.userKeyResetIsOwnTag) :
    classify env [old ++ "." ++ new ++ ":" ++ env.NoticeUserKeyReset] =
      { Buckets.empty with userKeyResets := [(old, new)] } := by
  obtain ⟨hc, hne⟩ := htag
  simp only [List.mem_cons, List.mem_singleton, not_or, List.not_mem_nil, or_false] at hne
  obtain ⟨h1, h2, h3, h4, h5, h6, h7, h8, h9, h10, h11⟩ := hne
  simp [classify, classifyKey, userKeyReset_split old new _ hold.1 hnew.1 hc, at0,
    userKeys_split old new hold.2 hnew.2, h1, h2, h3, h4, h5, h6, h7, h8, h9, h10, h11,
    Buckets.empty, GoMap.set]

theorem userKeyReset_run (env : Env) (r : RPCStorageHandler) (fuel : Nat)
    (old new orgId : String) (h : List Event) (s : State)
    (hold : ':' ∉ old.toList ∧ '.' ∉ old.toList) (hnew : ':' ∉ new.toList ∧ '.' ∉ new.toList)
    (htag : env.userKeyResetIsOwnTag) (hkey : s.config.SlaveOptions.APIKey = old) :
    ProcessKeySpaceChanges env r fuel [old ++ "." ++ new ++ ":" ++ env.NoticeUserKeyReset]
        orgId h s =
      ⟨.done (),
        { s with config := { s.config with
            SlaveOptions := { s.config.SlaveOptions with APIKey := new } } },
        [.updateKeyInStore s.config.EdgeOriginalAPIKeyPath new, .Connect new]
          ++ (if env.Connect (h ++ [.updateKeyInStore s.config.EdgeOriginalAPIKeyPath new])
              then [Event.Notify ⟨env.NoticeUserKeyReset,
                old ++ "." ++ new ++ ":" ++ env.NoticeUserKeyReset⟩]
              else [])
          ++ [.Notify ⟨env.KeySpaceUpdateNotification,
                old ++ "." ++ new ++ ":" ++ env.NoticeUserKeyReset⟩]⟩ := by
  unfold ProcessKeySpaceChanges
  rw [classify_userKeyReset env old new hold hnew htag]
  cases hcon : env.Connect (h ++ [.updateKeyInStore s.config.EdgeOriginalAPIKeyPath new]) <;>
    simp [Buckets.empty, Env.rangeOrder_nil, Env.rangeOrder_singleton, forEach,
      ProcessOauthClientsOps, revokeClients, userKeyResetStep, hkey, Connect, hcon, Notify,
      regularKeyStep, isUserKeyReset, userKeyReset_split old new _ hold.1 hnew.1 htag.1,
      userKeys_split old new hold.2 hnew.2, at0, GoMap.has, stringsJoin_singleton]

/-- C10, as stated, fails when the reconnection fails: for the batch
["user1.user2:UserKeyReset"] at a node whose credential is "user1", the credential
is set to "user2" and one reconnection is attempted, but no user-key-reset
notification is sent; the only notification is the final keyspace update. -/
theorem userKeyReset_not_broadcast_when_reconnect_fails :
    (ProcessKeySpaceChanges Example.envNoConnect Example.handler 1
        ["user1.user2:UserKeyReset"] "org1" [] Example.state).events =
      [.updateKeyInStore "" "user2", .Connect "user2",
        .Notify ⟨"KeySpaceUpdateNotification", "user1.user2:UserKeyReset"⟩] := by
  decide

/-- C10 (amended): let T be the user-key-reset tag, a tag of its own, and old and
new be credentials without '.' and ':', old being the current credential of the
node. Processing the batch [old ++ "." ++ new ++ ":" ++ T] returns, sets the
credential of the node to new, and causes exactly these events: the update of the
key in the store, one reconnection (made with the credential new), then, when
and only when the reconnection succeeded, the user-key-reset notification with
payload old ++ "." ++ new ++ ":" ++ T, and last the keyspace-update notification. -/
theorem user_key_reset (env : Env) (r : RPCStorageHandler) (fuel : Nat)
    (old new orgId : String) (h : List Event) (s : State)
    (hold : ':' ∉ old.toList ∧ '.' ∉ old.toList) (hnew : ':' ∉ new.toList ∧ '.' ∉ new.toList)
    (htag : env.userKeyResetIsOwnTag) (hkey : s.config.SlaveOptions.APIKey = old) :
    (ProcessKeySpaceChanges env r fuel [old ++ "." ++ new ++ ":" ++ env.NoticeUserKeyReset]
        orgId h s).out = .done () ∧
    (ProcessKeySpaceChanges env r fuel [old ++ "." ++ new ++ ":" ++ env.NoticeUserKeyReset]
        orgId h s).state.config.SlaveOptions.APIKey = new ∧
    (ProcessKeySpaceChanges env r fuel [old ++ "." ++ new ++ ":" ++ env.NoticeUserKeyReset]
        orgId h s).events =
      [.updateKeyInStore s.config.EdgeOriginalAPIKeyPath new, .Connect new]
        ++ (if env.Connect (h ++ [.updateKeyInStore s.config.EdgeOriginalAPIKeyPath new])
            then [Event.Notify ⟨env.NoticeUserKeyReset,
              old ++ "." ++ new ++ ":" ++ env.NoticeUserKeyReset⟩]
            else [])
        ++ [.Notify ⟨env.KeySpaceUpdateNotification,
              old ++ "." ++ new ++ ":" ++ env.NoticeUserKeyReset⟩] := by
  rw [userKeyReset_run env r fuel old new orgId h s hold hnew htag hkey]
  exact ⟨rfl, rfl, rfl⟩

/-- C10 (amended), for the credentials "user1" and "user2" at a node whose
credential is "user1" and whose reconnection succeeds. -/
theorem user_key_reset_witness :
    (ProcessKeySpaceChanges (Example.env 0) Example.handler 1
        ["user1" ++ "." ++ "user2" ++ ":" ++ (Example.env 0).NoticeUserKeyReset] "org1" []
        Example.state).state.config.SlaveOptions.APIKey = "user2" :=
  (user_key_reset (Example.env 0) Example.handler 1 "user1" "user2" "org1" []
    Example.state (by decide) (by decide) (by decide) rfl).2.1

/-! ## Properties of all the events of a call -/

theorem events_bind {α β : Type} (m : M α) (f : α → M β) (h : List Event) (s : State) :
    ((m >>= f) h s).events =
      (m h s).events ++
        (match (m h s).out with
          | .done a => (f a (h ++ (m h s).events) (m h s).state).events
          | _ => []) := by
  rcases hm : m h s with ⟨o, s1, e1⟩
  cases o with
  | done a => rw [bind_of_done m f h s s1 a e1 hm]; rfl
  | panic => rw [bind_of_panic m f h s s1 e1 hm]; simp
  | outOfFuel => rw [bind_of_outOfFuel m f h s s1 e1 hm]; simp

theorem eventsAll_bind {α β : Type} {P : Event → Prop} {m : M α} {f : α → M β}
    (hm : EventsAll P m) (hf : ∀ a, EventsAll P (f a)) : EventsAll P (m >>= f) := by
  constructor
  intro h s e he
  rw [events_bind] at he
  rcases List.mem_append.mp he with he | he
  · exact hm.all h s e he
  · split at he
    · exact (hf _).all _ _ e he
    · cases he

theorem eventsAll_pure {α : Type} {P : Event → Prop} (a : α) :
    EventsAll P (pure a : M α) := by
  constructor
  intro h s e he
  cases he

theorem eventsAll_emit {P : Event → Prop} {e : Event} (hp : P e) : EventsAll P (emit e) := by
  constructor
  intro h s e2 he
  simp only [run_emit, List.mem_singleton] at he
  rw [he]
  exact hp

theorem eventsAll_ask {β : Type} {P : Event → Prop} (g : List Event → β) :
    EventsAll P (ask g) := by
  constructor
  intro h s e he
  cases he

theorem eventsAll_getState {P : Event → Prop} : EventsAll P getState := by
  constructor
  intro h s e he
  cases he

theorem eventsAll_modifyState {P : Event → Prop} (g : State → State) :
    EventsAll P (modifyState g) := by
  constructor
  intro h s e he
  cases he

theorem eventsAll_goPanic {α : Type} {P : Event → Prop} : EventsAll P (goPanic : M α) := by
  constructor
  intro h s e he
  cases he

theorem eventsAll_outOfFuel {α : Type} {P : Event → Prop} :
    EventsAll P (outOfFuel : M α) := by
  constructor
  intro h s e he
  cases he

theorem eventsAll_forEach {α : Type} {P : Event → Prop} {body : α → M Unit}
    (hb : ∀ x, EventsAll P (body x)) (xs : List α) : EventsAll P (forEach body xs) := by
  induction xs with
  | nil => exact eventsAll_pure ()
  | cons x xs ih =>
    unfold RPCStorage.forEach
    exact eventsAll_bind (hb x) (fun _ => ih)

theorem eventsAll_index {P : Event → Prop} (l : List String) (i : Nat) :
    EventsAll P (index l i) := by
  unfold RPCStorage.index
  split
  · exact eventsAll_pure _
  · exact eventsAll_goPanic

theorem eventsAll_GetRawKey {P : Event → Prop} (env : Env) (r : RPCStorageHandler)
    (hrpc : ∀ f p, P (.rpc f p)) (herr : ∀ f e kv, P (.emitError f e kv)) (hlogin : P .Login)
    (hset : ∀ part k v t, P (.cacheSet part k v t)) (fuel : Nat) (keyName : String) :
    EventsAll P (GetRawKey env r fuel keyName) := by
  induction fuel with
  | zero =>
    rw [GetRawKey.eq_1]
    exact eventsAll_outOfFuel
  | succ n ih =>
    rw [GetRawKey.eq_2]
    unfold cacheGet cacheSet FuncClientSingleton EmitErrorEventKv retryAfterLogin Login
    repeat' (first
      | exact ih
      | exact eventsAll_pure _
      | exact eventsAll_ask _
      | exact eventsAll_getState
      | exact eventsAll_modifyState _
      | exact eventsAll_emit (hrpc _ _)
      | exact eventsAll_emit (herr _ _ _)
      | exact eventsAll_emit hlogin
      | exact eventsAll_emit (hset _ _ _ _)
      | apply eventsAll_bind
      | intro _
      | split
      | (dsimp only))

/-! ## The events of the steps of the reconciler -/

theorem eventsAll_regularKeyStep {P : Event → Prop} (env : Env) (r : RPCStorageHandler)
    (fuel : Nat) (b : Buckets) (orgId : String) (sync : Bool) (key : String)
    (hdel : ∀ k a, P (.handleDeleteKey k orgId a
      (decide (at0 (stringsSplit key ':') 0 ∈ b.keysToReset))))
    (hdelh : ∀ k a, P (.handleDeleteHashedKey k orgId a
      (decide (at0 (stringsSplit key ':') 0 ∈ b.keysToReset))))
    (hrpc : ∀ f p, P (.rpc f p)) (herr : ∀ f e kv, P (.emitError f e kv)) (hlogin : P .Login)
    (hset : ∀ part k v t, P (.cacheSet part k v t))
    (hadd : ∀ k v o, P (.handleAddKey k v o))
    (hcd : ∀ part k, P (.cacheDelete part k)) :
    EventsAll P (regularKeyStep env r fuel b orgId sync key) := by
  have hget := fun k => eventsAll_GetRawKey (P := P) env r hrpc herr hlogin hset fuel k
  unfold RPCStorage.regularKeyStep RPCStorage.getSessionAndCreate
    RPCStorage.deleteUsingTokenID RPCStorage.handleDeleteKey
    RPCStorage.handleDeleteHashedKey RPCStorage.cacheDelete
  repeat' (first
    | exact hget _
    | exact eventsAll_pure _
    | exact eventsAll_ask _
    | exact eventsAll_getState
    | exact eventsAll_modifyState _
    | exact eventsAll_emit (hdel _ _)
    | exact eventsAll_emit (hdelh _ _)
    | exact eventsAll_emit (hadd _ _ _)
    | exact eventsAll_emit (hcd _ _)
    | apply eventsAll_bind
    | intro _
    | split
    | (dsimp only))

theorem noCert_regularKeyStep (env : Env) (r : RPCStorageHandler)
    (fuel : Nat) (b : Buckets) (orgId : String) (sync : Bool) (key : String) :
    NoCert (regularKeyStep env r fuel b orgId sync key) := by
  apply eventsAll_regularKeyStep <;> intros <;> exact ⟨rfl, rfl⟩

theorem noCert_userKeyResetStep (env : Env) (p : String × String) :
    NoCert (userKeyResetStep env p) := by
  unfold NoCert RPCStorage.userKeyResetStep RPCStorage.Connect RPCStorage.Notify
  repeat' (first
    | exact eventsAll_pure _
    | exact eventsAll_ask _
    | exact eventsAll_getState
    | exact eventsAll_modifyState _
    | exact eventsAll_emit ⟨rfl, rfl⟩
    | apply eventsAll_bind
    | intro _
    | split
    | (dsimp only))

theorem noCert_oauthClientStep (env : Env) (p : String × String) :
    NoCert (oauthClientStep env p) := by
  unfold NoCert RPCStorage.oauthClientStep RPCStorage.ProcessSingleOauthClientEvent
    RPCStorage.GetStorageForApi RPCStorage.GetClient RPCStorage.SetClient
    RPCStorage.DeleteClient
  repeat' (first
    | exact eventsAll_pure _
    | exact eventsAll_ask _
    | exact eventsAll_index _ _
    | exact eventsAll_emit ⟨rfl, rfl⟩
    | apply eventsAll_bind
    | intro _
    | split)

theorem noCert_revokeClients (env : Env) (l : List (String × String)) (keys : List String) :
    NoCert (revokeClients env l keys) := by
  induction l generalizing keys with
  | nil => exact eventsAll_pure _
  | cons p rest ih =>
    obtain ⟨clientId, key⟩ := p
    unfold NoCert at ih ⊢
    unfold RPCStorage.revokeClients RPCStorage.GetStorageForApi
    repeat' (first
      | exact ih _
      | exact eventsAll_pure _
      | exact eventsAll_ask _
      | exact eventsAll_index _ _
      | exact eventsAll_emit ⟨rfl, rfl⟩
      | apply eventsAll_bind
      | intro _
      | split)

theorem noCert_revokeTokenStep (env : Env) (r : RPCStorageHandler) (orgId : String)
    (p : String × String) : NoCert (revokeTokenStep env r orgId p) := by
  unfold NoCert RPCStorage.revokeTokenStep RPCStorage.GetStorageForApi
    RPCStorage.handleDeleteHashedKey RPCStorage.cacheDelete
  repeat' (first
    | exact eventsAll_pure _
    | exact eventsAll_ask _
    | exact eventsAll_modifyState _
    | exact eventsAll_index _ _
    | exact eventsAll_emit ⟨rfl, rfl⟩
    | apply eventsAll_bind
    | intro _
    | split
    | (dsimp only))

theorem noCert_invalidateStep (env : Env) (apiID : String) :
    NoCert (invalidateStep env apiID) := by
  unfold NoCert RPCStorage.invalidateStep
  exact eventsAll_bind (eventsAll_ask _) (fun _ => eventsAll_emit ⟨rfl, rfl⟩)

theorem noCert_Notify (env : Env) (n : Notification) : NoCert (Notify env n) := by
  unfold NoCert RPCStorage.Notify
  exact eventsAll_bind (eventsAll_ask _)
    (fun _ => eventsAll_bind (eventsAll_emit ⟨rfl, rfl⟩) (fun _ => eventsAll_pure _))

/-! ## The order of the certificate operations -/

theorem eventsAll_mono {α : Type} {P Q : Event → Prop} {m : M α} (hpq : ∀ e, P e → Q e)
    (hm : EventsAll P m) : EventsAll Q m :=
  ⟨fun h s e he => hpq e (hm.all h s e he)⟩

theorem removeLoop_run (orgId : String) (l : List (String × String)) (h : List Event)
    (s : State) :
    (forEach (removeCertStep orgId) l h s).out = .done () ∧
      (forEach (removeCertStep orgId) l h s).events =
        (l.map (fun p => p.2)).flatMap (removalEvents orgId) := by
  induction l generalizing h s with
  | nil => simp [forEach]
  | cons p rest ih =>
    unfold forEach
    have hstep : removeCertStep orgId p h s =
        ⟨.done (), s.withCache .RPCCertCache (s.RPCCertCache.Delete ("cert-raw-" ++ p.2)),
          removalEvents orgId p.2⟩ := by
      simp [removeCertStep, cacheDelete, removalEvents, State.cache]
    rw [bind_of_done _ _ h s _ () _ hstep]
    simp [ih]

theorem certShape_of_noCert_bind {α β : Type} (orgId : String) {m : M α} {f : α → M β}
    (hm : NoCert m) (hf : ∀ a h s, CertShape orgId (f a h s).events) (h : List Event)
    (s : State) : CertShape orgId ((m >>= f) h s).events := by
  rw [events_bind]
  split
  · next a _ =>
    obtain ⟨before, removed, after, heq, hb, ha⟩ := hf a (h ++ (m h s).events) (m h s).state
    refine ⟨(m h s).events ++ before, removed, after, ?_, ?_, ha⟩
    · rw [heq]
      simp [List.append_assoc]
    · intro e he
      rcases List.mem_append.mp he with he | he
      · exact hm.all h s e he
      · exact hb e he
  · exact ⟨(m h s).events, [], [], by simp, hm.all h s, by simp⟩

theorem certShape_of_removeLoop_bind {β : Type} (orgId : String)
    (l : List (String × String)) {f : Unit → M β}
    (hf : ∀ a, EventsAll (fun e => isCertDelete e = false) (f a)) (h : List Event)
    (s : State) : CertShape orgId ((forEach (removeCertStep orgId) l >>= f) h s).events := by
  rw [events_bind, (removeLoop_run orgId l h s).1, (removeLoop_run orgId l h s).2]
  exact ⟨[], l.map (fun p => p.2),
    (f () (h ++ (l.map (fun p => p.2)).flatMap (removalEvents orgId))
      (forEach (removeCertStep orgId) l h s).state).events,
    by simp, by simp, (hf ()).all _ _⟩

theorem addCertStep_noDelete (env : Env) (p : String × String) :
    EventsAll (fun e => isCertDelete e = false) (addCertStep env p) := by
  unfold addCertStep
  exact eventsAll_bind (eventsAll_ask _) (fun _ => eventsAll_emit rfl)

theorem ProcessKeySpaceChanges_certShape (env : Env) (r : RPCStorageHandler) (fuel : Nat)
    (keys : List String) (orgId : String) (h : List Event) (s : State) :
    CertShape orgId (ProcessKeySpaceChanges env r fuel keys orgId h s).events := by
  unfold ProcessKeySpaceChanges
  dsimp only
  refine certShape_of_noCert_bind orgId
    (eventsAll_forEach (fun p => noCert_userKeyResetStep env p) _) (fun _ h s => ?_) h s
  refine certShape_of_noCert_bind orgId
    (eventsAll_forEach (fun p => noCert_oauthClientStep env p) _) (fun _ h s => ?_) h s
  refine certShape_of_noCert_bind orgId (noCert_revokeClients env _ _) (fun keys2 h s => ?_) h s
  refine certShape_of_noCert_bind orgId
    (eventsAll_forEach (fun p => noCert_revokeTokenStep env r orgId p) _) (fun _ h s => ?_) h s
  refine certShape_of_removeLoop_bind orgId _ (fun _ => ?_) h s
  have weaken : ∀ {α : Type} {m : M α}, NoCert m →
      EventsAll (fun e => isCertDelete e = false) m :=
    fun hm => eventsAll_mono (fun _ he => he.1) hm
  refine eventsAll_bind (eventsAll_forEach (fun p => addCertStep_noDelete env p) _) (fun _ => ?_)
  refine eventsAll_bind eventsAll_getState (fun st => ?_)
  refine eventsAll_bind
    (weaken (eventsAll_forEach (fun k => noCert_regularKeyStep env r fuel _ orgId _ k) _))
    (fun _ => ?_)
  refine eventsAll_bind
    (weaken (eventsAll_forEach (fun a => noCert_invalidateStep env a) _)) (fun _ => ?_)
  exact eventsAll_bind (weaken (noCert_Notify env _)) (fun _ => eventsAll_pure _)

theorem classify_certBatch (env : Env) :
    classify env ["abc:CertificateAdded", "abc:CertificateRemoved"] =
      { Buckets.empty with
        CertificatesToAdd := [("abc:CertificateAdded", "abc")],
        CertificatesToRemove := [("abc:CertificateRemoved", "abc")],
        notRegularKeys := ["abc:CertificateRemoved", "abc:CertificateAdded"] } := by
  have h1 : stringsSplit "abc:CertificateAdded" ':' = ["abc", "CertificateAdded"] := by decide
  have h2 : stringsSplit "abc:CertificateRemoved" ':' = ["abc", "CertificateRemoved"] := by
    decide
  simp [classify, classifyKey, h1, h2, at0, ResetQuota, CertificateRemoved, CertificateAdded,
    Buckets.empty, GoMap.set]

theorem certBatch_run (env : Env) (r : RPCStorageHandler) (fuel : Nat) (h : List Event)
    (s : State) :
    ProcessKeySpaceChanges env r fuel ["abc:CertificateAdded", "abc:CertificateRemoved"]
        "org1" h s =
      ⟨.done (), s.withCache .RPCCertCache (s.RPCCertCache.Delete "cert-raw-abc"),
        [.CertDelete "abc" "org1", .cacheDelete .RPCCertCache "cert-raw-abc",
          .CertGetRaw "abc",
          .Notify ⟨env.KeySpaceUpdateNotification,
            "abc:CertificateAdded,abc:CertificateRemoved"⟩]⟩ := by
  unfold ProcessKeySpaceChanges
  rw [classify_certBatch env]
  have hj : stringsJoin ["abc:CertificateAdded", "abc:CertificateRemoved"] "," =
      "abc:CertificateAdded,abc:CertificateRemoved" := by decide
  have hc : "cert-raw-" ++ "abc" = "cert-raw-abc" := by decide
  simp [Buckets.empty, Env.rangeOrder_nil, Env.rangeOrder_singleton, forEach,
    ProcessOauthClientsOps, revokeClients, removeCertStep, addCertStep, cacheDelete,
    regularKeyStep, isUserKeyReset, GoMap.has, Notify, hj, hc, State.cache]

theorem pairwise_of_no_getRaw (l : List Event) (hl : ∀ e ∈ l, isCertGetRaw e = false) :
    l.Pairwise (fun x y => ¬ (isCertGetRaw x = true ∧ isCertDelete y = true)) := by
  induction l with
  | nil => exact List.Pairwise.nil
  | cons a l ih =>
    refine List.Pairwise.cons ?_ (ih (fun e he => hl e (List.mem_cons_of_mem _ he)))
    intro y _ hxy
    rw [hl a (List.mem_cons_self _ _)] at hxy
    cases hxy.1

theorem pairwise_of_no_delete (l : List Event) (hl : ∀ e ∈ l, isCertDelete e = false) :
    l.Pairwise (fun x y => ¬ (isCertGetRaw x = true ∧ isCertDelete y = true)) := by
  induction l with
  | nil => exact List.Pairwise.nil
  | cons a l ih =>
    refine List.Pairwise.cons ?_ (ih (fun e he => hl e (List.mem_cons_of_mem _ he)))
    intro y hy hxy
    rw [hl y (List.mem_cons_of_mem _ hy)] at hxy
    cases hxy.2

theorem removalEvents_no_getRaw (orgId : String) (removed : List String) :
    ∀ e ∈ removed.flatMap (removalEvents orgId), isCertGetRaw e = false := by
  intro e he
  simp only [List.mem_flatMap, removalEvents, List.mem_cons, List.mem_singleton,
    List.not_mem_nil, or_false] at he
  obtain ⟨c, _, hc | hc⟩ := he <;> rw [hc] <;> rfl

theorem certShape_pairwise (orgId : String) (evs : List Event) (hs : CertShape orgId evs) :
    evs.Pairwise (fun x y => ¬ (isCertGetRaw x = true ∧ isCertDelete y = true)) := by
  obtain ⟨before, removed, after, heq, hb, ha⟩ := hs
  rw [heq, List.pairwise_append, List.pairwise_append]
  refine ⟨⟨pairwise_of_no_getRaw _ (fun e he => (hb e he).2),
    pairwise_of_no_getRaw _ (removalEvents_no_getRaw orgId removed), ?_⟩,
    pairwise_of_no_delete _ ha, ?_⟩
  · intro x hx y _ hxy
    rw [(hb x hx).2] at hxy
    cases hxy.1
  · intro x hx y hy hxy
    rw [ha y hy] at hxy
    cases hxy.2

/-- C9: whatever the batch, the organisation and the order of the keys, no fetch
`CertificateManager.GetRaw` is followed, at any distance, by a removal
`CertificateManager.Delete` among the events of ProcessKeySpaceChanges: every
removal comes before every fetch. More precisely the events are: events that
are no operation on the certificate manager; then, for some certificates one
after the other, the removal Delete(id, org) immediately followed by the
eviction of "cert-raw-" ++ id from the certificate cache; then events among
which there is no removal. For the batch ["abc:CertificateAdded",
"abc:CertificateRemoved"] and the organisation "org1", in every world (whatever
GetRaw returns), the call returns and its events are exactly Delete("abc",
"org1"), the eviction of "cert-raw-abc", GetRaw("abc") and the final
notification. -/
theorem certificate_sync_order (env : Env) (r : RPCStorageHandler) (fuel : Nat)
    (h : List Event) (s : State) :
    (∀ (keys : List String) (orgId : String),
      (ProcessKeySpaceChanges env r fuel keys orgId h s).events.Pairwise
        (fun x y => ¬ (isCertGetRaw x = true ∧ isCertDelete y = true))) ∧
    (∀ (keys : List String) (orgId : String),
      ∃ (before : List Event) (removed : List String) (after : List Event),
        (ProcessKeySpaceChanges env r fuel keys orgId h s).events =
          before ++ removed.flatMap (removalEvents orgId) ++ after ∧
        (∀ e ∈ before, isCertDelete e = false ∧ isCertGetRaw e = false) ∧
        (∀ e ∈ after, isCertDelete e = false)) ∧
    (ProcessKeySpaceChanges env r fuel ["abc:CertificateAdded", "abc:CertificateRemoved"]
        "org1" h s).out = .done () ∧
    (ProcessKeySpaceChanges env r fuel ["abc:CertificateAdded", "abc:CertificateRemoved"]
        "org1" h s).events =
      [.CertDelete "abc" "org1", .cacheDelete .RPCCertCache "cert-raw-abc",
        .CertGetRaw "abc",
        .Notify ⟨env.KeySpaceUpdateNotification,
          "abc:CertificateAdded,abc:CertificateRemoved"⟩] := by
  refine ⟨fun keys orgId => certShape_pairwise orgId _
      (ProcessKeySpaceChanges_certShape env r fuel keys orgId h s),
    fun keys orgId => ProcessKeySpaceChanges_certShape env r fuel keys orgId h s, ?_, ?_⟩
  · rw [certBatch_run]
  · rw [certBatch_run]

/-! ## The quota-reset flag -/

theorem classifyKey_keysToReset (env : Env) (b : Buckets) (c x : String) :
    x ∈ (classifyKey env b c).keysToReset ↔
      x ∈ b.keysToReset ∨
        (1 < (stringsSplit c ':').length ∧
          at0 (stringsSplit c ':') ((stringsSplit c ':').length - 1) = ResetQuota ∧
          at0 (stringsSplit c ':') 0 = x) := by
  unfold classifyKey
  dsimp only
  generalize stringsSplit c ':' = l
  generalize at0 l (l.length - 1) = a
  by_cases hlen : 1 < l.length
  · rw [if_pos hlen]
    by_cases ha : a = ResetQuota
    · rw [if_pos ha]
      simp only [List.mem_cons, hlen, ha, true_and]
      constructor
      · rintro (hx | hx)
        · exact Or.inr hx.symm
        · exact Or.inl hx
      · rintro (hx | hx)
        · exact Or.inr hx
        · exact Or.inl hx.symm
    · rw [if_neg ha]
      have hno : ∀ p : Prop, (p ↔ p ∨ (1 < l.length ∧ a = ResetQuota ∧ at0 l 0 = x)) :=
        fun p => ⟨Or.inl, fun hp => hp.elim id (fun hq => absurd hq.2.1 ha)⟩
      split_ifs <;> exact hno _
  · rw [if_neg hlen]
    exact ⟨Or.inl, fun hp => hp.elim id (fun hq => absurd hq.1 hlen)⟩

theorem classify_keysToReset_aux (env : Env) (keys : List String) (b : Buckets) (x : String) :
    x ∈ (keys.foldl (classifyKey env) b).keysToReset ↔
      x ∈ b.keysToReset ∨
        ∃ c ∈ keys, 1 < (stringsSplit c ':').length ∧
          at0 (stringsSplit c ':') ((stringsSplit c ':').length - 1) = ResetQuota ∧
          at0 (stringsSplit c ':') 0 = x := by
  induction keys generalizing b with
  | nil => simp
  | cons k rest ih =>
    rw [List.foldl_cons, ih, classifyKey_keysToReset]
    simp only [List.mem_cons, exists_eq_or_imp]
    tauto

theorem classify_keysToReset (env : Env) (keys : List String) (x : String) :
    x ∈ (classify env keys).keysToReset ↔
      ∃ c ∈ keys, 1 < (stringsSplit c ':').length ∧
        at0 (stringsSplit c ':') ((stringsSplit c ':').length - 1) = ResetQuota ∧
        at0 (stringsSplit c ':') 0 = x := by
  unfold classify
  rw [classify_keysToReset_aux]
  simp [Buckets.empty]

/-! ## Properties of the state that a call keeps -/

theorem state_bind {α β : Type} (m : M α) (f : α → M β) (h : List Event) (s : State) :
    ((m >>= f) h s).state =
      match (m h s).out with
      | .done a => (f a (h ++ (m h s).events) (m h s).state).state
      | _ => (m h s).state := by
  rcases hm : m h s with ⟨o, s1, e1⟩
  cases o with
  | done a => rw [bind_of_done m f h s s1 a e1 hm]; rfl
  | panic => rw [bind_of_panic m f h s s1 e1 hm]
  | outOfFuel => rw [bind_of_outOfFuel m f h s s1 e1 hm]

theorem out_bind {α β : Type} (m : M α) (f : α → M β) (h : List Event) (s : State) :
    ((m >>= f) h s).out =
      match (m h s).out with
      | .done a => (f a (h ++ (m h s).events) (m h s).state).out
      | .panic => .panic
      | .outOfFuel => .outOfFuel := by
  rcases hm : m h s with ⟨o, s1, e1⟩
  cases o with
  | done a => rw [bind_of_done m f h s s1 a e1 hm]; rfl
  | panic => rw [bind_of_panic m f h s s1 e1 hm]
  | outOfFuel => rw [bind_of_outOfFuel m f h s s1 e1 hm]

theorem bind_done_elim {α β : Type} (m : M α) (f : α → M β) (h : List Event) (s : State)
    (b : β) (hd : ((m >>= f) h s).out = .done b) :
    ∃ a, (m h s).out = .done a ∧
      (f a (h ++ (m h s).events) (m h s).state).out = .done b ∧
      ((m >>= f) h s).state = (f a (h ++ (m h s).events) (m h s).state).state := by
  rw [out_bind] at hd
  rw [state_bind]
  cases hm : (m h s).out with
  | done a =>
    rw [hm] at hd
    exact ⟨a, rfl, hd, rfl⟩
  | panic => rw [hm] at hd; cases hd
  | outOfFuel => rw [hm] at hd; cases hd

theorem statePres_bind {α β : Type} {I : State → Prop} {m : M α} {f : α → M β}
    (hm : StatePres I m) (hf : ∀ a, StatePres I (f a)) : StatePres I (m >>= f) := by
  constructor
  intro h s hs
  rw [state_bind]
  split
  · exact (hf _).pres _ _ (hm.pres h s hs)
  · exact hm.pres h s hs

theorem statePres_pure {α : Type} {I : State → Prop} (a : α) :
    StatePres I (pure a : M α) :=
  ⟨fun _ _ hs => hs⟩

theorem statePres_emit {I : State → Prop} (e : Event) : StatePres I (emit e) :=
  ⟨fun _ _ hs => hs⟩

theorem statePres_ask {β : Type} {I : State → Prop} (g : List Event → β) :
    StatePres I (ask g) :=
  ⟨fun _ _ hs => hs⟩

theorem statePres_getState {I : State → Prop} : StatePres I getState :=
  ⟨fun _ _ hs => hs⟩

theorem statePres_goPanic {α : Type} {I : State → Prop} : StatePres I (goPanic : M α) :=
  ⟨fun _ _ hs => hs⟩

theorem statePres_index {I : State → Prop} (l : List String) (i : Nat) :
    StatePres I (index l i) := by
  unfold RPCStorage.index
  split
  · exact statePres_pure _
  · exact statePres_goPanic

theorem statePres_forEach {α : Type} {I : State → Prop} {body : α → M Unit}
    (hb : ∀ x, StatePres I (body x)) (xs : List α) : StatePres I (forEach body xs) := by
  induction xs with
  | nil => exact statePres_pure ()
  | cons x xs ih =>
    unfold RPCStorage.forEach
    exact statePres_bind (hb x) (fun _ => ih)

theorem statePres_cacheDelete {env : Env} {r : RPCStorageHandler} {I : State → Prop}
    (hk : Kept env r I) (part : Partition) (key : String) :
    StatePres I (cacheDelete part key) := by
  constructor
  intro h s hs
  rw [cacheDelete_run]
  exact hk.delete s part key hs

theorem statePres_GetRawKey {env : Env} {r : RPCStorageHandler} {I : State → Prop}
    (hk : Kept env r I) (fuel : Nat) (key : String) :
    StatePres I (GetRawKey env r fuel key) :=
  ⟨fun h s hs => hk.getRawKey fuel key h s hs⟩

theorem statePres_oauthClientStep {I : State → Prop} (env : Env) (p : String × String) :
    StatePres I (oauthClientStep env p) := by
  unfold RPCStorage.oauthClientStep RPCStorage.ProcessSingleOauthClientEvent
    RPCStorage.GetStorageForApi RPCStorage.GetClient RPCStorage.SetClient
    RPCStorage.DeleteClient
  repeat' (first
    | exact statePres_pure _
    | exact statePres_ask _
    | exact statePres_index _ _
    | exact statePres_emit _
    | apply statePres_bind
    | intro _
    | split)

theorem statePres_revokeClients {I : State → Prop} (env : Env) (l : List (String × String))
    (keys : List String) : StatePres I (revokeClients env l keys) := by
  induction l generalizing keys with
  | nil => exact statePres_pure _
  | cons p rest ih =>
    obtain ⟨clientId, key⟩ := p
    unfold RPCStorage.revokeClients RPCStorage.GetStorageForApi
    repeat' (first
      | exact ih _
      | exact statePres_pure _
      | exact statePres_ask _
      | exact statePres_index _ _
      | exact statePres_emit _
      | apply statePres_bind
      | intro _
      | split)

theorem statePres_revokeTokenStep {env : Env} {r : RPCStorageHandler} {I : State → Prop}
    (hk : Kept env r I) (orgId : String) (p : String × String) :
    StatePres I (revokeTokenStep env r orgId p) := by
  unfold RPCStorage.revokeTokenStep RPCStorage.GetStorageForApi
    RPCStorage.handleDeleteHashedKey
  repeat' (first
    | exact statePres_pure _
    | exact statePres_ask _
    | exact statePres_index _ _
    | exact statePres_emit _
    | exact statePres_cacheDelete hk _ _
    | apply statePres_bind
    | intro _
    | split
    | (dsimp only))

theorem statePres_removeCertStep {env : Env} {r : RPCStorageHandler} {I : State → Prop}
    (hk : Kept env r I) (orgId : String) (p : String × String) :
    StatePres I (removeCertStep orgId p) := by
  unfold RPCStorage.removeCertStep
  exact statePres_bind (statePres_emit _) (fun _ => statePres_cacheDelete hk _ _)

theorem statePres_addCertStep {I : State → Prop} (env : Env) (p : String × String) :
    StatePres I (addCertStep env p) := by
  unfold RPCStorage.addCertStep
  exact statePres_bind (statePres_ask _) (fun _ => statePres_emit _)

theorem statePres_invalidateStep {I : State → Prop} (env : Env) (apiID : String) :
    StatePres I (invalidateStep env apiID) := by
  unfold RPCStorage.invalidateStep
  exact statePres_bind (statePres_ask _) (fun _ => statePres_emit _)

theorem statePres_Notify {I : State → Prop} (env : Env) (n : Notification) :
    StatePres I (Notify env n) := by
  unfold RPCStorage.Notify
  exact statePres_bind (statePres_ask _)
    (fun _ => statePres_bind (statePres_emit _) (fun _ => statePres_pure _))

theorem statePres_regularKeyStep {env : Env} {r : RPCStorageHandler} {I : State → Prop}
    (hk : Kept env r I) (fuel : Nat) (b : Buckets) (orgId : String) (sync : Bool)
    (key : String) : StatePres I (regularKeyStep env r fuel b orgId sync key) := by
  unfold RPCStorage.regularKeyStep RPCStorage.getSessionAndCreate
    RPCStorage.deleteUsingTokenID RPCStorage.handleDeleteKey
    RPCStorage.handleDeleteHashedKey
  repeat' (first
    | exact statePres_GetRawKey hk _ _
    | exact statePres_cacheDelete hk _ _
    | exact statePres_pure _
    | exact statePres_ask _
    | exact statePres_getState
    | exact statePres_emit _
    | apply statePres_bind
    | intro _
    | split
    | (dsimp only))

theorem userKeyResetStep_state (env : Env) (p : String × String) (h : List Event)
    (s : State) :
    (userKeyResetStep env p h s).state = s ∨
      (userKeyResetStep env p h s).state =
        { s with config := { s.config with
            SlaveOptions := { s.config.SlaveOptions with APIKey := p.2 } } } := by
  unfold userKeyResetStep
  by_cases hk : s.config.SlaveOptions.APIKey = p.1
  · right
    cases hc : env.Connect
        (h ++ [.updateKeyInStore s.config.EdgeOriginalAPIKeyPath p.2]) <;>
      simp [hk, Connect, Notify, hc]
  · left
    simp [hk, Notify]

theorem statePres_userKeyResetStep {env : Env} {r : RPCStorageHandler} {I : State → Prop}
    (hk : Kept env r I) (p : String × String) : StatePres I (userKeyResetStep env p) := by
  constructor
  intro h s hs
  rcases userKeyResetStep_state env p h s with heq | heq
  · rw [heq]
    exact hs
  · rw [heq]
    exact hk.credential s s.config p.2 hs rfl

/-! ## What GetRawKey does to the state -/

theorem withCache_selected (s : State) (key : String) (c : Cache) :
    (s.withCache (selectedCache key) c).config = s.config ∧
      (s.withCache (selectedCache key) c).SessionCache = s.SessionCache := by
  unfold selectedCache
  split <;> exact ⟨rfl, rfl⟩

theorem GetRawKey_state (env : Env) (r : RPCStorageHandler) (fuel : Nat) (key : String)
    (h : List Event) (s : State) :
    (GetRawKey env r fuel key h s).state.config = s.config ∧
      (GetRawKey env r fuel key h s).state.SessionCache = s.SessionCache ∧
      (s.config.SlaveOptions.EnableRPCCache = false →
        (GetRawKey env r fuel key h s).state = s) := by
  induction fuel generalizing h with
  | zero =>
    rw [GetRawKey.eq_1]
    exact ⟨rfl, rfl, fun _ => rfl⟩
  | succ n ih =>
    rcases cachedValue_cases env key h s with ⟨v, hv⟩ | ⟨e, hv⟩ | hm
    · rw [GetRawKey_hit_str env r n key h s v hv]
      exact ⟨rfl, rfl, fun _ => rfl⟩
    · rw [GetRawKey_hit_err env r n key h s e hv]
      exact ⟨rfl, rfl, fun _ => rfl⟩
    · cases he : env.IsEmergencyMode h with
      | true =>
        rw [GetRawKey_emergency env r n key h s hm he]
        exact ⟨rfl, rfl, fun _ => rfl⟩
      | false =>
        cases hres : env.remote.GetKey h key with
        | ok value =>
          rw [GetRawKey_ok env r n key h s value hm he hres]
          split
          · next hc =>
            exact ⟨(withCache_selected _ _ _).1, (withCache_selected _ _ _).2,
              fun hf => by rw [hc] at hf; cases hf⟩
          · exact ⟨rfl, rfl, fun _ => rfl⟩
        | error err =>
          by_cases hretry : IsRetriableError (some err) = true ∧
              env.Login (h ++ [.rpc "GetKey" (.str key),
                .emitError "GetKey" err [("keyName", key)]]) = true
          · rw [GetRawKey_retry env r n key h s err hm he hres hretry.1 hretry.2]
            exact ih _
          · have hterm : IsRetriableError (some err) = false ∨
                env.Login (h ++ [.rpc "GetKey" (.str key),
                  .emitError "GetKey" err [("keyName", key)]]) = false := by
              by_cases h1 : IsRetriableError (some err) = true
              · right
                by_contra h2
                exact hretry ⟨h1, by simpa using h2⟩
              · left
                simpa using h1
            rw [GetRawKey_fail env r n key h s err hm he hres hterm]
            split
            · next hc =>
              exact ⟨(withCache_selected _ _ _).1, (withCache_selected _ _ _).2,
                fun hf => by rw [hc] at hf; cases hf⟩
            · exact ⟨rfl, rfl, fun _ => rfl⟩

/-! ## Absent cache entries and the switches of the configuration -/

theorem Cache.noEntry_Delete (c : Cache) (k k2 : String) (hc : c.noEntry k) :
    (c.Delete k2).noEntry k := by
  intro it hit
  simp only [Cache.Delete, List.mem_filter] at hit
  exact hc it hit.1

theorem Cache.noEntry_Delete_self (c : Cache) (k : String) : (c.Delete k).noEntry k := by
  intro it hit
  simp only [Cache.Delete, List.mem_filter, decide_eq_true_eq] at hit
  exact hit.2

theorem Cache.Get_of_noEntry (c : Cache) (k : String) (hc : c.noEntry k) (now : Nat) :
    c.Get now k = none := by
  unfold Cache.Get
  have hf : c.items.find? (fun it => decide (it.key = k)) = none := by
    rw [List.find?_eq_none]
    intro it hit
    simpa using hc it hit
  rw [hf]

theorem kept_switchesAre (env : Env) (r : RPCStorageHandler) (sync cache : Bool) :
    Kept env r (switchesAre sync cache) := by
  refine ⟨?_, ?_, ?_⟩
  · intro s part k hs
    cases part <;> exact hs
  · intro s c k hs hc
    subst hc
    exact hs
  · intro fuel key h s hs
    unfold RPCStorage.switchesAre
    rw [(GetRawKey_state env r fuel key h s).1]
    exact hs

/-! ## Hoare triples -/

theorem ensures_bind {α β : Type} {P : State → Prop} {R : α → State → Prop}
    {Q : β → State → Prop} {m : M α} {f : α → M β}
    (hm : Ensures P m R) (hf : ∀ a, Ensures (R a) (f a) Q) :
    Ensures P (m >>= f) Q := by
  intro h s b hpre hd
  obtain ⟨a, ha, hb, hst⟩ := bind_done_elim m f h s b hd
  rw [hst]
  exact hf a _ _ b (hm h s a hpre ha) hb

/-! ## The eviction of a regular key -/

theorem ensures_pure {α : Type} {Pre : State → Prop} {Post : α → State → Prop} (a : α)
    (hp : ∀ s, Pre s → Post a s) : Ensures Pre (pure a : M α) Post := by
  intro h s b hpre hd
  simp only [run_pure, Outcome.done.injEq] at hd
  subst hd
  exact hp s hpre

theorem handleDeleteKey_found (env : Env) (sync : Bool) (k o a : String) (q : Bool)
    (hfound : sync = true ∨ env.neverNotFound) :
    Ensures (fun _ => True) (handleDeleteKey env k o a q)
      (fun st _ => sync = true ∨ st ≠ StatusNotFound) := by
  intro h s st _ hd
  simp only [handleDeleteKey, ask_bind_run, emit_bind_run, run_pure, Run.after_mk,
    Outcome.done.injEq] at hd
  subst hd
  exact hfound.imp id (fun hn => hn.1 h k o a q)

theorem handleDeleteHashedKey_found (env : Env) (sync : Bool) (k o a : String) (q : Bool)
    (hfound : sync = true ∨ env.neverNotFound) :
    Ensures (fun _ => True) (handleDeleteHashedKey env k o a q)
      (fun st _ => sync = true ∨ st ≠ StatusNotFound) := by
  intro h s st _ hd
  simp only [handleDeleteHashedKey, ask_bind_run, emit_bind_run, run_pure, Run.after_mk,
    Outcome.done.injEq] at hd
  subst hd
  exact hfound.imp id (fun hn => hn.2 h k o a q)

theorem deleteUsingTokenID_found (env : Env) (sync : Bool) (k o : String) (q : Bool)
    (status : Int) (hfound : sync = true ∨ env.neverNotFound)
    (hst : sync = true ∨ status ≠ StatusNotFound) :
    Ensures (fun _ => True) (deleteUsingTokenID env k o q status)
      (fun st _ => sync = true ∨ st ≠ StatusNotFound) := by
  unfold deleteUsingTokenID
  split
  · split
    · exact handleDeleteKey_found env sync _ o "-1" q hfound
    · exact ensures_pure _ (fun _ _ => hst)
  · exact ensures_pure _ (fun _ _ => hst)

theorem evict_run (p1 p2 : Partition) (k1 k2 : String) (h : List Event) (s : State) :
    (cacheDelete p1 k1 >>= fun _ => cacheDelete p2 k2) h s =
      ⟨.done (),
        (s.withCache p1 ((s.cache p1).Delete k1)).withCache p2
          (((s.withCache p1 ((s.cache p1).Delete k1)).cache p2).Delete k2),
        [.cacheDelete p1 k1, .cacheDelete p2 k2]⟩ := by
  rw [bind_of_done _ _ h s _ () _ (cacheDelete_run p1 k1 h s)]
  simp

theorem evictTail_ensures (env : Env) (r : RPCStorageHandler) (fuel : Nat) (orgId : String)
    (sync isHashed : Bool) (key2 : String) (y : String × Int)
    (hy : y.1 = key2 ∧ (sync = true ∨ y.2 ≠ StatusNotFound)) :
    Ensures (fun _ => True)
      (if y.2 = StatusNotFound ∧ (!sync) = true then (pure () : M Unit)
        else do
          getSessionAndCreate env r fuel y.1 isHashed orgId
          cacheDelete .SessionCache y.1
          cacheDelete .RPCGlobalCache (r.KeyPrefix ++ y.1))
      (fun _ s => s.SessionCache.noEntry key2 ∧
        s.RPCGlobalCache.noEntry (r.KeyPrefix ++ key2)) := by
  obtain ⟨hk, hst⟩ := hy
  have hcond : ¬ (y.2 = StatusNotFound ∧ (!sync) = true) := by
    rintro ⟨h1, h2⟩
    rcases hst with h3 | h3
    · rw [h3] at h2
      cases h2
    · exact h3 h1
  rw [if_neg hcond, hk]
  intro h s a _ hd
  obtain ⟨u, _, _, hstate⟩ := bind_done_elim _ _ h s a hd
  rw [hstate, evict_run]
  constructor
  · intro it hit
    exact Cache.noEntry_Delete_self _ _ it hit
  · intro it hit
    exact Cache.noEntry_Delete_self _ _ it hit

theorem ensures_assume {α : Type} {fact : Prop} {m : M α} {Q : α → State → Prop}
    (hm : fact → Ensures (fun _ => True) m Q) : Ensures (fun _ => fact) m Q :=
  fun h s a hp hd => hm hp h s a trivial hd

theorem regularKeyStep_evicts (env : Env) (r : RPCStorageHandler) (fuel : Nat) (b : Buckets)
    (orgId : String) (sync : Bool) (key : String)
    (hreg : isUserKeyReset b key = false) (hnr : key ∉ b.notRegularKeys)
    (hfound : sync = true ∨ env.neverNotFound) :
    Ensures (fun _ => True) (regularKeyStep env r fuel b orgId sync key)
      (fun _ s => s.SessionCache.noEntry (processedKey env orgId key) ∧
        s.RPCGlobalCache.noEntry (r.KeyPrefix ++ processedKey env orgId key)) := by
  unfold regularKeyStep
  simp only [hreg, Bool.false_eq_true, if_false, if_neg hnr]
  by_cases hh : 1 < (stringsSplit key ':').length ∧ at0 (stringsSplit key ':') 1 = "hashed"
  · simp only [hh, and_self, decide_True, if_true]
    have hpk : processedKey env orgId key = at0 (stringsSplit key ':') 0 := by
      simp [processedKey, hh]
    rw [hpk]
    refine ensures_bind (handleDeleteHashedKey_found env sync _ _ _ _ hfound)
      (fun st => ensures_assume (fun hst => ?_))
    refine ensures_bind
      (R := fun y _ => y.1 = at0 (stringsSplit key ':') 0 ∧
        (sync = true ∨ y.2 ≠ StatusNotFound))
      (ensures_pure _ (fun _ _ => ⟨rfl, hst⟩)) (fun y => ?_)
    exact ensures_assume (fun hy => evictTail_ensures env r fuel orgId sync _ _ y hy)
  · simp only [hh, decide_False, Bool.false_eq_true, if_false]
    have hpk : processedKey env orgId key =
        (if env.TokenOrg key = "" then env.generateToken orgId key else key) := by
      simp [processedKey, hh]
    rw [hpk]
    refine ensures_bind (handleDeleteKey_found env sync _ _ _ _ hfound)
      (fun st => ensures_assume (fun hst => ?_))
    refine ensures_bind (deleteUsingTokenID_found env sync _ _ _ st hfound hst)
      (fun st2 => ensures_assume (fun hst2 => ?_))
    refine ensures_bind
      (R := fun y _ => y.1 = (if env.TokenOrg key = "" then env.generateToken orgId key
        else key) ∧ (sync = true ∨ y.2 ≠ StatusNotFound))
      (ensures_pure _ (fun _ _ => ⟨rfl, hst2⟩)) (fun y => ?_)
    exact ensures_assume (fun hy => evictTail_ensures env r fuel orgId sync _ _ y hy)

/-! ## The heartbeat TTL -/

theorem int64_bounds (x : Int) : -2 ^ 63 ≤ int64 x ∧ int64 x < 2 ^ 63 := by
  unfold int64
  omega

theorem int64_of_bounds (x : Int) (h1 : -2 ^ 63 ≤ x) (h2 : x < 2 ^ 63) : int64 x = x := by
  unfold int64
  omega

theorem tdiv_second_bounds (d : Int) (h1 : -2 ^ 63 ≤ d) (h2 : d < 2 ^ 63) :
    -2 ^ 63 ≤ d.tdiv second ∧ d.tdiv second < 2 ^ 63 := by
  have hs : (second : Int) = 1000000000 := rfl
  rcases Int.le_total 0 d with hd | hd
  · rw [Int.tdiv_eq_ediv hd (Int.ofNat_nonneg _), hs]
    omega
  · have hneg : d.tdiv second = -((-d).tdiv second) := by
      rw [Int.neg_tdiv, Int.neg_neg]
    rw [hneg, Int.tdiv_eq_ediv (by omega) (Int.ofNat_nonneg _), hs]
    omega

/-- C18: for every configured liveness check duration d (a duration is a number
of nanoseconds), the TTL of the node that buildNodeInfo marshals is 10 when d is
zero and otherwise the quotient of d by one second, rounded towards zero: a
duration of n whole seconds gives the TTL n (10 for n = 0), one and a half
seconds give 1, and a duration under one second that is not zero gives 0. The
quotient of an `int64` duration is an `int64` again, so the conversion changes
nothing. buildNodeInfo returns the marshalled node, or nil when marshalling
fails. -/
theorem heartbeat_ttl (gw : Gateway) (config : Config) :
    (nodeInfo gw config).TTL =
        (if config.CheckDuration = 0 then 10 else config.CheckDuration.tdiv 1000000000) ∧
    (∀ n : Int, (nodeInfo gw { config with CheckDuration := n * 1000000000 }).TTL =
        if n = 0 then 10 else n) ∧
    (nodeInfo gw { config with CheckDuration := 1500000000 }).TTL = 1 ∧
    (nodeInfo gw { config with CheckDuration := 999999999 }).TTL = 0 ∧
    (∀ d : Int, int64 ((nodeInfo gw { config with CheckDuration := int64 d }).TTL) =
        (nodeInfo gw { config with CheckDuration := int64 d }).TTL) ∧
    (∀ (h : List Event) (s : State),
      buildNodeInfo gw h s =
        ⟨.done (match gw.jsonMarshal (nodeInfo gw s.config) with
          | .ok data => some data
          | .error _ => none), s, []⟩) := by
  have hs : (second : Int) = 1000000000 := rfl
  refine ⟨?_, ?_, ?_, ?_, ?_, ?_⟩
  · simp only [nodeInfo, hs]
    split <;> simp_all
  · intro n
    simp only [nodeInfo, hs]
    by_cases hn : n = 0
    · simp [hn]
    · have h0 : n * 1000000000 ≠ 0 := by omega
      rw [if_pos h0, if_neg hn]
      exact Int.mul_tdiv_cancel n (by decide)
  · simp only [nodeInfo, hs]
    decide
  · simp only [nodeInfo, hs]
    decide
  · intro d
    simp only [nodeInfo]
    split
    · exact int64_of_bounds _ (tdiv_second_bounds _ (int64_bounds d).1 (int64_bounds d).2).1
        (tdiv_second_bounds _ (int64_bounds d).1 (int64_bounds d).2).2
    · exact int64_of_bounds _ (by decide) (by decide)
  · intro h s
    unfold buildNodeInfo
    cases hm : gw.jsonMarshal (nodeInfo gw s.config) <;> simp [hm]

/-! ## The prefix of the listed keys -/

theorem replaceFirstChars_leading (p s : List Char) : replaceFirstChars p [] (p ++ s) = s := by
  cases hl : p ++ s with
  | nil =>
    have hp : p = [] := (List.append_eq_nil.mp hl).1
    have hs : s = [] := (List.append_eq_nil.mp hl).2
    simp [replaceFirstChars, hp, hs]
  | cons c cs =>
    have hpre : p.isPrefixOf (c :: cs) = true := by
      rw [isPrefixOf_iff_append]
      exact ⟨s, hl.symm⟩
    rw [replaceFirstChars, if_pos hpre, ← hl]
    simp

theorem cleanKey_prefixed (r : RPCStorageHandler) (k : String) :
    cleanKey r (r.KeyPrefix ++ k) = k := by
  unfold cleanKey stringsReplaceFirst
  simp only [String.toList, String.data_append]
  show String.mk (replaceFirstChars r.KeyPrefix.data [] (r.KeyPrefix.data ++ k.data)) = k
  rw [replaceFirstChars_leading]

theorem collectPairs_prefixed (r : RPCStorageHandler) (ss vs : List String)
    (acc : List (String × String)) (hlen : ss.length = vs.length) (hnd : ss.Nodup)
    (hacc : ∀ p ∈ acc, p.1 ∉ ss) :
    collectPairs r (ss.map (fun k => r.KeyPrefix ++ k)) vs acc =
      some ((ss.zip vs).reverse ++ acc) := by
  induction ss generalizing vs acc with
  | nil => simp [collectPairs]
  | cons k ks ih =>
    cases vs with
    | nil => simp at hlen
    | cons v vs =>
      have hk : k ∉ ks := (List.nodup_cons.mp hnd).1
      have hfilter : acc.filter (fun p => decide (p.1 ≠ k)) = acc := by
        rw [List.filter_eq_self]
        intro p hp
        have := hacc p hp
        simp only [List.mem_cons, not_or] at this
        simpa using this.1
      simp only [List.map_cons, collectPairs, cleanKey_prefixed, hfilter]
      rw [ih vs _ (by simpa using hlen) (List.nodup_cons.mp hnd).2]
      · simp
      · intro p hp
        rcases List.mem_cons.mp hp with hp | hp
        · rw [hp]
          exact hk
        · have := hacc p hp
          simp only [List.mem_cons, not_or] at this
          exact this.2

theorem eventsAll_GetKeysAndValuesWithFilter {P : Event → Prop} (env : Env)
    (r : RPCStorageHandler) (filter : String)
    (hrpc : P (.rpc "GetKeysAndValuesWithFilter"
      (.str (r.KeyPrefix ++ hashKey env r filter ++ "*"))))
    (herr : ∀ f e kv, P (.emitError f e kv)) (hlogin : P .Login) (fuel : Nat) :
    EventsAll P (GetKeysAndValuesWithFilter env r fuel filter) := by
  induction fuel with
  | zero =>
    rw [GetKeysAndValuesWithFilter.eq_1]
    exact eventsAll_outOfFuel
  | succ n ih =>
    rw [GetKeysAndValuesWithFilter.eq_2]
    unfold FuncClientSingleton EmitErrorEventKv retryAfterLogin Login returnValuesOf
    repeat' (first
      | exact ih
      | exact eventsAll_pure _
      | exact eventsAll_ask _
      | exact eventsAll_goPanic
      | exact eventsAll_emit hrpc
      | exact eventsAll_emit (herr _ _ _)
      | exact eventsAll_emit hlogin
      | apply eventsAll_bind
      | intro _
      | split)

theorem GetKeysAndValuesWithFilter_ok (env : Env) (r : RPCStorageHandler) (fuel : Nat)
    (filter : String) (h : List Event) (s : State) (kv : KeysValuesPair)
    (hres : env.remote.GetKeysAndValuesWithFilter h
      (r.KeyPrefix ++ hashKey env r filter ++ "*") = .ok kv) :
    GetKeysAndValuesWithFilter env r (fuel + 1) filter h s =
      (returnValuesOf r kv
        (h ++ [.rpc "GetKeysAndValuesWithFilter"
          (.str (r.KeyPrefix ++ hashKey env r filter ++ "*"))]) s).after
        [.rpc "GetKeysAndValuesWithFilter"
          (.str (r.KeyPrefix ++ hashKey env r filter ++ "*"))] := by
  rw [GetKeysAndValuesWithFilter.eq_2]
  simp [FuncClientSingleton, hres]

/-- C11: with hashing disabled and key prefix P, for every filter f: the first
event of a call of GetKeysAndValuesWithFilter is the remote call for
P ++ f ++ "*", and every remote call of the run, replays included, is for that
string; when the remote answers with the keys P ++ s_1 .. P ++ s_n (the s_i
distinct) and the values v_1 .. v_n, the call returns the map whose entries are
exactly the pairs (s_i, v_i) (a map is the list of its entries, here the latest
first), after that one remote call; cleanKey (fixKey k) = k for every k. For the
prefix "prefix-", the filter "foo" and the reply with the key "prefix-foo1" and
the value "v1", the call returns the map with the one entry ("foo1", "v1"). -/
theorem prefix_stripping (env : Env) (r : RPCStorageHandler) (fuel : Nat) (h : List Event)
    (s : State) (hk : r.HashKeys = false) :
    (∀ (filter : String),
      (GetKeysAndValuesWithFilter env r (fuel + 1) filter h s).events.head? =
          some (.rpc "GetKeysAndValuesWithFilter" (.str (r.KeyPrefix ++ filter ++ "*"))) ∧
        ∀ e ∈ (GetKeysAndValuesWithFilter env r (fuel + 1) filter h s).events,
          isRpc e = true →
            e = .rpc "GetKeysAndValuesWithFilter" (.str (r.KeyPrefix ++ filter ++ "*"))) ∧
    (∀ (filter : String) (ss vs : List String),
      env.remote.GetKeysAndValuesWithFilter h (r.KeyPrefix ++ filter ++ "*") =
          .ok ⟨ss.map (fun k => r.KeyPrefix ++ k), vs⟩ →
        ss.Nodup → ss.length = vs.length →
        GetKeysAndValuesWithFilter env r (fuel + 1) filter h s =
          ⟨.done (some (ss.zip vs).reverse), s,
            [.rpc "GetKeysAndValuesWithFilter" (.str (r.KeyPrefix ++ filter ++ "*"))]⟩) ∧
    (∀ k : String, cleanKey r (fixKey env r k) = k) ∧
    (r.KeyPrefix = "prefix-" →
      env.remote.GetKeysAndValuesWithFilter h "prefix-foo*" = .ok ⟨["prefix-foo1"], ["v1"]⟩ →
      (GetKeysAndValuesWithFilter env r (fuel + 1) "foo" h s).out =
        .done (some [("foo1", "v1")])) := by
  have hh : ∀ k, hashKey env r k = k := by
    intro k
    simp [hashKey, hk]
  have hgen : ∀ (filter : String) (ss vs : List String),
      env.remote.GetKeysAndValuesWithFilter h (r.KeyPrefix ++ filter ++ "*") =
          .ok ⟨ss.map (fun k => r.KeyPrefix ++ k), vs⟩ →
        ss.Nodup → ss.length = vs.length →
        GetKeysAndValuesWithFilter env r (fuel + 1) filter h s =
          ⟨.done (some (ss.zip vs).reverse), s,
            [.rpc "GetKeysAndValuesWithFilter" (.str (r.KeyPrefix ++ filter ++ "*"))]⟩ := by
    intro filter ss vs hres hnd hlen
    rw [GetKeysAndValuesWithFilter_ok env r fuel filter h s _ (by rw [hh]; exact hres)]
    simp [returnValuesOf, collectPairs_prefixed r ss vs [] hlen hnd (by simp), hh]
  refine ⟨fun filter => ⟨?_, ?_⟩, hgen, ?_, ?_⟩
  · rw [GetKeysAndValuesWithFilter.eq_2]
    simp only [FuncClientSingleton, hh]
    rw [bind_assoc_run, ask_bind_run, bind_assoc_run, emit_bind_run]
    simp
  · have hall := eventsAll_GetKeysAndValuesWithFilter
      (P := fun e => isRpc e = true →
        e = .rpc "GetKeysAndValuesWithFilter" (.str (r.KeyPrefix ++ filter ++ "*")))
      env r filter (by rw [hh]; intro _; rfl) (fun _ _ _ hc => by cases hc)
      (fun hc => by cases hc) (fuel + 1)
    exact hall.all h s
  · intro k
    rw [fixKey, hh, cleanKey_prefixed]
  · intro hp hres
    have hreq : r.KeyPrefix ++ "foo" ++ "*" = "prefix-foo*" := by
      rw [hp]
      decide
    have hkeys : ["foo1"].map (fun k => r.KeyPrefix ++ k) = ["prefix-foo1"] := by
      rw [hp]
      decide
    rw [hgen "foo" ["foo1"] ["v1"] (by rw [hreq, hkeys]; exact hres) (by simp) rfl]
    rfl

theorem prefix_stripping_witness :
    GetKeysAndValuesWithFilter (Example.env 0) Example.handler 1 "foo" [] Example.state =
        ⟨.done (some [("foo1", "v1")]), Example.state,
          [.rpc "GetKeysAndValuesWithFilter" (.str ("apikey-" ++ "foo" ++ "*"))]⟩ ∧
      (GetKeysAndValuesWithFilter Example.envPrefix Example.handlerPrefix 1 "foo" []
        Example.state).out = .done (some [("foo1", "v1")]) :=
  ⟨(prefix_stripping (Example.env 0) Example.handler 0 [] Example.state rfl).2.1
      "foo" ["foo1"] ["v1"] rfl (by decide) rfl,
    (prefix_stripping Example.envPrefix Example.handlerPrefix 0 [] Example.state rfl).2.2.2
      rfl rfl⟩

/-! ## The name in the error events -/

/-- C14, the defect: when the remote call of DeleteRawKeys fails, whatever the
error, the call made is `FuncClientSingleton("DeleteRawKeys", keys)` and the
error event that follows it carries the method name "DeleteKey", not
"DeleteRawKeys"; the error of the event is the error of the call. Its sibling
DeleteRawKey, on a failed call, emits the error event under its own name
"DeleteRawKey". For the keys ["k"] and a remote that answers "connection
refused", DeleteRawKeys returns false after exactly the call "DeleteRawKeys" and
the error event named "DeleteKey". -/
theorem DeleteRawKeys_error_event_names_DeleteKey (env : Env) (r : RPCStorageHandler)
    (fuel : Nat) (h : List Event) (s : State) (err : GoError) :
    (∀ keys : List String, env.remote.DeleteRawKeys h keys = .error err →
      ∃ rest, (DeleteRawKeys env r (fuel + 1) keys h s).events =
        .rpc "DeleteRawKeys" (.strs keys) :: .emitError "DeleteKey" err [] :: rest) ∧
    (∀ keyName : String, env.remote.DeleteRawKey h keyName = .error err →
      ∃ rest, (DeleteRawKey env r (fuel + 1) keyName h s).events =
        .rpc "DeleteRawKey" (.str keyName) ::
          .emitError "DeleteRawKey" err [("keyName", keyName)] :: rest) ∧
    ((DeleteRawKeys Example.envRefused r (fuel + 1) ["k"] h s).out = .done false ∧
      (DeleteRawKeys Example.envRefused r (fuel + 1) ["k"] h s).events =
        [.rpc "DeleteRawKeys" (.strs ["k"]),
          .emitError "DeleteKey" (.other "connection refused") []]) := by
  refine ⟨?_, ?_, ?_⟩
  · intro keys hres
    rw [DeleteRawKeys.eq_2]
    simp only [FuncClientSingleton, EmitErrorEventKv]
    rw [bind_assoc_run, ask_bind_run, bind_assoc_run, emit_bind_run, pure_bind_run, hres]
    dsimp only
    rw [emit_bind_run]
    exact ⟨_, rfl⟩
  · intro keyName hres
    rw [DeleteRawKey.eq_2]
    simp only [FuncClientSingleton, EmitErrorEventKv]
    rw [bind_assoc_run, ask_bind_run, bind_assoc_run, emit_bind_run, pure_bind_run, hres]
    dsimp only
    rw [emit_bind_run]
    exact ⟨_, rfl⟩
  · constructor <;> rfl

theorem DeleteRawKeys_error_event_names_DeleteKey_witness :
    (∃ rest, (DeleteRawKeys Example.envRefused Example.handler 1 ["k"] [] Example.state).events =
      .rpc "DeleteRawKeys" (.strs ["k"]) ::
        .emitError "DeleteKey" (.other "connection refused") [] :: rest) ∧
    (∃ rest, (DeleteRawKey Example.envRefused Example.handler 1 "k" [] Example.state).events =
      .rpc "DeleteRawKey" (.str "k") ::
        .emitError "DeleteRawKey" (.other "connection refused") [("keyName", "k")] :: rest) :=
  ⟨(DeleteRawKeys_error_event_names_DeleteKey Example.envRefused Example.handler 0 []
      Example.state (.other "connection refused")).1 ["k"] rfl,
    (DeleteRawKeys_error_event_names_DeleteKey Example.envRefused Example.handler 0 []
      Example.state (.other "connection refused")).2.1 "k" rfl⟩

/-! ## The error that the caller receives -/

theorem GetExp_fail (env : Env) (r : RPCStorageHandler) (fuel : Nat) (keyName : String)
    (h : List Event) (s : State) (err : GoError)
    (hres : env.remote.GetExp h (fixKey env r keyName) = .error err)
    (hterm : IsRetriableError (some err) = false ∨
      env.Login (h ++ [.rpc "GetExp" (.str (fixKey env r keyName)),
        .emitError "GetExp" err
          [("keyName", keyName), ("fixedKeyName", fixKey env r keyName)]]) = false) :
    (GetExp env r (fuel + 1) keyName h s).out = .done (0, some .ErrKeyNotFound) := by
  rw [GetExp.eq_2]
  cases hr : IsRetriableError (some err) with
  | false => simp [FuncClientSingleton, hres, EmitErrorEventKv, hr]
  | true =>
    rcases hterm with h1 | h1
    · rw [hr] at h1
      cases h1
    · simp [FuncClientSingleton, hres, EmitErrorEventKv, hr, h1]

theorem SetKey_fail (env : Env) (r : RPCStorageHandler) (fuel : Nat)
    (keyName session : String) (timeout : Int) (h : List Event) (s : State) (err : GoError)
    (hres : env.remote.SetKey h
      { KeyName := fixKey env r keyName, SessionState := session, Timeout := timeout } =
        .error err)
    (hterm : IsRetriableError (some err) = false ∨
      env.Login (h ++ [.rpc "SetKey" (.ibd
          { KeyName := fixKey env r keyName, SessionState := session, Timeout := timeout }),
        .emitError "SetKey" err
          [("keyName", keyName), ("fixedKeyName", fixKey env r keyName)]]) = false) :
    (SetKey env r (fuel + 1) keyName session timeout h s).out = .done (some err) := by
  rw [SetKey.eq_2]
  cases hr : IsRetriableError (some err) with
  | false => simp [FuncClientSingleton, hres, EmitErrorEventKv, hr]
  | true =>
    rcases hterm with h1 | h1
    · rw [hr] at h1
      cases h1
    · simp [FuncClientSingleton, hres, EmitErrorEventKv, hr, h1]

/-- C15, as stated, fails for SetKey: against a remote that answers "connection
refused" (an error that is not retried), SetKey returns that very error to its
caller, not storage.ErrKeyNotFound. -/
theorem SetKey_returns_the_remote_error :
    (SetKey Example.envRefused Example.handler 1 "k" "v" 60 [] Example.state).out =
        .done (some (.other "connection refused")) ∧
      (SetKey Example.envRefused Example.handler 1 "k" "v" 60 [] Example.state).out ≠
        .done (some .ErrKeyNotFound) := by
  decide

/-- C15 (amended): for every remote error e that is not retried (e is not
retriable, or the re-login that follows it fails): GetRawKey, when neither its
cache nor the emergency mode ends the call, and GetKey, which delegates to it,
return the empty string and storage.ErrKeyNotFound; GetExp returns 0 and
storage.ErrKeyNotFound; SetKey returns e itself. -/
theorem terminal_errors_at_the_boundary (env : Env) (r : RPCStorageHandler) (fuel : Nat)
    (h : List Event) (s : State) (e : GoError) :
    (∀ keyName : String, cacheMiss env keyName h s → env.IsEmergencyMode h = false →
      env.remote.GetKey h keyName = .error e →
      (IsRetriableError (some e) = false ∨
        env.Login (h ++ [.rpc "GetKey" (.str keyName),
          .emitError "GetKey" e [("keyName", keyName)]]) = false) →
      (GetRawKey env r (fuel + 1) keyName h s).out = .done ("", some .ErrKeyNotFound)) ∧
    (∀ keyName : String, cacheMiss env (fixKey env r keyName) h s →
      env.IsEmergencyMode h = false →
      env.remote.GetKey h (fixKey env r keyName) = .error e →
      (IsRetriableError (some e) = false ∨
        env.Login (h ++ [.rpc "GetKey" (.str (fixKey env r keyName)),
          .emitError "GetKey" e [("keyName", fixKey env r keyName)]]) = false) →
      (GetKey env r (fuel + 1) keyName h s).out = .done ("", some .ErrKeyNotFound)) ∧
    (∀ keyName : String, env.remote.GetExp h (fixKey env r keyName) = .error e →
      (IsRetriableError (some e) = false ∨
        env.Login (h ++ [.rpc "GetExp" (.str (fixKey env r keyName)),
          .emitError "GetExp" e
            [("keyName", keyName), ("fixedKeyName", fixKey env r keyName)]]) = false) →
      (GetExp env r (fuel + 1) keyName h s).out = .done (0, some .ErrKeyNotFound)) ∧
    (∀ (keyName session : String) (timeout : Int),
      env.remote.SetKey h
          { KeyName := fixKey env r keyName, SessionState := session, Timeout := timeout } =
        .error e →
      (IsRetriableError (some e) = false ∨
        env.Login (h ++ [.rpc "SetKey" (.ibd
            { KeyName := fixKey env r keyName, SessionState := session, Timeout := timeout }),
          .emitError "SetKey" e
            [("keyName", keyName), ("fixedKeyName", fixKey env r keyName)]]) = false) →
      (SetKey env r (fuel + 1) keyName session timeout h s).out = .done (some e)) := by
  have hraw : ∀ keyName : String, cacheMiss env keyName h s → env.IsEmergencyMode h = false →
      env.remote.GetKey h keyName = .error e →
      (IsRetriableError (some e) = false ∨
        env.Login (h ++ [.rpc "GetKey" (.str keyName),
          .emitError "GetKey" e [("keyName", keyName)]]) = false) →
      (GetRawKey env r (fuel + 1) keyName h s).out = .done ("", some .ErrKeyNotFound) := by
    intro keyName hm hem hres hterm
    rw [GetRawKey_fail env r fuel keyName h s e hm hem hres hterm]
    split <;> rfl
  exact ⟨hraw, fun keyName hm hem hres hterm => hraw _ hm hem hres hterm,
    fun keyName hres hterm => GetExp_fail env r fuel keyName h s e hres hterm,
    fun keyName session timeout hres hterm =>
      SetKey_fail env r fuel keyName session timeout h s e hres hterm⟩

theorem terminal_errors_at_the_boundary_witness :
    (GetRawKey Example.envRefused Example.handler 1 "k" [] Example.state).out =
        .done ("", some .ErrKeyNotFound) ∧
      (GetKey Example.envRefused Example.handler 1 "k" [] Example.state).out =
        .done ("", some .ErrKeyNotFound) ∧
      (GetExp Example.envRefused Example.handler 1 "k" [] Example.state).out =
        .done (0, some .ErrKeyNotFound) ∧
      (SetKey Example.envRefused Example.handler 1 "k" "v" 60 [] Example.state).out =
        .done (some (.other "connection refused")) :=
  ⟨(terminal_errors_at_the_boundary Example.envRefused Example.handler 0 [] Example.state
      (.other "connection refused")).1 "k" (Or.inl rfl) rfl rfl (Or.inl (by decide)),
    (terminal_errors_at_the_boundary Example.envRefused Example.handler 0 [] Example.state
      (.other "connection refused")).2.1 "k" (Or.inl rfl) rfl rfl (Or.inl (by decide)),
    (terminal_errors_at_the_boundary Example.envRefused Example.handler 0 [] Example.state
      (.other "connection refused")).2.2.1 "k" rfl (Or.inl (by decide)),
    (terminal_errors_at_the_boundary Example.envRefused Example.handler 0 [] Example.state
      (.other "connection refused")).2.2.2 "k" "v" 60 rfl (Or.inl (by decide))⟩

/-! ## Change-keys with too few segments -/

theorem classify_shortToken (env : Env) (keys : List String)
    (hk : ∀ k ∈ keys, ':' ∉ k.toList) :
    classify env (keys ++ ["tok:oAuthRevokeToken"]) =
      { Buckets.empty with
        TokensToBeRevoked := [("tok", "tok:oAuthRevokeToken")],
        notRegularKeys := ["tok:oAuthRevokeToken"] } := by
  have h1 : stringsSplit "tok:oAuthRevokeToken" ':' = ["tok", "oAuthRevokeToken"] := by decide
  have hplain : ∀ (ks : List String) (b : Buckets), (∀ k ∈ ks, ':' ∉ k.toList) →
      ks.foldl (classifyKey env) b = b := by
    intro ks
    induction ks with
    | nil => intro b _; rfl
    | cons k ks ih =>
      intro b hks
      have hk1 : stringsSplit k ':' = [k] :=
        stringsSplit_of_not_mem k ':' (hks k (List.mem_cons_self _ _))
      have hstep : classifyKey env b k = b := by
        simp [classifyKey, hk1]
      rw [List.foldl_cons, hstep]
      exact ih b (fun k2 hk2 => hks k2 (List.mem_cons_of_mem _ hk2))
  unfold classify
  rw [List.foldl_append, hplain keys _ hk]
  simp [classifyKey, h1, at0, ResetQuota, CertificateRemoved, CertificateAdded,
    OAuthRevokeToken, Buckets.empty, GoMap.set]

theorem classify_shortClient (env : Env) :
    classify env ["api:revoke_all_tokens"] =
      { Buckets.empty with
        ClientsToBeRevoked := [("revoke_all_tokens", "api:revoke_all_tokens")],
        notRegularKeys := ["api:revoke_all_tokens"] } := by
  have h1 : stringsSplit "api:revoke_all_tokens" ':' = ["api", "revoke_all_tokens"] := by
    decide
  simp [classify, classifyKey, h1, at0, ResetQuota, CertificateRemoved, CertificateAdded,
    OAuthRevokeToken, OAuthRevokeAccessToken, OAuthRevokeRefreshToken, OAuthRevokeAllTokens,
    Buckets.empty, GoMap.set]

theorem classify_shortOauthClient (env : Env) :
    classify env ["x:OauthClientAdded"] =
      { Buckets.empty with
        OauthClients := [("x", "OauthClientAdded")],
        notRegularKeys := ["x:OauthClientAdded"] } := by
  have h1 : stringsSplit "x:OauthClientAdded" ':' = ["x", "OauthClientAdded"] := by decide
  simp [classify, classifyKey, h1, at0, ResetQuota, CertificateRemoved, CertificateAdded,
    OAuthRevokeToken, OAuthRevokeAccessToken, OAuthRevokeRefreshToken, OAuthRevokeAllTokens,
    OauthClientAdded, Buckets.empty, GoMap.set]

/-- C13, the defect: a change-key that carries a recognised action tag with too
few segments makes ProcessKeySpaceChanges panic on an index out of range,
whatever the world, the organisation and the state. For each of the batches
["tok:oAuthRevokeToken"] (the loop over the tokens reads `splitKeys[2]` of two
segments), ["api:revoke_all_tokens"] (the loop over the clients reads
`splitKeys[2]` of two segments) and ["x:OauthClientAdded"]
(ProcessOauthClientsOps reads `eventValues[1]` of one segment) the call panics
before it has caused any event: no cluster notification is sent. The rest of the
batch is lost with it: for keys without ':' followed by "tok:oAuthRevokeToken",
no key is reconciled and nothing is notified. The sibling branch of the user key
resets checks the number of parts: the batch ["a.b.c:UserKeyReset"], whose
reset has three parts instead of two, is processed to the end and notified. -/
theorem short_tagged_key_panics (env : Env) (r : RPCStorageHandler) (fuel : Nat)
    (orgId : String) (h : List Event) (s : State) :
    ProcessKeySpaceChanges env r fuel ["tok:oAuthRevokeToken"] orgId h s = ⟨.panic, s, []⟩ ∧
    ProcessKeySpaceChanges env r fuel ["api:revoke_all_tokens"] orgId h s = ⟨.panic, s, []⟩ ∧
    ProcessKeySpaceChanges env r fuel ["x:OauthClientAdded"] orgId h s = ⟨.panic, s, []⟩ ∧
    ProcessKeySpaceChanges env r fuel ["k1", "k2", "tok:oAuthRevokeToken"] orgId h s =
      ⟨.panic, s, []⟩ ∧
    ((ProcessKeySpaceChanges (Example.env 0) Example.handler 1 ["a.b.c:UserKeyReset"] "org1"
        [] Example.state).out = .done () ∧
      (ProcessKeySpaceChanges (Example.env 0) Example.handler 1 ["a.b.c:UserKeyReset"] "org1"
        [] Example.state).events.getLast? =
        some (.Notify ⟨"KeySpaceUpdateNotification", "a.b.c:UserKeyReset"⟩)) := by
  have hs1 : stringsSplit "tok:oAuthRevokeToken" ':' = ["tok", "oAuthRevokeToken"] := by decide
  have hs2 : stringsSplit "api:revoke_all_tokens" ':' = ["api", "revoke_all_tokens"] := by
    decide
  have hs3 : stringsSplit "x" '.' = ["x"] := by decide
  have htok : ∀ keys : List String, (∀ k ∈ keys, ':' ∉ k.toList) →
      ProcessKeySpaceChanges env r fuel (keys ++ ["tok:oAuthRevokeToken"]) orgId h s =
        ⟨.panic, s, []⟩ := by
    intro keys hk
    unfold ProcessKeySpaceChanges
    rw [classify_shortToken env keys hk]
    simp [Buckets.empty, Env.rangeOrder_nil, Env.rangeOrder_singleton, forEach,
      ProcessOauthClientsOps, revokeClients, revokeTokenStep, hs1, index]
  refine ⟨htok [] (by simp), ?_, ?_, htok ["k1", "k2"] (by decide), by decide⟩
  · unfold ProcessKeySpaceChanges
    rw [classify_shortClient env]
    simp [Buckets.empty, Env.rangeOrder_nil, Env.rangeOrder_singleton, forEach,
      ProcessOauthClientsOps, revokeClients, hs2, index]
  · unfold ProcessKeySpaceChanges
    rw [classify_shortOauthClient env]
    simp [Buckets.empty, Env.rangeOrder_nil, Env.rangeOrder_singleton, forEach,
      ProcessOauthClientsOps, oauthClientStep, hs3, index]

/-! ## The events of the steps of the reconciler, in general -/

theorem eventsAll_userKeyResetStep {P : Event → Prop} (env : Env) (p : String × String)
    (hupd : ∀ path k, P (.updateKeyInStore path k)) (hconn : ∀ k, P (.Connect k))
    (hnot : ∀ payload, P (.Notify ⟨env.NoticeUserKeyReset, payload⟩)) :
    EventsAll P (userKeyResetStep env p) := by
  unfold RPCStorage.userKeyResetStep RPCStorage.Connect RPCStorage.Notify
  repeat' (first
    | exact eventsAll_pure _
    | exact eventsAll_ask _
    | exact eventsAll_getState
    | exact eventsAll_modifyState _
    | exact eventsAll_emit (hupd _ _)
    | exact eventsAll_emit (hconn _)
    | exact eventsAll_emit (hnot _)
    | apply eventsAll_bind
    | intro _
    | split
    | (dsimp only))

theorem eventsAll_oauthClientStep {P : Event → Prop} (env : Env) (p : String × String)
    (hst : ∀ a, P (.GetStorageForApi a)) (hget : ∀ a c, P (.GetClient a c))
    (hset : ∀ a c o, P (.SetClient a c o)) (hdel : ∀ a c o, P (.DeleteClient a c o)) :
    EventsAll P (oauthClientStep env p) := by
  unfold RPCStorage.oauthClientStep RPCStorage.ProcessSingleOauthClientEvent
    RPCStorage.GetStorageForApi RPCStorage.GetClient RPCStorage.SetClient
    RPCStorage.DeleteClient
  repeat' (first
    | exact eventsAll_pure _
    | exact eventsAll_ask _
    | exact eventsAll_index _ _
    | exact eventsAll_emit (hst _)
    | exact eventsAll_emit (hget _ _)
    | exact eventsAll_emit (hset _ _ _)
    | exact eventsAll_emit (hdel _ _ _)
    | apply eventsAll_bind
    | intro _
    | split)

theorem eventsAll_revokeClients {P : Event → Prop} (env : Env) (l : List (String × String))
    (keys : List String) (hst : ∀ a, P (.GetStorageForApi a))
    (hrev : ∀ a c k, P (.RevokeAllTokens a c k)) : EventsAll P (revokeClients env l keys) := by
  induction l generalizing keys with
  | nil => exact eventsAll_pure _
  | cons p rest ih =>
    obtain ⟨clientId, key⟩ := p
    unfold RPCStorage.revokeClients RPCStorage.GetStorageForApi
    repeat' (first
      | exact ih _
      | exact eventsAll_pure _
      | exact eventsAll_ask _
      | exact eventsAll_index _ _
      | exact eventsAll_emit (hst _)
      | exact eventsAll_emit (hrev _ _ _)
      | apply eventsAll_bind
      | intro _
      | split)

theorem eventsAll_revokeTokenStep {P : Event → Prop} (env : Env) (r : RPCStorageHandler)
    (orgId : String) (p : String × String) (hst : ∀ a, P (.GetStorageForApi a))
    (hrt : ∀ a t hint, P (.RevokeToken a t hint))
    (hdh : ∀ k a, P (.handleDeleteHashedKey k orgId a false))
    (hcd : ∀ part k, P (.cacheDelete part k)) :
    EventsAll P (revokeTokenStep env r orgId p) := by
  unfold RPCStorage.revokeTokenStep RPCStorage.GetStorageForApi
    RPCStorage.handleDeleteHashedKey RPCStorage.cacheDelete
  repeat' (first
    | exact eventsAll_pure _
    | exact eventsAll_ask _
    | exact eventsAll_modifyState _
    | exact eventsAll_index _ _
    | exact eventsAll_emit (hst _)
    | exact eventsAll_emit (hrt _ _ _)
    | exact eventsAll_emit (hdh _ _)
    | exact eventsAll_emit (hcd _ _)
    | apply eventsAll_bind
    | intro _
    | split
    | (dsimp only))

theorem eventsAll_removeCertStep {P : Event → Prop} (orgId : String) (p : String × String)
    (hdel : ∀ c, P (.CertDelete c orgId)) (hcd : ∀ part k, P (.cacheDelete part k)) :
    EventsAll P (removeCertStep orgId p) := by
  unfold RPCStorage.removeCertStep RPCStorage.cacheDelete
  repeat' (first
    | exact eventsAll_modifyState _
    | exact eventsAll_emit (hdel _)
    | exact eventsAll_emit (hcd _ _)
    | apply eventsAll_bind
    | intro _)

theorem eventsAll_addCertStep {P : Event → Prop} (env : Env) (p : String × String)
    (hget : ∀ c, P (.CertGetRaw c)) : EventsAll P (addCertStep env p) := by
  unfold RPCStorage.addCertStep
  exact eventsAll_bind (eventsAll_ask _) (fun _ => eventsAll_emit (hget _))

theorem eventsAll_invalidateStep {P : Event → Prop} (env : Env) (apiID : String)
    (hinv : ∀ a, P (.invalidateAPICache a)) : EventsAll P (invalidateStep env apiID) := by
  unfold RPCStorage.invalidateStep
  exact eventsAll_bind (eventsAll_ask _) (fun _ => eventsAll_emit (hinv _))

theorem eventsAll_regularKeyStep_any {P : Event → Prop} (env : Env) (r : RPCStorageHandler)
    (fuel : Nat) (b : Buckets) (orgId : String) (sync : Bool) (key : String)
    (hdel : ∀ k o a q, P (.handleDeleteKey k o a q))
    (hdelh : ∀ k o a q, P (.handleDeleteHashedKey k o a q))
    (hrpc : ∀ f p, P (.rpc f p)) (herr : ∀ f e kv, P (.emitError f e kv)) (hlogin : P .Login)
    (hset : ∀ part k v t, P (.cacheSet part k v t))
    (hadd : ∀ k v o, P (.handleAddKey k v o))
    (hcd : ∀ part k, P (.cacheDelete part k)) :
    EventsAll P (regularKeyStep env r fuel b orgId sync key) :=
  eventsAll_regularKeyStep env r fuel b orgId sync key (fun _ _ => hdel _ _ _ _)
    (fun _ _ => hdelh _ _ _ _) hrpc herr hlogin hset hadd hcd

/-! ## The cluster notification -/

theorem tokensReturned_append (env : Env) (h e1 e2 : List Event) :
    tokensReturned env h (e1 ++ e2) =
      tokensReturned env h e1 ++ tokensReturned env (h ++ e1) e2 := by
  induction e1 generalizing h with
  | nil => simp [tokensReturned]
  | cons e rest ih =>
    show tokensOf env h e ++ tokensReturned env (h ++ [e]) (rest ++ e2) =
      tokensOf env h e ++ tokensReturned env (h ++ [e]) rest ++
        tokensReturned env (h ++ e :: rest) e2
    rw [ih (h ++ [e])]
    simp [List.append_assoc]

theorem tokensReturned_eq_nil (env : Env) (h evs : List Event)
    (hq : ∀ e ∈ evs, isRevokeAllTokens e = false) : tokensReturned env h evs = [] := by
  induction evs generalizing h with
  | nil => rfl
  | cons e rest ih =>
    have he : tokensOf env h e = [] := by
      have := hq e (List.mem_cons_self _ _)
      cases e <;> first | rfl | cases this
    simp only [tokensReturned, he, List.nil_append]
    exact ih _ (fun e2 he2 => hq e2 (List.mem_cons_of_mem _ he2))

theorem revokeClients_keys (env : Env) (l : List (String × String)) (keys : List String)
    (h : List Event) (s : State) (ks : List String)
    (hd : (revokeClients env l keys h s).out = .done ks) :
    ks = keys ++ tokensReturned env h (revokeClients env l keys h s).events := by
  induction l generalizing keys h s with
  | nil =>
    simp only [revokeClients, run_pure, Outcome.done.injEq] at hd
    simp [revokeClients, tokensReturned, hd]
  | cons p rest ih =>
    obtain ⟨clientId, key⟩ := p
    unfold RPCStorage.revokeClients at hd ⊢
    cases h0 : (stringsSplit key ':')[0]? with
    | none => simp [index, h0] at hd
    | some apiId =>
      cases h2 : (stringsSplit key ':')[2]? with
      | none => simp [index, h0, h2] at hd
      | some secret =>
        cases hst : env.GetStorageForApi h apiId with
        | some err =>
          simp only [index, List.get?_eq_getElem?, h0, h2, GetStorageForApi, pure_bind_run,
            bind_assoc_run, ask_bind_run, emit_bind_run, hst, Option.isSome_some, if_true,
            Run.after_out, Run.after_events] at hd ⊢
          rw [ih keys _ s hd]
          simp [tokensReturned, tokensOf]
        | none =>
          simp only [index, List.get?_eq_getElem?, h0, h2, GetStorageForApi, pure_bind_run,
            bind_assoc_run, ask_bind_run, emit_bind_run, hst, Option.isSome_none,
            Bool.false_eq_true, if_false, Run.after_out, Run.after_events,
            Run.after_after] at hd ⊢
          rw [ih _ _ s hd]
          simp [tokensReturned, tokensOf, List.append_assoc]

theorem endsWithUpdate_bind {α : Type} (env : Env) (keys2 : List String) {m : M α}
    {f : α → M Unit}
    (hm : EventsAll (fun e => isRevokeAllTokens e = false ∧ env.isKeySpaceUpdate e = false) m)
    (hf : ∀ a h s, EndsWithUpdate env keys2 (f a h s)) (h : List Event) (s : State) :
    EndsWithUpdate env keys2 ((m >>= f) h s) := by
  intro hd
  obtain ⟨a, ha, hb, _⟩ := bind_done_elim m f h s () hd
  obtain ⟨init, hev, hinit⟩ := hf a _ _ hb
  refine ⟨(m h s).events ++ init, ?_, ?_⟩
  · rw [events_bind, ha]
    simp only [hev, List.append_assoc]
  · intro e he
    rcases List.mem_append.mp he with he | he
    · exact hm.all h s e he
    · exact hinit e he

theorem endsWithUpdate_tail (env : Env) (r : RPCStorageHandler) (fuel : Nat) (b : Buckets)
    (orgId : String) (keys2 : List String) (h : List Event) (s : State) :
    EndsWithUpdate env keys2
      ((do
        forEach (revokeTokenStep env r orgId) (env.rangeOrder b.TokensToBeRevoked)
        forEach (removeCertStep orgId) (env.rangeOrder b.CertificatesToRemove)
        forEach (addCertStep env) (env.rangeOrder b.CertificatesToAdd)
        let synchronizerEnabled := (← getState).config.SlaveOptions.SynchroniserEnabled
        forEach (regularKeyStep env r fuel b orgId synchronizerEnabled) keys2
        forEach (invalidateStep env) b.apiIDsToDeleteCache
        let _ ← Notify env ⟨env.KeySpaceUpdateNotification, stringsJoin keys2 ","⟩
        pure () : M Unit) h s) := by
  refine endsWithUpdate_bind env keys2 (eventsAll_forEach (fun p =>
    eventsAll_revokeTokenStep env r orgId p (fun _ => ⟨rfl, rfl⟩) (fun _ _ _ => ⟨rfl, rfl⟩)
      (fun _ _ => ⟨rfl, rfl⟩) (fun _ _ => ⟨rfl, rfl⟩)) _) (fun _ h s => ?_) h s
  refine endsWithUpdate_bind env keys2 (eventsAll_forEach (fun p =>
    eventsAll_removeCertStep orgId p (fun _ => ⟨rfl, rfl⟩) (fun _ _ => ⟨rfl, rfl⟩)) _)
    (fun _ h s => ?_) h s
  refine endsWithUpdate_bind env keys2 (eventsAll_forEach (fun p =>
    eventsAll_addCertStep env p (fun _ => ⟨rfl, rfl⟩)) _) (fun _ h s => ?_) h s
  refine endsWithUpdate_bind env keys2 eventsAll_getState (fun st h s => ?_) h s
  refine endsWithUpdate_bind env keys2 (eventsAll_forEach (fun k =>
    eventsAll_regularKeyStep_any env r fuel b orgId _ k (fun _ _ _ _ => ⟨rfl, rfl⟩)
      (fun _ _ _ _ => ⟨rfl, rfl⟩) (fun _ _ => ⟨rfl, rfl⟩) (fun _ _ _ => ⟨rfl, rfl⟩) ⟨rfl, rfl⟩
      (fun _ _ _ _ => ⟨rfl, rfl⟩) (fun _ _ _ => ⟨rfl, rfl⟩) (fun _ _ => ⟨rfl, rfl⟩)) _)
    (fun _ h s => ?_) h s
  refine endsWithUpdate_bind env keys2 (eventsAll_forEach (fun a =>
    eventsAll_invalidateStep env a (fun _ => ⟨rfl, rfl⟩)) _) (fun _ h s => ?_) h s
  intro _
  refine ⟨[], ?_, by simp⟩
  simp [Notify]

theorem ProcessKeySpaceChanges_empty (env : Env) (r : RPCStorageHandler) (fuel : Nat)
    (orgId : String) (h : List Event) (s : State) :
    ProcessKeySpaceChanges env r fuel [] orgId h s =
      ⟨.done (), s, [.Notify ⟨env.KeySpaceUpdateNotification, ""⟩]⟩ := by
  unfold ProcessKeySpaceChanges
  have hj : stringsJoin [] "," = "" := rfl
  simp [classify, Buckets.empty, Env.rangeOrder_nil, forEach, ProcessOauthClientsOps,
    revokeClients, Notify, hj]

/-- C12: when ProcessKeySpaceChanges returns, its events end with the cluster
notification whose command is KeySpaceUpdateNotification and whose payload is
the comma-joined working key list: the keys of the batch in their order,
followed by the tokens that the calls of RevokeAllTokens of the run returned,
in the order of the calls; no event before it is a notification with that
command. The command of a user key reset (a constant of the gateway declared
elsewhere) is taken to be another command than KeySpaceUpdateNotification. For
the empty batch the call returns after the one notification with the empty
payload. -/
theorem cluster_fan_out (env : Env) (r : RPCStorageHandler) (fuel : Nat)
    (keys : List String) (orgId : String) (h : List Event) (s : State)
    (hcmd : env.NoticeUserKeyReset ≠ env.KeySpaceUpdateNotification)
    (hd : (ProcessKeySpaceChanges env r fuel keys orgId h s).out = .done ()) :
    (∃ init, (ProcessKeySpaceChanges env r fuel keys orgId h s).events =
        init ++ [.Notify ⟨env.KeySpaceUpdateNotification,
          stringsJoin (keys ++ tokensReturned env h init) ","⟩] ∧
      ∀ e ∈ init, env.isKeySpaceUpdate e = false) ∧
    ProcessKeySpaceChanges env r fuel [] orgId h s =
      ⟨.done (), s, [.Notify ⟨env.KeySpaceUpdateNotification, ""⟩]⟩ := by
  refine ⟨?_, ProcessKeySpaceChanges_empty env r fuel orgId h s⟩
  have hnukr : ∀ payload, isRevokeAllTokens (.Notify ⟨env.NoticeUserKeyReset, payload⟩) = false ∧
      env.isKeySpaceUpdate (.Notify ⟨env.NoticeUserKeyReset, payload⟩) = false := by
    intro payload
    refine ⟨rfl, ?_⟩
    simp [Env.isKeySpaceUpdate, hcmd]
  have h2 := eventsAll_forEach (P := fun e => isRevokeAllTokens e = false ∧
      env.isKeySpaceUpdate e = false) (fun p =>
    eventsAll_userKeyResetStep env p (fun _ _ => ⟨rfl, rfl⟩) (fun _ => ⟨rfl, rfl⟩) hnukr)
    (env.rangeOrder (classify env keys).userKeyResets)
  have h3 := eventsAll_forEach (P := fun e => isRevokeAllTokens e = false ∧
      env.isKeySpaceUpdate e = false) (fun p =>
    eventsAll_oauthClientStep env p (fun _ => ⟨rfl, rfl⟩) (fun _ _ => ⟨rfl, rfl⟩)
      (fun _ _ _ => ⟨rfl, rfl⟩) (fun _ _ _ => ⟨rfl, rfl⟩))
    (env.rangeOrder (classify env keys).OauthClients)
  unfold ProcessKeySpaceChanges at hd ⊢
  dsimp only at hd ⊢
  obtain ⟨_, ha2, hb2, _⟩ := bind_done_elim _ _ h s () hd
  rw [events_bind, ha2]
  dsimp only
  generalize hE2 : (forEach (userKeyResetStep env)
    (env.rangeOrder (classify env keys).userKeyResets) h s).events = e2 at hb2 ⊢
  generalize (forEach (userKeyResetStep env)
    (env.rangeOrder (classify env keys).userKeyResets) h s).state = s2 at hb2 ⊢
  unfold ProcessOauthClientsOps at hb2 ⊢
  obtain ⟨_, ha3, hb3, _⟩ := bind_done_elim _ _ (h ++ e2) s2 () hb2
  rw [events_bind, ha3]
  dsimp only
  generalize hE3 : (forEach (oauthClientStep env)
    (env.rangeOrder (classify env keys).OauthClients) (h ++ e2) s2).events = e3 at hb3 ⊢
  generalize (forEach (oauthClientStep env)
    (env.rangeOrder (classify env keys).OauthClients) (h ++ e2) s2).state = s3 at hb3 ⊢
  obtain ⟨keys2, ha4, hb4, _⟩ := bind_done_elim _ _ (h ++ e2 ++ e3) s3 () hb3
  rw [events_bind, ha4]
  dsimp only
  have hk2 := revokeClients_keys env _ keys _ s3 keys2 ha4
  generalize hE4 : (revokeClients env (env.rangeOrder (classify env keys).ClientsToBeRevoked)
    keys (h ++ e2 ++ e3) s3).events = e4 at hb4 hk2 ⊢
  generalize (revokeClients env (env.rangeOrder (classify env keys).ClientsToBeRevoked)
    keys (h ++ e2 ++ e3) s3).state = s4 at hb4 ⊢
  obtain ⟨init, hev, hinit⟩ :=
    endsWithUpdate_tail env r fuel (classify env keys) orgId keys2
      (h ++ e2 ++ e3 ++ e4) s4 hb4
  have hq2 : ∀ e ∈ e2, isRevokeAllTokens e = false ∧ env.isKeySpaceUpdate e = false := by
    rw [← hE2]
    exact h2.all h s
  have hq3 : ∀ e ∈ e3, isRevokeAllTokens e = false ∧ env.isKeySpaceUpdate e = false := by
    rw [← hE3]
    exact h3.all (h ++ e2) s2
  have hq4 : ∀ e ∈ e4, env.isKeySpaceUpdate e = false := by
    rw [← hE4]
    exact (eventsAll_revokeClients (P := fun e => env.isKeySpaceUpdate e = false) env _ keys
      (fun _ => rfl) (fun _ _ _ => rfl)).all _ _
  refine ⟨e2 ++ (e3 ++ (e4 ++ init)), ?_, ?_⟩
  · rw [hev]
    have ht : tokensReturned env h (e2 ++ (e3 ++ (e4 ++ init))) =
        tokensReturned env (h ++ e2 ++ e3) e4 := by
      rw [tokensReturned_append, tokensReturned_append, tokensReturned_append,
        tokensReturned_eq_nil env h e2 (fun e he => (hq2 e he).1),
        tokensReturned_eq_nil env (h ++ e2) e3 (fun e he => (hq3 e he).1),
        tokensReturned_eq_nil env (h ++ e2 ++ e3 ++ e4) init (fun e he => (hinit e he).1)]
      simp
    rw [ht, ← hk2]
    simp only [List.append_assoc]
  · intro e he
    rcases List.mem_append.mp he with he | he
    · exact (hq2 e he).2
    · rcases List.mem_append.mp he with he | he
      · exact (hq3 e he).2
      · rcases List.mem_append.mp he with he | he
        · exact hq4 e he
        · exact (hinit e he).2

theorem cluster_fan_out_witness :
    (ProcessKeySpaceChanges Example.envTokens Example.handler 1
        ["api1:client1:secret1:revoke_all_tokens"] "org1" [] Example.state).events.getLast? =
      some (.Notify ⟨"KeySpaceUpdateNotification",
        "api1:client1:secret1:revoke_all_tokens,t1,t2"⟩) ∧
    (∃ init, (ProcessKeySpaceChanges Example.envTokens Example.handler 1
        ["api1:client1:secret1:revoke_all_tokens"] "org1" [] Example.state).events =
        init ++ [.Notify ⟨Example.envTokens.KeySpaceUpdateNotification,
          stringsJoin (["api1:client1:secret1:revoke_all_tokens"] ++
            tokensReturned Example.envTokens [] init) ","⟩] ∧
      ∀ e ∈ init, Example.envTokens.isKeySpaceUpdate e = false) :=
  ⟨by decide,
    (cluster_fan_out Example.envTokens Example.handler 1
      ["api1:client1:secret1:revoke_all_tokens"] "org1" [] Example.state (by decide)
      (by decide)).1⟩

/-! ## One entry for each name, the last one -/

theorem GoMap.mem_set (m : GoMap) (y w x v : String) :
    (x, v) ∈ m.set y w ↔ (x = y ∧ v = w) ∨ (x ≠ y ∧ (x, v) ∈ m) := by
  unfold GoMap.set
  simp only [List.mem_cons, Prod.mk.injEq, List.mem_filter, decide_eq_true_eq]
  tauto

theorem GoMap.nodup_set (m : GoMap) (y w : String) (hm : (m.map Prod.fst).Nodup) :
    ((m.set y w).map Prod.fst).Nodup := by
  unfold GoMap.set
  rw [List.map_cons, List.nodup_cons]
  constructor
  · simp only [List.mem_map, List.mem_filter, decide_eq_true_eq, not_exists, not_and]
    intro p hp hx
    exact absurd hx hp.2
  · exact (List.Sublist.map Prod.fst (List.filter_sublist m)).nodup hm

theorem assignAll_nodup (name : String → Option String) (val : String → String)
    (keys : List String) (m : GoMap) (hm : (m.map Prod.fst).Nodup) :
    ((assignAll name val m keys).map Prod.fst).Nodup := by
  induction keys generalizing m with
  | nil => exact hm
  | cons k rest ih =>
    unfold assignAll
    rw [List.foldl_cons]
    cases hn : name k with
    | none => exact ih m hm
    | some y => exact ih _ (GoMap.nodup_set m y (val k) hm)

theorem assignAll_mem (name : String → Option String) (val : String → String)
    (keys : List String) (m : GoMap) (x v : String) :
    (x, v) ∈ assignAll name val m keys ↔
      (∃ k, lastUnder name x keys = some k ∧ v = val k) ∨
        (lastUnder name x keys = none ∧ (x, v) ∈ m) := by
  induction keys generalizing m with
  | nil => simp [assignAll, lastUnder]
  | cons k rest ih =>
    have hstep : assignAll name val m (k :: rest) =
        assignAll name val (match name k with
          | some y => m.set y (val k)
          | none => m) rest := rfl
    rw [hstep, ih]
    unfold lastUnder
    by_cases hk : name k = some x
    · rw [List.filter_cons_of_pos (by simpa using hk)]
      simp only [hk, GoMap.mem_set]
      cases hr : rest.filter (fun k => decide (name k = some x)) with
      | nil => simp
      | cons a l =>
        rw [List.getLast?_cons_cons]
        simp
    · rw [List.filter_cons_of_neg (by simpa using hk)]
      cases hn : name k with
      | none => rfl
      | some y =>
        have hxy : x ≠ y := fun hEq => hk (by rw [hn, hEq])
        simp only [GoMap.mem_set, hxy, false_and, ne_eq, not_false_eq_true, true_and,
          false_or]
theorem classifyKey_tokens (env : Env) (b : Buckets) (c : String) :
    (classifyKey env b c).TokensToBeRevoked =
      match tokenOf c with
      | some y => b.TokensToBeRevoked.set y c
      | none => b.TokensToBeRevoked := by
  unfold classifyKey tokenOf actionOf
  dsimp only
  generalize stringsSplit c ':' = l
  generalize at0 l (l.length - 1) = a
  by_cases hlen : 1 < l.length
  · simp only [hlen, if_true, Option.some.injEq]
    by_cases ht : a = OAuthRevokeToken ∨ a = OAuthRevokeAccessToken
        ∨ a = OAuthRevokeRefreshToken
    · have hne : a ≠ ResetQuota ∧ a ≠ CertificateRemoved ∧ a ≠ CertificateAdded := by
        rcases ht with h | h | h <;> subst h <;> decide
      rw [if_neg hne.1, if_neg hne.2.1, if_neg hne.2.2, if_pos ht, if_pos ht]
    · rw [if_neg ht]
      split_ifs <;> rfl
  · simp only [hlen, if_false]
    simp

theorem classifyKey_clients (env : Env) (b : Buckets) (c : String) :
    (classifyKey env b c).ClientsToBeRevoked =
      match clientOf c with
      | some y => b.ClientsToBeRevoked.set y c
      | none => b.ClientsToBeRevoked := by
  unfold classifyKey clientOf actionOf
  dsimp only
  generalize stringsSplit c ':' = l
  generalize at0 l (l.length - 1) = a
  by_cases hlen : 1 < l.length
  · simp only [hlen, if_true, Option.some.injEq]
    by_cases ht : a = OAuthRevokeAllTokens
    · have hne : a ≠ ResetQuota ∧ a ≠ CertificateRemoved ∧ a ≠ CertificateAdded ∧
          ¬ (a = OAuthRevokeToken ∨ a = OAuthRevokeAccessToken
            ∨ a = OAuthRevokeRefreshToken) := by
        subst ht
        decide
      rw [if_neg hne.1, if_neg hne.2.1, if_neg hne.2.2.1, if_neg hne.2.2.2, if_pos ht,
        if_pos ht]
    · rw [if_neg ht]
      split_ifs <;> rfl
  · simp only [hlen, if_false]
    simp

theorem classifyKey_oauthClients (env : Env) (b : Buckets) (c : String) :
    (classifyKey env b c).OauthClients =
      match oauthClientOf c with
      | some y => b.OauthClients.set y ((actionOf c).getD "")
      | none => b.OauthClients := by
  unfold classifyKey oauthClientOf actionOf
  dsimp only
  generalize stringsSplit c ':' = l
  generalize at0 l (l.length - 1) = a
  by_cases hlen : 1 < l.length
  · simp only [hlen, if_true, Option.some.injEq, Option.getD_some]
    by_cases ht : a = OauthClientAdded ∨ a = OauthClientUpdated ∨ a = OauthClientRemoved
    · have hne : a ≠ ResetQuota ∧ a ≠ CertificateRemoved ∧ a ≠ CertificateAdded ∧
          ¬ (a = OAuthRevokeToken ∨ a = OAuthRevokeAccessToken
            ∨ a = OAuthRevokeRefreshToken) ∧ a ≠ OAuthRevokeAllTokens := by
        rcases ht with h | h | h <;> subst h <;> decide
      rw [if_neg hne.1, if_neg hne.2.1, if_neg hne.2.2.1, if_neg hne.2.2.2.1,
        if_neg hne.2.2.2.2, if_pos ht, if_pos ht]
    · rw [if_neg ht]
      split_ifs <;> rfl
  · simp only [hlen, if_false]
    simp

theorem classify_buckets (env : Env) (keys : List String) (b : Buckets) :
    (keys.foldl (classifyKey env) b).TokensToBeRevoked =
        assignAll tokenOf id b.TokensToBeRevoked keys ∧
      (keys.foldl (classifyKey env) b).ClientsToBeRevoked =
        assignAll clientOf id b.ClientsToBeRevoked keys ∧
      (keys.foldl (classifyKey env) b).OauthClients =
        assignAll oauthClientOf (fun k => (actionOf k).getD "") b.OauthClients keys := by
  induction keys generalizing b with
  | nil => exact ⟨rfl, rfl, rfl⟩
  | cons k rest ih =>
    rw [List.foldl_cons]
    obtain ⟨h1, h2, h3⟩ := ih (classifyKey env b k)
    rw [h1, h2, h3, classifyKey_tokens, classifyKey_clients, classifyKey_oauthClients]
    exact ⟨rfl, rfl, rfl⟩

/-! ## The revocations of a run -/

theorem filter_events_bind_left {α β : Type} (q : Event → Bool) {m : M α} {f : α → M β}
    (hm : EventsAll (fun e => q e = false) m) (h : List Event) (s : State) :
    ((m >>= f) h s).events.filter q =
      match (m h s).out with
      | .done a => (f a (h ++ (m h s).events) (m h s).state).events.filter q
      | _ => [] := by
  have h0 : (m h s).events.filter q = [] := by
    rw [List.filter_eq_nil_iff]
    intro e he
    simp [hm.all h s e he]
  rw [events_bind, List.filter_append, h0, List.nil_append]
  generalize (m h s).out = o
  cases o <;> rfl

theorem filter_events_bind_right {α β : Type} (q : Event → Bool) {m : M α} {f : α → M β}
    (hf : ∀ a, EventsAll (fun e => q e = false) (f a)) (h : List Event) (s : State) :
    ((m >>= f) h s).events.filter q = (m h s).events.filter q := by
  rw [events_bind, List.filter_append, List.append_right_eq_self, List.filter_eq_nil_iff]
  intro e he
  split at he
  · simp [(hf _).all _ _ e he]
  · cases he

theorem forEach_filter_sublist {α : Type} (q : Event → Bool) (body : α → M Unit)
    (ev : α → Event)
    (hb : ∀ x h s, (body x h s).events.filter q = [] ∨ (body x h s).events.filter q = [ev x])
    (l : List α) (h : List Event) (s : State) :
    ∃ sub : List α, sub.Sublist l ∧ (forEach body l h s).events.filter q = sub.map ev := by
  induction l generalizing h s with
  | nil => exact ⟨[], List.Sublist.refl _, rfl⟩
  | cons x rest ih =>
    unfold RPCStorage.forEach
    have hbx := hb x h s
    rcases hx : body x h s with ⟨o, s1, e1⟩
    rw [hx] at hbx
    cases o with
    | done a =>
      rw [bind_of_done _ _ h s s1 a e1 hx]
      simp only [Run.after_events, List.filter_append]
      obtain ⟨sub, hsub, hf⟩ := ih (h ++ e1) s1
      rcases hbx with h0 | h1
      · exact ⟨sub, List.Sublist.cons x hsub, by rw [h0, hf, List.nil_append]⟩
      · exact ⟨x :: sub, List.Sublist.cons₂ x hsub, by rw [h1, hf]; rfl⟩
    | panic =>
      rw [bind_of_panic _ _ h s s1 e1 hx]
      rcases hbx with h0 | h1
      · exact ⟨[], List.nil_sublist _, h0⟩
      · exact ⟨[x], by simp, h1⟩
    | outOfFuel =>
      rw [bind_of_outOfFuel _ _ h s s1 e1 hx]
      rcases hbx with h0 | h1
      · exact ⟨[], List.nil_sublist _, h0⟩
      · exact ⟨[x], by simp, h1⟩

theorem at0_of_getElem? (l : List String) (i : Nat) (x : String) (hx : l[i]? = some x) :
    at0 l i = x := by
  unfold at0
  rw [List.getD_eq_getElem?_getD, hx]
  rfl

theorem revokeTokenStep_revocations (env : Env) (r : RPCStorageHandler) (orgId : String)
    (p : String × String) (h : List Event) (s : State) :
    (revokeTokenStep env r orgId p h s).events.filter isRevokeToken = [] ∨
      (revokeTokenStep env r orgId p h s).events.filter isRevokeToken = [revocationOf p] := by
  unfold revokeTokenStep
  cases h1 : (stringsSplit p.2 ':')[1]? with
  | none =>
    left
    simp [index, h1]
  | some apiId =>
    cases h2 : (stringsSplit p.2 ':')[2]? with
    | none =>
      left
      simp [index, h1, h2]
    | some tag =>
      have ha := at0_of_getElem? _ _ _ h1
      have ht := at0_of_getElem? _ _ _ h2
      cases hh : stringsContains p.1 "#hashed" with
      | true =>
        left
        cases h3 : (stringsSplit p.1 '#')[0]? with
        | none => simp [index, h1, h2, hh, h3]
        | some tok =>
          simp [index, h1, h2, hh, h3, handleDeleteHashedKey, cacheDelete, isRevokeToken]
      | false =>
        cases hst : env.GetStorageForApi h apiId with
        | some err =>
          left
          simp [index, h1, h2, hh, GetStorageForApi, hst, isRevokeToken]
        | none =>
          right
          simp [index, h1, h2, hh, GetStorageForApi, hst, cacheDelete, isRevokeToken,
            revocationOf, ha, ht, tokenTypeHintOf]

theorem revokeClients_revocations (env : Env) (l : List (String × String))
    (keys : List String) (h : List Event) (s : State) :
    ∃ sub : List (String × String), sub.Sublist l ∧
      (revokeClients env l keys h s).events.filter isRevokeAllTokens =
        sub.map revocationOfAll := by
  induction l generalizing keys h s with
  | nil => exact ⟨[], List.Sublist.refl _, rfl⟩
  | cons p rest ih =>
    obtain ⟨clientId, key⟩ := p
    unfold RPCStorage.revokeClients
    cases h0 : (stringsSplit key ':')[0]? with
    | none => exact ⟨[], List.nil_sublist _, by simp [index, h0]⟩
    | some apiId =>
      cases h2 : (stringsSplit key ':')[2]? with
      | none => exact ⟨[], List.nil_sublist _, by simp [index, h0, h2]⟩
      | some secret =>
        have ha := at0_of_getElem? _ _ _ h0
        have hs2 := at0_of_getElem? _ _ _ h2
        cases hst : env.GetStorageForApi h apiId with
        | some err =>
          obtain ⟨sub, hsub, hf⟩ := ih keys (h ++ [.GetStorageForApi apiId]) s
          refine ⟨sub, List.Sublist.cons _ hsub, ?_⟩
          simp [index, h0, h2, GetStorageForApi, hst, isRevokeAllTokens, hf]
        | none =>
          obtain ⟨sub, hsub, hf⟩ := ih
            (keys ++ env.RevokeAllTokens (h ++ [.GetStorageForApi apiId]) apiId clientId secret)
            (h ++ [.GetStorageForApi apiId, .RevokeAllTokens apiId clientId secret]) s
          refine ⟨(clientId, key) :: sub, List.Sublist.cons₂ _ hsub, ?_⟩
          simp [index, h0, h2, GetStorageForApi, hst, isRevokeAllTokens, hf, revocationOfAll,
            ha, hs2]

theorem ProcessKeySpaceChanges_revokeToken (env : Env) (r : RPCStorageHandler) (fuel : Nat)
    (keys : List String) (orgId : String) (h : List Event) (s : State) :
    ∃ sub : List (String × String),
      sub.Sublist (env.rangeOrder (classify env keys).TokensToBeRevoked) ∧
      (ProcessKeySpaceChanges env r fuel keys orgId h s).events.filter isRevokeToken =
        sub.map revocationOf := by
  unfold ProcessKeySpaceChanges ProcessOauthClientsOps
  dsimp only
  rw [filter_events_bind_left isRevokeToken (eventsAll_forEach (fun p =>
    eventsAll_userKeyResetStep env p (fun _ _ => by rfl) (fun _ => by rfl)
      (fun _ => by rfl)) _)]
  split
  swap
  · exact ⟨[], List.nil_sublist _, rfl⟩
  rw [filter_events_bind_left isRevokeToken (eventsAll_forEach (fun p =>
    eventsAll_oauthClientStep env p (fun _ => by rfl) (fun _ _ => by rfl)
      (fun _ _ _ => by rfl) (fun _ _ _ => by rfl)) _)]
  split
  swap
  · exact ⟨[], List.nil_sublist _, rfl⟩
  rw [filter_events_bind_left isRevokeToken
    (eventsAll_revokeClients env _ _ (fun _ => by rfl) (fun _ _ _ => by rfl))]
  split
  swap
  · exact ⟨[], List.nil_sublist _, rfl⟩
  rw [filter_events_bind_right isRevokeToken]
  · exact forEach_filter_sublist isRevokeToken _ revocationOf
      (revokeTokenStep_revocations env r orgId) _ _ _
  · intro _
    refine eventsAll_bind (eventsAll_forEach (fun p =>
      eventsAll_removeCertStep orgId p (fun _ => by rfl) (fun _ _ => by rfl)) _)
      (fun _ => ?_)
    refine eventsAll_bind (eventsAll_forEach (fun p =>
      eventsAll_addCertStep env p (fun _ => by rfl)) _) (fun _ => ?_)
    refine eventsAll_bind eventsAll_getState (fun st => ?_)
    refine eventsAll_bind (eventsAll_forEach (fun k =>
      eventsAll_regularKeyStep_any env r fuel _ orgId _ k (fun _ _ _ _ => by rfl)
        (fun _ _ _ _ => by rfl) (fun _ _ => by rfl) (fun _ _ _ => by rfl) (by rfl)
        (fun _ _ _ _ => by rfl) (fun _ _ _ => by rfl) (fun _ _ => by rfl)) _)
      (fun _ => ?_)
    refine eventsAll_bind (eventsAll_forEach (fun a =>
      eventsAll_invalidateStep env a (fun _ => by rfl)) _) (fun _ => ?_)
    refine eventsAll_bind ?_ (fun _ => eventsAll_pure _)
    unfold RPCStorage.Notify
    exact eventsAll_bind (eventsAll_ask _)
      (fun _ => eventsAll_bind (eventsAll_emit (by rfl)) (fun _ => eventsAll_pure _))

theorem ProcessKeySpaceChanges_revokeAll (env : Env) (r : RPCStorageHandler) (fuel : Nat)
    (keys : List String) (orgId : String) (h : List Event) (s : State) :
    ∃ sub : List (String × String),
      sub.Sublist (env.rangeOrder (classify env keys).ClientsToBeRevoked) ∧
      (ProcessKeySpaceChanges env r fuel keys orgId h s).events.filter isRevokeAllTokens =
        sub.map revocationOfAll := by
  unfold ProcessKeySpaceChanges ProcessOauthClientsOps
  dsimp only
  rw [filter_events_bind_left isRevokeAllTokens (eventsAll_forEach (fun p =>
    eventsAll_userKeyResetStep env p (fun _ _ => by rfl) (fun _ => by rfl)
      (fun _ => by rfl)) _)]
  split
  swap
  · exact ⟨[], List.nil_sublist _, rfl⟩
  rw [filter_events_bind_left isRevokeAllTokens (eventsAll_forEach (fun p =>
    eventsAll_oauthClientStep env p (fun _ => by rfl) (fun _ _ => by rfl)
      (fun _ _ _ => by rfl) (fun _ _ _ => by rfl)) _)]
  split
  swap
  · exact ⟨[], List.nil_sublist _, rfl⟩
  rw [filter_events_bind_right isRevokeAllTokens]
  · exact revokeClients_revocations env _ _ _ _
  · intro _
    refine eventsAll_bind (eventsAll_forEach (fun p =>
      eventsAll_revokeTokenStep env r orgId p (fun _ => by rfl) (fun _ _ _ => by rfl)
        (fun _ _ => by rfl) (fun _ _ => by rfl)) _) (fun _ => ?_)
    refine eventsAll_bind (eventsAll_forEach (fun p =>
      eventsAll_removeCertStep orgId p (fun _ => by rfl) (fun _ _ => by rfl)) _)
      (fun _ => ?_)
    refine eventsAll_bind (eventsAll_forEach (fun p =>
      eventsAll_addCertStep env p (fun _ => by rfl)) _) (fun _ => ?_)
    refine eventsAll_bind eventsAll_getState (fun st => ?_)
    refine eventsAll_bind (eventsAll_forEach (fun k =>
      eventsAll_regularKeyStep_any env r fuel _ orgId _ k (fun _ _ _ _ => by rfl)
        (fun _ _ _ _ => by rfl) (fun _ _ => by rfl) (fun _ _ _ => by rfl) (by rfl)
        (fun _ _ _ _ => by rfl) (fun _ _ _ => by rfl) (fun _ _ => by rfl)) _)
      (fun _ => ?_)
    refine eventsAll_bind (eventsAll_forEach (fun a =>
      eventsAll_invalidateStep env a (fun _ => by rfl)) _) (fun _ => ?_)
    refine eventsAll_bind ?_ (fun _ => eventsAll_pure _)
    unfold RPCStorage.Notify
    exact eventsAll_bind (eventsAll_ask _)
      (fun _ => eventsAll_bind (eventsAll_emit (by rfl)) (fun _ => eventsAll_pure _))

theorem lastUnder_name (name : String → Option String) (x k : String) (keys : List String)
    (hl : lastUnder name x keys = some k) : name k = some x ∧ k ∈ keys := by
  unfold lastUnder at hl
  have hmem := List.mem_of_getLast?_eq_some hl
  rw [List.mem_filter] at hmem
  exact ⟨by simpa using hmem.2, hmem.1⟩

theorem oauthClientOf_action (k x : String) (hk : oauthClientOf k = some x) :
    ∃ a, actionOf k = some a := by
  unfold oauthClientOf at hk
  split at hk
  · next hc =>
    rcases hc with hc | hc | hc <;> exact ⟨_, hc⟩
  · cases hk

theorem classify_lastWins (env : Env) (keys : List String) :
    (((env.rangeOrder (classify env keys).TokensToBeRevoked).map Prod.fst).Nodup ∧
      ∀ t k, (t, k) ∈ env.rangeOrder (classify env keys).TokensToBeRevoked ↔
        lastUnder tokenOf t keys = some k) ∧
    (((env.rangeOrder (classify env keys).ClientsToBeRevoked).map Prod.fst).Nodup ∧
      ∀ c k, (c, k) ∈ env.rangeOrder (classify env keys).ClientsToBeRevoked ↔
        lastUnder clientOf c keys = some k) ∧
    (((env.rangeOrder (classify env keys).OauthClients).map Prod.fst).Nodup ∧
      ∀ x a, (x, a) ∈ env.rangeOrder (classify env keys).OauthClients ↔
        ∃ k, lastUnder oauthClientOf x keys = some k ∧ actionOf k = some a) := by
  obtain ⟨h1, h2, h3⟩ := classify_buckets env keys Buckets.empty
  have hperm := env.rangeOrder_perm
  have hnd : ∀ m : GoMap, (m.map Prod.fst).Nodup → ((env.rangeOrder m).map Prod.fst).Nodup :=
    fun m hm => ((hperm m).map Prod.fst).nodup_iff.mpr hm
  unfold classify
  rw [h1, h2, h3]
  refine ⟨⟨hnd _ (assignAll_nodup _ _ _ _ (by simp [Buckets.empty])), fun t k => ?_⟩,
    ⟨hnd _ (assignAll_nodup _ _ _ _ (by simp [Buckets.empty])), fun c k => ?_⟩,
    ⟨hnd _ (assignAll_nodup _ _ _ _ (by simp [Buckets.empty])), fun x a => ?_⟩⟩
  · rw [(hperm _).mem_iff, assignAll_mem]
    simp [Buckets.empty, eq_comm]
  · rw [(hperm _).mem_iff, assignAll_mem]
    simp [Buckets.empty, eq_comm]
  · rw [(hperm _).mem_iff, assignAll_mem]
    simp only [Buckets.empty, List.not_mem_nil, and_false, or_false]
    constructor
    · rintro ⟨k, hk, ha⟩
      obtain ⟨a2, ha2⟩ := oauthClientOf_action k x (lastUnder_name _ _ _ _ hk).1
      refine ⟨k, hk, ?_⟩
      rw [ha, ha2]
      rfl
    · rintro ⟨k, hk, ha⟩
      exact ⟨k, hk, by rw [ha]; rfl⟩

theorem classify_tokenExample (env : Env) :
    classify env ["tok:api1:oAuthRevokeToken", "tok:api2:oAuthRevokeToken"] =
      { Buckets.empty with
        TokensToBeRevoked := [("tok", "tok:api2:oAuthRevokeToken")],
        notRegularKeys := ["tok:api2:oAuthRevokeToken", "tok:api1:oAuthRevokeToken"] } := by
  have h1 : stringsSplit "tok:api1:oAuthRevokeToken" ':' = ["tok", "api1", "oAuthRevokeToken"] :=
    by decide
  have h2 : stringsSplit "tok:api2:oAuthRevokeToken" ':' = ["tok", "api2", "oAuthRevokeToken"] :=
    by decide
  simp [classify, classifyKey, h1, h2, at0, ResetQuota, CertificateRemoved, CertificateAdded,
    OAuthRevokeToken, Buckets.empty, GoMap.set]

theorem classify_oauthClientExample (env : Env) :
    classify env ["api.c.org:OauthClientAdded", "api.c.org:OauthClientRemoved"] =
      { Buckets.empty with
        OauthClients := [("api.c.org", "OauthClientRemoved")],
        notRegularKeys := ["api.c.org:OauthClientRemoved", "api.c.org:OauthClientAdded"] } := by
  have h1 : stringsSplit "api.c.org:OauthClientAdded" ':' = ["api.c.org", "OauthClientAdded"] :=
    by decide
  have h2 : stringsSplit "api.c.org:OauthClientRemoved" ':' =
      ["api.c.org", "OauthClientRemoved"] := by decide
  simp [classify, classifyKey, h1, h2, at0, ResetQuota, CertificateRemoved, CertificateAdded,
    OAuthRevokeToken, OAuthRevokeAccessToken, OAuthRevokeRefreshToken, OAuthRevokeAllTokens,
    OauthClientAdded, OauthClientRemoved, OauthClientUpdated, Buckets.empty, GoMap.set]

theorem tokenExample_run (env : Env) (r : RPCStorageHandler) (fuel : Nat) (orgId : String)
    (h : List Event) (s : State) (hst : env.GetStorageForApi h "api2" = none) :
    (ProcessKeySpaceChanges env r fuel
        ["tok:api1:oAuthRevokeToken", "tok:api2:oAuthRevokeToken"] orgId h s).events =
      [.GetStorageForApi "api2", .RevokeToken "api2" "tok" "",
        .cacheDelete .SessionCache "tok", .cacheDelete .RPCGlobalCache (r.KeyPrefix ++ "tok"),
        .Notify ⟨env.KeySpaceUpdateNotification,
          "tok:api1:oAuthRevokeToken,tok:api2:oAuthRevokeToken"⟩] := by
  unfold ProcessKeySpaceChanges
  rw [classify_tokenExample env]
  have hj : stringsJoin ["tok:api1:oAuthRevokeToken", "tok:api2:oAuthRevokeToken"] "," =
      "tok:api1:oAuthRevokeToken,tok:api2:oAuthRevokeToken" := by decide
  have hs2 : stringsSplit "tok:api2:oAuthRevokeToken" ':' = ["tok", "api2", "oAuthRevokeToken"] :=
    by decide
  have hc : stringsContains "tok" "#hashed" = false := by decide
  simp [Buckets.empty, Env.rangeOrder_nil, Env.rangeOrder_singleton, forEach,
    ProcessOauthClientsOps, revokeClients, revokeTokenStep, index, hs2, hc, GetStorageForApi,
    hst, OAuthRevokeAccessToken, OAuthRevokeRefreshToken, cacheDelete, regularKeyStep,
    isUserKeyReset, GoMap.has, Notify, hj]

theorem tokenExample_skipped (env : Env) (r : RPCStorageHandler) (fuel : Nat)
    (orgId : String) (h : List Event) (s : State) (err : GoError)
    (hst : env.GetStorageForApi h "api2" = some err) :
    (ProcessKeySpaceChanges env r fuel
        ["tok:api1:oAuthRevokeToken", "tok:api2:oAuthRevokeToken"] orgId h s).events =
      [.GetStorageForApi "api2",
        .Notify ⟨env.KeySpaceUpdateNotification,
          "tok:api1:oAuthRevokeToken,tok:api2:oAuthRevokeToken"⟩] := by
  unfold ProcessKeySpaceChanges
  rw [classify_tokenExample env]
  have hj : stringsJoin ["tok:api1:oAuthRevokeToken", "tok:api2:oAuthRevokeToken"] "," =
      "tok:api1:oAuthRevokeToken,tok:api2:oAuthRevokeToken" := by decide
  have hs2 : stringsSplit "tok:api2:oAuthRevokeToken" ':' = ["tok", "api2", "oAuthRevokeToken"] :=
    by decide
  have hc : stringsContains "tok" "#hashed" = false := by decide
  simp [Buckets.empty, Env.rangeOrder_nil, Env.rangeOrder_singleton, forEach,
    ProcessOauthClientsOps, revokeClients, revokeTokenStep, index, hs2, hc, GetStorageForApi,
    hst, regularKeyStep, isUserKeyReset, GoMap.has, Notify, hj]

theorem oauthClientExample_run (env : Env) (r : RPCStorageHandler) (fuel : Nat)
    (orgId : String) (h : List Event) (s : State)
    (hst : env.GetStorageForApi h "api" = none) :
    (ProcessKeySpaceChanges env r fuel
        ["api.c.org:OauthClientAdded", "api.c.org:OauthClientRemoved"] orgId h s).events =
      [.GetStorageForApi "api", .DeleteClient "api" "c" "org",
        .Notify ⟨env.KeySpaceUpdateNotification,
          "api.c.org:OauthClientAdded,api.c.org:OauthClientRemoved"⟩] := by
  unfold ProcessKeySpaceChanges
  rw [classify_oauthClientExample env]
  have hj : stringsJoin ["api.c.org:OauthClientAdded", "api.c.org:OauthClientRemoved"] "," =
      "api.c.org:OauthClientAdded,api.c.org:OauthClientRemoved" := by decide
  have hs2 : stringsSplit "api.c.org" '.' = ["api", "c", "org"] := by decide
  simp [Buckets.empty, Env.rangeOrder_nil, Env.rangeOrder_singleton, forEach,
    ProcessOauthClientsOps, oauthClientStep, ProcessSingleOauthClientEvent, revokeClients,
    index, hs2, GetStorageForApi, hst, DeleteClient, OauthClientAdded, OauthClientRemoved,
    regularKeyStep, isUserKeyReset, GoMap.has, Notify, hj]

/-- C19, as stated, fails: in a world in which the storage of no API is found,
the batch ["tok:api1:oAuthRevokeToken", "tok:api2:oAuthRevokeToken"] has two
change-keys under the token "tok", and no revocation is applied for it: after
the failed lookup of the storage of "api2" the loop goes on to the next entry,
and the only other event is the cluster notification. -/
theorem no_revocation_without_storage :
    (ProcessKeySpaceChanges Example.envNoStorage Example.handler 1
        ["tok:api1:oAuthRevokeToken", "tok:api2:oAuthRevokeToken"] "org1" []
        Example.state).events =
      [.GetStorageForApi "api2",
        .Notify ⟨"KeySpaceUpdateNotification",
          "tok:api1:oAuthRevokeToken,tok:api2:oAuthRevokeToken"⟩] := by
  decide

/-- C19 (amended): for every batch, each of the three loops over the buckets of
the tokens to revoke, of the clients to revoke and of the OAuth client
operations ranges over a list with one entry for each bucket key (the first
segment, the second segment and the first segment of the change-key), and that
entry is the one of the change-key that occurs last in the batch among those
with this bucket key (for the OAuth client operations, its action tag). In every
run the calls of RevokeToken are, in their order, the revocations of entries of
the token bucket, each entry at most once, and the calls of RevokeAllTokens
those of entries of the client bucket, each entry at most once: at most one
revocation for a token or a client, and it is that of the last change-key. When
the storage of the API is found, the batch
["tok:api1:oAuthRevokeToken", "tok:api2:oAuthRevokeToken"] causes the one
revocation of "tok" on "api2", and the batch
["api.c.org:OauthClientAdded", "api.c.org:OauthClientRemoved"] causes the one
removal of the client "c" of "api"; when the storage of "api2" is not found, the
first batch causes no revocation at all. -/
theorem last_change_key_wins (env : Env) (r : RPCStorageHandler) (fuel : Nat)
    (orgId : String) (h : List Event) (s : State) :
    (∀ keys : List String,
      (((env.rangeOrder (classify env keys).TokensToBeRevoked).map Prod.fst).Nodup ∧
        ∀ t k, (t, k) ∈ env.rangeOrder (classify env keys).TokensToBeRevoked ↔
          lastUnder tokenOf t keys = some k) ∧
      (((env.rangeOrder (classify env keys).ClientsToBeRevoked).map Prod.fst).Nodup ∧
        ∀ c k, (c, k) ∈ env.rangeOrder (classify env keys).ClientsToBeRevoked ↔
          lastUnder clientOf c keys = some k) ∧
      (((env.rangeOrder (classify env keys).OauthClients).map Prod.fst).Nodup ∧
        ∀ x a, (x, a) ∈ env.rangeOrder (classify env keys).OauthClients ↔
          ∃ k, lastUnder oauthClientOf x keys = some k ∧ actionOf k = some a)) ∧
    (∀ keys : List String,
      (∃ sub : List (String × String),
        sub.Sublist (env.rangeOrder (classify env keys).TokensToBeRevoked) ∧
        (ProcessKeySpaceChanges env r fuel keys orgId h s).events.filter isRevokeToken =
          sub.map revocationOf) ∧
      (∃ sub : List (String × String),
        sub.Sublist (env.rangeOrder (classify env keys).ClientsToBeRevoked) ∧
        (ProcessKeySpaceChanges env r fuel keys orgId h s).events.filter isRevokeAllTokens =
          sub.map revocationOfAll)) ∧
    (env.GetStorageForApi h "api2" = none →
      (ProcessKeySpaceChanges env r fuel
          ["tok:api1:oAuthRevokeToken", "tok:api2:oAuthRevokeToken"] orgId h s).events =
        [.GetStorageForApi "api2", .RevokeToken "api2" "tok" "",
          .cacheDelete .SessionCache "tok",
          .cacheDelete .RPCGlobalCache (r.KeyPrefix ++ "tok"),
          .Notify ⟨env.KeySpaceUpdateNotification,
            "tok:api1:oAuthRevokeToken,tok:api2:oAuthRevokeToken"⟩]) ∧
    (∀ err, env.GetStorageForApi h "api2" = some err →
      (ProcessKeySpaceChanges env r fuel
          ["tok:api1:oAuthRevokeToken", "tok:api2:oAuthRevokeToken"] orgId h s).events =
        [.GetStorageForApi "api2",
          .Notify ⟨env.KeySpaceUpdateNotification,
            "tok:api1:oAuthRevokeToken,tok:api2:oAuthRevokeToken"⟩]) ∧
    (env.GetStorageForApi h "api" = none →
      (ProcessKeySpaceChanges env r fuel
          ["api.c.org:OauthClientAdded", "api.c.org:OauthClientRemoved"] orgId h s).events =
        [.GetStorageForApi "api", .DeleteClient "api" "c" "org",
          .Notify ⟨env.KeySpaceUpdateNotification,
            "api.c.org:OauthClientAdded,api.c.org:OauthClientRemoved"⟩]) :=
  ⟨fun keys => classify_lastWins env keys,
    fun keys => ⟨ProcessKeySpaceChanges_revokeToken env r fuel keys orgId h s,
      ProcessKeySpaceChanges_revokeAll env r fuel keys orgId h s⟩,
    fun hst => tokenExample_run env r fuel orgId h s hst,
    fun err hst => tokenExample_skipped env r fuel orgId h s err hst,
    fun hst => oauthClientExample_run env r fuel orgId h s hst⟩

theorem last_change_key_wins_witness :
    (ProcessKeySpaceChanges (Example.env 0) Example.handler 1
        ["tok:api1:oAuthRevokeToken", "tok:api2:oAuthRevokeToken"] "org1" []
        Example.state).events =
      [.GetStorageForApi "api2", .RevokeToken "api2" "tok" "",
        .cacheDelete .SessionCache "tok", .cacheDelete .RPCGlobalCache "apikey-tok",
        .Notify ⟨"KeySpaceUpdateNotification",
          "tok:api1:oAuthRevokeToken,tok:api2:oAuthRevokeToken"⟩] ∧
    (ProcessKeySpaceChanges (Example.env 0) Example.handler 1
        ["api.c.org:OauthClientAdded", "api.c.org:OauthClientRemoved"] "org1" []
        Example.state).events =
      [.GetStorageForApi "api", .DeleteClient "api" "c" "org",
        .Notify ⟨"KeySpaceUpdateNotification",
          "api.c.org:OauthClientAdded,api.c.org:OauthClientRemoved"⟩] ∧
    (("tok", "tok:api2:oAuthRevokeToken") ∈ (Example.env 0).rangeOrder
        (classify (Example.env 0)
          ["tok:api1:oAuthRevokeToken", "tok:api2:oAuthRevokeToken"]).TokensToBeRevoked ↔
      lastUnder tokenOf "tok" ["tok:api1:oAuthRevokeToken", "tok:api2:oAuthRevokeToken"] =
        some "tok:api2:oAuthRevokeToken") :=
  ⟨(last_change_key_wins (Example.env 0) Example.handler 1 "org1" [] Example.state).2.2.1
      rfl,
    (last_change_key_wins (Example.env 0) Example.handler 1 "org1" [] Example.state).2.2.2.2
      rfl,
    ((last_change_key_wins (Example.env 0) Example.handler 1 "org1" [] Example.state).1
      ["tok:api1:oAuthRevokeToken", "tok:api2:oAuthRevokeToken"]).1.2 "tok"
      "tok:api2:oAuthRevokeToken"⟩

/-! ## The background loops and the shutdown signal -/

theorem noPanic_bind {α β : Type} {m : M α} {f : α → M β} (hm : NoPanic m)
    (hf : ∀ a, NoPanic (f a)) : NoPanic (m >>= f) := by
  constructor
  intro h s
  rw [out_bind]
  cases hc : (m h s).out with
  | done a => exact (hf a).never _ _
  | panic => exact absurd hc (hm.never h s)
  | outOfFuel => simp

theorem noPanic_pure {α : Type} (a : α) : NoPanic (pure a : M α) :=
  ⟨fun _ _ => by simp⟩

theorem noPanic_emit (e : Event) : NoPanic (emit e) :=
  ⟨fun _ _ => by simp⟩

theorem noPanic_ask {β : Type} (g : List Event → β) : NoPanic (ask g) :=
  ⟨fun _ _ => by simp⟩

theorem noPanic_getState : NoPanic getState :=
  ⟨fun _ _ => by simp⟩

theorem noPanic_modifyState (g : State → State) : NoPanic (modifyState g) :=
  ⟨fun _ _ => by simp⟩

theorem noPanic_outOfFuel {α : Type} : NoPanic (outOfFuel : M α) :=
  ⟨fun _ _ => by simp⟩

theorem noPanic_forEach {α : Type} {body : α → M Unit} (xs : List α)
    (hb : ∀ x ∈ xs, NoPanic (body x)) : NoPanic (forEach body xs) := by
  induction xs with
  | nil => exact noPanic_pure ()
  | cons x xs ih =>
    unfold RPCStorage.forEach
    exact noPanic_bind (hb x (List.mem_cons_self _ _))
      (fun _ => ih (fun y hy => hb y (List.mem_cons_of_mem _ hy)))

theorem CheckForKeyspaceChanges_no_panic (env : Env) (r : RPCStorageHandler) (fuel : Nat)
    (orgId : String) : NoPanic (CheckForKeyspaceChanges env r fuel orgId) := by
  induction fuel with
  | zero =>
    rw [CheckForKeyspaceChanges.eq_1]
    exact noPanic_outOfFuel
  | succ n ih =>
    rw [CheckForKeyspaceChanges.eq_2]
    unfold FuncClientSingleton EmitErrorEventKv retryAfterLogin Login
    repeat' (first
      | exact ih
      | exact noPanic_pure _
      | exact noPanic_ask _
      | exact noPanic_getState
      | exact noPanic_emit _
      | apply noPanic_bind
      | intro _
      | split)

theorem keyspacePoller_never_returns (env : Env) (r : RPCStorageHandler) (fuel : Nat)
    (orgId : String) (n : Nat) (h : List Event) (s : State) :
    (keyspacePoller env r fuel orgId n h s).out = .outOfFuel := by
  induction n generalizing h s with
  | zero => rfl
  | succ n ih =>
    rw [keyspacePoller.eq_2]
    rw [getState_bind_run, out_bind]
    cases hc : (CheckForKeyspaceChanges env r fuel orgId h s).out with
    | done _ =>
      simp only [emit_bind_run, Run.after_out]
      exact ih _ _
    | panic => exact absurd hc ((CheckForKeyspaceChanges_no_panic env r fuel orgId).never h s)
    | outOfFuel => rfl

/-- C17, the defect: StartRPCLoopCheck never reads the shutdown signal. When the
keyspace synchronisation is not disabled, the call never returns, whatever the
signal: for every bound `n` on the iterations of its loop and every bound on
the replays, the iterations use up the bound. In the world in which the context
of the gateway is done from the start, three iterations make three calls of
CheckForKeyspaceChanges (three remote calls "GetKeySpaceUpdate"), each followed
by the sleep of the configured ten seconds. Its sibling
StartRPCKeepaliveWatcher reads the signal at the top of every iteration: an
iteration that starts after the signal has fired returns at once, without any
call of SetKey. -/
theorem poll_loop_ignores_shutdown (env : Env) (r : RPCStorageHandler) (fuel n : Nat)
    (orgId : String) (h : List Event) (s : State)
    (hsync : s.config.SlaveOptions.DisableKeySpaceSync = false) :
    (StartRPCLoopCheck env r fuel n orgId h s).out = .outOfFuel ∧
    ((StartRPCLoopCheck Example.envShutdown r 1 3 "org1" [] Example.state).out = .outOfFuel ∧
      (StartRPCLoopCheck Example.envShutdown r 1 3 "org1" [] Example.state).events =
        [.rpc "GetKeySpaceUpdate" (.str "org1"), .Sleep 10000000000,
          .rpc "GetKeySpaceUpdate" (.str "org1"), .Sleep 10000000000,
          .rpc "GetKeySpaceUpdate" (.str "org1"), .Sleep 10000000000]) ∧
    (env.ctxDone h = true →
      StartRPCKeepaliveWatcher env r fuel (n + 1) h s = ⟨.done (), s, []⟩) := by
  refine ⟨?_, ⟨?_, ?_⟩, ?_⟩
  · unfold StartRPCLoopCheck
    rw [getState_bind_run]
    simp only [hsync, Bool.false_eq_true, if_false]
    exact keyspacePoller_never_returns env r fuel orgId n h s
  · rfl
  · rfl
  · intro hdone
    rw [StartRPCKeepaliveWatcher.eq_2, ask_bind_run]
    simp [hdone]

theorem poll_loop_ignores_shutdown_witness :
    (StartRPCLoopCheck Example.envShutdown Example.handler 1 5 "org1" [] Example.state).out =
        .outOfFuel ∧
      StartRPCKeepaliveWatcher Example.envShutdown Example.handler 1 (5 + 1) []
        Example.state = ⟨.done (), Example.state, []⟩ :=
  ⟨(poll_loop_ignores_shutdown Example.envShutdown Example.handler 1 5 "org1" []
      Example.state rfl).1,
    (poll_loop_ignores_shutdown Example.envShutdown Example.handler 1 5 "org1" []
      Example.state rfl).2.2 rfl⟩

/-! ## The credential of the node over two runs -/

theorem userKeyResetStep_run (env : Env) (p : String × String) (h : List Event) (s : State) :
    ∃ evs, userKeyResetStep env p h s =
        ⟨.done (), if s.config.SlaveOptions.APIKey = p.1 then s.setAPIKey p.2 else s, evs⟩ ∧
      (s.config.SlaveOptions.APIKey ≠ p.1 → ∀ e ∈ evs, isCredentialUpdate e = false) := by
  unfold userKeyResetStep
  by_cases hk : s.config.SlaveOptions.APIKey = p.1
  · cases hc : env.Connect
        (h ++ [.updateKeyInStore s.config.EdgeOriginalAPIKeyPath p.2]) with
    | false =>
      exact ⟨[.updateKeyInStore s.config.EdgeOriginalAPIKeyPath p.2, .Connect p.2],
        by simp [hk, Connect, Notify, hc, State.setAPIKey], fun hne => absurd hk hne⟩
    | true =>
      exact ⟨[.updateKeyInStore s.config.EdgeOriginalAPIKeyPath p.2, .Connect p.2,
          .Notify ⟨env.NoticeUserKeyReset,
            p.1 ++ "." ++ p.2 ++ ":" ++ env.NoticeUserKeyReset⟩],
        by simp [hk, Connect, Notify, hc, State.setAPIKey], fun hne => absurd hk hne⟩
  · refine ⟨[.Notify ⟨env.NoticeUserKeyReset,
      p.1 ++ "." ++ p.2 ++ ":" ++ env.NoticeUserKeyReset⟩], by simp [hk, Notify], ?_⟩
    intro _ e he
    rw [List.mem_singleton.mp he]
    rfl

theorem userKeyResets_quiet (env : Env) (l : List (String × String)) (h : List Event)
    (s : State) (hq : ∀ p ∈ l, s.config.SlaveOptions.APIKey ≠ p.1) :
    (forEach (userKeyResetStep env) l h s).out = .done () ∧
      (forEach (userKeyResetStep env) l h s).state = s ∧
      ∀ e ∈ (forEach (userKeyResetStep env) l h s).events, isCredentialUpdate e = false := by
  induction l generalizing h with
  | nil => simp [forEach]
  | cons p rest ih =>
    have hne := hq p (List.mem_cons_self _ _)
    obtain ⟨evs, hrun, hev⟩ := userKeyResetStep_run env p h s
    rw [if_neg hne] at hrun
    unfold forEach
    rw [bind_of_done _ _ h s s () evs hrun]
    obtain ⟨h1, h2, h3⟩ := ih (h ++ evs) (fun q hq2 => hq q (List.mem_cons_of_mem _ hq2))
    refine ⟨h1, h2, ?_⟩
    intro e he
    rcases List.mem_append.mp he with he | he
    · exact hev hne e he
    · exact h3 e he

theorem userKeyResets_settle (env : Env) (all : List (String × String))
    (hchain : ∀ p ∈ all, ∀ q ∈ all, p.2 ≠ q.1) (l : List (String × String))
    (hsub : ∀ p ∈ l, p ∈ all) (h : List Event) (s : State)
    (hinv : (∃ q ∈ all, q.1 = s.config.SlaveOptions.APIKey) →
      ∃ p ∈ l, p.1 = s.config.SlaveOptions.APIKey) :
    (forEach (userKeyResetStep env) l h s).out = .done () ∧
      ∀ q ∈ all, (forEach (userKeyResetStep env) l h s).state.config.SlaveOptions.APIKey ≠
        q.1 := by
  induction l generalizing h s with
  | nil =>
    refine ⟨rfl, fun q hq heq => ?_⟩
    obtain ⟨p, hp, _⟩ := hinv ⟨q, hq, heq.symm⟩
    cases hp
  | cons p rest ih =>
    obtain ⟨evs, hrun, _⟩ := userKeyResetStep_run env p h s
    unfold forEach
    rw [bind_of_done _ _ h s _ () evs hrun]
    simp only [Run.after_out, Run.after_state]
    refine ih (fun q hq => hsub q (List.mem_cons_of_mem _ hq)) _ _ ?_
    by_cases hk : s.config.SlaveOptions.APIKey = p.1
    · rw [if_pos hk]
      rintro ⟨q, hq, heq⟩
      exact absurd heq.symm (hchain p (hsub p (List.mem_cons_self _ _)) q hq)
    · rw [if_neg hk]
      intro hex
      obtain ⟨q, hq, heq⟩ := hinv hex
      rcases List.mem_cons.mp hq with hqp | hqr
      · exact absurd (by rw [← hqp, heq]) hk
      · exact ⟨q, hqr, heq⟩

theorem replay_config (evs : List Event) (s : State)
    (hq : ∀ e ∈ evs, isCredentialUpdate e = false) : (replay evs s).config = s.config := by
  induction evs generalizing s with
  | nil => rfl
  | cons e rest ih =>
    show (replay rest (applyEvent s e)).config = s.config
    rw [ih _ (fun e2 he2 => hq e2 (List.mem_cons_of_mem _ he2))]
    have := hq e (List.mem_cons_self _ _)
    cases e <;> first | rfl | (rename_i part _; cases part <;> rfl) | cases this

/-! ## A batch that was processed to the end does not panic -/

theorem noPanic_index (l : List String) (i : Nat) (hi : i < l.length) :
    NoPanic (index l i) := by
  unfold RPCStorage.index
  rw [List.get?_eq_get hi]
  exact noPanic_pure _

theorem index_done (l : List String) (i : Nat) (h : List Event) (s : State) (x : String)
    (hd : (index l i h s).out = .done x) : i < l.length := by
  unfold RPCStorage.index at hd
  cases hg : l.get? i with
  | none =>
    rw [hg] at hd
    simp at hd
  | some y => exact (List.get?_eq_some.mp hg).1

theorem noPanic_GetRawKey (env : Env) (r : RPCStorageHandler) (fuel : Nat) (key : String) :
    NoPanic (GetRawKey env r fuel key) := by
  induction fuel with
  | zero =>
    rw [GetRawKey.eq_1]
    exact noPanic_outOfFuel
  | succ n ih =>
    rw [GetRawKey.eq_2]
    unfold cacheGet cacheSet FuncClientSingleton EmitErrorEventKv retryAfterLogin Login
    repeat' (first
      | exact ih
      | exact noPanic_pure _
      | exact noPanic_ask _
      | exact noPanic_getState
      | exact noPanic_modifyState _
      | exact noPanic_emit _
      | apply noPanic_bind
      | intro _
      | split
      | (dsimp only))

theorem noPanic_oauthClientStep (env : Env) (p : String × String)
    (hp : 3 ≤ (stringsSplit p.1 '.').length) : NoPanic (oauthClientStep env p) := by
  unfold RPCStorage.oauthClientStep RPCStorage.ProcessSingleOauthClientEvent
    RPCStorage.GetStorageForApi RPCStorage.GetClient RPCStorage.SetClient
    RPCStorage.DeleteClient
  repeat' (first
    | exact noPanic_pure _
    | exact noPanic_ask _
    | exact noPanic_index _ _ (by omega)
    | exact noPanic_emit _
    | apply noPanic_bind
    | intro _
    | split)

theorem noPanic_revokeClients (env : Env) (l : List (String × String)) (keys : List String)
    (hl : ∀ p ∈ l, 3 ≤ (stringsSplit p.2 ':').length) : NoPanic (revokeClients env l keys) := by
  induction l generalizing keys with
  | nil => exact noPanic_pure _
  | cons p rest ih =>
    obtain ⟨clientId, key⟩ := p
    have hp : 3 ≤ (stringsSplit key ':').length := hl (clientId, key) (List.mem_cons_self _ _)
    have ih2 := fun keys => ih keys (fun q hq => hl q (List.mem_cons_of_mem _ hq))
    unfold RPCStorage.revokeClients RPCStorage.GetStorageForApi
    repeat' (first
      | exact ih2 _
      | exact noPanic_pure _
      | exact noPanic_ask _
      | exact noPanic_index _ _ (by omega)
      | exact noPanic_emit _
      | apply noPanic_bind
      | intro _
      | split)

theorem noPanic_cacheDelete (part : Partition) (key : String) :
    NoPanic (cacheDelete part key) := by
  unfold RPCStorage.cacheDelete
  exact noPanic_bind (noPanic_modifyState _) (fun _ => noPanic_emit _)

theorem noPanic_revokeTokenStep (env : Env) (r : RPCStorageHandler) (orgId : String)
    (p : String × String) (hp : 3 ≤ (stringsSplit p.2 ':').length) :
    NoPanic (revokeTokenStep env r orgId p) := by
  have h0 : 0 < (stringsSplit p.1 '#').length :=
    List.length_pos.mpr (stringsSplit_ne_nil p.1 '#')
  unfold RPCStorage.revokeTokenStep RPCStorage.GetStorageForApi
    RPCStorage.handleDeleteHashedKey
  repeat' (first
    | exact noPanic_pure _
    | exact noPanic_ask _
    | exact noPanic_index _ _ (by omega)
    | exact noPanic_index _ _ h0
    | exact noPanic_emit _
    | exact noPanic_cacheDelete _ _
    | apply noPanic_bind
    | intro _
    | split
    | (dsimp only))

theorem noPanic_regularKeyStep (env : Env) (r : RPCStorageHandler) (fuel : Nat) (b : Buckets)
    (orgId : String) (sync : Bool) (key : String) :
    NoPanic (regularKeyStep env r fuel b orgId sync key) := by
  unfold RPCStorage.regularKeyStep RPCStorage.getSessionAndCreate
    RPCStorage.deleteUsingTokenID RPCStorage.handleDeleteKey
    RPCStorage.handleDeleteHashedKey
  repeat' (first
    | exact noPanic_GetRawKey _ _ _ _
    | exact noPanic_cacheDelete _ _
    | exact noPanic_pure _
    | exact noPanic_ask _
    | exact noPanic_getState
    | exact noPanic_emit _
    | apply noPanic_bind
    | intro _
    | split
    | (dsimp only))

theorem noPanic_userKeyResetStep (env : Env) (p : String × String) :
    NoPanic (userKeyResetStep env p) :=
  ⟨fun h s => by
    obtain ⟨evs, hrun, _⟩ := userKeyResetStep_run env p h s
    rw [hrun]
    simp⟩

theorem noPanic_ProcessKeySpaceChanges (env : Env) (r : RPCStorageHandler) (fuel : Nat)
    (keys : List String) (orgId : String) (hw : (classify env keys).wellFormed) :
    NoPanic (ProcessKeySpaceChanges env r fuel keys orgId) := by
  obtain ⟨hw1, hw2, hw3⟩ := hw
  have hperm := env.rangeOrder_perm
  unfold ProcessKeySpaceChanges ProcessOauthClientsOps
  dsimp only
  refine noPanic_bind (noPanic_forEach _ (fun p _ => noPanic_userKeyResetStep env p))
    (fun _ => ?_)
  refine noPanic_bind (noPanic_forEach _ (fun p hp =>
    noPanic_oauthClientStep env p (hw1 p ((hperm _).mem_iff.mp hp)))) (fun _ => ?_)
  refine noPanic_bind (noPanic_revokeClients env _ _
    (fun p hp => hw2 p ((hperm _).mem_iff.mp hp))) (fun keys2 => ?_)
  refine noPanic_bind (noPanic_forEach _ (fun p hp =>
    noPanic_revokeTokenStep env r orgId p (hw3 p ((hperm _).mem_iff.mp hp)))) (fun _ => ?_)
  refine noPanic_bind (noPanic_forEach _ (fun p _ => ?_)) (fun _ => ?_)
  · unfold RPCStorage.removeCertStep
    exact noPanic_bind (noPanic_emit _) (fun _ => noPanic_cacheDelete _ _)
  refine noPanic_bind (noPanic_forEach _ (fun p _ => ?_)) (fun _ => ?_)
  · unfold RPCStorage.addCertStep
    exact noPanic_bind (noPanic_ask _) (fun _ => noPanic_emit _)
  refine noPanic_bind noPanic_getState (fun st => ?_)
  refine noPanic_bind (noPanic_forEach _ (fun k _ =>
    noPanic_regularKeyStep env r fuel _ orgId _ k)) (fun _ => ?_)
  refine noPanic_bind (noPanic_forEach _ (fun a _ => ?_)) (fun _ => ?_)
  · unfold RPCStorage.invalidateStep
    exact noPanic_bind (noPanic_ask _) (fun _ => noPanic_emit _)
  refine noPanic_bind ?_ (fun _ => noPanic_pure _)
  unfold RPCStorage.Notify
  exact noPanic_bind (noPanic_ask _)
    (fun _ => noPanic_bind (noPanic_emit _) (fun _ => noPanic_pure _))

theorem forEach_done_mem {α : Type} (body : α → M Unit) (l : List α) (h : List Event)
    (s : State) (hd : (forEach body l h s).out = .done ()) :
    ∀ x ∈ l, ∃ h2 s2, (body x h2 s2).out = .done () := by
  induction l generalizing h s with
  | nil =>
    intro x hx
    cases hx
  | cons y rest ih =>
    unfold RPCStorage.forEach at hd
    obtain ⟨_, ha, hb, _⟩ := bind_done_elim _ _ h s () hd
    intro x hx
    rcases List.mem_cons.mp hx with hxy | hxr
    · rw [hxy]
      exact ⟨h, s, ha⟩
    · exact ih _ _ hb x hxr

theorem oauthClientStep_done (env : Env) (p : String × String) (h : List Event) (s : State)
    (hd : (oauthClientStep env p h s).out = .done ()) :
    3 ≤ (stringsSplit p.1 '.').length := by
  unfold RPCStorage.oauthClientStep at hd
  obtain ⟨_, _, hb, _⟩ := bind_done_elim _ _ h s () hd
  obtain ⟨_, _, hc, _⟩ := bind_done_elim _ _ _ _ () hb
  obtain ⟨_, ha3, _, _⟩ := bind_done_elim _ _ _ _ () hc
  have := index_done _ _ _ _ _ ha3
  omega

theorem revokeTokenStep_done (env : Env) (r : RPCStorageHandler) (orgId : String)
    (p : String × String) (h : List Event) (s : State)
    (hd : (revokeTokenStep env r orgId p h s).out = .done ()) :
    3 ≤ (stringsSplit p.2 ':').length := by
  unfold RPCStorage.revokeTokenStep at hd
  obtain ⟨_, _, hb, _⟩ := bind_done_elim _ _ h s () hd
  obtain ⟨_, ha2, _, _⟩ := bind_done_elim _ _ _ _ () hb
  have := index_done _ _ _ _ _ ha2
  omega

theorem revokeClients_done (env : Env) (l : List (String × String)) (keys : List String)
    (h : List Event) (s : State) (ks : List String)
    (hd : (revokeClients env l keys h s).out = .done ks) :
    ∀ p ∈ l, 3 ≤ (stringsSplit p.2 ':').length := by
  induction l generalizing keys h s with
  | nil =>
    intro p hp
    cases hp
  | cons q rest ih =>
    obtain ⟨clientId, key⟩ := q
    unfold RPCStorage.revokeClients at hd
    obtain ⟨_, _, hb, _⟩ := bind_done_elim _ _ h s ks hd
    obtain ⟨_, ha2, hc, _⟩ := bind_done_elim _ _ _ _ ks hb
    obtain ⟨err, _, hrest, _⟩ := bind_done_elim _ _ _ _ ks hc
    have hlen := index_done _ _ _ _ _ ha2
    have hr : ∀ p ∈ rest, 3 ≤ (stringsSplit p.2 ':').length := by
      split at hrest
      · exact ih _ _ _ hrest
      · obtain ⟨_, _, hd2, _⟩ := bind_done_elim _ _ _ _ ks hrest
        obtain ⟨_, _, hd3, _⟩ := bind_done_elim _ _ _ _ ks hd2
        exact ih _ _ _ hd3
    intro p hp
    rcases List.mem_cons.mp hp with hpq | hpr
    · rw [hpq]
      show 3 ≤ (stringsSplit key ':').length
      omega
    · exact hr p hpr

theorem wellFormed_of_done (env : Env) (r : RPCStorageHandler) (fuel : Nat)
    (keys : List String) (orgId : String) (h : List Event) (s : State)
    (hd : (ProcessKeySpaceChanges env r fuel keys orgId h s).out = .done ()) :
    (classify env keys).wellFormed := by
  have hperm := env.rangeOrder_perm
  unfold ProcessKeySpaceChanges ProcessOauthClientsOps at hd
  dsimp only at hd
  obtain ⟨_, _, hb2, _⟩ := bind_done_elim _ _ h s () hd
  obtain ⟨_, ha3, hb3, _⟩ := bind_done_elim _ _ _ _ () hb2
  obtain ⟨keys2, ha4, hb4, _⟩ := bind_done_elim _ _ _ _ () hb3
  obtain ⟨_, ha5, _, _⟩ := bind_done_elim _ _ _ _ () hb4
  refine ⟨fun p hp => ?_, fun p hp => ?_, fun p hp => ?_⟩
  · obtain ⟨h2, s2, hstep⟩ := forEach_done_mem _ _ _ _ ha3 p ((hperm _).mem_iff.mpr hp)
    exact oauthClientStep_done env p h2 s2 hstep
  · exact revokeClients_done env _ _ _ _ keys2 ha4 p ((hperm _).mem_iff.mpr hp)
  · obtain ⟨h2, s2, hstep⟩ := forEach_done_mem _ _ _ _ ha5 p ((hperm _).mem_iff.mpr hp)
    exact revokeTokenStep_done env r orgId p h2 s2 hstep

/-! ## Where the events of a run come from -/

theorem mem_events_bind {α β : Type} {m : M α} {f : α → M β} {h : List Event} {s : State}
    {e : Event} (he : e ∈ ((m >>= f) h s).events) :
    e ∈ (m h s).events ∨
      ∃ a, (m h s).out = .done a ∧ e ∈ (f a (h ++ (m h s).events) (m h s).state).events := by
  rw [events_bind] at he
  rcases List.mem_append.mp he with he | he
  · exact Or.inl he
  · cases hm : (m h s).out with
    | done a =>
      rw [hm] at he
      exact Or.inr ⟨a, rfl, he⟩
    | panic => rw [hm] at he; cases he
    | outOfFuel => rw [hm] at he; cases he

theorem events_bind_done {α β : Type} (m : M α) (f : α → M β) (h : List Event) (s : State)
    (a : α) (ha : (m h s).out = .done a) :
    ((m >>= f) h s).events =
      (m h s).events ++ (f a (h ++ (m h s).events) (m h s).state).events := by
  rw [events_bind, ha]

theorem forEach_events_mem {α : Type} (body : α → M Unit) (l : List α) (h : List Event)
    (s : State) (e : Event) (he : e ∈ (forEach body l h s).events) :
    ∃ x ∈ l, ∃ pre s2, e ∈ (body x (h ++ pre) s2).events := by
  induction l generalizing h s with
  | nil => cases he
  | cons y rest ih =>
    unfold RPCStorage.forEach at he
    rcases mem_events_bind he with he | ⟨_, _, he⟩
    · refine ⟨y, List.mem_cons_self _ _, [], s, ?_⟩
      rw [List.append_nil]
      exact he
    · obtain ⟨x, hx, pre, s2, hxe⟩ := ih _ _ he
      refine ⟨x, List.mem_cons_of_mem _ hx, (body y h s).events ++ pre, s2, ?_⟩
      rw [← List.append_assoc]
      exact hxe

theorem forEach_done_inside {α : Type} (body : α → M Unit) (l : List α) (h : List Event)
    (s : State) (hd : (forEach body l h s).out = .done ()) :
    ∀ x ∈ l, ∃ (a : List Event) (s2 : State) (b : List Event),
      (forEach body l h s).events = a ++ (body x (h ++ a) s2).events ++ b ∧
        (body x (h ++ a) s2).out = .done () := by
  induction l generalizing h s with
  | nil =>
    intro x hx
    cases hx
  | cons y rest ih =>
    unfold RPCStorage.forEach at hd ⊢
    obtain ⟨u, ha, hb, _⟩ := bind_done_elim _ _ h s () hd
    intro x hx
    rw [events_bind_done _ _ h s u ha]
    rcases List.mem_cons.mp hx with hxy | hxr
    · rw [hxy]
      exact ⟨[], s, (forEach body rest (h ++ (body y h s).events) (body y h s).state).events,
        by simp, by simpa using ha⟩
    · obtain ⟨a, s2, b, hev, hout⟩ := ih _ _ hb x hxr
      refine ⟨(body y h s).events ++ a, s2, b, ?_, ?_⟩
      · rw [hev]
        simp only [List.append_assoc]
      · rw [← List.append_assoc]
        exact hout
theorem kept_settings (env : Env) (r : RPCStorageHandler) (sync cache hashKeys : Bool) :
    Kept env r (fun s => switchesAre sync cache s ∧ s.config.HashKeys = hashKeys) := by
  have KJ := kept_switchesAre env r sync cache
  refine ⟨?_, ?_, ?_⟩
  · intro s part k hs
    refine ⟨KJ.delete s part k hs.1, ?_⟩
    cases part <;> exact hs.2
  · intro s c k hs hc
    refine ⟨KJ.credential s c k hs.1 hc, ?_⟩
    subst hc
    exact hs.2
  · intro fuel key h s hs
    refine ⟨KJ.getRawKey fuel key h s hs.1, ?_⟩
    rw [(GetRawKey_state env r fuel key h s).1]
    exact hs.2

theorem loopEvent_shift (env : Env) (r : RPCStorageHandler) (fuel : Nat) (b : Buckets)
    (orgId : String) (keys2 : List String) (h0 x : List Event) (sync : Bool) (e : Event)
    (hl : loopEvent env r fuel b orgId keys2 (h0 ++ x) sync e) :
    loopEvent env r fuel b orgId keys2 h0 sync e := by
  unfold loopEvent at hl ⊢
  simp only [List.append_assoc] at hl
  rcases hl with ⟨p, hp, pre, s2, hpe⟩ | ⟨p, hp, pre, s2, hpe⟩ | ⟨l, ks, pre, s2, hpe⟩ |
    ⟨p, hp, pre, s2, hpe⟩ | ⟨p, hp, pre, s2, hpe⟩ | ⟨p, hp, pre, s2, hpe⟩ |
    ⟨key, hkey, pre, s2, hke⟩ | ⟨a, ha, pre, s2, hpe⟩ | ⟨payload, hn⟩
  · exact Or.inl ⟨p, hp, x ++ pre, s2, hpe⟩
  · exact Or.inr (Or.inl ⟨p, hp, x ++ pre, s2, hpe⟩)
  · exact Or.inr (Or.inr (Or.inl ⟨l, ks, x ++ pre, s2, hpe⟩))
  · exact Or.inr (Or.inr (Or.inr (Or.inl ⟨p, hp, x ++ pre, s2, hpe⟩)))
  · exact Or.inr (Or.inr (Or.inr (Or.inr (Or.inl ⟨p, hp, x ++ pre, s2, hpe⟩))))
  · exact Or.inr (Or.inr (Or.inr (Or.inr (Or.inr (Or.inl ⟨p, hp, x ++ pre, s2, hpe⟩)))))
  · exact Or.inr (Or.inr (Or.inr (Or.inr (Or.inr (Or.inr
      (Or.inl ⟨key, hkey, x ++ pre, s2, hke⟩))))))
  · exact Or.inr (Or.inr (Or.inr (Or.inr (Or.inr (Or.inr (Or.inr
      (Or.inl ⟨a, ha, x ++ pre, s2, hpe⟩)))))))
  · exact Or.inr (Or.inr (Or.inr (Or.inr (Or.inr (Or.inr (Or.inr (Or.inr ⟨payload, hn⟩)))))))

theorem keyspaceTail_source (env : Env) (r : RPCStorageHandler) (fuel : Nat) (b : Buckets)
    (orgId : String) (keys2 : List String) (h : List Event) (s : State) (e : Event)
    (he : e ∈ ((do
        forEach (revokeTokenStep env r orgId) (env.rangeOrder b.TokensToBeRevoked)
        forEach (removeCertStep orgId) (env.rangeOrder b.CertificatesToRemove)
        forEach (addCertStep env) (env.rangeOrder b.CertificatesToAdd)
        let synchronizerEnabled := (← getState).config.SlaveOptions.SynchroniserEnabled
        forEach (regularKeyStep env r fuel b orgId synchronizerEnabled) keys2
        forEach (invalidateStep env) b.apiIDsToDeleteCache
        let _ ← Notify env ⟨env.KeySpaceUpdateNotification, stringsJoin keys2 ","⟩
        pure () : M Unit) h s).events) :
    loopEvent env r fuel b orgId keys2 h s.config.SlaveOptions.SynchroniserEnabled e ∧
      isRevokeAllTokens e = false := by
  have hperm := env.rangeOrder_perm
  have KJ := kept_settings env r s.config.SlaveOptions.SynchroniserEnabled
    s.config.SlaveOptions.EnableRPCCache s.config.HashKeys
  have hsw : switchesAre s.config.SlaveOptions.SynchroniserEnabled
      s.config.SlaveOptions.EnableRPCCache s ∧ s.config.HashKeys = s.config.HashKeys :=
    ⟨⟨rfl, rfl⟩, rfl⟩
  unfold loopEvent
  rcases mem_events_bind he with he | ⟨_, _, he⟩
  · obtain ⟨p, hp, pre, s2, hpe⟩ := forEach_events_mem _ _ _ _ e he
    exact ⟨Or.inr (Or.inr (Or.inr (Or.inl ⟨p, (hperm _).mem_iff.mp hp, pre, s2, hpe⟩))),
      (eventsAll_revokeTokenStep (P := fun e => isRevokeAllTokens e = false) env r orgId p
        (fun _ => by rfl) (fun _ _ _ => by rfl) (fun _ _ => by rfl)
        (fun _ _ => by rfl)).all _ s2 e hpe⟩
  have hs5 := (statePres_forEach (fun p => statePres_revokeTokenStep KJ orgId p)
    (env.rangeOrder b.TokensToBeRevoked)).pres h s hsw
  generalize (forEach (revokeTokenStep env r orgId)
    (env.rangeOrder b.TokensToBeRevoked) h s).events = e5 at he
  generalize (forEach (revokeTokenStep env r orgId)
    (env.rangeOrder b.TokensToBeRevoked) h s).state = s5 at he hs5
  rcases mem_events_bind he with he | ⟨_, _, he⟩
  · obtain ⟨p, hp, pre, s2, hpe⟩ := forEach_events_mem _ _ _ _ e he
    rw [List.append_assoc] at hpe
    exact ⟨Or.inr (Or.inr (Or.inr (Or.inr (Or.inl
        ⟨p, (hperm _).mem_iff.mp hp, e5 ++ pre, s2, hpe⟩)))),
      (eventsAll_removeCertStep (P := fun e => isRevokeAllTokens e = false) orgId p
        (fun _ => by rfl) (fun _ _ => by rfl)).all _ s2 e hpe⟩
  have hs6 := (statePres_forEach (fun p => statePres_removeCertStep KJ orgId p)
    (env.rangeOrder b.CertificatesToRemove)).pres (h ++ e5) s5 hs5
  generalize (forEach (removeCertStep orgId)
    (env.rangeOrder b.CertificatesToRemove) (h ++ e5) s5).events = e6 at he
  generalize (forEach (removeCertStep orgId)
    (env.rangeOrder b.CertificatesToRemove) (h ++ e5) s5).state = s6 at he hs6
  rcases mem_events_bind he with he | ⟨_, _, he⟩
  · obtain ⟨p, hp, pre, s2, hpe⟩ := forEach_events_mem _ _ _ _ e he
    rw [List.append_assoc, List.append_assoc] at hpe
    exact ⟨Or.inr (Or.inr (Or.inr (Or.inr (Or.inr (Or.inl
        ⟨p, (hperm _).mem_iff.mp hp, e5 ++ (e6 ++ pre), s2, hpe⟩))))),
      (eventsAll_addCertStep (P := fun e => isRevokeAllTokens e = false) env p
        (fun _ => by rfl)).all _ s2 e hpe⟩
  have hs7 := (statePres_forEach (I := fun st =>
      switchesAre s.config.SlaveOptions.SynchroniserEnabled
        s.config.SlaveOptions.EnableRPCCache st ∧ st.config.HashKeys = s.config.HashKeys)
    (fun p => statePres_addCertStep env p)
    (env.rangeOrder b.CertificatesToAdd)).pres (h ++ e5 ++ e6) s6 hs6
  generalize (forEach (addCertStep env)
    (env.rangeOrder b.CertificatesToAdd) (h ++ e5 ++ e6) s6).events = e7 at he
  generalize (forEach (addCertStep env)
    (env.rangeOrder b.CertificatesToAdd) (h ++ e5 ++ e6) s6).state = s7 at he hs7
  simp only [getState_bind_run, Run.after_nil] at he
  rw [hs7.1.1] at he
  rcases mem_events_bind he with he | ⟨_, _, he⟩
  · obtain ⟨k, hk, pre, s2, hke⟩ := forEach_events_mem _ _ _ _ e he
    rw [List.append_assoc, List.append_assoc, List.append_assoc] at hke
    exact ⟨Or.inr (Or.inr (Or.inr (Or.inr (Or.inr (Or.inr (Or.inl
        ⟨k, hk, e5 ++ (e6 ++ (e7 ++ pre)), s2, hke⟩)))))),
      (eventsAll_regularKeyStep_any (P := fun e => isRevokeAllTokens e = false) env r fuel b
        orgId _ k (fun _ _ _ _ => by rfl) (fun _ _ _ _ => by rfl) (fun _ _ => by rfl)
        (fun _ _ _ => by rfl) (by rfl) (fun _ _ _ _ => by rfl) (fun _ _ _ => by rfl)
        (fun _ _ => by rfl)).all _ s2 e hke⟩
  generalize (forEach (regularKeyStep env r fuel b orgId
    s.config.SlaveOptions.SynchroniserEnabled) keys2 (h ++ e5 ++ e6 ++ e7) s7).events = e8
    at he
  generalize (forEach (regularKeyStep env r fuel b orgId
    s.config.SlaveOptions.SynchroniserEnabled) keys2 (h ++ e5 ++ e6 ++ e7) s7).state = s8
    at he
  rcases mem_events_bind he with he | ⟨_, _, he⟩
  · obtain ⟨a, ha, pre, s2, hae⟩ := forEach_events_mem _ _ _ _ e he
    rw [List.append_assoc, List.append_assoc, List.append_assoc, List.append_assoc] at hae
    exact ⟨Or.inr (Or.inr (Or.inr (Or.inr (Or.inr (Or.inr (Or.inr (Or.inl
        ⟨a, ha, e5 ++ (e6 ++ (e7 ++ (e8 ++ pre))), s2, hae⟩))))))),
      (eventsAll_invalidateStep (P := fun e => isRevokeAllTokens e = false) env a
        (fun _ => by rfl)).all _ s2 e hae⟩
  rcases mem_events_bind he with he | ⟨_, _, he⟩
  · simp only [Notify, ask_bind_run, emit_bind_run, run_pure, Run.after_mk,
      List.mem_singleton, List.append_nil] at he
    rw [he]
    exact ⟨Or.inr (Or.inr (Or.inr (Or.inr (Or.inr (Or.inr (Or.inr (Or.inr
      ⟨_, rfl⟩))))))), rfl⟩
  · cases he

theorem ProcessKeySpaceChanges_source (env : Env) (r : RPCStorageHandler) (fuel : Nat)
    (keys : List String) (orgId : String) (h : List Event) (s : State) (e : Event)
    (he : e ∈ (ProcessKeySpaceChanges env r fuel keys orgId h s).events) :
    loopEvent env r fuel (classify env keys) orgId
      (keys ++ tokensReturned env h (ProcessKeySpaceChanges env r fuel keys orgId h s).events)
      h s.config.SlaveOptions.SynchroniserEnabled e := by
  have hperm := env.rangeOrder_perm
  have KJ := kept_settings env r s.config.SlaveOptions.SynchroniserEnabled
    s.config.SlaveOptions.EnableRPCCache s.config.HashKeys
  have hsw : switchesAre s.config.SlaveOptions.SynchroniserEnabled
      s.config.SlaveOptions.EnableRPCCache s ∧ s.config.HashKeys = s.config.HashKeys :=
    ⟨⟨rfl, rfl⟩, rfl⟩
  have h2 := eventsAll_forEach (P := fun e => isRevokeAllTokens e = false) (fun p =>
    eventsAll_userKeyResetStep env p (fun _ _ => by rfl) (fun _ => by rfl)
      (fun _ => by rfl))
    (env.rangeOrder (classify env keys).userKeyResets)
  have h3 := eventsAll_forEach (P := fun e => isRevokeAllTokens e = false) (fun p =>
    eventsAll_oauthClientStep env p (fun _ => by rfl) (fun _ _ => by rfl)
      (fun _ _ _ => by rfl) (fun _ _ _ => by rfl))
    (env.rangeOrder (classify env keys).OauthClients)
  unfold ProcessKeySpaceChanges ProcessOauthClientsOps at he ⊢
  dsimp only at he ⊢
  rcases mem_events_bind he with he | ⟨_, ha2, he⟩
  · obtain ⟨p, hp, pre, ss, hpe⟩ := forEach_events_mem _ _ _ _ e he
    unfold loopEvent
    exact Or.inl ⟨p, (hperm _).mem_iff.mp hp, pre, ss, hpe⟩
  rcases mem_events_bind he with he | ⟨_, ha3, he⟩
  · obtain ⟨p, hp, pre, ss, hpe⟩ := forEach_events_mem _ _ _ _ e he
    rw [List.append_assoc] at hpe
    unfold loopEvent
    exact Or.inr (Or.inl ⟨p, (hperm _).mem_iff.mp hp, _, ss, hpe⟩)
  rcases mem_events_bind he with he | ⟨keys2, ha4, he⟩
  · unfold loopEvent
    refine Or.inr (Or.inr (Or.inl ?_))
    rw [List.append_assoc] at he
    exact ⟨_, _, _, _, he⟩
  rw [events_bind_done _ _ h s _ ha2]
  have hs2 := (statePres_forEach (fun p => statePres_userKeyResetStep KJ p)
    (env.rangeOrder (classify env keys).userKeyResets)).pres h s hsw
  generalize hE2 : (forEach (userKeyResetStep env)
    (env.rangeOrder (classify env keys).userKeyResets) h s).events = e2 at he ha3 ha4 ⊢
  generalize (forEach (userKeyResetStep env)
    (env.rangeOrder (classify env keys).userKeyResets) h s).state = s2 at he ha3 ha4 hs2 ⊢
  rw [events_bind_done _ _ (h ++ e2) s2 _ ha3]
  have hs3 := (statePres_forEach (I := fun st =>
      switchesAre s.config.SlaveOptions.SynchroniserEnabled
        s.config.SlaveOptions.EnableRPCCache st ∧ st.config.HashKeys = s.config.HashKeys)
    (fun p => statePres_oauthClientStep env p)
    (env.rangeOrder (classify env keys).OauthClients)).pres (h ++ e2) s2 hs2
  generalize hE3 : (forEach (oauthClientStep env)
    (env.rangeOrder (classify env keys).OauthClients) (h ++ e2) s2).events = e3
    at he ha4 ⊢
  generalize (forEach (oauthClientStep env)
    (env.rangeOrder (classify env keys).OauthClients) (h ++ e2) s2).state = s3
    at he ha4 hs3 ⊢
  rw [events_bind_done _ _ (h ++ e2 ++ e3) s3 _ ha4]
  have hk2 := revokeClients_keys env _ keys _ s3 keys2 ha4
  have hs4 := (statePres_revokeClients (I := fun st =>
      switchesAre s.config.SlaveOptions.SynchroniserEnabled
        s.config.SlaveOptions.EnableRPCCache st ∧ st.config.HashKeys = s.config.HashKeys) env
    (env.rangeOrder (classify env keys).ClientsToBeRevoked) keys).pres (h ++ e2 ++ e3) s3 hs3
  generalize hE4 : (revokeClients env (env.rangeOrder (classify env keys).ClientsToBeRevoked)
    keys (h ++ e2 ++ e3) s3).events = e4 at he hk2 ⊢
  generalize (revokeClients env (env.rangeOrder (classify env keys).ClientsToBeRevoked)
    keys (h ++ e2 ++ e3) s3).state = s4 at he hs4 ⊢
  have hq2 : ∀ e ∈ e2, isRevokeAllTokens e = false := by
    rw [← hE2]
    exact h2.all h s
  have hq3 : ∀ e ∈ e3, isRevokeAllTokens e = false := by
    rw [← hE3]
    exact h3.all (h ++ e2) s2
  have htail := fun x hx => keyspaceTail_source env r fuel (classify env keys) orgId keys2
    (h ++ e2 ++ e3 ++ e4) s4 x hx
  generalize Run.events _ = e5 at he htail ⊢
  have ht : tokensReturned env h (e2 ++ (e3 ++ (e4 ++ e5))) =
      tokensReturned env (h ++ e2 ++ e3) e4 := by
    rw [tokensReturned_append, tokensReturned_append, tokensReturned_append,
      tokensReturned_eq_nil env h e2 hq2, tokensReturned_eq_nil env (h ++ e2) e3 hq3,
      tokensReturned_eq_nil env (h ++ e2 ++ e3 ++ e4) e5 (fun x hx => (htail x hx).2)]
    simp
  rw [ht, ← hk2]
  have hl := (htail e he).1
  rw [hs4.1.1, List.append_assoc, List.append_assoc] at hl
  exact loopEvent_shift env r fuel (classify env keys) orgId keys2 h _ _ e hl

theorem revokeClients_revokedAt (env : Env) (l : List (String × String)) (keys : List String)
    (h : List Event) (s : State) (a c x : String)
    (he : Event.RevokeAllTokens a c x ∈ (revokeClients env l keys h s).events) :
    ∃ pre, env.GetStorageForApi (h ++ pre) a = none := by
  induction l generalizing keys h s with
  | nil => simp [revokeClients] at he
  | cons q rest ih =>
    obtain ⟨clientId, key⟩ := q
    unfold RPCStorage.revokeClients at he
    cases h0 : (stringsSplit key ':')[0]? with
    | none => simp [index, h0] at he
    | some apiId =>
      cases h2 : (stringsSplit key ':')[2]? with
      | none => simp [index, h0, h2] at he
      | some secret =>
        cases hst : env.GetStorageForApi h apiId with
        | some err =>
          simp only [index, List.get?_eq_getElem?, h0, h2, GetStorageForApi, pure_bind_run,
            bind_assoc_run, ask_bind_run, emit_bind_run, hst, Option.isSome_some, if_true,
            Run.after_out, Run.after_events] at he
          rcases List.mem_append.mp he with he | he
          · simp at he
          · obtain ⟨pre, hpre⟩ := ih _ _ _ he
            rw [List.append_assoc] at hpre
            exact ⟨_, hpre⟩
        | none =>
          simp only [index, List.get?_eq_getElem?, h0, h2, GetStorageForApi, pure_bind_run,
            bind_assoc_run, ask_bind_run, emit_bind_run, hst, Option.isSome_none,
            Bool.false_eq_true, if_false, Run.after_out, Run.after_events,
            Run.after_after] at he
          rcases List.mem_append.mp he with he | he
          · simp only [List.singleton_append, List.mem_cons, List.mem_singleton,
              Event.RevokeAllTokens.injEq, List.not_mem_nil, or_false, false_or] at he
            refine ⟨[], ?_⟩
            rcases he with he | he
            · cases he
            · rw [List.append_nil, he.1]
              exact hst
          · obtain ⟨pre, hpre⟩ := ih _ _ _ he
            rw [List.append_assoc, List.append_assoc] at hpre
            exact ⟨_, hpre⟩

theorem revokeClients_revokes (env : Env) (l : List (String × String)) (keys : List String)
    (h : List Event) (s : State)
    (ks : List String) (hd : (revokeClients env l keys h s).out = .done ks) :
    ∀ p ∈ l, revocationOfAll p ∈ (revokeClients env l keys h s).events ∨
      ∃ pre post, (revokeClients env l keys h s).events = pre ++ post ∧
        env.GetStorageForApi (h ++ pre) (at0 (stringsSplit p.2 ':') 0) ≠ none := by
  induction l generalizing keys h s with
  | nil =>
    intro p hp
    cases hp
  | cons q rest ih =>
    obtain ⟨clientId, key⟩ := q
    unfold RPCStorage.revokeClients at hd ⊢
    cases h0 : (stringsSplit key ':')[0]? with
    | none => simp [index, h0] at hd
    | some apiId =>
      cases h2 : (stringsSplit key ':')[2]? with
      | none => simp [index, h0, h2] at hd
      | some secret =>
        have ha := at0_of_getElem? _ _ _ h0
        have hs2 := at0_of_getElem? _ _ _ h2
        cases hst : env.GetStorageForApi h apiId with
        | some err =>
          simp only [index, List.get?_eq_getElem?, h0, h2, GetStorageForApi, pure_bind_run,
            bind_assoc_run, ask_bind_run, emit_bind_run, hst, Option.isSome_some, if_true,
            Run.after_out, Run.after_events] at hd ⊢
          intro p hp
          rcases List.mem_cons.mp hp with hpq | hpr
          · refine Or.inr ⟨[], _, rfl, ?_⟩
            rw [hpq, List.append_nil, ha, hst]
            exact fun hn => Option.noConfusion hn
          · rcases ih _ _ _ hd p hpr with hin | ⟨pre, post, hev, hne⟩
            · exact Or.inl (List.mem_append_right _ hin)
            · refine Or.inr ⟨[Event.GetStorageForApi apiId] ++ pre, post, ?_, ?_⟩
              · rw [hev, List.append_assoc]
              · rw [← List.append_assoc]
                exact hne
        | none =>
          simp only [index, List.get?_eq_getElem?, h0, h2, GetStorageForApi, pure_bind_run,
            bind_assoc_run, ask_bind_run, emit_bind_run, hst, Option.isSome_none,
            Bool.false_eq_true, if_false, Run.after_out, Run.after_events,
            Run.after_after] at hd ⊢
          intro p hp
          rcases List.mem_cons.mp hp with hpq | hpr
          · rw [hpq]
            refine Or.inl (List.mem_append_left _ ?_)
            simp [revocationOfAll, ha, hs2]
          · rcases ih _ _ _ hd p hpr with hin | ⟨pre, post, hev, hne⟩
            · exact Or.inl (List.mem_append_right _ hin)
            · refine Or.inr ⟨[Event.GetStorageForApi apiId] ++
                [Event.RevokeAllTokens apiId clientId secret] ++ pre, post, ?_, ?_⟩
              · rw [hev]
                simp only [List.append_assoc]
              · simp only [List.append_assoc] at hne ⊢
                exact hne

theorem ProcessKeySpaceChanges_ran (env : Env) (r : RPCStorageHandler) (fuel : Nat)
    (keys : List String) (orgId : String) (h : List Event) (s : State)
    (hd : (ProcessKeySpaceChanges env r fuel keys orgId h s).out = .done ()) :
    (∀ p ∈ (classify env keys).TokensToBeRevoked, ∃ (a : List Event) (s2 : State)
        (c : List Event),
      (ProcessKeySpaceChanges env r fuel keys orgId h s).events =
          a ++ (revokeTokenStep env r orgId p (h ++ a) s2).events ++ c ∧
        (revokeTokenStep env r orgId p (h ++ a) s2).out = .done ()) ∧
    (∀ p ∈ (classify env keys).CertificatesToRemove, ∃ (a : List Event) (s2 : State)
        (c : List Event),
      (ProcessKeySpaceChanges env r fuel keys orgId h s).events =
          a ++ (removeCertStep orgId p (h ++ a) s2).events ++ c ∧
        (removeCertStep orgId p (h ++ a) s2).out = .done ()) ∧
    (∀ key ∈ keys ++
        tokensReturned env h (ProcessKeySpaceChanges env r fuel keys orgId h s).events,
      ∃ (a : List Event) (s2 : State) (c : List Event),
        (ProcessKeySpaceChanges env r fuel keys orgId h s).events =
          a ++ (regularKeyStep env r fuel (classify env keys) orgId
            s.config.SlaveOptions.SynchroniserEnabled key (h ++ a) s2).events ++ c ∧
        (regularKeyStep env r fuel (classify env keys) orgId
          s.config.SlaveOptions.SynchroniserEnabled key (h ++ a) s2).out = .done ()) ∧
    (∃ (h6 : List Event) (s6 : State),
      switchesAre s.config.SlaveOptions.SynchroniserEnabled
        s.config.SlaveOptions.EnableRPCCache s6 ∧
      s6.config.HashKeys = s.config.HashKeys ∧
      (forEach (regularKeyStep env r fuel (classify env keys) orgId
        s.config.SlaveOptions.SynchroniserEnabled)
        (keys ++ tokensReturned env h
          (ProcessKeySpaceChanges env r fuel keys orgId h s).events) h6 s6).out = .done () ∧
      (ProcessKeySpaceChanges env r fuel keys orgId h s).state =
        (forEach (regularKeyStep env r fuel (classify env keys) orgId
          s.config.SlaveOptions.SynchroniserEnabled)
          (keys ++ tokensReturned env h
            (ProcessKeySpaceChanges env r fuel keys orgId h s).events) h6 s6).state) ∧
    (∀ p ∈ (classify env keys).ClientsToBeRevoked,
      revocationOfAll p ∈ (ProcessKeySpaceChanges env r fuel keys orgId h s).events ∨
        ∃ pre post, (ProcessKeySpaceChanges env r fuel keys orgId h s).events = pre ++ post ∧
          env.GetStorageForApi (h ++ pre) (at0 (stringsSplit p.2 ':') 0) ≠ none) := by
  have hperm := env.rangeOrder_perm
  have KJ := kept_settings env r s.config.SlaveOptions.SynchroniserEnabled
    s.config.SlaveOptions.EnableRPCCache s.config.HashKeys
  have hsw : switchesAre s.config.SlaveOptions.SynchroniserEnabled
      s.config.SlaveOptions.EnableRPCCache s ∧ s.config.HashKeys = s.config.HashKeys :=
    ⟨⟨rfl, rfl⟩, rfl⟩
  have h2 := eventsAll_forEach (P := fun e => isRevokeAllTokens e = false) (fun p =>
    eventsAll_userKeyResetStep env p (fun _ _ => by rfl) (fun _ => by rfl)
      (fun _ => by rfl))
    (env.rangeOrder (classify env keys).userKeyResets)
  have h3 := eventsAll_forEach (P := fun e => isRevokeAllTokens e = false) (fun p =>
    eventsAll_oauthClientStep env p (fun _ => by rfl) (fun _ _ => by rfl)
      (fun _ _ _ => by rfl) (fun _ _ _ => by rfl))
    (env.rangeOrder (classify env keys).OauthClients)
  unfold ProcessKeySpaceChanges ProcessOauthClientsOps at hd ⊢
  dsimp only at hd ⊢
  obtain ⟨_, ha2, hb2, hst2⟩ := bind_done_elim _ _ h s () hd
  rw [events_bind_done _ _ h s _ ha2, hst2]
  clear hst2
  have hs2 := (statePres_forEach (fun p => statePres_userKeyResetStep KJ p)
    (env.rangeOrder (classify env keys).userKeyResets)).pres h s hsw
  generalize hE2 : (forEach (userKeyResetStep env)
    (env.rangeOrder (classify env keys).userKeyResets) h s).events = e2 at hb2 ⊢
  generalize (forEach (userKeyResetStep env)
    (env.rangeOrder (classify env keys).userKeyResets) h s).state = s2 at hb2 hs2 ⊢
  obtain ⟨_, ha3, hb3, hst3⟩ := bind_done_elim _ _ (h ++ e2) s2 () hb2
  rw [events_bind_done _ _ (h ++ e2) s2 _ ha3, hst3]
  clear hst3
  have hs3 := (statePres_forEach (I := fun st => switchesAre s.config.SlaveOptions.SynchroniserEnabled
      s.config.SlaveOptions.EnableRPCCache st ∧ st.config.HashKeys = s.config.HashKeys)
    (fun p => statePres_oauthClientStep env p)
    (env.rangeOrder (classify env keys).OauthClients)).pres (h ++ e2) s2 hs2
  generalize hE3 : (forEach (oauthClientStep env)
    (env.rangeOrder (classify env keys).OauthClients) (h ++ e2) s2).events = e3 at hb3 ⊢
  generalize (forEach (oauthClientStep env)
    (env.rangeOrder (classify env keys).OauthClients) (h ++ e2) s2).state = s3
    at hb3 hs3 ⊢
  obtain ⟨keys2, ha4, hb4, hst4⟩ := bind_done_elim _ _ (h ++ e2 ++ e3) s3 () hb3
  rw [events_bind_done _ _ (h ++ e2 ++ e3) s3 _ ha4, hst4]
  clear hst4
  have hk2 := revokeClients_keys env _ keys _ s3 keys2 ha4
  have hs4 := (statePres_revokeClients (I := fun st => switchesAre s.config.SlaveOptions.SynchroniserEnabled
      s.config.SlaveOptions.EnableRPCCache st ∧ st.config.HashKeys = s.config.HashKeys) env
    (env.rangeOrder (classify env keys).ClientsToBeRevoked) keys).pres (h ++ e2 ++ e3) s3 hs3
  generalize hE4 : (revokeClients env (env.rangeOrder (classify env keys).ClientsToBeRevoked)
    keys (h ++ e2 ++ e3) s3).events = e4 at hb4 hk2 ⊢
  generalize (revokeClients env (env.rangeOrder (classify env keys).ClientsToBeRevoked)
    keys (h ++ e2 ++ e3) s3).state = s4 at hb4 hs4 ⊢
  have htail := fun x hx => keyspaceTail_source env r fuel (classify env keys) orgId keys2
    (h ++ e2 ++ e3 ++ e4) s4 x hx
  have hq2 : ∀ e ∈ e2, isRevokeAllTokens e = false := by
    rw [← hE2]
    exact h2.all h s
  have hq3 : ∀ e ∈ e3, isRevokeAllTokens e = false := by
    rw [← hE3]
    exact h3.all (h ++ e2) s2
  have ht : ∀ e5, (∀ x ∈ e5, isRevokeAllTokens x = false) →
      tokensReturned env h (e2 ++ (e3 ++ (e4 ++ e5))) = tokensReturned env (h ++ e2 ++ e3) e4 := by
    intro e5 h5
    rw [tokensReturned_append, tokensReturned_append, tokensReturned_append,
      tokensReturned_eq_nil env h e2 hq2, tokensReturned_eq_nil env (h ++ e2) e3 hq3,
      tokensReturned_eq_nil env (h ++ e2 ++ e3 ++ e4) e5 h5]
    simp
  rw [ht _ (fun x hx => (htail x hx).2), ← hk2]
  clear htail ht
  -- the loops from the tokens on
  obtain ⟨_, ha5, hb5, hst5⟩ := bind_done_elim _ _ (h ++ e2 ++ e3 ++ e4) s4 () hb4
  rw [events_bind_done _ _ (h ++ e2 ++ e3 ++ e4) s4 _ ha5, hst5]
  clear hst5
  have hin5 := forEach_done_inside _ _ _ _ ha5
  have hs5 := (statePres_forEach (fun p => statePres_revokeTokenStep KJ orgId p)
    (env.rangeOrder (classify env keys).TokensToBeRevoked)).pres (h ++ e2 ++ e3 ++ e4) s4 hs4
  generalize (forEach (revokeTokenStep env r orgId)
    (env.rangeOrder (classify env keys).TokensToBeRevoked) (h ++ e2 ++ e3 ++ e4) s4).events
    = e5 at hb5 hin5 ⊢
  generalize (forEach (revokeTokenStep env r orgId)
    (env.rangeOrder (classify env keys).TokensToBeRevoked) (h ++ e2 ++ e3 ++ e4) s4).state
    = s5 at hb5 hs5 ⊢
  obtain ⟨_, ha6, hb6, hst6⟩ := bind_done_elim _ _ (h ++ e2 ++ e3 ++ e4 ++ e5) s5 () hb5
  rw [events_bind_done _ _ (h ++ e2 ++ e3 ++ e4 ++ e5) s5 _ ha6, hst6]
  clear hst6
  have hin6 := forEach_done_inside _ _ _ _ ha6
  have hs6 := (statePres_forEach (fun p => statePres_removeCertStep KJ orgId p)
    (env.rangeOrder (classify env keys).CertificatesToRemove)).pres
      (h ++ e2 ++ e3 ++ e4 ++ e5) s5 hs5
  generalize (forEach (removeCertStep orgId)
    (env.rangeOrder (classify env keys).CertificatesToRemove)
    (h ++ e2 ++ e3 ++ e4 ++ e5) s5).events = e6 at hb6 hin6 ⊢
  generalize (forEach (removeCertStep orgId)
    (env.rangeOrder (classify env keys).CertificatesToRemove)
    (h ++ e2 ++ e3 ++ e4 ++ e5) s5).state = s6 at hb6 hs6 ⊢
  obtain ⟨_, ha7, hb7, hst7⟩ := bind_done_elim _ _ (h ++ e2 ++ e3 ++ e4 ++ e5 ++ e6) s6 () hb6
  rw [events_bind_done _ _ (h ++ e2 ++ e3 ++ e4 ++ e5 ++ e6) s6 _ ha7, hst7]
  clear hst7
  have hs7 := (statePres_forEach (I := fun st => switchesAre s.config.SlaveOptions.SynchroniserEnabled
      s.config.SlaveOptions.EnableRPCCache st ∧ st.config.HashKeys = s.config.HashKeys)
    (fun p => statePres_addCertStep env p)
    (env.rangeOrder (classify env keys).CertificatesToAdd)).pres
      (h ++ e2 ++ e3 ++ e4 ++ e5 ++ e6) s6 hs6
  generalize (forEach (addCertStep env)
    (env.rangeOrder (classify env keys).CertificatesToAdd)
    (h ++ e2 ++ e3 ++ e4 ++ e5 ++ e6) s6).events = e7 at hb7 ⊢
  generalize (forEach (addCertStep env)
    (env.rangeOrder (classify env keys).CertificatesToAdd)
    (h ++ e2 ++ e3 ++ e4 ++ e5 ++ e6) s6).state = s7 at hb7 hs7 ⊢
  simp only [getState_bind_run, Run.after_nil] at hb7 ⊢
  rw [hs7.1.1] at hb7 ⊢
  obtain ⟨_, ha8, hb8, hst8⟩ :=
    bind_done_elim _ _ (h ++ e2 ++ e3 ++ e4 ++ e5 ++ e6 ++ e7) s7 () hb7
  rw [events_bind_done _ _ (h ++ e2 ++ e3 ++ e4 ++ e5 ++ e6 ++ e7) s7 _ ha8, hst8]
  clear hst8
  have hin8 := forEach_done_inside _ _ _ _ ha8
  have hlast : ∀ (h9 : List Event) (s8 : State),
      ((do
        forEach (invalidateStep env) (classify env keys).apiIDsToDeleteCache
        let _ ← Notify env ⟨env.KeySpaceUpdateNotification, stringsJoin keys2 ","⟩
        pure () : M Unit) h9 s8).state = s8 := fun h9 s8 =>
    (statePres_bind (I := fun st => st = s8)
      (statePres_forEach (fun a => statePres_invalidateStep env a) _)
      (fun _ => statePres_bind (statePres_Notify env _) (fun _ => statePres_pure _))).pres
      h9 s8 rfl
  rw [hlast]
  clear hlast hb8
  refine ⟨?_, ?_, ?_, ⟨_, s7, hs7.1, hs7.2, ha8, rfl⟩, ?_⟩
  all_goals
    generalize (forEach (regularKeyStep env r fuel (classify env keys) orgId
      s.config.SlaveOptions.SynchroniserEnabled) keys2
      (h ++ e2 ++ e3 ++ e4 ++ e5 ++ e6 ++ e7) s7).events = e8 at hin8 ⊢
    generalize Run.events _ = e9
    intro p hp
  · obtain ⟨a, sa, c, hev, hout⟩ := hin5 p ((hperm _).mem_iff.mpr hp)
    refine ⟨e2 ++ e3 ++ e4 ++ a, sa, c ++ (e6 ++ (e7 ++ (e8 ++ e9))), ?_, ?_⟩
    · rw [hev]
      simp only [List.append_assoc]
    · simpa only [List.append_assoc] using hout
  · obtain ⟨a, sa, c, hev, hout⟩ := hin6 p ((hperm _).mem_iff.mpr hp)
    refine ⟨e2 ++ e3 ++ e4 ++ e5 ++ a, sa, c ++ (e7 ++ (e8 ++ e9)), ?_, ?_⟩
    · rw [hev]
      simp only [List.append_assoc]
    · simpa only [List.append_assoc] using hout
  · obtain ⟨a, sa, c, hev, hout⟩ := hin8 p hp
    refine ⟨e2 ++ e3 ++ e4 ++ e5 ++ e6 ++ e7 ++ a, sa, c ++ e9, ?_, ?_⟩
    · rw [hev]
      simp only [List.append_assoc]
    · simpa only [List.append_assoc] using hout
  · have hmem := revokeClients_revokes env _ keys (h ++ e2 ++ e3) s3 keys2 ha4 p
      ((hperm _).mem_iff.mpr hp)
    rw [hE4] at hmem
    generalize e5 ++ (e6 ++ (e7 ++ (e8 ++ e9))) = rest
    rcases hmem with hmem | ⟨pre, post, hev, hne⟩
    · exact Or.inl
        (List.mem_append_right _ (List.mem_append_right _ (List.mem_append_left _ hmem)))
    · refine Or.inr ⟨e2 ++ e3 ++ pre, post ++ rest, ?_, ?_⟩
      · rw [hev]
        simp only [List.append_assoc]
      · simp only [List.append_assoc] at hne ⊢
        exact hne

/-! ## The quota-reset flag of the local deletes -/

theorem localDeletesOf_hashed (env : Env) (orgId key : String) (q : Bool)
    (hh : 1 < (stringsSplit key ':').length ∧ at0 (stringsSplit key ':') 1 = "hashed") :
    localDeletesOf env orgId key q =
      [.handleDeleteHashedKey (at0 (stringsSplit key ':') 0) orgId "" q] := by
  unfold localDeletesOf
  rw [if_pos hh]

theorem localDeletesOf_plain (env : Env) (orgId key : String) (q : Bool)
    (hh : ¬ (1 < (stringsSplit key ':').length ∧ at0 (stringsSplit key ':') 1 = "hashed")) :
    ∃ rest, localDeletesOf env orgId key q =
        .handleDeleteKey (if env.TokenOrg key = "" then env.generateToken orgId key else key)
          orgId "-1" q :: rest ∧
      ∀ id, env.TokenID (if env.TokenOrg key = "" then env.generateToken orgId key else key)
          = .ok id → Event.handleDeleteKey id orgId "-1" q ∈ rest := by
  unfold localDeletesOf processedKey
  rw [if_neg hh, if_neg hh]
  refine ⟨_, rfl, fun id hid => ?_⟩
  rw [hid]
  exact List.mem_singleton.mpr rfl

theorem regularKeyStep_localDeletes (env : Env) (r : RPCStorageHandler) (fuel : Nat)
    (b : Buckets) (orgId : String) (sync : Bool) (key : String) :
    EventsAll (fun e => isLocalDelete e = true →
        e ∈ localDeletesOf env orgId key (decide (at0 (stringsSplit key ':') 0 ∈ b.keysToReset)))
      (regularKeyStep env r fuel b orgId sync key) := by
  have h1 := localDeletesOf_hashed env orgId key
    (decide (at0 (stringsSplit key ':') 0 ∈ b.keysToReset))
  have h2 := localDeletesOf_plain env orgId key
    (decide (at0 (stringsSplit key ':') 0 ∈ b.keysToReset))
  generalize localDeletesOf env orgId key
    (decide (at0 (stringsSplit key ':') 0 ∈ b.keysToReset)) = L at h1 h2 ⊢
  have hmA : (1 < (stringsSplit key ':').length ∧ at0 (stringsSplit key ':') 1 = "hashed") →
      Event.handleDeleteHashedKey (at0 (stringsSplit key ':') 0) orgId ""
        (decide (at0 (stringsSplit key ':') 0 ∈ b.keysToReset)) ∈ L := by
    intro hh
    rw [h1 hh]
    exact List.mem_singleton.mpr rfl
  have hmB : ¬ (1 < (stringsSplit key ':').length ∧ at0 (stringsSplit key ':') 1 = "hashed") →
      Event.handleDeleteKey (if env.TokenOrg key = "" then env.generateToken orgId key else key)
        orgId "-1" (decide (at0 (stringsSplit key ':') 0 ∈ b.keysToReset)) ∈ L := by
    intro hh
    obtain ⟨rest, hL, _⟩ := h2 hh
    rw [hL]
    exact List.mem_cons_self _ _
  have hmC : ¬ (1 < (stringsSplit key ':').length ∧ at0 (stringsSplit key ':') 1 = "hashed") →
      ∀ id, env.TokenID (if env.TokenOrg key = "" then env.generateToken orgId key else key)
          = .ok id →
        Event.handleDeleteKey id orgId "-1"
          (decide (at0 (stringsSplit key ':') 0 ∈ b.keysToReset)) ∈ L := by
    intro hh id hid
    obtain ⟨rest, hL, hrest⟩ := h2 hh
    rw [hL]
    exact List.mem_cons_of_mem _ (hrest id hid)
  clear h1 h2
  have hget := fun k => eventsAll_GetRawKey (P := fun e => isLocalDelete e = true → e ∈ L)
    env r (fun _ _ hq => Bool.noConfusion hq) (fun _ _ _ hq => Bool.noConfusion hq)
    (fun hq => Bool.noConfusion hq) (fun _ _ _ _ hq => Bool.noConfusion hq) fuel k
  unfold RPCStorage.regularKeyStep
  split
  · exact eventsAll_pure _
  split
  · exact eventsAll_pure _
  by_cases hh : 1 < (stringsSplit key ':').length ∧ at0 (stringsSplit key ':') 1 = "hashed"
  · simp only [hh, and_self, decide_True, if_true]
    unfold RPCStorage.getSessionAndCreate RPCStorage.handleDeleteHashedKey
      RPCStorage.cacheDelete
    repeat' (first
      | exact hget _
      | exact eventsAll_pure _
      | exact eventsAll_ask _
      | exact eventsAll_getState
      | exact eventsAll_modifyState _
      | exact eventsAll_emit (fun hq => Bool.noConfusion hq)
      | exact eventsAll_emit (fun _ => hmA hh)
      | apply eventsAll_bind
      | intro _
      | split)
  · simp only [hh, decide_False, Bool.false_eq_true, if_false]
    unfold RPCStorage.getSessionAndCreate RPCStorage.deleteUsingTokenID
      RPCStorage.handleDeleteKey RPCStorage.cacheDelete
    repeat' (first
      | exact hget _
      | exact eventsAll_pure _
      | exact eventsAll_ask _
      | exact eventsAll_getState
      | exact eventsAll_modifyState _
      | exact eventsAll_emit (fun hq => Bool.noConfusion hq)
      | exact eventsAll_emit (fun _ => hmB hh)
      | exact eventsAll_emit (fun _ => hmC hh _ (by assumption))
      | apply eventsAll_bind
      | intro _
      | split)

theorem regularKeyStep_firstDelete (env : Env) (r : RPCStorageHandler) (fuel : Nat)
    (b : Buckets) (orgId : String) (sync : Bool) (key : String) (h : List Event) (s : State)
    (hreg : isUserKeyReset b key = false) (hnr : key ∉ b.notRegularKeys) :
    (regularKeyStep env r fuel b orgId sync key h s).events.head? =
      (localDeletesOf env orgId key
        (decide (at0 (stringsSplit key ':') 0 ∈ b.keysToReset))).head? := by
  unfold regularKeyStep
  by_cases hh : 1 < (stringsSplit key ':').length ∧ at0 (stringsSplit key ':') 1 = "hashed"
  · rw [localDeletesOf_hashed env orgId key _ hh]
    simp [hreg, hnr, hh, handleDeleteHashedKey, events_bind]
  · obtain ⟨rest, hL, _⟩ := localDeletesOf_plain env orgId key
      (decide (at0 (stringsSplit key ':') 0 ∈ b.keysToReset)) hh
    rw [hL]
    simp [hreg, hnr, hh, handleDeleteKey, events_bind]

theorem revokeTokenStep_localDeletes (env : Env) (r : RPCStorageHandler) (orgId : String)
    (p : String × String) (h : List Event) (s : State) :
    ∀ e ∈ (revokeTokenStep env r orgId p h s).events, isLocalDelete e = true →
      e = .handleDeleteHashedKey (at0 (stringsSplit p.1 '#') 0) orgId
        (at0 (stringsSplit p.2 ':') 1) false := by
  unfold revokeTokenStep
  cases h1 : (stringsSplit p.2 ':')[1]? with
  | none => simp [index, h1]
  | some apiId =>
    cases h2 : (stringsSplit p.2 ':')[2]? with
    | none => simp [index, h1, h2]
    | some tag =>
      have ha := at0_of_getElem? _ _ _ h1
      cases hh : stringsContains p.1 "#hashed" with
      | true =>
        cases h3 : (stringsSplit p.1 '#')[0]? with
        | none => simp [index, h1, h2, hh, h3]
        | some tok =>
          have ht := at0_of_getElem? _ _ _ h3
          simp [index, h1, h2, hh, h3, handleDeleteHashedKey, cacheDelete, isLocalDelete, ha,
            ht]
      | false =>
        cases hst : env.GetStorageForApi h apiId with
        | some err => simp [index, h1, h2, hh, GetStorageForApi, hst, isLocalDelete]
        | none =>
          simp [index, h1, h2, hh, GetStorageForApi, hst, cacheDelete, isLocalDelete]
theorem localDeletesOf_head (env : Env) (orgId key : String) (q : Bool) :
    ∃ e, (localDeletesOf env orgId key q).head? = some e := by
  unfold localDeletesOf
  split
  · exact ⟨_, rfl⟩
  · exact ⟨_, rfl⟩

/-- C8: every local delete (handleDeleteKey, handleDeleteHashedKey) that a run of
ProcessKeySpaceChanges calls is either the delete of a revoked hashed token,
which the loop over the tokens calls without quota reset, or a delete that the
last loop calls for a key of its working list (a key of the batch or a token
that a call of RevokeAllTokens of the run returned); the quota-reset flag of
the latter is true exactly when the batch holds a change-key "<id>:resetQuota"
(at least two colon segments, the last one "resetQuota") whose first segment is
the first colon segment of that key, wherever the change-key sits in the batch.
When the run returns, every key of the working list that the last loop treats
as a regular key has had its local delete called with that flag. -/
theorem reset_quota_honoured (env : Env) (r : RPCStorageHandler) (fuel : Nat)
    (batch : List String) (orgId : String) (h : List Event) (s : State) :
    (∀ e ∈ (ProcessKeySpaceChanges env r fuel batch orgId h s).events,
      isLocalDelete e = true →
        (∃ p ∈ (classify env batch).TokensToBeRevoked,
          e = .handleDeleteHashedKey (at0 (stringsSplit p.1 '#') 0) orgId
            (at0 (stringsSplit p.2 ':') 1) false) ∨
        ∃ key ∈ batch ++
            tokensReturned env h (ProcessKeySpaceChanges env r fuel batch orgId h s).events,
          ∃ q, e ∈ localDeletesOf env orgId key q ∧
            (q = true ↔
              ∃ c ∈ batch, 1 < (stringsSplit c ':').length ∧
                at0 (stringsSplit c ':') ((stringsSplit c ':').length - 1) = "resetQuota" ∧
                at0 (stringsSplit c ':') 0 = at0 (stringsSplit key ':') 0)) ∧
    ((ProcessKeySpaceChanges env r fuel batch orgId h s).out = .done () →
      ∀ key ∈ batch ++
          tokensReturned env h (ProcessKeySpaceChanges env r fuel batch orgId h s).events,
        isUserKeyReset (classify env batch) key = false →
        key ∉ (classify env batch).notRegularKeys →
        ∃ q, (∃ e ∈ (ProcessKeySpaceChanges env r fuel batch orgId h s).events,
            (localDeletesOf env orgId key q).head? = some e) ∧
          (q = true ↔
            ∃ c ∈ batch, 1 < (stringsSplit c ':').length ∧
              at0 (stringsSplit c ':') ((stringsSplit c ':').length - 1) = "resetQuota" ∧
              at0 (stringsSplit c ':') 0 = at0 (stringsSplit key ':') 0)) := by
  have hflag : ∀ key : String,
      (decide (at0 (stringsSplit key ':') 0 ∈ (classify env batch).keysToReset) = true ↔
        ∃ c ∈ batch, 1 < (stringsSplit c ':').length ∧
          at0 (stringsSplit c ':') ((stringsSplit c ':').length - 1) = "resetQuota" ∧
          at0 (stringsSplit c ':') 0 = at0 (stringsSplit key ':') 0) := by
    intro key
    rw [decide_eq_true_iff, classify_keysToReset]
    rfl
  constructor
  · intro e he hld
    have hsrc := ProcessKeySpaceChanges_source env r fuel batch orgId h s e he
    unfold loopEvent at hsrc
    rcases hsrc with ⟨p, _, h2, s2, hpe⟩ | ⟨p, _, h2, s2, hpe⟩ | ⟨l, ks, h2, s2, hpe⟩ |
      ⟨p, hp, h2, s2, hpe⟩ | ⟨p, _, h2, s2, hpe⟩ | ⟨p, _, h2, s2, hpe⟩ |
      ⟨key, hkey, h2, s2, hke⟩ | ⟨a, _, h2, s2, hpe⟩ | ⟨payload, hn⟩
    · have := (eventsAll_userKeyResetStep (P := fun e => isLocalDelete e = false) env p
        (fun _ _ => by rfl) (fun _ => by rfl) (fun _ => by rfl)).all _ s2 e hpe
      rw [this] at hld
      cases hld
    · have := (eventsAll_oauthClientStep (P := fun e => isLocalDelete e = false) env p
        (fun _ => by rfl) (fun _ _ => by rfl) (fun _ _ _ => by rfl)
        (fun _ _ _ => by rfl)).all _ s2 e hpe
      rw [this] at hld
      cases hld
    · have := (eventsAll_revokeClients (P := fun e => isLocalDelete e = false) env l ks
        (fun _ => by rfl) (fun _ _ _ => by rfl)).all _ s2 e hpe
      rw [this] at hld
      cases hld
    · exact Or.inl ⟨p, hp, revokeTokenStep_localDeletes env r orgId p _ s2 e hpe hld⟩
    · have := (eventsAll_removeCertStep (P := fun e => isLocalDelete e = false) orgId p
        (fun _ => by rfl) (fun _ _ => by rfl)).all _ s2 e hpe
      rw [this] at hld
      cases hld
    · have := (eventsAll_addCertStep (P := fun e => isLocalDelete e = false) env p
        (fun _ => by rfl)).all _ s2 e hpe
      rw [this] at hld
      cases hld
    · exact Or.inr ⟨key, hkey, _,
        (regularKeyStep_localDeletes env r fuel (classify env batch) orgId _ key).all
          _ s2 e hke hld, hflag key⟩
    · have := (eventsAll_invalidateStep (P := fun e => isLocalDelete e = false) env a
        (fun _ => by rfl)).all _ s2 e hpe
      rw [this] at hld
      cases hld
    · rw [hn] at hld
      cases hld
  · intro hd key hkey hreg hnr
    obtain ⟨a, s2, c, hev, _⟩ :=
      (ProcessKeySpaceChanges_ran env r fuel batch orgId h s hd).2.2.1 key hkey
    refine ⟨decide (at0 (stringsSplit key ':') 0 ∈ (classify env batch).keysToReset), ?_,
      hflag key⟩
    obtain ⟨e, he⟩ := localDeletesOf_head env orgId key
      (decide (at0 (stringsSplit key ':') 0 ∈ (classify env batch).keysToReset))
    refine ⟨e, ?_, he⟩
    have hfirst := regularKeyStep_firstDelete env r fuel (classify env batch) orgId
      s.config.SlaveOptions.SynchroniserEnabled key (h ++ a) s2 hreg hnr
    rw [he] at hfirst
    rw [hev]
    exact List.mem_append_left _ (List.mem_append_right _ (List.mem_of_mem_head? hfirst))

/-- C8, for the batches ["id1:resetQuota", "id1"] and ["id1", "id1:resetQuota"]:
whether the change-key comes before or after the plain key "id1", the run
returns and calls the local delete of "id1" with quota reset, as the batch asks
for; for the batch ["id1"] it calls it without. -/
theorem reset_quota_honoured_witness :
    (∃ q, (∃ e ∈ (ProcessKeySpaceChanges (Example.env 0) Example.handler 1
          ["id1:resetQuota", "id1"] "org1" [] Example.state).events,
        (localDeletesOf (Example.env 0) "org1" "id1" q).head? = some e) ∧
      (q = true ↔
        ∃ c ∈ ["id1:resetQuota", "id1"], 1 < (stringsSplit c ':').length ∧
          at0 (stringsSplit c ':') ((stringsSplit c ':').length - 1) = "resetQuota" ∧
          at0 (stringsSplit c ':') 0 = at0 (stringsSplit "id1" ':') 0)) ∧
    Event.handleDeleteKey "id1" "org1" "-1" true ∈
      (ProcessKeySpaceChanges (Example.env 0) Example.handler 1
        ["id1:resetQuota", "id1"] "org1" [] Example.state).events ∧
    Event.handleDeleteKey "id1" "org1" "-1" true ∈
      (ProcessKeySpaceChanges (Example.env 0) Example.handler 1
        ["id1", "id1:resetQuota"] "org1" [] Example.state).events ∧
    Event.handleDeleteKey "id1" "org1" "-1" false ∈
      (ProcessKeySpaceChanges (Example.env 0) Example.handler 1
        ["id1"] "org1" [] Example.state).events :=
  ⟨(reset_quota_honoured (Example.env 0) Example.handler 1 ["id1:resetQuota", "id1"] "org1"
      [] Example.state).2 (by decide) "id1" (by decide) (by decide) (by decide),
    by decide, by decide, by decide⟩

/-! ## What a step of the last loop does to the caches -/

theorem GetRawKey_effect (env : Env) (r : RPCStorageHandler) (fuel : Nat) (key : String)
    (h : List Event) (s : State) :
    (GetRawKey env r fuel key h s).state = s ∨
      (s.config.SlaveOptions.EnableRPCCache = true ∧
        ∃ a now v t, (GetRawKey env r fuel key h s).out = .done a ∧
          (GetRawKey env r fuel key h s).state =
            s.withCache (selectedCache key) ((s.cache (selectedCache key)).Set now key v t)) := by
  induction fuel generalizing h with
  | zero =>
    rw [GetRawKey.eq_1]
    exact Or.inl rfl
  | succ n ih =>
    rcases cachedValue_cases env key h s with ⟨v, hv⟩ | ⟨e, hv⟩ | hm
    · rw [GetRawKey_hit_str env r n key h s v hv]
      exact Or.inl rfl
    · rw [GetRawKey_hit_err env r n key h s e hv]
      exact Or.inl rfl
    · cases he : env.IsEmergencyMode h with
      | true =>
        rw [GetRawKey_emergency env r n key h s hm he]
        exact Or.inl rfl
      | false =>
        cases hres : env.remote.GetKey h key with
        | ok value =>
          rw [GetRawKey_ok env r n key h s value hm he hres]
          split
          · next hc => exact Or.inr ⟨hc, _, _, _, _, rfl, rfl⟩
          · exact Or.inl rfl
        | error err =>
          by_cases hretry : IsRetriableError (some err) = true ∧
              env.Login (h ++ [.rpc "GetKey" (.str key),
                .emitError "GetKey" err [("keyName", key)]]) = true
          · rw [GetRawKey_retry env r n key h s err hm he hres hretry.1 hretry.2]
            exact ih _
          · have hterm : IsRetriableError (some err) = false ∨
                env.Login (h ++ [.rpc "GetKey" (.str key),
                  .emitError "GetKey" err [("keyName", key)]]) = false := by
              by_cases h1 : IsRetriableError (some err) = true
              · right
                by_contra h2
                exact hretry ⟨h1, by simpa using h2⟩
              · left
                simpa using h1
            rw [GetRawKey_fail env r n key h s err hm he hres hterm]
            split
            · next hc => exact Or.inr ⟨hc, _, _, _, _, rfl, rfl⟩
            · exact Or.inl rfl

theorem Cache.Delete_Set (c : Cache) (now : Nat) (k : String) (v : CacheVal) (t : Int) :
    (c.Set now k v t).Delete k = c.Delete k := by
  unfold Cache.Set Cache.Delete
  simp [List.filter_cons, List.filter_filter]

theorem Cache.noEntry_Set (c : Cache) (now : Nat) (k x : String) (v : CacheVal) (t : Int)
    (hne : k ≠ x) (hn : c.noEntry x) : (c.Set now k v t).noEntry x := by
  intro it hit
  simp only [Cache.Set, List.mem_cons, List.mem_filter] at hit
  rcases hit with hit | hit
  · rw [hit]
    exact hne
  · exact hn it hit.1
theorem evictTail_shape (env : Env) (r : RPCStorageHandler) (fuel : Nat) (orgId k : String)
    (isHashed : Bool) (h : List Event) (s : State) :
    ∃ pre : List Event, (∀ e ∈ pre, isCacheDelete e = false ∧ isCredentialUpdate e = false) ∧
      ((((do
            getSessionAndCreate env r fuel k isHashed orgId
            cacheDelete .SessionCache k
            cacheDelete .RPCGlobalCache (r.KeyPrefix ++ k) : M Unit) h s).out ≠ .done () ∧
          ((do
            getSessionAndCreate env r fuel k isHashed orgId
            cacheDelete .SessionCache k
            cacheDelete .RPCGlobalCache (r.KeyPrefix ++ k) : M Unit) h s).state = s ∧
          ((do
            getSessionAndCreate env r fuel k isHashed orgId
            cacheDelete .SessionCache k
            cacheDelete .RPCGlobalCache (r.KeyPrefix ++ k) : M Unit) h s).events = pre) ∨
        (((do
            getSessionAndCreate env r fuel k isHashed orgId
            cacheDelete .SessionCache k
            cacheDelete .RPCGlobalCache (r.KeyPrefix ++ k) : M Unit) h s).out = .done () ∧
          ((do
            getSessionAndCreate env r fuel k isHashed orgId
            cacheDelete .SessionCache k
            cacheDelete .RPCGlobalCache (r.KeyPrefix ++ k) : M Unit) h s).events =
            pre ++ [.cacheDelete .SessionCache k,
              .cacheDelete .RPCGlobalCache (r.KeyPrefix ++ k)] ∧
          ∃ s1, (s1 = s ∨ (s.config.SlaveOptions.EnableRPCCache = true ∧ ∃ now v t,
              s1 = s.withCache
                (selectedCache ("apikey-" ++
                  (if !isHashed then env.HashKey k s.config.HashKeys else k)))
                ((s.cache (selectedCache ("apikey-" ++
                  (if !isHashed then env.HashKey k s.config.HashKeys else k)))).Set now
                  ("apikey-" ++ (if !isHashed then env.HashKey k s.config.HashKeys else k))
                  v t))) ∧
            ((do
              getSessionAndCreate env r fuel k isHashed orgId
              cacheDelete .SessionCache k
              cacheDelete .RPCGlobalCache (r.KeyPrefix ++ k) : M Unit) h s).state =
              replay [.cacheDelete .SessionCache k,
                .cacheDelete .RPCGlobalCache (r.KeyPrefix ++ k)] s1)) := by
  have heff := GetRawKey_effect env r fuel
    ("apikey-" ++ (if !isHashed then env.HashKey k s.config.HashKeys else k)) h s
  have hsil := (eventsAll_GetRawKey
    (P := fun e => isCacheDelete e = false ∧ isCredentialUpdate e = false) env r
    (fun _ _ => ⟨rfl, rfl⟩) (fun _ _ _ => ⟨rfl, rfl⟩) ⟨rfl, rfl⟩ (fun _ _ _ _ => ⟨rfl, rfl⟩)
    fuel ("apikey-" ++ (if !isHashed then env.HashKey k s.config.HashKeys else k))).all h s
  unfold getSessionAndCreate
  simp only [getState_bind_run, bind_assoc_run, Run.after_nil]
  rcases hg : GetRawKey env r fuel
    ("apikey-" ++ (if !isHashed then env.HashKey k s.config.HashKeys else k)) h s
    with ⟨o, s1, e1⟩
  rw [hg] at heff hsil
  cases o with
  | done a =>
    obtain ⟨v, err⟩ := a
    rw [bind_of_done _ _ h s s1 (v, err) e1 hg]
    cases herr : err.isSome with
    | true =>
      refine ⟨e1, hsil, Or.inr ⟨?_, ?_, s1, ?_, ?_⟩⟩
      · simp [herr, cacheDelete]
      · simp [herr, cacheDelete]
      · rcases heff with heff | ⟨hc, _, now, v2, t, _, heff⟩
        · exact Or.inl heff
        · exact Or.inr ⟨hc, now, v2, t, heff⟩
      · simp [herr, cacheDelete, replay, applyEvent]
    | false =>
      refine ⟨e1 ++ [.handleAddKey
          (if !isHashed then env.HashKey k s.config.HashKeys else k) v orgId], ?_,
        Or.inr ⟨?_, ?_, s1, ?_, ?_⟩⟩
      · intro e he
        rcases List.mem_append.mp he with he | he
        · exact hsil e he
        · rw [List.mem_singleton.mp he]
          exact ⟨rfl, rfl⟩
      · simp [herr, cacheDelete]
      · simp [herr, cacheDelete]
      · rcases heff with heff | ⟨hc, _, now, v2, t, _, heff⟩
        · exact Or.inl heff
        · exact Or.inr ⟨hc, now, v2, t, heff⟩
      · simp [herr, cacheDelete, replay, applyEvent]
  | panic =>
    rw [bind_of_panic _ _ h s s1 e1 hg]
    refine ⟨e1, hsil, Or.inl ⟨by simp, ?_, rfl⟩⟩
    rcases heff with heff | ⟨_, _, _, _, _, hd, _⟩
    · exact heff
    · cases hd
  | outOfFuel =>
    rw [bind_of_outOfFuel _ _ h s s1 e1 hg]
    refine ⟨e1, hsil, Or.inl ⟨by simp, ?_, rfl⟩⟩
    rcases heff with heff | ⟨_, _, _, _, _, hd, _⟩
    · exact heff
    · cases hd
theorem bind_assoc_fn {α β γ : Type} (m : M α) (g : α → M β) (f : β → M γ) :
    ((m >>= g) >>= f) = (m >>= fun a => g a >>= f) := by
  apply funext
  intro h
  apply funext
  intro s
  exact bind_assoc_run m g f h s

theorem plainDeletes_run (env : Env) (orgId k : String) (q : Bool) (h : List Event)
    (s : State) :
    ∃ (st : Int) (evs : List Event),
      (do
        let status ← handleDeleteKey env k orgId "-1" q
        let status ← deleteUsingTokenID env k orgId q status
        pure (k, status) : M (String × Int)) h s = ⟨.done (k, st), s, evs⟩ ∧
      (∀ e ∈ evs, isCacheDelete e = false ∧ isCredentialUpdate e = false) ∧
      st = plainStatus env orgId k q h := by
  unfold deleteUsingTokenID plainStatus
  by_cases h404 : env.handleDeleteKey h k orgId "-1" q = StatusNotFound
  · cases hid : env.TokenID k with
    | ok id =>
      refine ⟨env.handleDeleteKey (h ++ [.handleDeleteKey k orgId "-1" q]) id orgId "-1" q,
        [.handleDeleteKey k orgId "-1" q, .handleDeleteKey id orgId "-1" q], ?_, ?_, ?_⟩
      · simp [handleDeleteKey, h404, hid]
      · intro e he
        simp only [List.mem_cons, List.mem_singleton, List.not_mem_nil, or_false] at he
        rcases he with he | he <;> rw [he] <;> exact ⟨rfl, rfl⟩
      · simp [h404]
    | error err =>
      refine ⟨env.handleDeleteKey h k orgId "-1" q, [.handleDeleteKey k orgId "-1" q],
        ?_, ?_, ?_⟩
      · simp [handleDeleteKey, h404, hid]
      · intro e he
        rw [List.mem_singleton.mp he]
        exact ⟨rfl, rfl⟩
      · simp [h404]
  · refine ⟨env.handleDeleteKey h k orgId "-1" q, [.handleDeleteKey k orgId "-1" q],
      ?_, ?_, ?_⟩
    · simp [handleDeleteKey, h404]
    · intro e he
      rw [List.mem_singleton.mp he]
      exact ⟨rfl, rfl⟩
    · simp [h404]

theorem lastStatus_found (env : Env) (orgId key : String) (q : Bool) (hist : List Event)
    (hn : env.neverNotFound) : lastStatus env orgId key q hist ≠ StatusNotFound := by
  unfold lastStatus plainStatus
  split
  · exact hn.2 _ _ _ _ _
  · split
    · next h404 => exact absurd h404 (hn.1 _ _ _ _ _)
    · exact hn.1 _ _ _ _ _

theorem regularKeyStep_shape (env : Env) (r : RPCStorageHandler) (fuel : Nat) (b : Buckets)
    (orgId : String) (sync : Bool) (key : String) (h : List Event) (s : State) :
    ∃ pre : List Event, (∀ e ∈ pre, isCacheDelete e = false ∧ isCredentialUpdate e = false) ∧
      (((regularKeyStep env r fuel b orgId sync key h s).state = s ∧
          (regularKeyStep env r fuel b orgId sync key h s).events = pre ∧
          (isUserKeyReset b key = false → key ∉ b.notRegularKeys →
            (regularKeyStep env r fuel b orgId sync key h s).out = .done () →
            sync = false ∧ lastStatus env orgId key
              (decide (at0 (stringsSplit key ':') 0 ∈ b.keysToReset)) h = StatusNotFound)) ∨
        (isUserKeyReset b key = false ∧ key ∉ b.notRegularKeys ∧
          (regularKeyStep env r fuel b orgId sync key h s).out = .done () ∧
          (regularKeyStep env r fuel b orgId sync key h s).events =
            pre ++ [.cacheDelete .SessionCache (processedKey env orgId key),
              .cacheDelete .RPCGlobalCache (r.KeyPrefix ++ processedKey env orgId key)] ∧
          (sync = true ∨ lastStatus env orgId key
            (decide (at0 (stringsSplit key ':') 0 ∈ b.keysToReset)) h ≠ StatusNotFound) ∧
          ∃ s1, (s1 = s ∨ (s.config.SlaveOptions.EnableRPCCache = true ∧ ∃ now v t,
              s1 = s.withCache (selectedCache (fetchedName env s.config.HashKeys orgId key))
                ((s.cache (selectedCache (fetchedName env s.config.HashKeys orgId key))).Set
                  now (fetchedName env s.config.HashKeys orgId key) v t))) ∧
            (regularKeyStep env r fuel b orgId sync key h s).state =
              replay [.cacheDelete .SessionCache (processedKey env orgId key),
                .cacheDelete .RPCGlobalCache (r.KeyPrefix ++ processedKey env orgId key)]
                s1)) := by
  unfold regularKeyStep
  by_cases hreg : isUserKeyReset b key = true
  · refine ⟨[], by simp, Or.inl ⟨by simp [hreg], by simp [hreg], ?_⟩⟩
    intro hf
    rw [hreg] at hf
    cases hf
  by_cases hnr : key ∈ b.notRegularKeys
  · exact ⟨[], by simp, Or.inl ⟨by simp [hreg, hnr], by simp [hreg, hnr],
      fun _ hf => absurd hnr hf⟩⟩
  have hreg2 : isUserKeyReset b key = false := by simpa using hreg
  rw [if_neg hreg, if_neg hnr]
  by_cases hh : 1 < (stringsSplit key ':').length ∧ at0 (stringsSplit key ':') 1 = "hashed"
  · have hpk : processedKey env orgId key = at0 (stringsSplit key ':') 0 := by
      simp [processedKey, hh]
    have hfn : fetchedName env s.config.HashKeys orgId key =
        "apikey-" ++ (if !true then env.HashKey (at0 (stringsSplit key ':') 0) s.config.HashKeys
          else at0 (stringsSplit key ':') 0) := by
      simp [fetchedName, hh, hpk]
    have hls : lastStatus env orgId key
        (decide (at0 (stringsSplit key ':') 0 ∈ b.keysToReset)) h =
        env.handleDeleteHashedKey h (at0 (stringsSplit key ':') 0) orgId ""
          (decide (at0 (stringsSplit key ':') 0 ∈ b.keysToReset)) := by
      unfold lastStatus
      rw [if_pos hh]
    rw [hpk, hfn, hls]
    simp only [hh, and_self, decide_True, if_true, handleDeleteHashedKey,
      ask_bind_run, emit_bind_run, pure_bind_run, bind_assoc_run, Run.after_out,
      Run.after_state, Run.after_events]
    by_cases hskip : env.handleDeleteHashedKey h (at0 (stringsSplit key ':') 0) orgId ""
        (decide (at0 (stringsSplit key ':') 0 ∈ b.keysToReset)) = StatusNotFound ∧
        (!sync) = true
    · refine ⟨[.handleDeleteHashedKey (at0 (stringsSplit key ':') 0) orgId ""
        (decide (at0 (stringsSplit key ':') 0 ∈ b.keysToReset))], ?_, Or.inl ⟨?_, ?_, ?_⟩⟩
      · intro e he
        rw [List.mem_singleton.mp he]
        exact ⟨rfl, rfl⟩
      · simp [hskip]
      · simp [hskip]
      · intro _ _ _
        exact ⟨by simpa using hskip.2, hskip.1⟩
    · obtain ⟨pre, hpre, hT⟩ := evictTail_shape env r fuel orgId
        (at0 (stringsSplit key ':') 0) true
        (h ++ [.handleDeleteHashedKey (at0 (stringsSplit key ':') 0) orgId ""
          (decide (at0 (stringsSplit key ':') 0 ∈ b.keysToReset))]) s
      refine ⟨.handleDeleteHashedKey (at0 (stringsSplit key ':') 0) orgId ""
        (decide (at0 (stringsSplit key ':') 0 ∈ b.keysToReset)) :: pre, ?_, ?_⟩
      · intro e he
        rcases List.mem_cons.mp he with he | he
        · rw [he]
          exact ⟨rfl, rfl⟩
        · exact hpre e he
      rw [if_neg hskip]
      have hwhy : sync = true ∨
          env.handleDeleteHashedKey h (at0 (stringsSplit key ':') 0) orgId ""
            (decide (at0 (stringsSplit key ':') 0 ∈ b.keysToReset)) ≠ StatusNotFound := by
        cases hsy : sync with
        | true => exact Or.inl rfl
        | false => exact Or.inr (fun h404 => hskip ⟨h404, by rw [hsy]; rfl⟩)
      rcases hT with ⟨h1, h2, h3⟩ | ⟨h1, h2, s1, h3, h4⟩
      · exact Or.inl ⟨h2, by rw [h3]; rfl, fun _ _ hd => absurd hd h1⟩
      · exact Or.inr ⟨hreg2, hnr, h1, by rw [h2]; rfl, hwhy, s1, h3, h4⟩
  · have hpk : processedKey env orgId key =
        (if env.TokenOrg key = "" then env.generateToken orgId key else key) := by
      simp [processedKey, hh]
    have hfn : fetchedName env s.config.HashKeys orgId key =
        "apikey-" ++ (if !false then env.HashKey
            (if env.TokenOrg key = "" then env.generateToken orgId key else key)
            s.config.HashKeys
          else (if env.TokenOrg key = "" then env.generateToken orgId key else key)) := by
      simp [fetchedName, hh, hpk]
    have hls : lastStatus env orgId key
        (decide (at0 (stringsSplit key ':') 0 ∈ b.keysToReset)) h =
        plainStatus env orgId
          (if env.TokenOrg key = "" then env.generateToken orgId key else key)
          (decide (at0 (stringsSplit key ':') 0 ∈ b.keysToReset)) h := by
      unfold lastStatus
      rw [if_neg hh, hpk]
    rw [hpk, hfn, hls]
    clear hls
    simp only [hh, decide_False, Bool.false_eq_true, if_false]
    generalize (if env.TokenOrg key = "" then env.generateToken orgId key else key) = k2
    obtain ⟨st, evs, hrun, hsil, hst⟩ := plainDeletes_run env orgId k2
      (decide (at0 (stringsSplit key ':') 0 ∈ b.keysToReset)) h s
    have hD := fun (f : String × Int → M Unit) => bind_of_done _ f h s s (k2, st) evs hrun
    simp only [bind_assoc_fn] at hD
    rw [hD]
    simp only [Run.after_out, Run.after_state, Run.after_events]
    by_cases hskip : st = StatusNotFound ∧ (!sync) = true
    · refine ⟨evs, hsil, Or.inl ⟨?_, ?_, ?_⟩⟩
      · simp [hskip]
      · simp [hskip]
      · intro _ _ _
        exact ⟨by simpa using hskip.2, by rw [← hst]; exact hskip.1⟩
    · obtain ⟨pre, hpre, hT⟩ := evictTail_shape env r fuel orgId k2 false (h ++ evs) s
      refine ⟨evs ++ pre, ?_, ?_⟩
      · intro e he
        rcases List.mem_append.mp he with he | he
        · exact hsil e he
        · exact hpre e he
      rw [if_neg hskip]
      have hwhy : sync = true ∨ plainStatus env orgId k2
          (decide (at0 (stringsSplit key ':') 0 ∈ b.keysToReset)) h ≠ StatusNotFound := by
        cases hsy : sync with
        | true => exact Or.inl rfl
        | false =>
          exact Or.inr (fun h404 => hskip ⟨by rw [hst]; exact h404, by rw [hsy]; rfl⟩)
      rcases hT with ⟨h1, h2, h3⟩ | ⟨h1, h2, s1, h3, h4⟩
      · exact Or.inl ⟨h2, by rw [h3], fun _ _ hd => absurd hd h1⟩
      · exact Or.inr ⟨hreg2, hnr, h1, by rw [h2, List.append_assoc], hwhy, s1, h3, h4⟩

/-! ## Cache eviction after reconciliation -/

theorem statePres_forEach_mem {α : Type} {I : State → Prop} {body : α → M Unit}
    (xs : List α) (hb : ∀ x ∈ xs, StatePres I (body x)) : StatePres I (forEach body xs) := by
  induction xs with
  | nil => exact statePres_pure ()
  | cons x xs ih =>
    unfold RPCStorage.forEach
    exact statePres_bind (hb x (List.mem_cons_self _ _))
      (fun _ => ih (fun y hy => hb y (List.mem_cons_of_mem _ hy)))

theorem forEach_append_run {α : Type} (body : α → M Unit) (l1 l2 : List α) (h : List Event)
    (s : State) :
    forEach body (l1 ++ l2) h s = (forEach body l1 >>= fun _ => forEach body l2) h s := by
  induction l1 generalizing h s with
  | nil => simp [forEach]
  | cons x rest ih =>
    show (body x >>= fun _ => forEach body (rest ++ l2)) h s =
      ((body x >>= fun _ => forEach body rest) >>= fun _ => forEach body l2) h s
    rw [bind_assoc_run]
    rcases hx : body x h s with ⟨o, s1, e1⟩
    cases o with
    | done a =>
      rw [bind_of_done _ _ h s s1 a e1 hx, bind_of_done _ _ h s s1 a e1 hx, ih]
    | panic =>
      rw [bind_of_panic _ _ h s s1 e1 hx, bind_of_panic _ _ h s s1 e1 hx]
    | outOfFuel =>
      rw [bind_of_outOfFuel _ _ h s s1 e1 hx, bind_of_outOfFuel _ _ h s s1 e1 hx]

theorem selectedCache_cases (key : String) :
    selectedCache key = .RPCCertCache ∨ selectedCache key = .RPCGlobalCache := by
  unfold selectedCache
  split
  · exact Or.inl rfl
  · exact Or.inr rfl

theorem regularKeyStep_absent (env : Env) (r : RPCStorageHandler) (fuel : Nat) (b : Buckets)
    (orgId : String) (sync cache hashKeys : Bool) (k1 name key : String)
    (hc : cache = false ∨ ¬ leavesEntry env r hashKeys b orgId name key) :
    StatePres (fun s => (switchesAre sync cache s ∧ s.config.HashKeys = hashKeys) ∧
        s.SessionCache.noEntry k1 ∧ s.RPCGlobalCache.noEntry name)
      (regularKeyStep env r fuel b orgId sync key) := by
  constructor
  intro h s hs
  refine ⟨(statePres_regularKeyStep (kept_settings env r sync cache hashKeys) fuel b orgId
    sync key).pres h s hs.1, ?_⟩
  obtain ⟨⟨⟨_, hcache⟩, hhk⟩, hn1, hn2⟩ := hs
  obtain ⟨pre, _, hshape⟩ := regularKeyStep_shape env r fuel b orgId sync key h s
  rcases hshape with ⟨hst, _, _⟩ | ⟨hreg, hnr, _, _, _, s1, hs1, hst⟩
  · rw [hst]
    exact ⟨hn1, hn2⟩
  · rw [hst]
    have hfinal : ∀ s1 : State, s1.SessionCache.noEntry k1 →
        (s1.RPCGlobalCache.Delete (r.KeyPrefix ++ processedKey env orgId key)).noEntry name →
        (replay [.cacheDelete .SessionCache (processedKey env orgId key),
          .cacheDelete .RPCGlobalCache (r.KeyPrefix ++ processedKey env orgId key)]
          s1).SessionCache.noEntry k1 ∧
        (replay [.cacheDelete .SessionCache (processedKey env orgId key),
          .cacheDelete .RPCGlobalCache (r.KeyPrefix ++ processedKey env orgId key)]
          s1).RPCGlobalCache.noEntry name := by
      intro s1 g1 g2
      exact ⟨Cache.noEntry_Delete _ _ _ g1, g2⟩
    rcases hs1 with hs1 | ⟨hon, now, v, t, hs1⟩
    · rw [hs1]
      exact hfinal s hn1 (Cache.noEntry_Delete _ _ _ hn2)
    · rw [hhk] at hs1
      rcases hc with hc | hc
      · rw [hcache, hc] at hon
        cases hon
      · rcases selectedCache_cases (fetchedName env hashKeys orgId key) with hsel | hsel
        · rw [hs1, hsel]
          exact hfinal _ hn1 (Cache.noEntry_Delete _ _ _ hn2)
        · rw [hs1, hsel]
          refine hfinal _ hn1 ?_
          by_cases hname : fetchedName env hashKeys orgId key = name
          · have hev : r.KeyPrefix ++ processedKey env orgId key = name := by
              by_contra hne
              exact hc ⟨hreg, hnr, hname, by rw [← hname]; exact hsel, hne⟩
            rw [hev]
            exact Cache.noEntry_Delete_self _ _
          · exact Cache.noEntry_Delete _ _ _ (Cache.noEntry_Set _ _ _ _ _ _ hname hn2)
theorem Example.env_neverNotFound : (Example.env 0).neverNotFound := by
  constructor
  · intro h k o a q
    show (200 : Int) ≠ 404
    decide
  · intro h k o a q
    show (200 : Int) ≠ 404
    decide

theorem replay_append (e1 e2 : List Event) (s : State) :
    replay (e1 ++ e2) s = replay e2 (replay e1 s) := by
  unfold replay
  rw [List.foldl_append]

theorem applyEvent_switch (s : State) (e : Event) :
    (applyEvent s e).config.SlaveOptions.EnableRPCCache =
        s.config.SlaveOptions.EnableRPCCache ∧
      (applyEvent s e).config.HashKeys = s.config.HashKeys := by
  cases e <;> first | exact ⟨rfl, rfl⟩ | (rename_i part _; cases part <;> exact ⟨rfl, rfl⟩)

theorem replay_switch (evs : List Event) (s : State) :
    (replay evs s).config.SlaveOptions.EnableRPCCache =
        s.config.SlaveOptions.EnableRPCCache ∧
      (replay evs s).config.HashKeys = s.config.HashKeys := by
  induction evs generalizing s with
  | nil => exact ⟨rfl, rfl⟩
  | cons e rest ih =>
    show (replay rest (applyEvent s e)).config.SlaveOptions.EnableRPCCache = _ ∧
      (replay rest (applyEvent s e)).config.HashKeys = _
    rw [(ih _).1, (ih _).2]
    exact applyEvent_switch s e

theorem replay_of_silent (evs : List Event) (s : State)
    (hq : ∀ e ∈ evs, ∀ s2, applyEvent s2 e = s2) : replay evs s = s := by
  induction evs with
  | nil => rfl
  | cons e rest ih =>
    show replay rest (applyEvent s e) = s
    rw [hq e (List.mem_cons_self _ _) s]
    exact ih (fun e2 he2 => hq e2 (List.mem_cons_of_mem _ he2))

theorem applyEvent_quiet (e : Event) (hq : isCacheDelete e = false ∧ isCredentialUpdate e = false)
    (s : State) : applyEvent s e = s := by
  cases e with
  | cacheDelete part k => cases hq.1
  | updateKeyInStore path newKey => cases hq.2
  | _ => rfl

theorem tracks_bind_val {α β : Type} {c d : Bool} {m : M α} {f : α → M β} {Q : α → Prop}
    (hm : Tracks c d m) (hv : ∀ h s a, (m h s).out = .done a → Q a)
    (hf : ∀ a, Q a → Tracks c d (f a)) : Tracks c d (m >>= f) := by
  constructor
  intro h s hs hh
  rw [state_bind, events_bind, replay_append]
  have h1 := hm.tracks h s hs hh
  cases hc : (m h s).out with
  | done a =>
    dsimp only
    rw [← h1]
    exact (hf a (hv h s a hc)).tracks _ _ (by rw [h1, (replay_switch _ _).1]; exact hs)
      (by rw [h1, (replay_switch _ _).2]; exact hh)
  | panic =>
    dsimp only
    exact h1
  | outOfFuel =>
    dsimp only
    exact h1

theorem tracks_bind {α β : Type} {c d : Bool} {m : M α} {f : α → M β} (hm : Tracks c d m)
    (hf : ∀ a, Tracks c d (f a)) : Tracks c d (m >>= f) :=
  tracks_bind_val (Q := fun _ => True) hm (fun _ _ _ _ => trivial) (fun a _ => hf a)

theorem tracks_pure {α : Type} {c d : Bool} (a : α) : Tracks c d (pure a : M α) :=
  ⟨fun _ _ _ _ => rfl⟩

theorem tracks_ask {β : Type} {c d : Bool} (g : List Event → β) : Tracks c d (ask g) :=
  ⟨fun _ _ _ _ => rfl⟩

theorem tracks_getState {c d : Bool} : Tracks c d getState :=
  ⟨fun _ _ _ _ => rfl⟩

theorem tracks_goPanic {α : Type} {c d : Bool} : Tracks c d (goPanic : M α) :=
  ⟨fun _ _ _ _ => rfl⟩

theorem tracks_emit {c d : Bool} {e : Event} (he : ∀ s, applyEvent s e = s) :
    Tracks c d (emit e) :=
  ⟨fun _ s _ _ => (he s).symm⟩

theorem tracks_index {c d : Bool} (l : List String) (i : Nat) : Tracks c d (index l i) := by
  unfold RPCStorage.index
  split
  · exact tracks_pure _
  · exact tracks_goPanic

theorem tracks_forEach_mem {α : Type} {c d : Bool} {body : α → M Unit} (xs : List α)
    (hb : ∀ x ∈ xs, Tracks c d (body x)) : Tracks c d (forEach body xs) := by
  induction xs with
  | nil => exact tracks_pure ()
  | cons x xs ih =>
    unfold RPCStorage.forEach
    exact tracks_bind (hb x (List.mem_cons_self _ _))
      (fun _ => ih (fun y hy => hb y (List.mem_cons_of_mem _ hy)))

theorem tracks_forEach {α : Type} {c d : Bool} {body : α → M Unit}
    (hb : ∀ x, Tracks c d (body x)) (xs : List α) : Tracks c d (forEach body xs) :=
  tracks_forEach_mem xs (fun x _ => hb x)

theorem tracks_cacheDelete {c d : Bool} (part : Partition) (key : String) :
    Tracks c d (cacheDelete part key) := by
  constructor
  intro h s _ _
  rw [cacheDelete_run]
  rfl

theorem tracks_userKeyResetStep {c d : Bool} (env : Env) (p : String × String) :
    Tracks c d (userKeyResetStep env p) := by
  constructor
  intro h s _ _
  unfold userKeyResetStep
  by_cases hk : s.config.SlaveOptions.APIKey = p.1
  · cases hc : env.Connect
        (h ++ [.updateKeyInStore s.config.EdgeOriginalAPIKeyPath p.2]) <;>
      simp [hk, Connect, Notify, hc, replay, applyEvent, State.setAPIKey]
  · simp [hk, Notify, replay, applyEvent]

theorem tracks_oauthClientStep {c d : Bool} (env : Env) (p : String × String) :
    Tracks c d (oauthClientStep env p) := by
  unfold RPCStorage.oauthClientStep RPCStorage.ProcessSingleOauthClientEvent
    RPCStorage.GetStorageForApi RPCStorage.GetClient RPCStorage.SetClient
    RPCStorage.DeleteClient
  repeat' (first
    | exact tracks_pure _
    | exact tracks_ask _
    | exact tracks_index _ _
    | exact tracks_emit (fun _ => rfl)
    | apply tracks_bind
    | intro _
    | split)

theorem tracks_revokeClients {c d : Bool} (env : Env) (l : List (String × String))
    (keys : List String) : Tracks c d (revokeClients env l keys) := by
  induction l generalizing keys with
  | nil => exact tracks_pure _
  | cons p rest ih =>
    obtain ⟨clientId, key⟩ := p
    unfold RPCStorage.revokeClients RPCStorage.GetStorageForApi
    repeat' (first
      | exact ih _
      | exact tracks_pure _
      | exact tracks_ask _
      | exact tracks_index _ _
      | exact tracks_emit (fun _ => rfl)
      | apply tracks_bind
      | intro _
      | split)

theorem tracks_revokeTokenStep {c d : Bool} (env : Env) (r : RPCStorageHandler)
    (orgId : String) (p : String × String) : Tracks c d (revokeTokenStep env r orgId p) := by
  unfold RPCStorage.revokeTokenStep RPCStorage.GetStorageForApi
    RPCStorage.handleDeleteHashedKey
  repeat' (first
    | exact tracks_pure _
    | exact tracks_ask _
    | exact tracks_index _ _
    | exact tracks_emit (fun _ => rfl)
    | exact tracks_cacheDelete _ _
    | apply tracks_bind
    | intro _
    | split
    | (dsimp only))

theorem replay_evict_Set (s : State) (k1 k2 : String) (now : Nat) (v : CacheVal) (t : Int) :
    replay [.cacheDelete .SessionCache k1, .cacheDelete .RPCGlobalCache k2]
        (s.withCache .RPCGlobalCache (s.RPCGlobalCache.Set now k2 v t)) =
      replay [.cacheDelete .SessionCache k1, .cacheDelete .RPCGlobalCache k2] s := by
  simp [replay, applyEvent, State.withCache, State.cache, Cache.Delete_Set]

theorem tracks_regularKeyStep {c d : Bool} (env : Env) (r : RPCStorageHandler) (fuel : Nat)
    (b : Buckets) (orgId : String) (sync : Bool) (key : String)
    (hgood : c = false ∨ evictsItsFetch env r d b orgId key) :
    Tracks c d (regularKeyStep env r fuel b orgId sync key) := by
  constructor
  intro h s hs hh
  obtain ⟨pre, hpre, hshape⟩ := regularKeyStep_shape env r fuel b orgId sync key h s
  have hsilent : replay pre s = s :=
    replay_of_silent pre s (fun e he s2 => applyEvent_quiet e (hpre e he) s2)
  rcases hshape with ⟨hst, hev, _⟩ | ⟨hreg, hnr, _, hev, _, s1, hs1, hst⟩
  · rw [hst, hev, hsilent]
  · rw [hst, hev, replay_append, hsilent]
    rcases hs1 with hs1 | ⟨hon, now, v, t, hs1⟩
    · rw [hs1]
    · rcases hgood with hoff | hgood
      · rw [hs, hoff] at hon
        cases hon
      · rw [hh] at hs1
        obtain ⟨hname, hsel⟩ := hgood hreg hnr
        rw [hs1, hsel, hname]
        exact replay_evict_Set s _ _ now v t
/-! ## The caches over two runs -/

theorem tokensReturned_mem (env : Env) (h evs : List Event) (t : String) :
    t ∈ tokensReturned env h evs ↔
      ∃ pre a c x post, evs = pre ++ Event.RevokeAllTokens a c x :: post ∧
        t ∈ env.RevokeAllTokens (h ++ pre) a c x := by
  induction evs generalizing h with
  | nil => simp [tokensReturned]
  | cons e rest ih =>
    rw [tokensReturned, List.mem_append, ih]
    constructor
    · rintro (ht | ⟨pre, a, c, x, post, hev, ht⟩)
      · cases e with
        | RevokeAllTokens a c x => exact ⟨[], a, c, x, rest, rfl, by simpa [tokensOf] using ht⟩
        | _ => simp [tokensOf] at ht
      · exact ⟨e :: pre, a, c, x, post, by rw [hev]; rfl, by simpa using ht⟩
    · rintro ⟨pre, a, c, x, post, hev, ht⟩
      cases pre with
      | nil =>
        left
        simp only [List.nil_append, List.cons.injEq] at hev
        rw [hev.1]
        simpa [tokensOf] using ht
      | cons e2 pre2 =>
        right
        simp only [List.cons_append, List.cons.injEq] at hev
        refine ⟨pre2, a, c, x, post, hev.2, ?_⟩
        rw [hev.1]
        simpa using ht

theorem revokeClients_all (env : Env) (l : List (String × String)) (keys : List String)
    (Q : String → Prop) (hkeys : ∀ k ∈ keys, Q k)
    (htok : ∀ hh a c x, ∀ t ∈ env.RevokeAllTokens hh a c x, Q t) (h : List Event) (s : State)
    (ks : List String) (hd : (revokeClients env l keys h s).out = .done ks) :
    ∀ k ∈ ks, Q k := by
  intro k hk
  rw [revokeClients_keys env l keys h s ks hd] at hk
  rcases List.mem_append.mp hk with hk | hk
  · exact hkeys k hk
  · obtain ⟨pre, a, c, x, post, _, ht⟩ := (tokensReturned_mem env h _ k).mp hk
    exact htok _ a c x k ht

theorem tracks_ProcessKeySpaceChanges {c d : Bool} (env : Env) (r : RPCStorageHandler)
    (fuel : Nat) (keys : List String) (orgId : String)
    (hgood : c = false ∨
      ((∀ k ∈ keys, evictsItsFetch env r d (classify env keys) orgId k) ∧
        ∀ hh a c2 x, ∀ t ∈ env.RevokeAllTokens hh a c2 x,
          evictsItsFetch env r d (classify env keys) orgId t)) :
    Tracks c d (ProcessKeySpaceChanges env r fuel keys orgId) := by
  unfold ProcessKeySpaceChanges ProcessOauthClientsOps
  dsimp only
  refine tracks_bind (tracks_forEach (fun p => tracks_userKeyResetStep env p) _) (fun _ => ?_)
  refine tracks_bind (tracks_forEach (fun p => tracks_oauthClientStep env p) _) (fun _ => ?_)
  refine tracks_bind_val
    (Q := fun keys2 => c = false ∨
      ∀ k ∈ keys2, evictsItsFetch env r d (classify env keys) orgId k)
    (tracks_revokeClients env _ _) ?_ (fun keys2 hk2 => ?_)
  · intro h s ks hd
    rcases hgood with hoff | hgood
    · exact Or.inl hoff
    · exact Or.inr (revokeClients_all env _ keys _ hgood.1 hgood.2 h s ks hd)
  refine tracks_bind (tracks_forEach (fun p => tracks_revokeTokenStep env r orgId p) _)
    (fun _ => ?_)
  refine tracks_bind (tracks_forEach (fun p => ?_) _) (fun _ => ?_)
  · unfold RPCStorage.removeCertStep
    exact tracks_bind (tracks_emit (fun _ => rfl)) (fun _ => tracks_cacheDelete _ _)
  refine tracks_bind (tracks_forEach (fun p => ?_) _) (fun _ => ?_)
  · unfold RPCStorage.addCertStep
    exact tracks_bind (tracks_ask _) (fun _ => tracks_emit (fun _ => rfl))
  refine tracks_bind tracks_getState (fun st => ?_)
  refine tracks_bind (tracks_forEach_mem keys2 (fun k hkm =>
    tracks_regularKeyStep env r fuel _ orgId _ k (hk2.imp id (fun hp => hp k hkm))))
    (fun _ => ?_)
  refine tracks_bind (tracks_forEach (fun a => ?_) _) (fun _ => ?_)
  · unfold RPCStorage.invalidateStep
    exact tracks_bind (tracks_ask _) (fun _ => tracks_emit (fun _ => rfl))
  refine tracks_bind ?_ (fun _ => tracks_pure _)
  unfold RPCStorage.Notify
  exact tracks_bind (tracks_ask _)
    (fun _ => tracks_bind (tracks_emit (fun _ => rfl)) (fun _ => tracks_pure _))

theorem applyEvent_noEntry (s : State) (e : Event) (part : Partition) (k : String)
    (hn : (s.cache part).noEntry k) : ((applyEvent s e).cache part).noEntry k := by
  cases e with
  | cacheDelete part2 k2 =>
    cases part <;> cases part2 <;>
      first | exact hn | exact Cache.noEntry_Delete _ k k2 hn
  | updateKeyInStore _ _ => cases part <;> exact hn
  | _ => exact hn

theorem replay_noEntry_pres (evs : List Event) (s : State) (part : Partition) (k : String)
    (hn : (s.cache part).noEntry k) : ((replay evs s).cache part).noEntry k := by
  induction evs generalizing s with
  | nil => exact hn
  | cons e rest ih => exact ih _ (applyEvent_noEntry s e part k hn)

theorem replay_noEntry (evs : List Event) (s : State) (part : Partition) (k : String)
    (hmem : Event.cacheDelete part k ∈ evs) : ((replay evs s).cache part).noEntry k := by
  induction evs generalizing s with
  | nil => cases hmem
  | cons e rest ih =>
    rcases List.mem_cons.mp hmem with heq | hrest
    · refine replay_noEntry_pres rest _ part k ?_
      rw [← heq]
      cases part <;> exact Cache.noEntry_Delete_self _ k
    · exact ih _ hrest

theorem Cache.Delete_of_noEntry (c : Cache) (k : String) (hn : c.noEntry k) :
    c.Delete k = c := by
  unfold Cache.Delete
  have hf : c.items.filter (fun it => decide (it.key ≠ k)) = c.items := by
    rw [List.filter_eq_self]
    intro it hit
    simpa using hn it hit
  rw [hf]

theorem applyEvent_of_noEntry (s : State) (part : Partition) (k : String)
    (hn : (s.cache part).noEntry k) : applyEvent s (.cacheDelete part k) = s := by
  show s.withCache part ((s.cache part).Delete k) = s
  rw [Cache.Delete_of_noEntry _ k hn]
  cases part <;> rfl

theorem replay_fixed (evs : List Event) (s : State) (hq : ∀ e ∈ evs, applyEvent s e = s) :
    replay evs s = s := by
  induction evs with
  | nil => rfl
  | cons e rest ih =>
    show replay rest (applyEvent s e) = s
    rw [hq e (List.mem_cons_self _ _)]
    exact ih (fun e2 he2 => hq e2 (List.mem_cons_of_mem _ he2))

theorem ProcessKeySpaceChanges_split (env : Env) (r : RPCStorageHandler) (fuel : Nat)
    (keys : List String) (orgId : String) (h : List Event) (s : State) :
    ∃ rest, (ProcessKeySpaceChanges env r fuel keys orgId h s).events =
        (forEach (userKeyResetStep env)
          (env.rangeOrder (classify env keys).userKeyResets) h s).events ++ rest ∧
      ∀ e ∈ rest, isCredentialUpdate e = false := by
  unfold ProcessKeySpaceChanges ProcessOauthClientsOps
  dsimp only
  rw [events_bind]
  refine ⟨_, rfl, ?_⟩
  intro e he
  split at he
  · refine EventsAll.all (P := fun e => isCredentialUpdate e = false) ?_ _ _ e he
    refine eventsAll_bind (eventsAll_forEach (fun p =>
      eventsAll_oauthClientStep env p (fun _ => by rfl) (fun _ _ => by rfl)
        (fun _ _ _ => by rfl) (fun _ _ _ => by rfl)) _) (fun _ => ?_)
    refine eventsAll_bind
      (eventsAll_revokeClients env _ _ (fun _ => by rfl) (fun _ _ _ => by rfl))
      (fun keys2 => ?_)
    refine eventsAll_bind (eventsAll_forEach (fun p =>
      eventsAll_revokeTokenStep env r orgId p (fun _ => by rfl) (fun _ _ _ => by rfl)
        (fun _ _ => by rfl) (fun _ _ => by rfl)) _) (fun _ => ?_)
    refine eventsAll_bind (eventsAll_forEach (fun p =>
      eventsAll_removeCertStep orgId p (fun _ => by rfl) (fun _ _ => by rfl)) _)
      (fun _ => ?_)
    refine eventsAll_bind (eventsAll_forEach (fun p =>
      eventsAll_addCertStep env p (fun _ => by rfl)) _) (fun _ => ?_)
    refine eventsAll_bind eventsAll_getState (fun st => ?_)
    refine eventsAll_bind (eventsAll_forEach (fun k =>
      eventsAll_regularKeyStep_any env r fuel _ orgId _ k (fun _ _ _ _ => by rfl)
        (fun _ _ _ _ => by rfl) (fun _ _ => by rfl) (fun _ _ _ => by rfl) (by rfl)
        (fun _ _ _ _ => by rfl) (fun _ _ _ => by rfl) (fun _ _ => by rfl)) _)
      (fun _ => ?_)
    refine eventsAll_bind (eventsAll_forEach (fun a =>
      eventsAll_invalidateStep env a (fun _ => by rfl)) _) (fun _ => ?_)
    refine eventsAll_bind ?_ (fun _ => eventsAll_pure _)
    unfold RPCStorage.Notify
    exact eventsAll_bind (eventsAll_ask _)
      (fun _ => eventsAll_bind (eventsAll_emit (by rfl)) (fun _ => eventsAll_pure _))
  · cases he

theorem ProcessKeySpaceChanges_config {c d : Bool} (env : Env) (r : RPCStorageHandler)
    (fuel : Nat) (keys : List String) (orgId : String) (h : List Event) (s : State)
    (ht : Tracks c d (ProcessKeySpaceChanges env r fuel keys orgId))
    (hs : s.config.SlaveOptions.EnableRPCCache = c) (hh : s.config.HashKeys = d) :
    (ProcessKeySpaceChanges env r fuel keys orgId h s).state.config =
      (forEach (userKeyResetStep env)
        (env.rangeOrder (classify env keys).userKeyResets) h s).state.config := by
  obtain ⟨rest, hev, hrest⟩ := ProcessKeySpaceChanges_split env r fuel keys orgId h s
  rw [ht.tracks h s hs hh, hev, replay_append, replay_config rest _ hrest,
    (tracks_forEach (c := c) (d := d) (fun p => tracks_userKeyResetStep env p) _).tracks
      h s hs hh]

theorem second_run_state {c d : Bool} (env : Env) (r : RPCStorageHandler) (fuel : Nat)
    (keys : List String) (orgId : String) (h : List Event) (s : State)
    (ht : Tracks c d (ProcessKeySpaceChanges env r fuel keys orgId))
    (hs : s.config.SlaveOptions.EnableRPCCache = c) (hh : s.config.HashKeys = d)
    (hchain : (classify env keys).noResetChain) :
    (∀ e ∈ (secondRun env r fuel keys orgId h s).events, isCredentialUpdate e = false) ∧
    (ProcessKeySpaceChanges env r fuel keys orgId h s).state =
      replay (ProcessKeySpaceChanges env r fuel keys orgId h s).events s ∧
    (secondRun env r fuel keys orgId h s).state =
      replay (secondRun env r fuel keys orgId h s).events
        (ProcessKeySpaceChanges env r fuel keys orgId h s).state := by
  unfold secondRun
  have h1 := ht.tracks h s hs hh
  generalize hfirst : ProcessKeySpaceChanges env r fuel keys orgId h s = first at h1 ⊢
  have hs1 : first.state.config.SlaveOptions.EnableRPCCache = c := by
    rw [h1, (replay_switch _ _).1]
    exact hs
  have hh1 : first.state.config.HashKeys = d := by
    rw [h1, (replay_switch _ _).2]
    exact hh
  have hperm := env.rangeOrder_perm (classify env keys).userKeyResets
  have hsettle := userKeyResets_settle env
    (env.rangeOrder (classify env keys).userKeyResets)
    (fun p hp q hq => hchain p (hperm.mem_iff.mp hp) q (hperm.mem_iff.mp hq))
    (env.rangeOrder (classify env keys).userKeyResets) (fun _ hp => hp) h s
    (fun ⟨q, hq, heq⟩ => ⟨q, hq, heq⟩)
  have hcred : ∀ p ∈ env.rangeOrder (classify env keys).userKeyResets,
      first.state.config.SlaveOptions.APIKey ≠ p.1 := by
    intro p hp
    rw [← hfirst, ProcessKeySpaceChanges_config env r fuel keys orgId h s ht hs hh]
    exact hsettle.2 p hp
  obtain ⟨rest, hev, hrest⟩ :=
    ProcessKeySpaceChanges_split env r fuel keys orgId (h ++ first.events) first.state
  have hquiet := userKeyResets_quiet env _ (h ++ first.events) first.state hcred
  refine ⟨?_, h1, ht.tracks _ _ hs1 hh1⟩
  intro e he
  rw [hev] at he
  rcases List.mem_append.mp he with he | he
  · exact hquiet.2.2 e he
  · exact hrest e he
/-! ## The evictions of a run -/

theorem revokeTokenStep_cacheDeletes (env : Env) (r : RPCStorageHandler) (orgId : String)
    (p : String × String) (h : List Event) (s : State) :
    ∀ e ∈ (revokeTokenStep env r orgId p h s).events, isCacheDelete e = true →
      e = .cacheDelete .SessionCache
          (if stringsContains p.1 "#hashed" then at0 (stringsSplit p.1 '#') 0 else p.1) ∨
        e = .cacheDelete .RPCGlobalCache (r.KeyPrefix ++
          (if stringsContains p.1 "#hashed" then at0 (stringsSplit p.1 '#') 0 else p.1)) := by
  unfold revokeTokenStep
  cases h1 : (stringsSplit p.2 ':')[1]? with
  | none => simp [index, h1]
  | some apiId =>
    cases h2 : (stringsSplit p.2 ':')[2]? with
    | none => simp [index, h1, h2]
    | some tag =>
      cases hh : stringsContains p.1 "#hashed" with
      | true =>
        cases h3 : (stringsSplit p.1 '#')[0]? with
        | none => simp [index, h1, h2, hh, h3]
        | some tok =>
          have ht := at0_of_getElem? _ _ _ h3
          simp [index, h1, h2, hh, h3, handleDeleteHashedKey, cacheDelete, isCacheDelete, ht]
      | false =>
        cases hst : env.GetStorageForApi h apiId with
        | some err => simp [index, h1, h2, hh, GetStorageForApi, hst, isCacheDelete]
        | none =>
          simp [index, h1, h2, hh, GetStorageForApi, hst, cacheDelete, isCacheDelete]

theorem revokeTokenStep_why (env : Env) (r : RPCStorageHandler) (orgId : String)
    (p : String × String) (h : List Event) (s : State) (e : Event)
    (he : e ∈ (revokeTokenStep env r orgId p h s).events) (hcd : isCacheDelete e = true) :
    stringsContains p.1 "#hashed" = true ∨
      env.GetStorageForApi h (at0 (stringsSplit p.2 ':') 1) = none := by
  unfold revokeTokenStep at he
  cases h1 : (stringsSplit p.2 ':')[1]? with
  | none =>
    simp [index, h1] at he
  | some apiId =>
    cases h2 : (stringsSplit p.2 ':')[2]? with
    | none =>
      simp [index, h1, h2] at he
    | some tag =>
      cases hh : stringsContains p.1 "#hashed" with
      | true => exact Or.inl rfl
      | false =>
        have ha := at0_of_getElem? _ _ _ h1
        cases hst : env.GetStorageForApi h apiId with
        | some err =>
          simp only [index, List.get?_eq_getElem?, h1, h2, hh, GetStorageForApi, hst,
            pure_bind_run, bind_assoc_run, ask_bind_run, emit_bind_run, Bool.not_false,
            if_true, Option.isSome_some, run_pure, Run.after_events, Run.after_mk,
            List.append_nil, List.mem_singleton] at he
          rw [he] at hcd
          cases hcd
        | none =>
          rw [ha]
          exact Or.inr hst

theorem revokeTokenStep_evicts (env : Env) (r : RPCStorageHandler) (orgId : String)
    (p : String × String) (h : List Event) (s : State)
    (hst : stringsContains p.1 "#hashed" = true ∨
      env.GetStorageForApi h (at0 (stringsSplit p.2 ':') 1) = none)
    (hd : (revokeTokenStep env r orgId p h s).out = .done ()) :
    Event.cacheDelete .SessionCache
        (if stringsContains p.1 "#hashed" then at0 (stringsSplit p.1 '#') 0 else p.1) ∈
        (revokeTokenStep env r orgId p h s).events ∧
      Event.cacheDelete .RPCGlobalCache (r.KeyPrefix ++
        (if stringsContains p.1 "#hashed" then at0 (stringsSplit p.1 '#') 0 else p.1)) ∈
        (revokeTokenStep env r orgId p h s).events := by
  unfold revokeTokenStep at hd ⊢
  cases h1 : (stringsSplit p.2 ':')[1]? with
  | none => simp [index, h1] at hd
  | some apiId =>
    cases h2 : (stringsSplit p.2 ':')[2]? with
    | none => simp [index, h1, h2] at hd
    | some tag =>
      cases hh : stringsContains p.1 "#hashed" with
      | true =>
        cases h3 : (stringsSplit p.1 '#')[0]? with
        | none => simp [index, h1, h2, hh, h3] at hd
        | some tok =>
          have ht := at0_of_getElem? _ _ _ h3
          simp [index, h1, h2, hh, h3, handleDeleteHashedKey, cacheDelete, ht]
      | false =>
        have ha := at0_of_getElem? _ _ _ h1
        rw [hh, ha] at hst
        rcases hst with hst | hst
        · cases hst
        · simp [index, h1, h2, hh, GetStorageForApi, hst, cacheDelete]

theorem removeCertStep_events (orgId : String) (p : String × String) (h : List Event)
    (s : State) :
    (removeCertStep orgId p h s).events =
      [.CertDelete p.2 orgId, .cacheDelete .RPCCertCache ("cert-raw-" ++ p.2)] := by
  simp [removeCertStep, cacheDelete]

theorem regularKeyStep_cacheDeletes (env : Env) (r : RPCStorageHandler) (fuel : Nat)
    (b : Buckets) (orgId : String) (sync : Bool) (key : String) (h : List Event) (s : State) :
    ∀ e ∈ (regularKeyStep env r fuel b orgId sync key h s).events, isCacheDelete e = true →
      (isUserKeyReset b key = false ∧ key ∉ b.notRegularKeys) ∧
        (sync = true ∨ lastStatus env orgId key
          (decide (at0 (stringsSplit key ':') 0 ∈ b.keysToReset)) h ≠ StatusNotFound) ∧
        (e = .cacheDelete .SessionCache (processedKey env orgId key) ∨
          e = .cacheDelete .RPCGlobalCache (r.KeyPrefix ++ processedKey env orgId key)) := by
  intro e he hcd
  obtain ⟨pre, hpre, hshape⟩ := regularKeyStep_shape env r fuel b orgId sync key h s
  rcases hshape with ⟨_, hev, _⟩ | ⟨hreg, hnr, _, hev, hwhy, _⟩
  · rw [hev] at he
    rw [(hpre e he).1] at hcd
    cases hcd
  · rw [hev] at he
    rcases List.mem_append.mp he with he | he
    · rw [(hpre e he).1] at hcd
      cases hcd
    · refine ⟨⟨hreg, hnr⟩, hwhy, ?_⟩
      simpa using he

theorem regularKeyStep_evicted (env : Env) (r : RPCStorageHandler) (fuel : Nat)
    (b : Buckets) (orgId : String) (sync : Bool) (key : String) (h : List Event) (s : State)
    (hreg : isUserKeyReset b key = false) (hnr : key ∉ b.notRegularKeys)
    (hfound : sync = true ∨ lastStatus env orgId key
      (decide (at0 (stringsSplit key ':') 0 ∈ b.keysToReset)) h ≠ StatusNotFound)
    (hd : (regularKeyStep env r fuel b orgId sync key h s).out = .done ()) :
    Event.cacheDelete .SessionCache (processedKey env orgId key) ∈
        (regularKeyStep env r fuel b orgId sync key h s).events ∧
      Event.cacheDelete .RPCGlobalCache (r.KeyPrefix ++ processedKey env orgId key) ∈
        (regularKeyStep env r fuel b orgId sync key h s).events := by
  obtain ⟨pre, _, hshape⟩ := regularKeyStep_shape env r fuel b orgId sync key h s
  rcases hshape with ⟨_, _, hwhy⟩ | ⟨_, _, _, hev, _⟩
  · obtain ⟨hs1, hs2⟩ := hwhy hreg hnr hd
    rcases hfound with hf | hf
    · rw [hf] at hs1
      cases hs1
    · exact absurd hs2 hf
  · rw [hev]
    constructor
    · exact List.mem_append_right _ (List.mem_cons_self _ _)
    · exact List.mem_append_right _ (List.mem_cons_of_mem _ (List.mem_cons_self _ _))

theorem lastStatus_stays (env : Env) (orgId key : String) (q : Bool) (hist x : List Event)
    (hn : env.notFoundStays)
    (hx : x.head? = (localDeletesOf env orgId key q).head?)
    (h404 : lastStatus env orgId key q hist = StatusNotFound) :
    lastStatus env orgId key q (hist ++ x) = StatusNotFound := by
  unfold lastStatus at h404 ⊢
  by_cases hh : 1 < (stringsSplit key ':').length ∧ at0 (stringsSplit key ':') 1 = "hashed"
  · rw [if_pos hh] at h404 ⊢
    exact hn.2 _ _ _ _ _ _ h404
  · rw [if_neg hh] at h404 ⊢
    obtain ⟨rest, hL, _⟩ := localDeletesOf_plain env orgId key q hh
    have hpk : processedKey env orgId key =
        (if env.TokenOrg key = "" then env.generateToken orgId key else key) := by
      simp [processedKey, hh]
    rw [hL] at hx
    rw [hpk] at h404 ⊢
    generalize (if env.TokenOrg key = "" then env.generateToken orgId key else key) = k2
      at hx h404 ⊢
    unfold plainStatus at h404 ⊢
    by_cases h1 : env.handleDeleteKey hist k2 orgId "-1" q = StatusNotFound
    · rw [if_pos h1] at h404
      rw [if_pos (hn.1 _ _ _ _ _ _ h1)]
      cases hid : env.TokenID k2 with
      | error err => rfl
      | ok id =>
        rw [hid] at h404
        cases x with
        | nil => cases hx
        | cons e y =>
          simp only [List.head?_cons, Option.some.injEq] at hx
          have hh2 : hist ++ e :: y ++ [e] = hist ++ [e] ++ (y ++ [e]) := by simp
          show env.handleDeleteKey (hist ++ e :: y ++
            [Event.handleDeleteKey k2 orgId "-1" q]) id orgId "-1" q = StatusNotFound
          rw [← hx, hh2]
          refine hn.1 _ _ _ _ _ _ ?_
          rw [hx]
          exact h404
    · rw [if_neg h1] at h404
      exact absurd h404 h1

/-! ## Processing a batch twice -/

theorem ProcessKeySpaceChanges_sync (env : Env) (r : RPCStorageHandler) (fuel : Nat)
    (keys : List String) (orgId : String) (h : List Event) (s : State)
    (hd : (ProcessKeySpaceChanges env r fuel keys orgId h s).out = .done ()) :
    (ProcessKeySpaceChanges env r fuel keys orgId h s).state.config.SlaveOptions.SynchroniserEnabled
      = s.config.SlaveOptions.SynchroniserEnabled := by
  obtain ⟨_, _, _, ⟨h6, s6, hsw, _, _, hst⟩, _⟩ :=
    ProcessKeySpaceChanges_ran env r fuel keys orgId h s hd
  rw [hst]
  exact ((statePres_forEach (fun k => statePres_regularKeyStep
    (kept_switchesAre env r s.config.SlaveOptions.SynchroniserEnabled
      s.config.SlaveOptions.EnableRPCCache) fuel (classify env keys) orgId
      s.config.SlaveOptions.SynchroniserEnabled k) _).pres h6 s6 hsw).1

theorem ProcessKeySpaceChanges_revokedAt (env : Env) (r : RPCStorageHandler) (fuel : Nat)
    (keys : List String) (orgId : String) (h : List Event) (s : State) (a c x : String)
    (he : Event.RevokeAllTokens a c x ∈
      (ProcessKeySpaceChanges env r fuel keys orgId h s).events) :
    ∃ pre, env.GetStorageForApi (h ++ pre) a = none := by
  have hsrc := ProcessKeySpaceChanges_source env r fuel keys orgId h s _ he
  unfold loopEvent at hsrc
  rcases hsrc with ⟨p, _, h2, s2, hpe⟩ | ⟨p, _, h2, s2, hpe⟩ | ⟨l, ks, h2, s2, hpe⟩ |
    ⟨p, _, h2, s2, hpe⟩ | ⟨p, _, h2, s2, hpe⟩ | ⟨p, _, h2, s2, hpe⟩ |
    ⟨key, _, h2, s2, hpe⟩ | ⟨a, _, h2, s2, hpe⟩ | ⟨payload, hn⟩
  · cases (eventsAll_userKeyResetStep (P := fun e => isRevokeAllTokens e = false) env p
      (fun _ _ => by rfl) (fun _ => by rfl) (fun _ => by rfl)).all _ s2 _ hpe
  · cases (eventsAll_oauthClientStep (P := fun e => isRevokeAllTokens e = false) env p
      (fun _ => by rfl) (fun _ _ => by rfl) (fun _ _ _ => by rfl)
      (fun _ _ _ => by rfl)).all _ s2 _ hpe
  · obtain ⟨pre, hpre⟩ := revokeClients_revokedAt env l ks _ s2 a c x hpe
    rw [List.append_assoc] at hpre
    exact ⟨_, hpre⟩
  · cases (eventsAll_revokeTokenStep (P := fun e => isRevokeAllTokens e = false) env r orgId p
      (fun _ => by rfl) (fun _ _ _ => by rfl) (fun _ _ => by rfl)
      (fun _ _ => by rfl)).all _ s2 _ hpe
  · cases (eventsAll_removeCertStep (P := fun e => isRevokeAllTokens e = false) orgId p
      (fun _ => by rfl) (fun _ _ => by rfl)).all _ s2 _ hpe
  · cases (eventsAll_addCertStep (P := fun e => isRevokeAllTokens e = false) env p
      (fun _ => by rfl)).all _ s2 _ hpe
  · cases (eventsAll_regularKeyStep_any (P := fun e => isRevokeAllTokens e = false) env r fuel
      (classify env keys) orgId _ key (fun _ _ _ _ => by rfl) (fun _ _ _ _ => by rfl)
      (fun _ _ => by rfl) (fun _ _ _ => by rfl) (by rfl) (fun _ _ _ _ => by rfl)
      (fun _ _ _ => by rfl) (fun _ _ => by rfl)).all _ s2 _ hpe
  · cases (eventsAll_invalidateStep (P := fun e => isRevokeAllTokens e = false) env a
      (fun _ => by rfl)).all _ s2 _ hpe
  · cases hn

theorem second_run_evictions (env : Env) (r : RPCStorageHandler) (fuel : Nat)
    (keys : List String) (orgId : String) (h : List Event) (s : State)
    (hdone : (ProcessKeySpaceChanges env r fuel keys orgId h s).out = .done ())
    (hfound : s.config.SlaveOptions.SynchroniserEnabled = true ∨ env.notFoundStays)
    (hstorage : ∀ hh hh2 a, env.GetStorageForApi (hh ++ hh2) a = none →
      env.GetStorageForApi hh a = none)
    (htokens : ∀ hh hh2 a c x, ∀ t ∈ env.RevokeAllTokens (hh ++ hh2) a c x,
      t ∈ env.RevokeAllTokens hh a c x) :
    ∀ e ∈ (secondRun env r fuel keys orgId h s).events, isCacheDelete e = true →
      e ∈ (ProcessKeySpaceChanges env r fuel keys orgId h s).events := by
  intro e he hcd
  unfold secondRun at he
  have hsrc := ProcessKeySpaceChanges_source env r fuel keys orgId _ _ e he
  rw [ProcessKeySpaceChanges_sync env r fuel keys orgId h s hdone] at hsrc
  obtain ⟨hranT, hranC, hranK, _, hranR⟩ :=
    ProcessKeySpaceChanges_ran env r fuel keys orgId h s hdone
  obtain ⟨sub, hsub, hfilter⟩ := ProcessKeySpaceChanges_revokeAll env r fuel keys orgId
    (h ++ (ProcessKeySpaceChanges env r fuel keys orgId h s).events)
    (ProcessKeySpaceChanges env r fuel keys orgId h s).state
  have hat := fun a c x => ProcessKeySpaceChanges_revokedAt env r fuel keys orgId
    (h ++ (ProcessKeySpaceChanges env r fuel keys orgId h s).events)
    (ProcessKeySpaceChanges env r fuel keys orgId h s).state a c x
  generalize hE2 : (ProcessKeySpaceChanges env r fuel keys orgId
    (h ++ (ProcessKeySpaceChanges env r fuel keys orgId h s).events)
    (ProcessKeySpaceChanges env r fuel keys orgId h s).state).events = e2
    at he hsrc hfilter hat
  generalize hE1 : (ProcessKeySpaceChanges env r fuel keys orgId h s).events = e1
    at he hsrc hranT hranC hranK hranR hat ⊢
  unfold loopEvent at hsrc
  rcases hsrc with ⟨p, _, h2, s2, hpe⟩ | ⟨p, _, h2, s2, hpe⟩ | ⟨l, ks, h2, s2, hpe⟩ |
    ⟨p, hp, h2, s2, hpe⟩ | ⟨p, hp, h2, s2, hpe⟩ | ⟨p, _, h2, s2, hpe⟩ |
    ⟨key, hkey, h2, s2, hke⟩ | ⟨a, _, h2, s2, hpe⟩ | ⟨payload, hn⟩
  · have := (eventsAll_userKeyResetStep (P := fun e => isCacheDelete e = false) env p
      (fun _ _ => by rfl) (fun _ => by rfl) (fun _ => by rfl)).all _ s2 e hpe
    rw [this] at hcd
    cases hcd
  · have := (eventsAll_oauthClientStep (P := fun e => isCacheDelete e = false) env p
      (fun _ => by rfl) (fun _ _ => by rfl) (fun _ _ _ => by rfl)
      (fun _ _ _ => by rfl)).all _ s2 e hpe
    rw [this] at hcd
    cases hcd
  · have := (eventsAll_revokeClients (P := fun e => isCacheDelete e = false) env l ks
      (fun _ => by rfl) (fun _ _ _ => by rfl)).all _ s2 e hpe
    rw [this] at hcd
    cases hcd
  · obtain ⟨a, sa, c, hev, hout⟩ := hranT p hp
    have hwhy := revokeTokenStep_why env r orgId p _ s2 e hpe hcd
    have hwhy1 : stringsContains p.1 "#hashed" = true ∨
        env.GetStorageForApi (h ++ a) (at0 (stringsSplit p.2 ':') 1) = none := by
      rcases hwhy with hw | hw
      · exact Or.inl hw
      · refine Or.inr (hstorage (h ++ a)
          ((revokeTokenStep env r orgId p (h ++ a) sa).events ++ c ++ h2) _ ?_)
        rw [hev] at hw
        simp only [List.append_assoc] at hw ⊢
        exact hw
    have hin := revokeTokenStep_evicts env r orgId p (h ++ a) sa hwhy1 hout
    rw [hev]
    rcases revokeTokenStep_cacheDeletes env r orgId p _ s2 e hpe hcd with heq | heq
    · rw [heq]
      exact List.mem_append_left _ (List.mem_append_right _ hin.1)
    · rw [heq]
      exact List.mem_append_left _ (List.mem_append_right _ hin.2)
  · obtain ⟨a, sa, c, hev, _⟩ := hranC p hp
    rw [hev]
    refine List.mem_append_left _ (List.mem_append_right _ ?_)
    rw [removeCertStep_events] at hpe ⊢
    exact hpe
  · have := (eventsAll_addCertStep (P := fun e => isCacheDelete e = false) env p
      (fun _ => by rfl)).all _ s2 e hpe
    rw [this] at hcd
    cases hcd
  · obtain ⟨⟨hreg, hnr⟩, hwhy, heq⟩ :=
      regularKeyStep_cacheDeletes env r fuel (classify env keys) orgId _ key _ s2 e hke hcd
    have hkey1 : key ∈ keys ++ tokensReturned env h e1 := by
      rcases List.mem_append.mp hkey with hk | hk
      · exact List.mem_append_left _ hk
      · refine List.mem_append_right _ ?_
        obtain ⟨pre2, a, c, x, post2, hev2, ht⟩ := (tokensReturned_mem env _ e2 key).mp hk
        have hin2 : Event.RevokeAllTokens a c x ∈ e2 := by
          rw [hev2]
          exact List.mem_append_right _ (List.mem_cons_self _ _)
        have hmem : Event.RevokeAllTokens a c x ∈ e2.filter isRevokeAllTokens :=
          List.mem_filter.mpr ⟨hin2, rfl⟩
        rw [hfilter] at hmem
        obtain ⟨p, hp, hpeq⟩ := List.mem_map.mp hmem
        have hapi : at0 (stringsSplit p.2 ':') 0 = a := by
          unfold revocationOfAll at hpeq
          exact (Event.RevokeAllTokens.inj hpeq).1
        rcases hranR p ((env.rangeOrder_perm _).mem_iff.mp (hsub.subset hp)) with
          hp1 | ⟨pre1, post1, hev1, hne⟩
        · rw [hpeq] at hp1
          obtain ⟨pre1, post1, hev1⟩ := List.append_of_mem hp1
          refine (tokensReturned_mem env h e1 key).mpr ⟨pre1, a, c, x, post1, hev1, ?_⟩
          refine htokens (h ++ pre1) (Event.RevokeAllTokens a c x :: post1 ++ pre2) a c x key ?_
          have hh : h ++ pre1 ++ (Event.RevokeAllTokens a c x :: post1 ++ pre2) =
              h ++ e1 ++ pre2 := by
            rw [hev1]
            simp only [List.append_assoc, List.cons_append]
          rw [hh]
          exact ht
        · obtain ⟨pre3, hnone⟩ := hat a c x hin2
          refine absurd (hstorage (h ++ pre1) (post1 ++ pre3) a ?_) (by rw [← hapi]; exact hne)
          rw [hev1] at hnone
          simp only [List.append_assoc] at hnone ⊢
          exact hnone
    obtain ⟨a, sa, c, hev, hout⟩ := hranK key hkey1
    have hfirst := regularKeyStep_firstDelete env r fuel (classify env keys) orgId
      s.config.SlaveOptions.SynchroniserEnabled key (h ++ a) sa hreg hnr
    have hwhy1 : s.config.SlaveOptions.SynchroniserEnabled = true ∨
        lastStatus env orgId key
          (decide (at0 (stringsSplit key ':') 0 ∈ (classify env keys).keysToReset))
          (h ++ a) ≠ StatusNotFound := by
      rcases hwhy with hw | hw
      · exact Or.inl hw
      · rcases hfound with hf | hf
        · exact Or.inl hf
        · refine Or.inr (fun h404 => hw ?_)
          have hstay := lastStatus_stays env orgId key _ (h ++ a)
            ((regularKeyStep env r fuel (classify env keys) orgId
              s.config.SlaveOptions.SynchroniserEnabled key (h ++ a) sa).events ++ c ++ h2)
            hf ?_ h404
          · rw [hev]
            simp only [List.append_assoc] at hstay ⊢
            exact hstay
          · obtain ⟨e0, he0⟩ := localDeletesOf_head env orgId key
              (decide (at0 (stringsSplit key ':') 0 ∈ (classify env keys).keysToReset))
            rw [he0] at hfirst ⊢
            rw [List.append_assoc]
            generalize (regularKeyStep env r fuel (classify env keys) orgId
              s.config.SlaveOptions.SynchroniserEnabled key (h ++ a) sa).events = evs
              at hfirst ⊢
            cases evs with
            | nil => cases hfirst
            | cons x xs => exact hfirst
    have hin := regularKeyStep_evicted env r fuel (classify env keys) orgId
      s.config.SlaveOptions.SynchroniserEnabled key (h ++ a) sa hreg hnr hwhy1 hout
    rw [hev]
    rcases heq with heq | heq
    · rw [heq]
      exact List.mem_append_left _ (List.mem_append_right _ hin.1)
    · rw [heq]
      exact List.mem_append_left _ (List.mem_append_right _ hin.2)
  · have := (eventsAll_invalidateStep (P := fun e => isCacheDelete e = false) env a
      (fun _ => by rfl)).all _ s2 e hpe
    rw [this] at hcd
    cases hcd
  · rw [hn] at hcd
    cases hcd

theorem Example.envGoneLater_notFoundStays : Example.envGoneLater.notFoundStays := by
  constructor
  · intro h h2 k o a q hq
    cases h with
    | nil =>
      have h200 : (200 : Int) = 404 := hq
      exact absurd h200 (by decide)
    | cons e rest => rfl
  · intro h h2 k o a q hq
    have h200 : (200 : Int) = 404 := hq
    exact absurd h200 (by decide)

theorem Example.env_notFoundStays : (Example.env 0).notFoundStays :=
  ⟨fun _ _ _ _ _ _ hq => hq, fun _ _ _ _ _ _ hq => hq⟩

end RPCStorage
